import Mathlib

/-!
# Wireless Connectivity SDK: Proteus-II and Thyone-I drivers

A shallow embedding of the framing state machine, the confirmation queue, the
request/confirmation wait loop and some request functions of
`WCON_Drivers/ProteusII/ProteusII.c` and `WCON_Drivers/ThyoneI/ThyoneI.c`.

Conventions of the embedding

* A C object addressed through a `uint8_t *` is a byte memory `Mem = Nat → Nat`
  indexed from the start of the object.  Cells hold bytes (values below 256);
  the XOR of two bytes is a byte, so `checksum ^= a[i]` needs no truncation.
* `uint16_t` arithmetic is `Nat` arithmetic reduced `% 65536` where the C code
  stores the result in a `uint16_t`; `int` is `Int`.
* The target is a little-endian STM32: the `uint16_t Length` field of a frame
  occupies bytes 2 (low) and 3 (high).
* Bytes arrive from the UART interrupt while the driver sits in `WE_Delay`:
  the wait loop takes the list of byte chunks received during its successive
  delays, each byte going through the default byte callback, the framer.
* Calls into the hardware abstraction layer (`WE_UART_Transmit`, `WE_Delay`,
  `WE_SetPin`) and user callbacks are recorded in logs kept in the state.
-/

namespace WCON

/-- Byte memory of a C object, indexed from its first byte. -/
abbrev Mem := Nat → Nat

/-- The C assignment `m[i] = v`. -/
def memWrite (m : Mem) (i v : Nat) : Mem := fun j => if j = i then v else m j

/-- The C call `memcpy(&dst[dOff], &src[sOff], n)`. -/
def memcpy (dst : Mem) (dOff : Nat) (src : Mem) (sOff n : Nat) : Mem :=
  fun j => if dOff ≤ j ∧ j < dOff + n then src (sOff + (j - dOff)) else dst j

/-- The memory holding the bytes of a list, and 0 beyond. -/
def listMem (l : List Nat) : Mem := fun i => l.getD i 0

/-- The first `n` bytes of a memory, as handed to `WE_UART_Transmit(m, n)`. -/
def memBytes (m : Mem) (n : Nat) : List Nat := (List.range n).map m

/-- The loop `for (i = 0; i < n; i++) checksum ^= m[i];` started with `checksum = 0`. -/
def xorLoop (m : Mem) : Nat → Nat
  | 0 => 0
  | n + 1 => xorLoop m n ^^^ m n

/-- A `for (i = 0; i < len; i++) { if (p i) { ...; break; } }` loop: the lowest index
`i` with `start ≤ i < start + len` for which `p i` holds, if any. -/
def scanFrom (p : Nat → Bool) : Nat → Nat → Option Nat
  | _, 0 => none
  | start, len + 1 => if p start then some start else scanFrom p (start + 1) len

/-- One entry of the confirmation array (`*_CMD_Confirmation_t`); the status is an
enum that the code also assigns raw payload bytes to, hence a number. -/
structure Confirmation where
  cmd : Nat
  status : Nat
deriving DecidableEq, Repr

def CNFINVALID : Nat := 255
def LENGTH_CMD_OVERHEAD : Nat := 5
def LENGTH_CMD_OVERHEAD_WITHOUT_CRC : Nat := LENGTH_CMD_OVERHEAD - 1
def CMD_STX : Nat := 0x02

def CMD_Status_Success : Nat := 0x00
def CMD_Status_Failed : Nat := 0x01
def CMD_Status_Invalid : Nat := 2
def CMD_Status_Reset : Nat := 3
def CMD_Status_NoStatus : Nat := 4

/-- The loop closing both `HandleRxPacket` functions: the confirmation is written to
the lowest-index slot among the first `len` whose `cmd` is `CNFINVALID`. -/
def storeConfirmation (arr : Nat → Confirmation) (len : Nat) (c : Confirmation) :
    Nat → Confirmation :=
  match scanFrom (fun i => (arr i).cmd == CNFINVALID) 0 len with
  | some i => fun j => if j = i then c else arr j
  | none => arr

/-- The reset loop of `Wait4CNF`: `arr[i].cmd = CNFINVALID` for `i < len`. -/
def resetConfirmations (arr : Nat → Confirmation) (len : Nat) : Nat → Confirmation :=
  fun i => if i < len then { arr i with cmd := CNFINVALID } else arr i

/-- The scan of one poll of `Wait4CNF`: the status of the lowest-index slot holding
the expected command, if any. -/
def pollConfirmations (arr : Nat → Confirmation) (len : Nat) (expectedCmdConfirmation : Nat) :
    Option Nat :=
  (scanFrom (fun i => expectedCmdConfirmation == (arr i).cmd) 0 len).map
    (fun i => (arr i).status)

/-- Occupied slots keep their content from the array `a` to the array `b`. -/
def Persist (a b : Nat → Confirmation) : Prop :=
  ∀ i, (a i).cmd ≠ CNFINVALID → b i = a i

/-- The object representation of an unsigned integer on the little-endian target, as
read by `memcpy(dst, &x, n)`. -/
def objBytes (x : Nat) : Mem := fun j => (x >>> (8 * j)) % 256

/-- The conversion of an `int` value to `uint16_t`. -/
def toUInt16 (x : Int) : Nat := (x % 65536).toNat

/-- The 16-bit little-endian value held in bytes `i` and `i + 1`. -/
def le16 (m : Mem) (i : Nat) : Nat := m i + 256 * m (i + 1)

/-! ## Proteus-II: data model -/

namespace ProteusII

/-- Constants of `ProteusII.h`, a header that is not among the sources at hand: they
are parameters of the embedding. -/
structure Header where
  PROTEUSII_MAX_PAYLOAD_LENGTH : Nat
  PROTEUSII_MAX_NUMBER_OF_DEVICES : Nat
  PROTEUSII_MAX_BEACON_LENGTH : Nat
  PROTEUSII_MAX_BOND_DEVICES : Nat

def CMD_WAIT_TIME : Int := 500
def CMDCONFIRMATIONARRAY_LENGTH : Nat := 2

def PROTEUSII_CMD_TYPE_REQ : Nat := (0 <<< 6) % 256
def PROTEUSII_CMD_TYPE_CNF : Nat := (1 <<< 6) % 256
def PROTEUSII_CMD_TYPE_IND : Nat := (2 <<< 6) % 256
def PROTEUSII_CMD_TYPE_RSP : Nat := (3 <<< 6) % 256

def PROTEUSII_CMD_RESET : Nat := 0x00
def PROTEUSII_CMD_RESET_REQ : Nat := PROTEUSII_CMD_RESET ||| PROTEUSII_CMD_TYPE_REQ
def PROTEUSII_CMD_RESET_CNF : Nat := PROTEUSII_CMD_RESET ||| PROTEUSII_CMD_TYPE_CNF
def PROTEUSII_CMD_GETSTATE : Nat := 0x01
def PROTEUSII_CMD_GETSTATE_REQ : Nat := PROTEUSII_CMD_GETSTATE ||| PROTEUSII_CMD_TYPE_REQ
def PROTEUSII_CMD_GETSTATE_CNF : Nat := PROTEUSII_CMD_GETSTATE ||| PROTEUSII_CMD_TYPE_CNF
def PROTEUSII_CMD_SLEEP : Nat := 0x02
def PROTEUSII_CMD_SLEEP_REQ : Nat := PROTEUSII_CMD_SLEEP ||| PROTEUSII_CMD_TYPE_REQ
def PROTEUSII_CMD_SLEEP_CNF : Nat := PROTEUSII_CMD_SLEEP ||| PROTEUSII_CMD_TYPE_CNF
def PROTEUSII_CMD_SLEEP_IND : Nat := PROTEUSII_CMD_SLEEP ||| PROTEUSII_CMD_TYPE_IND
def PROTEUSII_CMD_UART_DISABLE : Nat := 0x1B
def PROTEUSII_CMD_UART_DISABLE_REQ : Nat := PROTEUSII_CMD_UART_DISABLE ||| PROTEUSII_CMD_TYPE_REQ
def PROTEUSII_CMD_UART_DISABLE_CNF : Nat := PROTEUSII_CMD_UART_DISABLE ||| PROTEUSII_CMD_TYPE_CNF
def PROTEUSII_CMD_UART_ENABLE_IND : Nat := 0x9B
def PROTEUSII_CMD_DATA : Nat := 0x04
def PROTEUSII_CMD_DATA_REQ : Nat := PROTEUSII_CMD_DATA ||| PROTEUSII_CMD_TYPE_REQ
def PROTEUSII_CMD_DATA_CNF : Nat := PROTEUSII_CMD_DATA ||| PROTEUSII_CMD_TYPE_CNF
def PROTEUSII_CMD_DATA_IND : Nat := PROTEUSII_CMD_DATA ||| PROTEUSII_CMD_TYPE_IND
def PROTEUSII_CMD_TXCOMPLETE_RSP : Nat := PROTEUSII_CMD_DATA ||| PROTEUSII_CMD_TYPE_RSP
def PROTEUSII_CMD_CONNECT : Nat := 0x06
def PROTEUSII_CMD_CONNECT_REQ : Nat := PROTEUSII_CMD_CONNECT ||| PROTEUSII_CMD_TYPE_REQ
def PROTEUSII_CMD_CONNECT_CNF : Nat := PROTEUSII_CMD_CONNECT ||| PROTEUSII_CMD_TYPE_CNF
def PROTEUSII_CMD_CONNECT_IND : Nat := PROTEUSII_CMD_CONNECT ||| PROTEUSII_CMD_TYPE_IND
def PROTEUSII_CMD_CHANNELOPEN_RSP : Nat := PROTEUSII_CMD_CONNECT ||| PROTEUSII_CMD_TYPE_RSP
def PROTEUSII_CMD_DISCONNECT : Nat := 0x07
def PROTEUSII_CMD_DISCONNECT_REQ : Nat := PROTEUSII_CMD_DISCONNECT ||| PROTEUSII_CMD_TYPE_REQ
def PROTEUSII_CMD_DISCONNECT_CNF : Nat := PROTEUSII_CMD_DISCONNECT ||| PROTEUSII_CMD_TYPE_CNF
def PROTEUSII_CMD_DISCONNECT_IND : Nat := PROTEUSII_CMD_DISCONNECT ||| PROTEUSII_CMD_TYPE_IND
def PROTEUSII_CMD_SECURITY_IND : Nat := 0x88
def PROTEUSII_CMD_SCANSTART : Nat := 0x09
def PROTEUSII_CMD_SCANSTART_REQ : Nat := PROTEUSII_CMD_SCANSTART ||| PROTEUSII_CMD_TYPE_REQ
def PROTEUSII_CMD_SCANSTART_CNF : Nat := PROTEUSII_CMD_SCANSTART ||| PROTEUSII_CMD_TYPE_CNF
def PROTEUSII_CMD_SCANSTOP : Nat := 0x0A
def PROTEUSII_CMD_SCANSTOP_REQ : Nat := PROTEUSII_CMD_SCANSTOP ||| PROTEUSII_CMD_TYPE_REQ
def PROTEUSII_CMD_SCANSTOP_CNF : Nat := PROTEUSII_CMD_SCANSTOP ||| PROTEUSII_CMD_TYPE_CNF
def PROTEUSII_CMD_GETDEVICES : Nat := 0x0B
def PROTEUSII_CMD_GETDEVICES_REQ : Nat := PROTEUSII_CMD_GETDEVICES ||| PROTEUSII_CMD_TYPE_REQ
def PROTEUSII_CMD_GETDEVICES_CNF : Nat := PROTEUSII_CMD_GETDEVICES ||| PROTEUSII_CMD_TYPE_CNF
def PROTEUSII_CMD_SETBEACON : Nat := 0x0C
def PROTEUSII_CMD_SETBEACON_REQ : Nat := PROTEUSII_CMD_SETBEACON ||| PROTEUSII_CMD_TYPE_REQ
def PROTEUSII_CMD_SETBEACON_CNF : Nat := PROTEUSII_CMD_SETBEACON ||| PROTEUSII_CMD_TYPE_CNF
def PROTEUSII_CMD_BEACON_IND : Nat := PROTEUSII_CMD_SETBEACON ||| PROTEUSII_CMD_TYPE_IND
def PROTEUSII_CMD_BEACON_RSP : Nat := PROTEUSII_CMD_SETBEACON ||| PROTEUSII_CMD_TYPE_RSP
def PROTEUSII_CMD_RSSI_IND : Nat := 0x8B
def PROTEUSII_CMD_PASSKEY : Nat := 0x0D
def PROTEUSII_CMD_PASSKEY_REQ : Nat := PROTEUSII_CMD_PASSKEY ||| PROTEUSII_CMD_TYPE_REQ
def PROTEUSII_CMD_PASSKEY_CNF : Nat := PROTEUSII_CMD_PASSKEY ||| PROTEUSII_CMD_TYPE_CNF
def PROTEUSII_CMD_PASSKEY_IND : Nat := PROTEUSII_CMD_PASSKEY ||| PROTEUSII_CMD_TYPE_IND
def PROTEUSII_CMD_GET : Nat := 0x10
def PROTEUSII_CMD_GET_REQ : Nat := PROTEUSII_CMD_GET ||| PROTEUSII_CMD_TYPE_REQ
def PROTEUSII_CMD_GET_CNF : Nat := PROTEUSII_CMD_GET ||| PROTEUSII_CMD_TYPE_CNF
def PROTEUSII_CMD_SET : Nat := 0x11
def PROTEUSII_CMD_SET_REQ : Nat := PROTEUSII_CMD_SET ||| PROTEUSII_CMD_TYPE_REQ
def PROTEUSII_CMD_SET_CNF : Nat := PROTEUSII_CMD_SET ||| PROTEUSII_CMD_TYPE_CNF
def PROTEUSII_CMD_PHYUPDATE : Nat := 0x1A
def PROTEUSII_CMD_PHYUPDATE_REQ : Nat := PROTEUSII_CMD_PHYUPDATE ||| PROTEUSII_CMD_TYPE_REQ
def PROTEUSII_CMD_PHYUPDATE_CNF : Nat := PROTEUSII_CMD_PHYUPDATE ||| PROTEUSII_CMD_TYPE_CNF
def PROTEUSII_CMD_PHYUPDATE_IND : Nat := PROTEUSII_CMD_PHYUPDATE ||| PROTEUSII_CMD_TYPE_IND
def PROTEUSII_CMD_FACTORYRESET : Nat := 0x1C
def PROTEUSII_CMD_FACTORYRESET_REQ : Nat := PROTEUSII_CMD_FACTORYRESET ||| PROTEUSII_CMD_TYPE_REQ
def PROTEUSII_CMD_FACTORYRESET_CNF : Nat := PROTEUSII_CMD_FACTORYRESET ||| PROTEUSII_CMD_TYPE_CNF
def PROTEUSII_CMD_NUMERIC_COMP : Nat := 0x24
def PROTEUSII_CMD_NUMERIC_COMP_REQ : Nat := PROTEUSII_CMD_NUMERIC_COMP ||| PROTEUSII_CMD_TYPE_REQ
def PROTEUSII_CMD_NUMERIC_COMP_CNF : Nat := PROTEUSII_CMD_NUMERIC_COMP ||| PROTEUSII_CMD_TYPE_CNF
def PROTEUSII_CMD_DISPLAY_PASSKEY_IND : Nat := PROTEUSII_CMD_NUMERIC_COMP ||| PROTEUSII_CMD_TYPE_IND
def PROTEUSII_CMD_GET_BONDS : Nat := 0x0F
def PROTEUSII_CMD_GET_BONDS_REQ : Nat := PROTEUSII_CMD_GET_BONDS ||| PROTEUSII_CMD_TYPE_REQ
def PROTEUSII_CMD_GET_BONDS_CNF : Nat := PROTEUSII_CMD_GET_BONDS ||| PROTEUSII_CMD_TYPE_CNF
def PROTEUSII_CMD_DELETE_BONDS : Nat := 0x0E
def PROTEUSII_CMD_DELETE_BONDS_REQ : Nat := PROTEUSII_CMD_DELETE_BONDS ||| PROTEUSII_CMD_TYPE_REQ
def PROTEUSII_CMD_DELETE_BONDS_CNF : Nat := PROTEUSII_CMD_DELETE_BONDS ||| PROTEUSII_CMD_TYPE_CNF
def PROTEUSII_CMD_ERROR_IND : Nat := 0xA2

/-- The enumerators of `ProteusII_DriverState_t` that the driver uses. -/
inductive ProteusII_DriverState_t
  | ProteusII_DriverState_BLE_Invalid
  | ProteusII_DriverState_BLE_Connected
  | ProteusII_DriverState_BLE_ChannelOpen
deriving DecidableEq, Repr

/-- The enumerators of `ProteusII_OperationMode_t` that the driver uses. -/
inductive ProteusII_OperationMode_t
  | ProteusII_OperationMode_CommandMode
  | ProteusII_OperationMode_PeripheralOnlyMode
deriving DecidableEq, Repr

/-- The enumerators of `ProteusII_DisconnectReason_t` that the driver uses. -/
inductive ProteusII_DisconnectReason_t
  | ProteusII_DisconnectReason_Unknown
  | ProteusII_DisconnectReason_ConnectionTimeout
  | ProteusII_DisconnectReason_UserTerminatedConnection
  | ProteusII_DisconnectReason_HostTerminatedConnection
  | ProteusII_DisconnectReason_ConnectionIntervalUnacceptable
  | ProteusII_DisconnectReason_MicFailure
  | ProteusII_DisconnectReason_ConnectionSetupFailed
deriving DecidableEq, Repr

/-- The pins of the module, `ProteusII_Pin_t`. -/
inductive ProteusII_Pin_t
  | ProteusII_Pin_Reset
  | ProteusII_Pin_SleepWakeUp
  | ProteusII_Pin_Boot
  | ProteusII_Pin_Mode
  | ProteusII_Pin_Busy
  | ProteusII_Pin_StatusLed2
deriving DecidableEq, Repr

/-- The two levels a pin is set to, `WE_Pin_Level_t`. -/
inductive WE_Pin_Level_t
  | WE_Pin_Level_Low
  | WE_Pin_Level_High
deriving DecidableEq, Repr

/-- One scanned device, with the fields `HandleRxPacket` fills. -/
structure ProteusII_Device_t where
  btmac : Mem
  rssi : Nat
  txPower : Nat
  deviceNameLength : Nat
  deviceName : Mem

/-- The object `ProteusII_getDevicesP` points to. -/
structure ProteusII_GetDevices_t where
  numberOfDevices : Nat
  devices : Nat → ProteusII_Device_t

/-- The callback table `ProteusII_CallbackConfig_t`: each field tells whether the
function pointer is non-NULL. -/
structure ProteusII_CallbackConfig_t where
  rxCb : Bool
  beaconRxCb : Bool
  connectCb : Bool
  securityCb : Bool
  passkeyCb : Bool
  displayPasskeyCb : Bool
  disconnectCb : Bool
  channelOpenCb : Bool
  phyUpdateCb : Bool
  sleepCb : Bool
  rssiCb : Bool
  errorCb : Bool
deriving DecidableEq, Repr

/-- A call of a user callback, with its arguments.  A pointer into `rxPacket.Data` is
recorded as the index it points at; a local array as its bytes; the length argument of
the receive callbacks as the value of the C expression `rxPacket.Length - 7`. -/
inductive CallbackEvent
  | channelOpenCb (btMac : Nat) (maxPayload : Nat)
  | connectCb (success : Bool) (btMac : List Nat)
  | disconnectCb (reason : ProteusII_DisconnectReason_t)
  | rxCb (payload : Nat) (payloadLength : Int) (btMac : Nat) (rssi : Nat)
  | beaconRxCb (payload : Nat) (payloadLength : Int) (btMac : Nat) (rssi : Nat)
  | rssiCb (btMac : Nat) (rssi : Nat) (txPower : Nat)
  | securityCb (btMac : Nat) (securityState : Nat)
  | passkeyCb (btMac : Nat)
  | displayPasskeyCb (action : Nat) (btMac : Nat) (passkey : Nat)
  | phyUpdateCb (success : Bool) (btMac : List Nat) (phyRx : Nat) (phyTx : Nat)
  | sleepCb
  | errorCb (errorCode : Nat)
deriving DecidableEq, Repr

/-- The static variables of `ProteusII.c`, followed by the logs of the embedding:
`handled` counts the invocations of `HandleRxPacket`, `cbLog` lists the user callbacks
called, `uartTx` the byte strings handed to `WE_UART_Transmit`, `delayLog` the
arguments of the calls of `WE_Delay` and `pinLog` the calls of `WE_SetPin`.  The byte
callback `byteRxCallback` is the default one, `ProteusII_HandleRxByte`. -/
structure State where
  txPacket : Mem
  rxPacket : Mem
  cmdConfirmationArray : Nat → Confirmation
  operationMode : ProteusII_OperationMode_t
  ProteusII_getDevicesP : Option ProteusII_GetDevices_t
  bleState : ProteusII_DriverState_t
  callbacks : ProteusII_CallbackConfig_t
  checksum : Nat
  rxByteCounter : Nat
  bytesToReceive : Nat
  rxBuffer : Mem
  handled : Nat
  cbLog : List CallbackEvent
  uartTx : List (List Nat)
  delayLog : List Int
  pinLog : List (ProteusII_Pin_t × WE_Pin_Level_t)

/-- Field `Stx` of a `ProteusII_CMD_Frame_t` seen as bytes. -/
def Frame.Stx (f : Mem) : Nat := f 0
/-- Field `Cmd` of a `ProteusII_CMD_Frame_t` seen as bytes. -/
def Frame.Cmd (f : Mem) : Nat := f 1
/-- Field `Length` of a `ProteusII_CMD_Frame_t` seen as bytes (little-endian). -/
def Frame.Length (f : Mem) : Nat := le16 f 2
/-- Element `Data[j]` of a `ProteusII_CMD_Frame_t` seen as bytes. -/
def Frame.Data (f : Mem) (j : Nat) : Nat := f (4 + j)

/-- The assignment `f.Length = length` of a `uint16_t`. -/
def Frame.setLength (f : Mem) (length : Nat) : Mem :=
  memWrite (memWrite f 2 (length % 256)) 3 (length / 256 % 256)

/-! ## Proteus-II: static functions -/

/-- The device loop of the `PROTEUSII_CMD_GETDEVICES_CNF` case: `n` iterations are
left, `i` is the device index and `len` the `uint16_t` read position in `Data`. -/
def getDevicesLoop (Data : Mem) (devices : Nat → ProteusII_Device_t) (i len : Nat) :
    Nat → (Nat → ProteusII_Device_t)
  | 0 => devices
  | n + 1 =>
    let d := devices i
    let d1 : ProteusII_Device_t :=
      { btmac := memcpy d.btmac 0 Data len 6
        rssi := Data (len + 6)
        txPower := Data (len + 7)
        deviceNameLength := Data (len + 8)
        deviceName := memcpy d.deviceName 0 Data (len + 9) (Data (len + 8)) }
    getDevicesLoop Data (fun j => if j = i then d1 else devices j) (i + 1)
      ((len + (9 + d1.deviceNameLength)) % 65536) n

/-- The commands of the second group of `case` labels of `HandleRxPacket`, confirmed
with the status found in `Data[0]`. -/
def statusConfirmations : List Nat :=
  [PROTEUSII_CMD_RESET_CNF, PROTEUSII_CMD_SCANSTART_CNF, PROTEUSII_CMD_SCANSTOP_CNF,
   PROTEUSII_CMD_GET_CNF, PROTEUSII_CMD_SET_CNF, PROTEUSII_CMD_SETBEACON_CNF,
   PROTEUSII_CMD_PASSKEY_CNF, PROTEUSII_CMD_PHYUPDATE_CNF, PROTEUSII_CMD_CONNECT_CNF,
   PROTEUSII_CMD_DATA_CNF, PROTEUSII_CMD_DISCONNECT_CNF, PROTEUSII_CMD_FACTORYRESET_CNF,
   PROTEUSII_CMD_SLEEP_CNF, PROTEUSII_CMD_UART_DISABLE_CNF, PROTEUSII_CMD_UART_ENABLE_IND,
   PROTEUSII_CMD_GET_BONDS_CNF, PROTEUSII_CMD_DELETE_BONDS_CNF, PROTEUSII_CMD_TXCOMPLETE_RSP,
   PROTEUSII_CMD_NUMERIC_COMP_CNF]

/-- The inner `switch (rxPacket.Data[0])` of the `PROTEUSII_CMD_DISCONNECT_IND` case. -/
def disconnectReason (b : Nat) : ProteusII_DisconnectReason_t :=
  if b = 0x08 then .ProteusII_DisconnectReason_ConnectionTimeout
  else if b = 0x13 then .ProteusII_DisconnectReason_UserTerminatedConnection
  else if b = 0x16 then .ProteusII_DisconnectReason_HostTerminatedConnection
  else if b = 0x3B then .ProteusII_DisconnectReason_ConnectionIntervalUnacceptable
  else if b = 0x3D then .ProteusII_DisconnectReason_MicFailure
  else if b = 0x3E then .ProteusII_DisconnectReason_ConnectionSetupFailed
  else .ProteusII_DisconnectReason_Unknown

/-- The call of a user callback, made only when its pointer is not NULL. -/
def callIf (registered : Bool) (ev : CallbackEvent) (s : State) : State :=
  if registered then { s with cbLog := s.cbLog ++ [ev] } else s

/-- The `switch (rxPacket.Cmd)` of `HandleRxPacket`, run after the frame was copied to
`rxPacket`: it yields the local `cmdConfirmation` and the updated statics. -/
def rxSwitch (hdr : Header) (s : State) : Confirmation × State :=
  let Cmd := Frame.Cmd s.rxPacket
  let Length := Frame.Length s.rxPacket
  let Data : Mem := Frame.Data s.rxPacket
  let invalid : Confirmation := { cmd := CNFINVALID, status := CMD_Status_Invalid }
  if Cmd = PROTEUSII_CMD_GETDEVICES_CNF then
    let cnf : Confirmation := { cmd := Cmd, status := Data 0 }
    if cnf.status = CMD_Status_Success then
      match s.ProteusII_getDevicesP with
      | some g =>
        let size := if Data 1 ≥ hdr.PROTEUSII_MAX_NUMBER_OF_DEVICES
          then hdr.PROTEUSII_MAX_NUMBER_OF_DEVICES else Data 1
        let g1 : ProteusII_GetDevices_t :=
          { numberOfDevices := size, devices := getDevicesLoop Data g.devices 0 2 size }
        (cnf, { s with ProteusII_getDevicesP := some g1 })
      | none => (cnf, s)
    else (cnf, s)
  else if Cmd ∈ statusConfirmations then
    ({ cmd := Cmd, status := Data 0 }, s)
  else if Cmd = PROTEUSII_CMD_GETSTATE_CNF then
    ({ cmd := Cmd, status := CMD_Status_NoStatus }, s)
  else if Cmd = PROTEUSII_CMD_CHANNELOPEN_RSP then
    (invalid, callIf s.callbacks.channelOpenCb (.channelOpenCb 1 (Data 7))
      { s with bleState := .ProteusII_DriverState_BLE_ChannelOpen })
  else if Cmd = PROTEUSII_CMD_CONNECT_IND then
    let success : Bool := Data 0 == CMD_Status_Success
    let s1 := if success then { s with bleState := .ProteusII_DriverState_BLE_Connected } else s
    let btMac : List Nat :=
      if Length ≥ 7 then (List.range 6).map (fun i => Data (1 + i)) else List.replicate 6 0
    (invalid, callIf s.callbacks.connectCb (.connectCb success btMac) s1)
  else if Cmd = PROTEUSII_CMD_DISCONNECT_IND then
    (invalid, callIf s.callbacks.disconnectCb (.disconnectCb (disconnectReason (Data 0)))
      { s with bleState := .ProteusII_DriverState_BLE_Invalid })
  else if Cmd = PROTEUSII_CMD_DATA_IND then
    (invalid, callIf s.callbacks.rxCb (.rxCb 7 ((Length : Int) - 7) 0 (Data 6)) s)
  else if Cmd = PROTEUSII_CMD_BEACON_IND ∨ Cmd = PROTEUSII_CMD_BEACON_RSP then
    (invalid, callIf s.callbacks.beaconRxCb (.beaconRxCb 7 ((Length : Int) - 7) 0 (Data 6)) s)
  else if Cmd = PROTEUSII_CMD_RSSI_IND then
    (invalid, callIf (s.callbacks.rssiCb && decide (Length ≥ 8)) (.rssiCb 0 (Data 6) (Data 7)) s)
  else if Cmd = PROTEUSII_CMD_SECURITY_IND then
    (invalid, callIf s.callbacks.securityCb (.securityCb 1 (Data 0)) s)
  else if Cmd = PROTEUSII_CMD_PASSKEY_IND then
    (invalid, callIf s.callbacks.passkeyCb (.passkeyCb 1) s)
  else if Cmd = PROTEUSII_CMD_DISPLAY_PASSKEY_IND then
    (invalid, callIf s.callbacks.displayPasskeyCb (.displayPasskeyCb (Data 0) 1 7) s)
  else if Cmd = PROTEUSII_CMD_PHYUPDATE_IND then
    let success : Bool := Data 0 == CMD_Status_Success
    let btMac : List Nat :=
      if Length ≥ 9 then (List.range 6).map (fun i => Data (3 + i)) else List.replicate 6 0
    (invalid, callIf s.callbacks.phyUpdateCb (.phyUpdateCb success btMac (Data 1) (Data 2)) s)
  else if Cmd = PROTEUSII_CMD_SLEEP_IND then
    (invalid, callIf s.callbacks.sleepCb .sleepCb s)
  else if Cmd = PROTEUSII_CMD_ERROR_IND then
    (invalid, callIf s.callbacks.errorCb (.errorCb (Data 0)) s)
  else
    (invalid, s)

/-- The function `ClearReceiveBuffers`. -/
def ClearReceiveBuffers (s : State) : State :=
  { s with
    bytesToReceive := 0
    rxByteCounter := 0
    checksum := 0
    cmdConfirmationArray := resetConfirmations s.cmdConfirmationArray CMDCONFIRMATIONARRAY_LENGTH }

/-- The function `HandleRxPacket`: the frame of `Length + 5` bytes is copied from
`pRxBuffer` to `rxPacket`, interpreted, and its confirmation queued. -/
def HandleRxPacket (hdr : Header) (s : State) (pRxBuffer : Mem) : State :=
  let cmdLength := Frame.Length pRxBuffer
  let s1 := { s with
    rxPacket := memcpy s.rxPacket 0 pRxBuffer 0 (cmdLength + LENGTH_CMD_OVERHEAD)
    handled := s.handled + 1 }
  let r := rxSwitch hdr s1
  { r.2 with cmdConfirmationArray :=
      storeConfirmation r.2.cmdConfirmationArray CMDCONFIRMATIONARRAY_LENGTH r.1 }

/-- The function `ProteusII_HandleRxByte`.  The counters are `uint16_t`.  In the
`default` branch the index `bytesToReceive - 1` is negative only if `bytesToReceive`
is 0, which needs `rxByteCounter` to wrap around; that read is outside the buffer in C
and is `rxBuffer[0]` here. -/
def ProteusII_HandleRxByte (hdr : Header) (s : State) (receivedByte : Nat) : State :=
  let s := { s with rxBuffer := memWrite s.rxBuffer s.rxByteCounter receivedByte }
  if s.rxByteCounter = 0 then
    if s.rxBuffer s.rxByteCounter = CMD_STX then
      { s with bytesToReceive := 0, rxByteCounter := 1 }
    else s
  else if s.rxByteCounter = 1 then
    { s with rxByteCounter := (s.rxByteCounter + 1) % 65536 }
  else if s.rxByteCounter = 2 then
    let c := (s.rxByteCounter + 1) % 65536
    { s with rxByteCounter := c, bytesToReceive := s.rxBuffer (c - 1) }
  else if s.rxByteCounter = 3 then
    let c := (s.rxByteCounter + 1) % 65536
    { s with
      rxByteCounter := c
      bytesToReceive :=
        (s.bytesToReceive + ((s.rxBuffer (c - 1) <<< 8) + LENGTH_CMD_OVERHEAD)) % 65536 }
  else
    let s := { s with rxByteCounter := (s.rxByteCounter + 1) % 65536 }
    if s.rxByteCounter = s.bytesToReceive then
      let s := { s with checksum := xorLoop s.rxBuffer (s.bytesToReceive - 1) }
      let s := if s.checksum = s.rxBuffer (s.bytesToReceive - 1)
        then HandleRxPacket hdr s s.rxBuffer else s
      { s with rxByteCounter := 0, bytesToReceive := 0 }
    else s

/-- The bytes of one UART chunk go through the framer one by one. -/
def feed (hdr : Header) (s : State) (bytes : List Nat) : State :=
  bytes.foldl (ProteusII_HandleRxByte hdr) s

/-- The call `WE_Delay(ms)`, during which the bytes `received` arrive. -/
def WE_Delay (hdr : Header) (ms : Int) (received : List Nat) (s : State) : State :=
  feed hdr { s with delayLog := s.delayLog ++ [ms] } received

/-- The `while (1)` loop of `Wait4CNF`, with `remaining = maxCount - count` delays left
(0 when `count >= maxCount`) and the chunks `rx` received during the coming delays
(nothing is received once the list is used up). -/
def waitLoop (hdr : Header) (expectedCmdConfirmation expectedStatus : Nat) :
    Nat → List (List Nat) → State → Bool × State
  | remaining, rx, s =>
    match pollConfirmations s.cmdConfirmationArray CMDCONFIRMATIONARRAY_LENGTH
        expectedCmdConfirmation with
    | some status => (status == expectedStatus, s)
    | none =>
      match remaining with
      | 0 => (false, s)
      | k + 1 => waitLoop hdr expectedCmdConfirmation expectedStatus k rx.tail
          (WE_Delay hdr 5 rx.headI s)

/-- The opening `if (resetConfirmState)` of `Wait4CNF`, with its reset loop. -/
def resetStep (resetConfirmState : Bool) (s : State) : State :=
  if resetConfirmState
    then { s with cmdConfirmationArray :=
      resetConfirmations s.cmdConfirmationArray CMDCONFIRMATIONARRAY_LENGTH }
    else s

/-- The function `Wait4CNF`; `maxTimeMs / timeStepMs` is the truncating division of C. -/
def Wait4CNF (hdr : Header) (maxTimeMs : Int) (expectedCmdConfirmation expectedStatus : Nat)
    (resetConfirmState : Bool) (rx : List (List Nat)) (s : State) : Bool × State :=
  let timeStepMs : Int := 5
  let maxCount : Int := Int.tdiv maxTimeMs timeStepMs
  waitLoop hdr expectedCmdConfirmation expectedStatus maxCount.toNat rx
    (resetStep resetConfirmState s)

/-- The function `FillChecksum`.  The loop counter is a `uint16_t` compared with the
`int` value `Length + 4`: should that exceed 65535 the loop never ends, which is the
result `none`. -/
def FillChecksum (cmd : Mem) : Option (Bool × Mem) :=
  if Frame.Length cmd ≥ 0 ∧ Frame.Stx cmd = CMD_STX then
    if Frame.Length cmd + LENGTH_CMD_OVERHEAD_WITHOUT_CRC ≤ 65535 then
      let checksum := xorLoop cmd (Frame.Length cmd + LENGTH_CMD_OVERHEAD_WITHOUT_CRC)
      some (true, memWrite cmd (4 + Frame.Length cmd) checksum)
    else none
  else some (false, cmd)

/-! ## Proteus-II: global functions -/

/-- The statics as their initialisers leave them (zero where there is none). -/
def initialState : State where
  txPacket := fun i => if i = 0 then CMD_STX else 0
  rxPacket := fun i => if i = 0 then CMD_STX else 0
  cmdConfirmationArray := fun _ => { cmd := 0, status := 0 }
  operationMode := .ProteusII_OperationMode_CommandMode
  ProteusII_getDevicesP := none
  bleState := .ProteusII_DriverState_BLE_Invalid
  callbacks := ⟨false, false, false, false, false, false, false, false, false, false, false, false⟩
  checksum := 0
  rxByteCounter := 0
  bytesToReceive := 0
  rxBuffer := fun _ => 0
  handled := 0
  cbLog := []
  uartTx := []
  delayLog := []
  pinLog := []

/-- The call `WE_UART_Transmit((uint8_t*) &txPacket, txPacket.Length + LENGTH_CMD_OVERHEAD)`. -/
def transmitTxPacket (s : State) : State :=
  { s with uartTx := s.uartTx ++
      [memBytes s.txPacket (Frame.Length s.txPacket + LENGTH_CMD_OVERHEAD)] }

/-- The function `ProteusII_GetDriverState`. -/
def ProteusII_GetDriverState (s : State) : ProteusII_DriverState_t := s.bleState

/-- The function `ProteusII_Transmit`; `payloadP` is the memory the pointer designates.
The result is `none` when `FillChecksum` does not return. -/
def ProteusII_Transmit (hdr : Header) (payloadP : Mem) (length : Nat) (rx : List (List Nat))
    (s : State) : Option (Bool × State) :=
  if length ≤ hdr.PROTEUSII_MAX_PAYLOAD_LENGTH ∧
      ProteusII_DriverState_t.ProteusII_DriverState_BLE_ChannelOpen = ProteusII_GetDriverState s
  then
    let tx := memWrite s.txPacket 1 PROTEUSII_CMD_DATA_REQ
    let tx := Frame.setLength tx length
    let tx := memcpy tx 4 payloadP 0 length
    match FillChecksum tx with
    | none => none
    | some (true, tx) =>
      some (Wait4CNF hdr CMD_WAIT_TIME PROTEUSII_CMD_TXCOMPLETE_RSP CMD_Status_Success true rx
        (transmitTxPacket { s with txPacket := tx }))
    | some (false, tx) => some (false, { s with txPacket := tx })
  else some (false, s)

/-- What `ProteusII_Get` leaves behind: its return value and the two output objects. -/
structure GetResult where
  ret : Bool
  responseP : Mem
  responseLength : Nat

/-- The function `ProteusII_Get`; `responseP` and `responseLength` are the contents of
the two output objects before the call.  The result is `none` when `FillChecksum` does
not return, and when `rxPacket.Length` is 0 after a successful wait, where the C code
calls `memcpy` with the size `(size_t) -1`. -/
def ProteusII_Get (hdr : Header) (userSetting : Nat) (responseP : Mem) (responseLength : Nat)
    (rx : List (List Nat)) (s : State) : Option (GetResult × State) :=
  let tx := memWrite s.txPacket 1 PROTEUSII_CMD_GET_REQ
  let tx := Frame.setLength tx 1
  let tx := memWrite tx 4 userSetting
  match FillChecksum tx with
  | none => none
  | some (true, tx) =>
    let r := Wait4CNF hdr CMD_WAIT_TIME PROTEUSII_CMD_GET_CNF CMD_Status_Success true rx
      (transmitTxPacket { s with txPacket := tx })
    if r.1 then
      let length := Frame.Length r.2.rxPacket
      if length = 0 then none
      else some ({ ret := true
                   responseP := memcpy responseP 0 r.2.rxPacket 5 (length - 1)
                   responseLength := (length - 1) % 65536 }, r.2)
    else some ({ ret := false, responseP := responseP, responseLength := responseLength }, r.2)
  | some (false, tx) =>
    some ({ ret := false, responseP := responseP, responseLength := responseLength },
      { s with txPacket := tx })

/-- The call `WE_SetPin(ProteusII_pins[pin], level)`. -/
def WE_SetPin (pin : ProteusII_Pin_t) (level : WE_Pin_Level_t) (s : State) : State :=
  { s with pinLog := s.pinLog ++ [(pin, level)] }

/-- The first statements of `ProteusII_PinReset`, up to and including the call of
`ClearReceiveBuffers`; `received` are the bytes that arrive during `WE_Delay(5)`. -/
def pinResetClear (hdr : Header) (received : List Nat) (s : State) : State :=
  ClearReceiveBuffers
    (WE_Delay hdr 5 received (WE_SetPin .ProteusII_Pin_Reset .WE_Pin_Level_Low s))

/-- The function `ProteusII_PinReset`. -/
def ProteusII_PinReset (hdr : Header) (received : List Nat) (rx : List (List Nat)) (s : State) :
    Bool × State :=
  let s := WE_SetPin .ProteusII_Pin_Reset .WE_Pin_Level_High (pinResetClear hdr received s)
  if s.operationMode = .ProteusII_OperationMode_PeripheralOnlyMode then (true, s)
  else Wait4CNF hdr CMD_WAIT_TIME PROTEUSII_CMD_GETSTATE_CNF CMD_Status_NoStatus true rx s

/-- One entry of the bond database, with the fields `ProteusII_GetBonds` fills. -/
structure ProteusII_BondDatabaseEntry_t where
  id : Nat
  btMac : Mem

/-- The object `bondDatabaseP` points to, `ProteusII_BondDatabase_t`. -/
structure ProteusII_BondDatabase_t where
  nrOfDevices : Nat
  devices : Nat → ProteusII_BondDatabaseEntry_t

/-- The `for` loop of `ProteusII_GetBonds`, with `n` iterations left and the `uint8_t`
index `i`; `offset` is a `uint8_t`, `id` a `uint16_t`. -/
def getBondsLoop (Data : Mem) :
    Nat → Nat → (Nat → ProteusII_BondDatabaseEntry_t) → (Nat → ProteusII_BondDatabaseEntry_t)
  | 0, _, devices => devices
  | n + 1, i, devices =>
    let offset := (2 + i * 8) % 256
    let d : ProteusII_BondDatabaseEntry_t :=
      { id := ((Data offset <<< 0) + (Data (offset + 1) <<< 8)) % 65536
        btMac := memcpy (devices i).btMac 0 Data (offset + 2) 6 }
    getBondsLoop Data n (i + 1) (fun j => if j = i then d else devices j)

/-- The function `ProteusII_GetBonds`; `bondDatabase` is the content of the output
object before the call.  The result is `none` when `FillChecksum` does not return. -/
def ProteusII_GetBonds (hdr : Header) (bondDatabase : ProteusII_BondDatabase_t)
    (rx : List (List Nat)) (s : State) : Option (Bool × ProteusII_BondDatabase_t × State) :=
  let tx := memWrite s.txPacket 1 PROTEUSII_CMD_GET_BONDS_REQ
  let tx := Frame.setLength tx 0
  match FillChecksum tx with
  | none => none
  | some (false, tx) => some (false, bondDatabase, { s with txPacket := tx })
  | some (true, tx) =>
    let r := Wait4CNF hdr CMD_WAIT_TIME PROTEUSII_CMD_GET_BONDS_CNF CMD_Status_Success true rx
      (transmitTxPacket { s with txPacket := tx })
    if ¬ r.1 then some (false, bondDatabase, r.2)
    else
      let nr := Frame.Data r.2.rxPacket 1
      let nr := if nr > hdr.PROTEUSII_MAX_BOND_DEVICES then hdr.PROTEUSII_MAX_BOND_DEVICES else nr
      some (true,
        { nrOfDevices := nr
          devices := getBondsLoop (Frame.Data r.2.rxPacket) nr 0 bondDatabase.devices },
        r.2)

/-- The statements that end a request function once `txPacket` is filled:
`if (FillChecksum(&txPacket))`, then `WE_UART_Transmit` of `txPacket.Length + 5` bytes
and `return Wait4CNF(maxTimeMs, .., true)`, else `return false`.  The result is `none`
when `FillChecksum` does not return. -/
def sendRequest (hdr : Header) (maxTimeMs : Int) (expectedCmdConfirmation expectedStatus : Nat)
    (rx : List (List Nat)) (s : State) : Option (Bool × State) :=
  match FillChecksum s.txPacket with
  | none => none
  | some (true, tx) =>
    some (Wait4CNF hdr maxTimeMs expectedCmdConfirmation expectedStatus true rx
      (transmitTxPacket { s with txPacket := tx }))
  | some (false, tx) => some (false, { s with txPacket := tx })

/-- The function `ProteusII_Reset`. -/
def ProteusII_Reset (hdr : Header) (rx : List (List Nat)) (s : State) : Option (Bool × State) :=
  let tx := memWrite s.txPacket 1 PROTEUSII_CMD_RESET_REQ
  let tx := Frame.setLength tx 0
  sendRequest hdr CMD_WAIT_TIME PROTEUSII_CMD_GETSTATE_CNF CMD_Status_NoStatus rx
    { s with txPacket := tx }

/-- The function `ProteusII_Disconnect`. -/
def ProteusII_Disconnect (hdr : Header) (rx : List (List Nat)) (s : State) :
    Option (Bool × State) :=
  let tx := memWrite s.txPacket 1 PROTEUSII_CMD_DISCONNECT_REQ
  let tx := Frame.setLength tx 0
  sendRequest hdr CMD_WAIT_TIME PROTEUSII_CMD_DISCONNECT_CNF CMD_Status_Success rx
    { s with txPacket := tx }

/-- The function `ProteusII_Sleep`. -/
def ProteusII_Sleep (hdr : Header) (rx : List (List Nat)) (s : State) : Option (Bool × State) :=
  let tx := memWrite s.txPacket 1 PROTEUSII_CMD_SLEEP_REQ
  let tx := Frame.setLength tx 0
  sendRequest hdr CMD_WAIT_TIME PROTEUSII_CMD_SLEEP_CNF CMD_Status_Success rx
    { s with txPacket := tx }

/-- The function `ProteusII_UartDisable`. -/
def ProteusII_UartDisable (hdr : Header) (rx : List (List Nat)) (s : State) :
    Option (Bool × State) :=
  let tx := memWrite s.txPacket 1 PROTEUSII_CMD_UART_DISABLE_REQ
  let tx := Frame.setLength tx 0
  sendRequest hdr CMD_WAIT_TIME PROTEUSII_CMD_UART_DISABLE_CNF CMD_Status_Success rx
    { s with txPacket := tx }

/-- The function `ProteusII_SetBeacon`; `beaconDataP` is the memory the pointer
designates. -/
def ProteusII_SetBeacon (hdr : Header) (beaconDataP : Mem) (length : Nat)
    (rx : List (List Nat)) (s : State) : Option (Bool × State) :=
  if length ≤ hdr.PROTEUSII_MAX_BEACON_LENGTH then
    let tx := memWrite s.txPacket 1 PROTEUSII_CMD_SETBEACON_REQ
    let tx := Frame.setLength tx length
    let tx := memcpy tx 4 beaconDataP 0 length
    sendRequest hdr CMD_WAIT_TIME PROTEUSII_CMD_SETBEACON_CNF CMD_Status_Success rx
      { s with txPacket := tx }
  else some (false, s)

/-- The function `ProteusII_FactoryReset`. -/
def ProteusII_FactoryReset (hdr : Header) (rx : List (List Nat)) (s : State) :
    Option (Bool × State) :=
  let tx := memWrite s.txPacket 1 PROTEUSII_CMD_FACTORYRESET_REQ
  let tx := Frame.setLength tx 0
  sendRequest hdr CMD_WAIT_TIME PROTEUSII_CMD_GETSTATE_CNF CMD_Status_NoStatus rx
    { s with txPacket := tx }

/-- The function `ProteusII_Set`; `valueP` is the memory the pointer designates and
`length` a `uint8_t`.  `txPacket` being an unbounded memory here, a `memcpy` past its
end is not seen. -/
def ProteusII_Set (hdr : Header) (userSetting : Nat) (valueP : Mem) (length : Nat)
    (rx : List (List Nat)) (s : State) : Option (Bool × State) :=
  let tx := memWrite s.txPacket 1 PROTEUSII_CMD_SET_REQ
  let tx := Frame.setLength tx (1 + length)
  let tx := memWrite tx 4 userSetting
  let tx := memcpy tx 5 valueP 0 length
  sendRequest hdr CMD_WAIT_TIME PROTEUSII_CMD_SET_CNF CMD_Status_Success rx
    { s with txPacket := tx }

/-- The object `moduleStateP` points to, `ProteusII_ModuleState_t`. -/
structure ProteusII_ModuleState_t where
  role : Nat
  action : Nat
  connectedDeviceBtMac : Mem

/-- The function `ProteusII_GetState`; `moduleState` is the content of the output object
before the call.  The enumerator `ProteusII_BLE_Action_Connected` comes from
`ProteusII.h` and is a parameter. -/
def ProteusII_GetState (hdr : Header) (ProteusII_BLE_Action_Connected : Nat)
    (moduleState : ProteusII_ModuleState_t) (rx : List (List Nat)) (s : State) :
    Option (Bool × ProteusII_ModuleState_t × State) :=
  let tx := memWrite s.txPacket 1 PROTEUSII_CMD_GETSTATE_REQ
  let tx := Frame.setLength tx 0
  match FillChecksum tx with
  | none => none
  | some (true, tx) =>
    let r := Wait4CNF hdr CMD_WAIT_TIME PROTEUSII_CMD_GETSTATE_CNF CMD_Status_NoStatus true rx
      (transmitTxPacket { s with txPacket := tx })
    if r.1 then
      let length := Frame.Length r.2.rxPacket
      let role := Frame.Data r.2.rxPacket 0
      let action := Frame.Data r.2.rxPacket 1
      let mac :=
        if action = ProteusII_BLE_Action_Connected ∧ length ≥ 8
          then memcpy moduleState.connectedDeviceBtMac 0 r.2.rxPacket 6 6
          else memcpy moduleState.connectedDeviceBtMac 0 (fun _ => 0) 0 6
      some (true, { role := role, action := action, connectedDeviceBtMac := mac }, r.2)
    else some (false, moduleState, r.2)
  | some (false, tx) => some (false, moduleState, { s with txPacket := tx })

/-- The function `ProteusII_ScanStart`. -/
def ProteusII_ScanStart (hdr : Header) (rx : List (List Nat)) (s : State) :
    Option (Bool × State) :=
  let tx := memWrite s.txPacket 1 PROTEUSII_CMD_SCANSTART_REQ
  let tx := Frame.setLength tx 0
  sendRequest hdr CMD_WAIT_TIME PROTEUSII_CMD_SCANSTART_CNF CMD_Status_Success rx
    { s with txPacket := tx }

/-- The function `ProteusII_ScanStop`. -/
def ProteusII_ScanStop (hdr : Header) (rx : List (List Nat)) (s : State) :
    Option (Bool × State) :=
  let tx := memWrite s.txPacket 1 PROTEUSII_CMD_SCANSTOP_REQ
  let tx := Frame.setLength tx 0
  sendRequest hdr CMD_WAIT_TIME PROTEUSII_CMD_SCANSTOP_CNF CMD_Status_Success rx
    { s with txPacket := tx }

/-- The function `ProteusII_GetDevices`; `devicesP` is `none` for a NULL pointer and the
content of the object it points to otherwise, and the second component of the result
is that content after the call. -/
def ProteusII_GetDevices (hdr : Header) (devicesP : Option ProteusII_GetDevices_t)
    (rx : List (List Nat)) (s : State) :
    Option (Bool × Option ProteusII_GetDevices_t × State) :=
  let s := { s with
    ProteusII_getDevicesP :=
      devicesP.map (fun g : ProteusII_GetDevices_t => { g with numberOfDevices := 0 }) }
  let tx := memWrite s.txPacket 1 PROTEUSII_CMD_GETDEVICES_REQ
  let tx := Frame.setLength tx 0
  match FillChecksum tx with
  | none => none
  | some (true, tx) =>
    let r := Wait4CNF hdr CMD_WAIT_TIME PROTEUSII_CMD_GETDEVICES_CNF CMD_Status_Success true rx
      (transmitTxPacket { s with txPacket := tx })
    some (r.1, r.2.ProteusII_getDevicesP, { r.2 with ProteusII_getDevicesP := none })
  | some (false, tx) =>
    some (false, s.ProteusII_getDevicesP,
      { s with txPacket := tx, ProteusII_getDevicesP := none })

/-- The function `ProteusII_Connect`; `btMacP` is the memory the pointer designates. -/
def ProteusII_Connect (hdr : Header) (btMacP : Mem) (rx : List (List Nat)) (s : State) :
    Option (Bool × State) :=
  let tx := memWrite s.txPacket 1 PROTEUSII_CMD_CONNECT_REQ
  let tx := Frame.setLength tx 6
  let tx := memcpy tx 4 btMacP 0 6
  sendRequest hdr 3000 PROTEUSII_CMD_CONNECT_CNF CMD_Status_Success rx
    { s with txPacket := tx }

/-- The function `ProteusII_Passkey`; `passkey` is the memory the pointer designates. -/
def ProteusII_Passkey (hdr : Header) (passkey : Mem) (rx : List (List Nat)) (s : State) :
    Option (Bool × State) :=
  let tx := memWrite s.txPacket 1 PROTEUSII_CMD_PASSKEY_REQ
  let tx := Frame.setLength tx 6
  let tx := memcpy tx 4 passkey 0 6
  sendRequest hdr CMD_WAIT_TIME PROTEUSII_CMD_PASSKEY_CNF CMD_Status_Success rx
    { s with txPacket := tx }

/-- The function `ProteusII_NumericCompareConfirm`. -/
def ProteusII_NumericCompareConfirm (hdr : Header) (keyIsOk : Bool) (rx : List (List Nat))
    (s : State) : Option (Bool × State) :=
  let tx := memWrite s.txPacket 1 PROTEUSII_CMD_NUMERIC_COMP_REQ
  let tx := Frame.setLength tx 1
  let tx := memWrite tx 4 (if keyIsOk then 0x00 else 0x01)
  sendRequest hdr CMD_WAIT_TIME PROTEUSII_CMD_NUMERIC_COMP_CNF CMD_Status_Success rx
    { s with txPacket := tx }

/-- The function `ProteusII_PhyUpdate`; `phy` is the value of the enumerator, stored
as `(uint8_t) phy`. -/
def ProteusII_PhyUpdate (hdr : Header) (phy : Nat) (rx : List (List Nat)) (s : State) :
    Option (Bool × State) :=
  if ProteusII_DriverState_t.ProteusII_DriverState_BLE_ChannelOpen = ProteusII_GetDriverState s
  then
    let tx := memWrite s.txPacket 1 PROTEUSII_CMD_PHYUPDATE_REQ
    let tx := Frame.setLength tx 1
    let tx := memWrite tx 4 (phy % 256)
    sendRequest hdr CMD_WAIT_TIME PROTEUSII_CMD_PHYUPDATE_CNF CMD_Status_Success rx
      { s with txPacket := tx }
  else some (false, s)

/-- The function `ProteusII_DeleteBonds`. -/
def ProteusII_DeleteBonds (hdr : Header) (rx : List (List Nat)) (s : State) :
    Option (Bool × State) :=
  let tx := memWrite s.txPacket 1 PROTEUSII_CMD_DELETE_BONDS_REQ
  let tx := Frame.setLength tx 0
  sendRequest hdr CMD_WAIT_TIME PROTEUSII_CMD_DELETE_BONDS_CNF CMD_Status_Success rx
    { s with txPacket := tx }

/-- The function `ProteusII_DeleteBond`. -/
def ProteusII_DeleteBond (hdr : Header) (bondId : Nat) (rx : List (List Nat)) (s : State) :
    Option (Bool × State) :=
  let tx := memWrite s.txPacket 1 PROTEUSII_CMD_DELETE_BONDS_REQ
  let tx := Frame.setLength tx 2
  let tx := memWrite tx 4 bondId
  let tx := memWrite tx 5 0
  sendRequest hdr CMD_WAIT_TIME PROTEUSII_CMD_DELETE_BONDS_CNF CMD_Status_Success rx
    { s with txPacket := tx }

/-! ## Proteus-II: vocabulary of the properties -/

/-- A `ProteusII_CMD_Frame_t` filled the way the request functions fill `txPacket`:
`Stx = CMD_STX`, `Cmd = c`, `Length` the length of `p` and `Data` the bytes of `p`. -/
def frameMem (c : Nat) (p : List Nat) : Mem :=
  memcpy (Frame.setLength (memWrite (memWrite (fun _ => 0) 0 CMD_STX) 1 c) p.length)
    4 (listMem p) 0 p.length

/-- The `Length + 5` bytes of the frame with command `c` and payload `p`, once
`FillChecksum` has completed it. -/
def encodeFrame (c : Nat) (p : List Nat) : Option (List Nat) :=
  match FillChecksum (frameMem c p) with
  | some (true, f) => some (memBytes f (Frame.Length f + LENGTH_CMD_OVERHEAD))
  | _ => none

/-- The state `k` delays into a wait during which the chunks `rx` are received: the
state that the poll number `k` (counted from 0) of `Wait4CNF` looks at. -/
def afterDelays (hdr : Header) : Nat → List (List Nat) → State → State
  | 0, _, s => s
  | k + 1, rx, s => afterDelays hdr k rx.tail (WE_Delay hdr 5 rx.headI s)

/-- Byte `b`, received in state `s`, is the last byte of a frame whose checksum is
right: the condition under which `ProteusII_HandleRxByte` calls `HandleRxPacket`. -/
def completesFrame (s : State) (b : Nat) : Prop :=
  4 ≤ s.rxByteCounter ∧ (s.rxByteCounter + 1) % 65536 = s.bytesToReceive ∧
    xorLoop (memWrite s.rxBuffer s.rxByteCounter b) (s.bytesToReceive - 1)
      = memWrite s.rxBuffer s.rxByteCounter b (s.bytesToReceive - 1)

/-- The state in which, during a wait started with `resetConfirmState = true`, the byte
that follows the bytes `received` of the chunk number `j` (counted from 0) arrives. -/
def stateAtByte (hdr : Header) (rx : List (List Nat)) (s : State) (j : Nat)
    (received : List Nat) : State :=
  WE_Delay hdr 5 received (afterDelays hdr j rx (resetStep true s))

/-- The value `bytesToReceive` takes once the two length bytes of the frame held in
`f` went through the framer. -/
def announcedSize (f : Mem) : Nat := (f 2 + ((f 3 <<< 8) + LENGTH_CMD_OVERHEAD)) % 65536

/-- The statics that the `switch` of `HandleRxPacket` may change are the device list,
the driver state and (through the callbacks) the callback log. -/
def SwitchShape (s t : State) : Prop :=
  ∃ g b l, t = { s with ProteusII_getDevicesP := g, bleState := b, cbLog := l }

/-- What receiving bytes leaves alone: the transmit side, the delay log and the
occupied slots of the confirmation array. -/
def Received (s t : State) : Prop :=
  t.txPacket = s.txPacket ∧ t.uartTx = s.uartTx ∧ t.delayLog = s.delayLog ∧
    Persist s.cmdConfirmationArray t.cmdConfirmationArray

/-- The confirmation that the `switch` of `HandleRxPacket` derives from a frame. -/
def frameConfirmation (frame : Mem) : Confirmation :=
  if Frame.Cmd frame = PROTEUSII_CMD_GETDEVICES_CNF ∨ Frame.Cmd frame ∈ statusConfirmations then
    { cmd := Frame.Cmd frame, status := Frame.Data frame 0 }
  else if Frame.Cmd frame = PROTEUSII_CMD_GETSTATE_CNF then
    { cmd := Frame.Cmd frame, status := CMD_Status_NoStatus }
  else { cmd := CNFINVALID, status := CMD_Status_Invalid }

/-- A call of one of the functions of the driver that fill `txPacket`, with its
arguments: these are all the functions in which `txPacket` occurs.  The other request
functions of the driver (`ProteusII_SetDeviceName`, `ProteusII_GetFWVersion` and so on)
reach `txPacket` only through `ProteusII_Set` and `ProteusII_Get`. -/
inductive Request
  | reset
  | disconnect
  | sleep
  | uartDisable
  | transmit (payloadP : Mem) (length : Nat)
  | setBeacon (beaconDataP : Mem) (length : Nat)
  | factoryReset
  | set (userSetting : Nat) (valueP : Mem) (length : Nat)
  | get (userSetting : Nat) (responseP : Mem) (responseLength : Nat)
  | getState (moduleState : ProteusII_ModuleState_t)
  | scanStart
  | scanStop
  | getDevices (devicesP : Option ProteusII_GetDevices_t)
  | connect (btMacP : Mem)
  | passkey (passkey : Mem)
  | numericCompareConfirm (keyIsOk : Bool)
  | phyUpdate (phy : Nat)
  | getBonds (bondDatabase : ProteusII_BondDatabase_t)
  | deleteBonds
  | deleteBond (bondId : Nat)

/-- The return value of the call and the statics after it; `rx` are the chunks received
during its wait and `actionConnected` the value of `ProteusII_BLE_Action_Connected`. -/
def Request.call (hdr : Header) (actionConnected : Nat) :
    Request → List (List Nat) → State → Option (Bool × State)
  | .reset, rx, s => ProteusII_Reset hdr rx s
  | .disconnect, rx, s => ProteusII_Disconnect hdr rx s
  | .sleep, rx, s => ProteusII_Sleep hdr rx s
  | .uartDisable, rx, s => ProteusII_UartDisable hdr rx s
  | .transmit payloadP length, rx, s => ProteusII_Transmit hdr payloadP length rx s
  | .setBeacon beaconDataP length, rx, s => ProteusII_SetBeacon hdr beaconDataP length rx s
  | .factoryReset, rx, s => ProteusII_FactoryReset hdr rx s
  | .set userSetting valueP length, rx, s => ProteusII_Set hdr userSetting valueP length rx s
  | .get userSetting responseP responseLength, rx, s =>
    (ProteusII_Get hdr userSetting responseP responseLength rx s).map (fun r => (r.1.ret, r.2))
  | .getState moduleState, rx, s =>
    (ProteusII_GetState hdr actionConnected moduleState rx s).map (fun r => (r.1, r.2.2))
  | .scanStart, rx, s => ProteusII_ScanStart hdr rx s
  | .scanStop, rx, s => ProteusII_ScanStop hdr rx s
  | .getDevices devicesP, rx, s =>
    (ProteusII_GetDevices hdr devicesP rx s).map (fun r => (r.1, r.2.2))
  | .connect btMacP, rx, s => ProteusII_Connect hdr btMacP rx s
  | .passkey key, rx, s => ProteusII_Passkey hdr key rx s
  | .numericCompareConfirm keyIsOk, rx, s => ProteusII_NumericCompareConfirm hdr keyIsOk rx s
  | .phyUpdate phy, rx, s => ProteusII_PhyUpdate hdr phy rx s
  | .getBonds bondDatabase, rx, s =>
    (ProteusII_GetBonds hdr bondDatabase rx s).map (fun r => (r.1, r.2.2))
  | .deleteBonds, rx, s => ProteusII_DeleteBonds hdr rx s
  | .deleteBond bondId, rx, s => ProteusII_DeleteBond hdr bondId rx s

/-- The arguments of the call have values of their C types, as far as the properties
need it: the `length` of `ProteusII_Set` is a `uint8_t`. -/
def Request.InRange : Request → Prop
  | .set _ _ length => length < 256
  | _ => True

/-- The call gets past the condition that three of the functions test before they fill
`txPacket`: the length limit of `ProteusII_Transmit` and `ProteusII_SetBeacon` and the
open channel of `ProteusII_Transmit` and `ProteusII_PhyUpdate`. -/
def Request.Sends (hdr : Header) (s : State) : Request → Prop
  | .transmit _ length =>
    length ≤ hdr.PROTEUSII_MAX_PAYLOAD_LENGTH ∧
      ProteusII_DriverState_t.ProteusII_DriverState_BLE_ChannelOpen = ProteusII_GetDriverState s
  | .setBeacon _ length => length ≤ hdr.PROTEUSII_MAX_BEACON_LENGTH
  | .phyUpdate _ =>
    ProteusII_DriverState_t.ProteusII_DriverState_BLE_ChannelOpen = ProteusII_GetDriverState s
  | _ => True

/-- What a call started in state `s` leaves behind when it returns: `txPacket` has the
start byte, and if the call `sends`, exactly one frame was handed to
`WE_UART_Transmit`.  The branch a request function takes when `FillChecksum` returns
false transmits nothing. -/
def FilledAndSent (s : State) (sends : Prop) (res : Option (Bool × State)) : Prop :=
  ∀ r, res = some r →
    Frame.Stx r.2.txPacket = CMD_STX ∧ (sends → ∃ frame, r.2.uartTx = s.uartTx ++ [frame])

/-- A run of the driver: calls of request functions, each with the chunks `rx` received
during its wait and the bytes received after it returned.  The result is `none` if one
of the calls has no result. -/
def runRequests (hdr : Header) (actionConnected : Nat) :
    List (Request × List (List Nat) × List Nat) → State → Option State
  | [], s => some s
  | (req, rx, after) :: rest, s =>
    match req.call hdr actionConnected rx s with
    | none => none
    | some r => runRequests hdr actionConnected rest (feed hdr r.2 after)

/-- The state `t` differs from `s` at most in the content of `rxBuffer`, in
`bytesToReceive` and in the checksum variable. -/
def SameButFramer (s t : State) : Prop :=
  ∃ buf n c, t = { s with rxBuffer := buf, bytesToReceive := n, checksum := c }

end ProteusII

/-! ## Thyone-I: data model -/

namespace ThyoneI

def CMD_WAIT_TIME : Int := 1500
def MAX_PAYLOAD_LENGTH : Nat := 224
def MAX_PAYLOAD_LENGTH_MULTICAST_EX : Nat := 223
def MAX_PAYLOAD_LENGTH_UNICAST_EX : Nat := 220
def MAX_CMD_LENGTH : Nat := (MAX_PAYLOAD_LENGTH + LENGTH_CMD_OVERHEAD) % 65536
def CMDCONFIRMATIONARRAY_LENGTH : Nat := 3

def CMD_POSITION_STX : Nat := 0
def CMD_POSITION_CMD : Nat := 1
def CMD_POSITION_LENGTH_LSB : Nat := 2
def CMD_POSITION_LENGTH_MSB : Nat := 3
def CMD_POSITION_DATA : Nat := 4

def ThyoneI_CMD_TYPE_REQ : Nat := (0 <<< 6) % 256
def ThyoneI_CMD_TYPE_CNF : Nat := (1 <<< 6) % 256
def ThyoneI_CMD_TYPE_IND : Nat := (2 <<< 6) % 256
def ThyoneI_CMD_TYPE_RSP : Nat := (3 <<< 6) % 256

def ThyoneI_CMD_RESET : Nat := 0x00
def ThyoneI_CMD_RESET_REQ : Nat := ThyoneI_CMD_RESET ||| ThyoneI_CMD_TYPE_REQ
def ThyoneI_CMD_RESET_CNF : Nat := ThyoneI_CMD_RESET ||| ThyoneI_CMD_TYPE_CNF
def ThyoneI_CMD_GETSTATE : Nat := 0x01
def ThyoneI_CMD_GETSTATE_REQ : Nat := ThyoneI_CMD_GETSTATE ||| ThyoneI_CMD_TYPE_REQ
def ThyoneI_CMD_GETSTATE_CNF : Nat := ThyoneI_CMD_GETSTATE ||| ThyoneI_CMD_TYPE_CNF
def ThyoneI_CMD_SLEEP : Nat := 0x02
def ThyoneI_CMD_SLEEP_REQ : Nat := ThyoneI_CMD_SLEEP ||| ThyoneI_CMD_TYPE_REQ
def ThyoneI_CMD_SLEEP_CNF : Nat := ThyoneI_CMD_SLEEP ||| ThyoneI_CMD_TYPE_CNF
def ThyoneI_CMD_SLEEP_IND : Nat := ThyoneI_CMD_SLEEP ||| ThyoneI_CMD_TYPE_IND
def ThyoneI_CMD_START_IND : Nat := 0x73
def ThyoneI_CMD_UNICAST_DATA : Nat := 0x04
def ThyoneI_CMD_UNICAST_DATA_REQ : Nat := ThyoneI_CMD_UNICAST_DATA ||| ThyoneI_CMD_TYPE_REQ
def ThyoneI_CMD_DATA_CNF : Nat := ThyoneI_CMD_UNICAST_DATA ||| ThyoneI_CMD_TYPE_CNF
def ThyoneI_CMD_DATA_IND : Nat := ThyoneI_CMD_UNICAST_DATA ||| ThyoneI_CMD_TYPE_IND
def ThyoneI_CMD_TXCOMPLETE_RSP : Nat := ThyoneI_CMD_UNICAST_DATA ||| ThyoneI_CMD_TYPE_RSP
def ThyoneI_CMD_MULTICAST_DATA : Nat := 0x05
def ThyoneI_CMD_MULTICAST_DATA_REQ : Nat := ThyoneI_CMD_MULTICAST_DATA ||| ThyoneI_CMD_TYPE_REQ
def ThyoneI_CMD_BROADCAST_DATA : Nat := 0x06
def ThyoneI_CMD_BROADCAST_DATA_REQ : Nat := ThyoneI_CMD_BROADCAST_DATA ||| ThyoneI_CMD_TYPE_REQ
def ThyoneI_CMD_UNICAST_DATA_EX : Nat := 0x07
def ThyoneI_CMD_UNICAST_DATA_EX_REQ : Nat := ThyoneI_CMD_UNICAST_DATA_EX ||| ThyoneI_CMD_TYPE_REQ
def ThyoneI_CMD_MULTICAST_DATA_EX : Nat := 0x08
def ThyoneI_CMD_MULTICAST_DATA_EX_REQ : Nat :=
  ThyoneI_CMD_MULTICAST_DATA_EX ||| ThyoneI_CMD_TYPE_REQ
def ThyoneI_CMD_SETCHANNEL : Nat := 0x09
def ThyoneI_CMD_SETCHANNEL_REQ : Nat := ThyoneI_CMD_SETCHANNEL ||| ThyoneI_CMD_TYPE_REQ
def ThyoneI_CMD_SETCHANNEL_CNF : Nat := ThyoneI_CMD_SETCHANNEL ||| ThyoneI_CMD_TYPE_CNF
def ThyoneI_CMD_GET : Nat := 0x10
def ThyoneI_CMD_GET_REQ : Nat := ThyoneI_CMD_GET ||| ThyoneI_CMD_TYPE_REQ
def ThyoneI_CMD_GET_CNF : Nat := ThyoneI_CMD_GET ||| ThyoneI_CMD_TYPE_CNF
def ThyoneI_CMD_SET : Nat := 0x11
def ThyoneI_CMD_SET_REQ : Nat := ThyoneI_CMD_SET ||| ThyoneI_CMD_TYPE_REQ
def ThyoneI_CMD_SET_CNF : Nat := ThyoneI_CMD_SET ||| ThyoneI_CMD_TYPE_CNF
def ThyoneI_CMD_FACTORYRESET : Nat := 0x1C
def ThyoneI_CMD_FACTORYRESET_REQ : Nat := ThyoneI_CMD_FACTORYRESET ||| ThyoneI_CMD_TYPE_REQ
def ThyoneI_CMD_FACTORYRESET_CNF : Nat := ThyoneI_CMD_FACTORYRESET ||| ThyoneI_CMD_TYPE_CNF
def ThyoneI_CMD_GPIO_LOCAL_SETCONFIG : Nat := 0x25
def ThyoneI_CMD_GPIO_LOCAL_SETCONFIG_REQ : Nat :=
  ThyoneI_CMD_GPIO_LOCAL_SETCONFIG ||| ThyoneI_CMD_TYPE_REQ
def ThyoneI_CMD_GPIO_LOCAL_SETCONFIG_CNF : Nat :=
  ThyoneI_CMD_GPIO_LOCAL_SETCONFIG ||| ThyoneI_CMD_TYPE_CNF
def ThyoneI_CMD_GPIO_LOCAL_GETCONFIG : Nat := 0x26
def ThyoneI_CMD_GPIO_LOCAL_GETCONFIG_REQ : Nat :=
  ThyoneI_CMD_GPIO_LOCAL_GETCONFIG ||| ThyoneI_CMD_TYPE_REQ
def ThyoneI_CMD_GPIO_LOCAL_GETCONFIG_CNF : Nat :=
  ThyoneI_CMD_GPIO_LOCAL_GETCONFIG ||| ThyoneI_CMD_TYPE_CNF
def ThyoneI_CMD_GPIO_LOCAL_WRITE : Nat := 0x27
def ThyoneI_CMD_GPIO_LOCAL_WRITE_REQ : Nat := ThyoneI_CMD_GPIO_LOCAL_WRITE ||| ThyoneI_CMD_TYPE_REQ
def ThyoneI_CMD_GPIO_LOCAL_WRITE_CNF : Nat := ThyoneI_CMD_GPIO_LOCAL_WRITE ||| ThyoneI_CMD_TYPE_CNF
def ThyoneI_CMD_GPIO_LOCAL_READ : Nat := 0x28
def ThyoneI_CMD_GPIO_LOCAL_READ_REQ : Nat := ThyoneI_CMD_GPIO_LOCAL_READ ||| ThyoneI_CMD_TYPE_REQ
def ThyoneI_CMD_GPIO_LOCAL_READ_CNF : Nat := ThyoneI_CMD_GPIO_LOCAL_READ ||| ThyoneI_CMD_TYPE_CNF
def ThyoneI_CMD_GPIO_REMOTE_SETCONFIG : Nat := 0x29
def ThyoneI_CMD_GPIO_REMOTE_SETCONFIG_REQ : Nat :=
  ThyoneI_CMD_GPIO_REMOTE_SETCONFIG ||| ThyoneI_CMD_TYPE_REQ
def ThyoneI_CMD_GPIO_REMOTE_SETCONFIG_CNF : Nat :=
  ThyoneI_CMD_GPIO_REMOTE_SETCONFIG ||| ThyoneI_CMD_TYPE_CNF
def ThyoneI_CMD_GPIO_REMOTE_GETCONFIG : Nat := 0x2A
def ThyoneI_CMD_GPIO_REMOTE_GETCONFIG_REQ : Nat :=
  ThyoneI_CMD_GPIO_REMOTE_GETCONFIG ||| ThyoneI_CMD_TYPE_REQ
def ThyoneI_CMD_GPIO_REMOTE_GETCONFIG_CNF : Nat :=
  ThyoneI_CMD_GPIO_REMOTE_GETCONFIG ||| ThyoneI_CMD_TYPE_CNF
def ThyoneI_CMD_GPIO_REMOTE_GETCONFIG_RSP : Nat :=
  ThyoneI_CMD_GPIO_REMOTE_GETCONFIG ||| ThyoneI_CMD_TYPE_RSP
def ThyoneI_CMD_GPIO_REMOTE_WRITE : Nat := 0x2B
def ThyoneI_CMD_GPIO_REMOTE_WRITE_REQ : Nat :=
  ThyoneI_CMD_GPIO_REMOTE_WRITE ||| ThyoneI_CMD_TYPE_REQ
def ThyoneI_CMD_GPIO_REMOTE_WRITE_CNF : Nat :=
  ThyoneI_CMD_GPIO_REMOTE_WRITE ||| ThyoneI_CMD_TYPE_CNF
def ThyoneI_CMD_GPIO_REMOTE_READ : Nat := 0x2C
def ThyoneI_CMD_GPIO_REMOTE_READ_REQ : Nat := ThyoneI_CMD_GPIO_REMOTE_READ ||| ThyoneI_CMD_TYPE_REQ
def ThyoneI_CMD_GPIO_REMOTE_READ_CNF : Nat := ThyoneI_CMD_GPIO_REMOTE_READ ||| ThyoneI_CMD_TYPE_CNF
def ThyoneI_CMD_GPIO_REMOTE_READ_RSP : Nat := ThyoneI_CMD_GPIO_REMOTE_READ ||| ThyoneI_CMD_TYPE_RSP

/-- A call of the user callback `RxCallback`: the index in `RxPacket` its first
argument points at, then `payload_length`, `sourceAddress` and the RSSI byte. -/
structure RxCallbackEvent where
  payload : Nat
  payload_length : Nat
  sourceAddress : Nat
  rssi : Nat
deriving DecidableEq, Repr

/-- The static variables of `ThyoneI.c`, followed by the logs of the embedding:
`RxCallback` tells whether the callback pointer is non-NULL, `handled` counts the
invocations of `HandleRxPacket`, `cbLog` lists the calls of `RxCallback`, `uartTx` the
byte strings handed to `WE_UART_Transmit` and `delayLog` the arguments of `WE_Delay`. -/
structure State where
  CMD_Array : Mem
  RxPacket : Mem
  cmdConfirmation_array : Nat → Confirmation
  checksum : Nat
  RxByteCounter : Nat
  BytesToReceive : Nat
  RxBuffer : Mem
  RxCallback : Bool
  handled : Nat
  cbLog : List RxCallbackEvent
  uartTx : List (List Nat)
  delayLog : List Int

/-- Constants and sizes that the code takes from `ThyoneI.h`, which is not part of the
sources at hand: the indices of two user settings, the enumerators of the pin functions
and the size of a control block. -/
structure Header where
  ThyoneI_USERSETTING_INDEX_UART_CONFIG : Nat
  ThyoneI_USERSETTING_INDEX_RF_CHANNEL : Nat
  ThyoneI_GPIO_IO_Disconnected : Nat
  ThyoneI_GPIO_IO_Input : Nat
  ThyoneI_GPIO_IO_Output : Nat
  ThyoneI_GPIO_IO_PWM : Nat
  sizeof_ThyoneI_GPIOControlBlock_t : Nat

/-- The enumerators of `ThyoneI_UartParity_t` that the code names. -/
inductive ThyoneI_UartParity_t
  | ThyoneI_UartParity_Even
  | ThyoneI_UartParity_None
deriving DecidableEq, Repr

/-- The member `value.pwm` of a configuration block. -/
structure ThyoneI_GPIO_PwmValue_t where
  period : Nat
  ratio : Nat

/-- The member `value` of a configuration block.  The code accesses `value.input`,
`value.output` and `value.pwm`, each only for blocks of the matching pin function; the
members are kept apart here. -/
structure ThyoneI_GPIOConfigValue where
  input : Nat
  output : Nat
  pwm : ThyoneI_GPIO_PwmValue_t

/-- The type `ThyoneI_GPIOConfigBlock_t`. -/
structure ThyoneI_GPIOConfigBlock_t where
  GPIO_ID : Nat
  function : Nat
  value : ThyoneI_GPIOConfigValue

/-- The member `value` of a control block. -/
structure ThyoneI_GPIOControlValue where
  output : Nat

/-- The type `ThyoneI_GPIOControlBlock_t`. -/
structure ThyoneI_GPIOControlBlock_t where
  GPIO_ID : Nat
  value : ThyoneI_GPIOControlValue

/-- The macro `CMD_ARRAY_SIZE()`, an `int` value. -/
def CMD_ARRAY_SIZE (CMD_Array : Mem) : Nat :=
  ((CMD_Array CMD_POSITION_LENGTH_LSB <<< 0) ||| (CMD_Array CMD_POSITION_LENGTH_MSB <<< 8))
    + LENGTH_CMD_OVERHEAD

/-! ## Thyone-I: static functions -/

/-- The commands of the first group of `case` labels of `HandleRxPacket`, confirmed
with `CMD_Status_NoStatus`. -/
def noStatusConfirmations : List Nat :=
  [ThyoneI_CMD_RESET_CNF, ThyoneI_CMD_GETSTATE_CNF, ThyoneI_CMD_START_IND,
   ThyoneI_CMD_GPIO_REMOTE_GETCONFIG_RSP, ThyoneI_CMD_GPIO_REMOTE_READ_RSP]

/-- The commands of the second group of `case` labels of `HandleRxPacket`, confirmed
with the status found in the first payload byte. -/
def statusConfirmations : List Nat :=
  [ThyoneI_CMD_DATA_CNF, ThyoneI_CMD_GET_CNF, ThyoneI_CMD_SET_CNF,
   ThyoneI_CMD_FACTORYRESET_CNF, ThyoneI_CMD_SLEEP_CNF, ThyoneI_CMD_GPIO_LOCAL_SETCONFIG_CNF,
   ThyoneI_CMD_GPIO_LOCAL_GETCONFIG_CNF, ThyoneI_CMD_GPIO_LOCAL_WRITE_CNF,
   ThyoneI_CMD_GPIO_LOCAL_READ_CNF, ThyoneI_CMD_GPIO_REMOTE_SETCONFIG_CNF,
   ThyoneI_CMD_GPIO_REMOTE_GETCONFIG_CNF, ThyoneI_CMD_GPIO_REMOTE_WRITE_CNF,
   ThyoneI_CMD_TXCOMPLETE_RSP]

/-- The `switch (RxPacket[CMD_POSITION_CMD])` of `HandleRxPacket`, run after the frame
was copied to `RxPacket`: the local `cmdConfirmation` and the updated statics. -/
def rxSwitch (s : State) : Confirmation × State :=
  let cmd := s.RxPacket CMD_POSITION_CMD
  let invalid : Confirmation := { cmd := CNFINVALID, status := CMD_Status_Invalid }
  if cmd ∈ noStatusConfirmations then
    ({ cmd := cmd, status := CMD_Status_NoStatus }, s)
  else if cmd ∈ statusConfirmations then
    ({ cmd := cmd, status := s.RxPacket CMD_POSITION_DATA }, s)
  else if cmd = ThyoneI_CMD_GPIO_REMOTE_READ_CNF then
    ({ cmd := cmd, status := CMD_Status_Invalid }, s)
  else if cmd = ThyoneI_CMD_DATA_IND then
    let payload_length :=
      (((s.RxPacket CMD_POSITION_LENGTH_LSB <<< 0) ||| (s.RxPacket CMD_POSITION_LENGTH_MSB <<< 8))
        + 65536 - 5) % 65536
    let sourceAddress := s.RxPacket CMD_POSITION_DATA
    let sourceAddress := ((sourceAddress <<< 8) + s.RxPacket (CMD_POSITION_DATA + 1)) % 2 ^ 32
    let sourceAddress := ((sourceAddress <<< 8) + s.RxPacket (CMD_POSITION_DATA + 2)) % 2 ^ 32
    let sourceAddress := ((sourceAddress <<< 8) + s.RxPacket (CMD_POSITION_DATA + 3)) % 2 ^ 32
    let ev : RxCallbackEvent :=
      { payload := CMD_POSITION_DATA + 5
        payload_length := payload_length
        sourceAddress := sourceAddress
        rssi := s.RxPacket (CMD_POSITION_DATA + 4) }
    (invalid, if s.RxCallback then { s with cbLog := s.cbLog ++ [ev] } else s)
  else
    (invalid, s)

/-- The function `HandleRxPacket`. -/
def HandleRxPacket (s : State) (pRxBuffer : Mem) : State :=
  let cmd_length :=
    (pRxBuffer CMD_POSITION_LENGTH_LSB + (pRxBuffer CMD_POSITION_LENGTH_MSB <<< 8)) % 65536
  let s1 := { s with
    RxPacket := memcpy s.RxPacket 0 pRxBuffer 0 (cmd_length + LENGTH_CMD_OVERHEAD)
    handled := s.handled + 1 }
  let r := rxSwitch s1
  { r.2 with cmdConfirmation_array :=
      storeConfirmation r.2.cmdConfirmation_array CMDCONFIRMATIONARRAY_LENGTH r.1 }

/-- The function `WE_UART_HandleRxByte` of the Thyone-I driver.  As in the Proteus-II
framer, the read at index `BytesToReceive - 1` with `BytesToReceive = 0` is outside the
buffer in C and is `RxBuffer[0]` here. -/
def WE_UART_HandleRxByte (s : State) (received_byte : Nat) : State :=
  let s := { s with RxBuffer := memWrite s.RxBuffer s.RxByteCounter received_byte }
  if s.RxByteCounter = 0 then
    if s.RxBuffer s.RxByteCounter = CMD_STX then
      { s with BytesToReceive := 0, RxByteCounter := 1 }
    else s
  else if s.RxByteCounter = 1 then
    { s with RxByteCounter := (s.RxByteCounter + 1) % 65536 }
  else if s.RxByteCounter = 2 then
    let c := (s.RxByteCounter + 1) % 65536
    { s with RxByteCounter := c, BytesToReceive := s.RxBuffer (c - 1) }
  else if s.RxByteCounter = 3 then
    let c := (s.RxByteCounter + 1) % 65536
    { s with
      RxByteCounter := c
      BytesToReceive :=
        (s.BytesToReceive + ((s.RxBuffer (c - 1) <<< 8) + LENGTH_CMD_OVERHEAD)) % 65536 }
  else
    let s := { s with RxByteCounter := (s.RxByteCounter + 1) % 65536 }
    if s.RxByteCounter = s.BytesToReceive then
      let s := { s with checksum := xorLoop s.RxBuffer (s.BytesToReceive - 1) }
      let s := if s.checksum = s.RxBuffer (s.BytesToReceive - 1)
        then HandleRxPacket s s.RxBuffer else s
      { s with RxByteCounter := 0, BytesToReceive := 0 }
    else s

/-- The bytes of one UART chunk go through the framer one by one. -/
def feed (s : State) (bytes : List Nat) : State :=
  bytes.foldl WE_UART_HandleRxByte s

/-- The call `WE_Delay(ms)`, during which the bytes `received` arrive. -/
def WE_Delay (ms : Int) (received : List Nat) (s : State) : State :=
  feed { s with delayLog := s.delayLog ++ [ms] } received

/-- The `while (1)` loop of `Wait4CNF`, with `remaining = max_count - count` delays
left (0 when `count >= max_count`) and the chunks `rx` received during the coming
delays (nothing is received once the list is used up). -/
def waitLoop (expectedCmdConfirmation expectedStatus : Nat) :
    Nat → List (List Nat) → State → Bool × State
  | remaining, rx, s =>
    match pollConfirmations s.cmdConfirmation_array CMDCONFIRMATIONARRAY_LENGTH
        expectedCmdConfirmation with
    | some status => (status == expectedStatus, s)
    | none =>
      match remaining with
      | 0 => (false, s)
      | k + 1 => waitLoop expectedCmdConfirmation expectedStatus k rx.tail
          (WE_Delay 5 rx.headI s)

/-- The opening `if (reset_confirmstate)` of `Wait4CNF`, with its reset loop. -/
def resetStep (reset_confirmstate : Bool) (s : State) : State :=
  if reset_confirmstate
    then { s with cmdConfirmation_array :=
      resetConfirmations s.cmdConfirmation_array CMDCONFIRMATIONARRAY_LENGTH }
    else s

/-- The state `k` delays into a wait during which the chunks `rx` are received: the
state that the poll number `k` (counted from 0) of `Wait4CNF` looks at. -/
def afterDelays : Nat → List (List Nat) → State → State
  | 0, _, s => s
  | k + 1, rx, s => afterDelays k rx.tail (WE_Delay 5 rx.headI s)

/-- The function `Wait4CNF`; `max_time_ms / time_step_ms` is the truncating division
of C. -/
def Wait4CNF (max_time_ms : Int) (expectedCmdConfirmation expectedStatus : Nat)
    (reset_confirmstate : Bool) (rx : List (List Nat)) (s : State) : Bool × State :=
  let time_step_ms : Int := 5
  let max_count : Int := Int.tdiv max_time_ms time_step_ms
  waitLoop expectedCmdConfirmation expectedStatus max_count.toNat rx
    (resetStep reset_confirmstate s)

/-- The function `FillChecksum`.  The loop counter is a `uint16_t` compared with the
`int` value `payload_length + 4`: should that exceed 65535 the loop never ends, which
is the result `none`. -/
def FillChecksum (pArray : Mem) (length : Nat) : Option (Bool × Mem) :=
  if length ≥ LENGTH_CMD_OVERHEAD ∧ pArray 0 = CMD_STX then
    let payload_length :=
      ((pArray CMD_POSITION_LENGTH_MSB <<< 8) % 65536 + pArray CMD_POSITION_LENGTH_LSB) % 65536
    if payload_length + LENGTH_CMD_OVERHEAD_WITHOUT_CRC ≤ 65535 then
      let checksum := xorLoop pArray (payload_length + LENGTH_CMD_OVERHEAD_WITHOUT_CRC)
      some (true, memWrite pArray (payload_length + LENGTH_CMD_OVERHEAD_WITHOUT_CRC) checksum)
    else none
  else some (false, pArray)

/-! ## Thyone-I: global functions -/

/-- The statics as zero-initialised at program start. -/
def initialState : State where
  CMD_Array := fun _ => 0
  RxPacket := fun _ => 0
  cmdConfirmation_array := fun _ => { cmd := 0, status := 0 }
  checksum := 0
  RxByteCounter := 0
  BytesToReceive := 0
  RxBuffer := fun _ => 0
  RxCallback := false
  handled := 0
  cbLog := []
  uartTx := []
  delayLog := []

/-- The steps shared by the request functions once `CMD_Array` is filled:
`FillChecksum(CMD_Array, CMD_ARRAY_SIZE())`, whose `length` parameter is a `uint16_t`,
then `WE_UART_Transmit(CMD_Array, CMD_ARRAY_SIZE())` and `Wait4CNF` with the timeout
`CMD_WAIT_TIME` and `reset_confirmstate = true`; `ret` stays `false` when the checksum
is not filled.  The result is `none` when `FillChecksum` does not return. -/
def sendRequest (expectedCmdConfirmation expectedStatus : Nat) (rx : List (List Nat))
    (s : State) : Option (Bool × State) :=
  match FillChecksum s.CMD_Array (CMD_ARRAY_SIZE s.CMD_Array % 65536) with
  | none => none
  | some (true, a) =>
    some (Wait4CNF CMD_WAIT_TIME expectedCmdConfirmation expectedStatus true rx
      { s with CMD_Array := a, uartTx := s.uartTx ++ [memBytes a (CMD_ARRAY_SIZE a)] })
  | some (false, a) => some (false, { s with CMD_Array := a })

/-- The function `ThyoneI_TransmitBroadcast`; `payloadP` is the memory the pointer
designates. -/
def ThyoneI_TransmitBroadcast (payloadP : Mem) (length : Nat) (rx : List (List Nat))
    (s : State) : Option (Bool × State) :=
  if length ≤ MAX_PAYLOAD_LENGTH then
    let a := memWrite s.CMD_Array CMD_POSITION_STX CMD_STX
    let a := memWrite a CMD_POSITION_CMD ThyoneI_CMD_BROADCAST_DATA_REQ
    let a := memWrite a CMD_POSITION_LENGTH_LSB ((length >>> 0) % 256)
    let a := memWrite a CMD_POSITION_LENGTH_MSB ((length >>> 8) % 256)
    let a := memcpy a CMD_POSITION_DATA payloadP 0 length
    sendRequest ThyoneI_CMD_TXCOMPLETE_RSP CMD_Status_Success rx { s with CMD_Array := a }
  else some (false, s)

/-- The function `ThyoneI_TransmitMulticast`. -/
def ThyoneI_TransmitMulticast (payloadP : Mem) (length : Nat) (rx : List (List Nat))
    (s : State) : Option (Bool × State) :=
  if length ≤ MAX_PAYLOAD_LENGTH then
    let a := memWrite s.CMD_Array CMD_POSITION_STX CMD_STX
    let a := memWrite a CMD_POSITION_CMD ThyoneI_CMD_MULTICAST_DATA_REQ
    let a := memWrite a CMD_POSITION_LENGTH_LSB ((length >>> 0) % 256)
    let a := memWrite a CMD_POSITION_LENGTH_MSB ((length >>> 8) % 256)
    let a := memcpy a CMD_POSITION_DATA payloadP 0 length
    sendRequest ThyoneI_CMD_TXCOMPLETE_RSP CMD_Status_Success rx { s with CMD_Array := a }
  else some (false, s)

/-- The function `ThyoneI_TransmitUnicast`. -/
def ThyoneI_TransmitUnicast (payloadP : Mem) (length : Nat) (rx : List (List Nat))
    (s : State) : Option (Bool × State) :=
  if length ≤ MAX_PAYLOAD_LENGTH then
    let a := memWrite s.CMD_Array CMD_POSITION_STX CMD_STX
    let a := memWrite a CMD_POSITION_CMD ThyoneI_CMD_UNICAST_DATA_REQ
    let a := memWrite a CMD_POSITION_LENGTH_LSB ((length >>> 0) % 256)
    let a := memWrite a CMD_POSITION_LENGTH_MSB ((length >>> 8) % 256)
    let a := memcpy a CMD_POSITION_DATA payloadP 0 length
    sendRequest ThyoneI_CMD_TXCOMPLETE_RSP CMD_Status_Success rx { s with CMD_Array := a }
  else some (false, s)

/-- The function `ThyoneI_TransmitUnicastExtended`; `address` is a `uint32_t`. -/
def ThyoneI_TransmitUnicastExtended (address : Nat) (payloadP : Mem) (length : Nat)
    (rx : List (List Nat)) (s : State) : Option (Bool × State) :=
  if length ≤ MAX_PAYLOAD_LENGTH_UNICAST_EX then
    let cmdLength := (length + 4) % 65536
    let a := memWrite s.CMD_Array CMD_POSITION_STX CMD_STX
    let a := memWrite a CMD_POSITION_CMD ThyoneI_CMD_UNICAST_DATA_EX_REQ
    let a := memWrite a CMD_POSITION_LENGTH_LSB ((cmdLength >>> 0) % 256)
    let a := memWrite a CMD_POSITION_LENGTH_MSB ((cmdLength >>> 8) % 256)
    let a := memcpy a CMD_POSITION_DATA (objBytes address) 0 4
    let a := memcpy a (CMD_POSITION_DATA + 4) payloadP 0 length
    sendRequest ThyoneI_CMD_TXCOMPLETE_RSP CMD_Status_Success rx { s with CMD_Array := a }
  else some (false, s)

/-- The function `ThyoneI_TransmitMulticastExtended`. -/
def ThyoneI_TransmitMulticastExtended (groupID : Nat) (payloadP : Mem) (length : Nat)
    (rx : List (List Nat)) (s : State) : Option (Bool × State) :=
  if length ≤ MAX_PAYLOAD_LENGTH_MULTICAST_EX then
    let cmdLength := (length + 1) % 65536
    let a := memWrite s.CMD_Array CMD_POSITION_STX CMD_STX
    let a := memWrite a CMD_POSITION_CMD ThyoneI_CMD_MULTICAST_DATA_EX_REQ
    let a := memWrite a CMD_POSITION_LENGTH_LSB ((cmdLength >>> 0) % 256)
    let a := memWrite a CMD_POSITION_LENGTH_MSB ((cmdLength >>> 8) % 256)
    let a := memWrite a CMD_POSITION_CMD groupID
    let a := memcpy a (CMD_POSITION_DATA + 1) payloadP 0 length
    sendRequest ThyoneI_CMD_TXCOMPLETE_RSP CMD_Status_Success rx { s with CMD_Array := a }
  else some (false, s)

/-- The function `ThyoneI_GetState`; `state` is the content of the output object
before the call, and the second component of the result its content afterwards. -/
def ThyoneI_GetState (state : Nat) (rx : List (List Nat)) (s : State) :
    Option (Bool × Nat × State) :=
  let a := memWrite s.CMD_Array CMD_POSITION_STX CMD_STX
  let a := memWrite a CMD_POSITION_CMD ThyoneI_CMD_GETSTATE_REQ
  let a := memWrite a CMD_POSITION_LENGTH_LSB 0
  let a := memWrite a CMD_POSITION_LENGTH_MSB 0
  match FillChecksum a (CMD_ARRAY_SIZE a % 65536) with
  | none => none
  | some (true, a) =>
    let r := Wait4CNF CMD_WAIT_TIME ThyoneI_CMD_GETSTATE_CNF CMD_Status_Success true rx
      { s with CMD_Array := a, uartTx := s.uartTx ++ [memBytes a (CMD_ARRAY_SIZE a)] }
    if r.1 then some (true, r.2.RxPacket (CMD_POSITION_DATA + 1), r.2)
    else some (false, state, r.2)
  | some (false, a) => some (false, state, { s with CMD_Array := a })

/-- The function `ThyoneI_Set`; `ValueP` is the memory the pointer designates and
`length` a `uint8_t`.  `CMD_Array` being an unbounded memory here, a `memcpy` past its
end is not seen. -/
def ThyoneI_Set (userSetting : Nat) (ValueP : Mem) (length : Nat) (rx : List (List Nat))
    (s : State) : Option (Bool × State) :=
  let a := memWrite s.CMD_Array CMD_POSITION_STX CMD_STX
  let a := memWrite a CMD_POSITION_CMD ThyoneI_CMD_SET_REQ
  let a := memWrite a CMD_POSITION_LENGTH_LSB ((1 + length) % 256)
  let a := memWrite a CMD_POSITION_LENGTH_MSB 0
  let a := memWrite a CMD_POSITION_DATA userSetting
  let a := memcpy a (CMD_POSITION_DATA + 1) ValueP 0 length
  sendRequest ThyoneI_CMD_SET_CNF CMD_Status_Success rx { s with CMD_Array := a }

/-- The function `ThyoneI_SetBaudrateIndex`; the local `baudrateIndex` is a `uint8_t`. -/
def ThyoneI_SetBaudrateIndex (hdr : Header) (baudrate : Nat) (parity : ThyoneI_UartParity_t)
    (flowcontrolEnable : Bool) (rx : List (List Nat)) (s : State) : Option (Bool × State) :=
  let baudrateIndex := baudrate % 256
  let baudrateIndex := if flowcontrolEnable then (baudrateIndex + 1) % 256 else baudrateIndex
  let baudrateIndex :=
    if .ThyoneI_UartParity_Even = parity then (baudrateIndex + 64) % 256 else baudrateIndex
  ThyoneI_Set hdr.ThyoneI_USERSETTING_INDEX_UART_CONFIG (listMem [baudrateIndex]) 1 rx s

/-- The function `ThyoneI_SetRFChannel`; `channel` is a `uint8_t`. -/
def ThyoneI_SetRFChannel (hdr : Header) (channel : Nat) (rx : List (List Nat)) (s : State) :
    Option (Bool × State) :=
  if channel < 38 then
    ThyoneI_Set hdr.ThyoneI_USERSETTING_INDEX_RF_CHANNEL (listMem [channel]) 1 rx s
  else some (false, s)

/-- What `ThyoneI_Get` leaves behind: its return value and the two output objects. -/
structure GetResult where
  ret : Bool
  ResponseP : Mem
  Response_Length : Nat

/-- The function `ThyoneI_Get`; `ResponseP` and `Response_Length` are the contents of
the two output objects before the call.  The result is `none` when `FillChecksum` does
not return, and when the length field of `RxPacket` is 0 after a successful wait, where
the C code calls `memcpy` with the size `(size_t) -1`. -/
def ThyoneI_Get (userSetting : Nat) (ResponseP : Mem) (Response_Length : Nat)
    (rx : List (List Nat)) (s : State) : Option (GetResult × State) :=
  let a := memWrite s.CMD_Array CMD_POSITION_STX CMD_STX
  let a := memWrite a CMD_POSITION_CMD ThyoneI_CMD_GET_REQ
  let a := memWrite a CMD_POSITION_LENGTH_LSB 1
  let a := memWrite a CMD_POSITION_LENGTH_MSB 0
  let a := memWrite a CMD_POSITION_DATA userSetting
  match FillChecksum a (CMD_ARRAY_SIZE a % 65536) with
  | none => none
  | some (true, a) =>
    let r := Wait4CNF CMD_WAIT_TIME ThyoneI_CMD_GET_CNF CMD_Status_Success true rx
      { s with CMD_Array := a, uartTx := s.uartTx ++ [memBytes a (CMD_ARRAY_SIZE a)] }
    if r.1 then
      let length := ((r.2.RxPacket CMD_POSITION_LENGTH_LSB <<< 0)
        + (r.2.RxPacket CMD_POSITION_LENGTH_MSB <<< 8)) % 65536
      if length = 0 then none
      else some ({ ret := true
                   ResponseP := memcpy ResponseP 0 r.2.RxPacket (CMD_POSITION_DATA + 1)
                     (length - 1)
                   Response_Length := (length - 1) % 65536 }, r.2)
    else some ({ ret := false, ResponseP := ResponseP, Response_Length := Response_Length },
      r.2)
  | some (false, a) =>
    some ({ ret := false, ResponseP := ResponseP, Response_Length := Response_Length },
      { s with CMD_Array := a })

/-- What `ThyoneI_GetBaudrateIndex` leaves behind: its return value and the three
output objects. -/
structure BaudrateResult where
  ret : Bool
  baudrate : Nat
  parity : ThyoneI_UartParity_t
  flowcontrolEnable : Bool
deriving DecidableEq, Repr

/-- The function `ThyoneI_GetBaudrateIndex`; `baudrate`, `parity` and
`flowcontrolEnable` are the contents of the output objects before the call, `uartIndex`
and `length` the indeterminate initial values of the two locals.  The local `uartIndex`
is a `uint8_t` and the memory that `ThyoneI_Get` writes to; bytes written behind it are
not seen here.  Neither subtraction wraps: `uartIndex` is odd at the first and at least
64 at the second. -/
def ThyoneI_GetBaudrateIndex (hdr : Header) (baudrate : Nat) (parity : ThyoneI_UartParity_t)
    (flowcontrolEnable : Bool) (uartIndex length : Nat) (rx : List (List Nat)) (s : State) :
    Option (BaudrateResult × State) :=
  match ThyoneI_Get hdr.ThyoneI_USERSETTING_INDEX_UART_CONFIG (listMem [uartIndex]) length
      rx s with
  | none => none
  | some (g, t) =>
    if g.ret then
      let uartIndex := g.ResponseP 0
      let flow := 0x01 = (uartIndex &&& 0x01)
      let uartIndex := if flow then uartIndex - 1 else uartIndex
      let par : ThyoneI_UartParity_t :=
        if uartIndex < 64 then .ThyoneI_UartParity_None else .ThyoneI_UartParity_Even
      let uartIndex := if uartIndex < 64 then uartIndex else uartIndex - 64
      some ({ ret := true, baudrate := uartIndex, parity := par,
              flowcontrolEnable := decide flow }, t)
    else some ({ ret := false, baudrate := baudrate, parity := parity,
                 flowcontrolEnable := flowcontrolEnable }, t)

/-- The body of the `for` loop of `ThyoneI_GPIOLocalSetConfig` for the block `c`: the
`switch (configP->function)`, with the `uint16_t` variable `length`. -/
def localSetConfigStep (hdr : Header) (c : ThyoneI_GPIOConfigBlock_t) (length : Nat) (a : Mem) :
    Nat × Mem :=
  if c.function = hdr.ThyoneI_GPIO_IO_Disconnected then
    let a := memWrite a (CMD_POSITION_DATA + length) 3
    let a := memWrite a (CMD_POSITION_DATA + length + 1) c.GPIO_ID
    let a := memWrite a (CMD_POSITION_DATA + length + 2) c.function
    let a := memWrite a (CMD_POSITION_DATA + length + 3) 0x00
    ((length + 4) % 65536, a)
  else if c.function = hdr.ThyoneI_GPIO_IO_Input then
    let a := memWrite a (CMD_POSITION_DATA + length) 3
    let a := memWrite a (CMD_POSITION_DATA + length + 1) c.GPIO_ID
    let a := memWrite a (CMD_POSITION_DATA + length + 2) c.function
    let a := memWrite a (CMD_POSITION_DATA + length + 3) c.value.input
    ((length + 4) % 65536, a)
  else if c.function = hdr.ThyoneI_GPIO_IO_Output then
    let a := memWrite a (CMD_POSITION_DATA + length) 3
    let a := memWrite a (CMD_POSITION_DATA + length + 1) c.GPIO_ID
    let a := memWrite a (CMD_POSITION_DATA + length + 2) c.function
    let a := memWrite a (CMD_POSITION_DATA + length + 3) c.value.output
    ((length + 4) % 65536, a)
  else if c.function = hdr.ThyoneI_GPIO_IO_PWM then
    let a := memWrite a (CMD_POSITION_DATA + length) 5
    let a := memWrite a (CMD_POSITION_DATA + length + 1) c.GPIO_ID
    let a := memWrite a (CMD_POSITION_DATA + length + 2) c.function
    let a := memcpy a (CMD_POSITION_DATA + length + 3) (objBytes c.value.pwm.period) 0 2
    let a := memWrite a (CMD_POSITION_DATA + length + 5) c.value.pwm.ratio
    ((length + 6) % 65536, a)
  else (length, a)

/-- The `for` loop of `ThyoneI_GPIOLocalSetConfig`, with `n` iterations left; `i` is
the index of the block `configP` points to. -/
def localSetConfigLoop (hdr : Header) (configP : Nat → ThyoneI_GPIOConfigBlock_t) :
    Nat → Nat → Nat → Mem → Nat × Mem
  | 0, _, length, a => (length, a)
  | n + 1, i, length, a =>
    let r := localSetConfigStep hdr (configP i) length a
    localSetConfigLoop hdr configP n (i + 1) r.1 r.2

/-- The function `ThyoneI_GPIOLocalSetConfig`. -/
def ThyoneI_GPIOLocalSetConfig (hdr : Header) (configP : Nat → ThyoneI_GPIOConfigBlock_t)
    (number_of_configs : Nat) (rx : List (List Nat)) (s : State) : Option (Bool × State) :=
  let r := localSetConfigLoop hdr configP number_of_configs 0 0 s.CMD_Array
  let length := r.1
  let a := memWrite r.2 CMD_POSITION_STX CMD_STX
  let a := memWrite a CMD_POSITION_CMD ThyoneI_CMD_GPIO_LOCAL_SETCONFIG_REQ
  let a := memWrite a CMD_POSITION_LENGTH_LSB (length &&& 0x00FF)
  let a := memWrite a CMD_POSITION_LENGTH_MSB ((length &&& 0xFF00) >>> 8)
  sendRequest ThyoneI_CMD_GPIO_LOCAL_SETCONFIG_CNF CMD_Status_Success rx
    { s with CMD_Array := a }

/-- The state of the parse loop of `ThyoneI_GPIOLocalGetConfig`: the output array, the
index of the entry `configP_running` points to, and `*number_of_configsP`. -/
structure GetConfigState where
  configP : Nat → ThyoneI_GPIOConfigBlock_t
  running : Nat
  number_of_configs : Nat

/-- The assignments common to the four cases of the parse `switch`, followed by
`configP_running++; *number_of_configsP += 1;` (a `uint16_t`); `value` is the new
content of the member `value` of the entry. -/
def storeConfig (RxPacket : Mem) (uartP : Nat) (g : GetConfigState)
    (value : ThyoneI_GPIOConfigValue) : GetConfigState :=
  let e : ThyoneI_GPIOConfigBlock_t :=
    { GPIO_ID := RxPacket (uartP + 1), function := RxPacket (uartP + 2), value := value }
  { configP := fun j => if j = g.running then e else g.configP j
    running := g.running + 1
    number_of_configs := (g.number_of_configs + 1) % 65536 }

/-- The body of the `while` loop of `ThyoneI_GPIOLocalGetConfig` up to the `switch`:
the block at `uartP` is stored if its length byte fits its pin function. -/
def localGetConfigStep (hdr : Header) (RxPacket : Mem) (uartP : Nat) (g : GetConfigState) :
    GetConfigState :=
  let old := (g.configP g.running).value
  if RxPacket (uartP + 2) = hdr.ThyoneI_GPIO_IO_Disconnected then
    if RxPacket uartP = 3 then storeConfig RxPacket uartP g old else g
  else if RxPacket (uartP + 2) = hdr.ThyoneI_GPIO_IO_Input then
    if RxPacket uartP = 3 then
      storeConfig RxPacket uartP g { old with input := RxPacket (uartP + 3) }
    else g
  else if RxPacket (uartP + 2) = hdr.ThyoneI_GPIO_IO_Output then
    if RxPacket uartP = 3 then
      storeConfig RxPacket uartP g { old with output := RxPacket (uartP + 3) }
    else g
  else if RxPacket (uartP + 2) = hdr.ThyoneI_GPIO_IO_PWM then
    if RxPacket uartP = 5 then
      storeConfig RxPacket uartP g
        { old with pwm := { period := le16 RxPacket (uartP + 3), ratio := RxPacket (uartP + 5) } }
    else g
  else g

/-- The `while (uartP < &RxPacket[CMD_POSITION_DATA + length])` loop of
`ThyoneI_GPIOLocalGetConfig`; `uartP` and `stop` are indices into `RxPacket`.  Every
iteration advances `uartP` by at least 1; the first argument bounds the number of
iterations, and the result is `none` if it is used up before the loop ends. -/
def localGetConfigLoop (hdr : Header) (RxPacket : Mem) (stop : Nat) :
    Nat → Nat → GetConfigState → Option GetConfigState
  | fuel, uartP, g =>
    if uartP < stop then
      match fuel with
      | 0 => none
      | f + 1 =>
        localGetConfigLoop hdr RxPacket stop f (uartP + (RxPacket uartP + 1))
          (localGetConfigStep hdr RxPacket uartP g)
    else some g

/-- The function `ThyoneI_GPIOLocalGetConfig`; `configP` and `number_of_configs` are
the contents of the two output objects before the call.  The parse loop gets `length`
as bound, more than the `length - 1` bytes it has to cross. -/
def ThyoneI_GPIOLocalGetConfig (hdr : Header) (configP : Nat → ThyoneI_GPIOConfigBlock_t)
    (number_of_configs : Nat) (rx : List (List Nat)) (s : State) :
    Option (Bool × (Nat → ThyoneI_GPIOConfigBlock_t) × Nat × State) :=
  let a := memWrite s.CMD_Array CMD_POSITION_STX CMD_STX
  let a := memWrite a CMD_POSITION_CMD ThyoneI_CMD_GPIO_LOCAL_GETCONFIG_REQ
  let a := memWrite a CMD_POSITION_LENGTH_LSB 0
  let a := memWrite a CMD_POSITION_LENGTH_MSB 0
  match FillChecksum a (CMD_ARRAY_SIZE a % 65536) with
  | none => none
  | some (true, a) =>
    let r := Wait4CNF CMD_WAIT_TIME ThyoneI_CMD_GPIO_LOCAL_GETCONFIG_CNF CMD_Status_Success
      true rx { s with CMD_Array := a, uartTx := s.uartTx ++ [memBytes a (CMD_ARRAY_SIZE a)] }
    if r.1 then
      let length := ((r.2.RxPacket CMD_POSITION_LENGTH_LSB <<< 0)
        + (r.2.RxPacket CMD_POSITION_LENGTH_MSB <<< 8)) % 65536
      match localGetConfigLoop hdr r.2.RxPacket (CMD_POSITION_DATA + length) length
          (CMD_POSITION_DATA + 1) { configP := configP, running := 0, number_of_configs := 0 } with
      | none => none
      | some g => some (true, g.configP, g.number_of_configs, r.2)
    else some (false, configP, number_of_configs, r.2)
  | some (false, a) => some (false, configP, number_of_configs, { s with CMD_Array := a })

/-- The `for` loop of `ThyoneI_GPIOLocalWrite`, with `n` iterations left; `i` is the
index of the block `controlP` points to, advanced by `controlP++`. -/
def localWriteLoop (controlP : Nat → ThyoneI_GPIOControlBlock_t) :
    Nat → Nat → Nat → Mem → Nat × Mem
  | 0, _, length, a => (length, a)
  | n + 1, i, length, a =>
    let a := memWrite a (CMD_POSITION_DATA + length) 2
    let a := memWrite a (CMD_POSITION_DATA + length + 1) (controlP i).GPIO_ID
    let a := memWrite a (CMD_POSITION_DATA + length + 2) (controlP i).value.output
    localWriteLoop controlP n (i + 1) ((length + 3) % 65536) a

/-- The function `ThyoneI_GPIOLocalWrite`. -/
def ThyoneI_GPIOLocalWrite (controlP : Nat → ThyoneI_GPIOControlBlock_t)
    (number_of_controls : Nat) (rx : List (List Nat)) (s : State) : Option (Bool × State) :=
  let r := localWriteLoop controlP number_of_controls 0 0 s.CMD_Array
  let length := r.1
  let a := memWrite r.2 CMD_POSITION_STX CMD_STX
  let a := memWrite a CMD_POSITION_CMD ThyoneI_CMD_GPIO_LOCAL_WRITE_REQ
  let a := memWrite a CMD_POSITION_LENGTH_LSB (length &&& 0x00FF)
  let a := memWrite a CMD_POSITION_LENGTH_MSB ((length &&& 0xFF00) >>> 8)
  sendRequest ThyoneI_CMD_GPIO_LOCAL_WRITE_CNF CMD_Status_Success rx { s with CMD_Array := a }

/-- The state of the parse loop of `ThyoneI_GPIOLocalRead`: the output array, the
index of the entry `controlP_running` points to, and `*number_of_controlsP`. -/
structure ReadState where
  controlP : Nat → ThyoneI_GPIOControlBlock_t
  running : Nat
  number_of_controls : Nat

/-- The body of the `while` loop of `ThyoneI_GPIOLocalRead` up to the update of `uartP`:
the `if (*uartP == 2)` with `*number_of_controlsP += 1` on a `uint16_t`. -/
def localReadStep (RxPacket : Mem) (uartP : Nat) (g : ReadState) : ReadState :=
  if RxPacket uartP = 2 then
    let e : ThyoneI_GPIOControlBlock_t := ⟨RxPacket (uartP + 1), ⟨RxPacket (uartP + 2)⟩⟩
    { controlP := fun j => if j = g.running then e else g.controlP j
      running := g.running + 1
      number_of_controls := (g.number_of_controls + 1) % 65536 }
  else g

/-- The `while (uartP < &RxPacket[CMD_POSITION_DATA + length])` loop of
`ThyoneI_GPIOLocalRead`; `uartP` and `stop` are indices into `RxPacket`.  The first
argument bounds the number of iterations, and the result is `none` if it is used up
before the loop ends. -/
def localReadLoop (RxPacket : Mem) (stop : Nat) : Nat → Nat → ReadState → Option ReadState
  | fuel, uartP, g =>
    if uartP < stop then
      match fuel with
      | 0 => none
      | f + 1 =>
        localReadLoop RxPacket stop f (uartP + (RxPacket uartP + 1))
          (localReadStep RxPacket uartP g)
    else some g

/-- The function `ThyoneI_GPIOLocalRead`; `amountGPIOToRead` is a `uint8_t`, `controlP`
and `number_of_controls` are the contents of the two output objects before the call.
The parse loop gets `length` as bound, more than the `length - 1` bytes it has to
cross. -/
def ThyoneI_GPIOLocalRead (GPIOToReadP : Mem) (amountGPIOToRead : Nat)
    (controlP : Nat → ThyoneI_GPIOControlBlock_t) (number_of_controls : Nat)
    (rx : List (List Nat)) (s : State) :
    Option (Bool × (Nat → ThyoneI_GPIOControlBlock_t) × Nat × State) :=
  let a := memWrite s.CMD_Array CMD_POSITION_STX CMD_STX
  let a := memWrite a CMD_POSITION_CMD ThyoneI_CMD_GPIO_LOCAL_READ_REQ
  let a := memWrite a CMD_POSITION_LENGTH_LSB ((amountGPIOToRead + 1) % 256)
  let a := memWrite a CMD_POSITION_LENGTH_MSB 0
  let a := memWrite a CMD_POSITION_DATA amountGPIOToRead
  let a := memcpy a (CMD_POSITION_DATA + 1) GPIOToReadP 0 amountGPIOToRead
  match FillChecksum a (CMD_ARRAY_SIZE a % 65536) with
  | none => none
  | some (true, a) =>
    let r := Wait4CNF CMD_WAIT_TIME ThyoneI_CMD_GPIO_LOCAL_READ_CNF CMD_Status_Success
      true rx { s with CMD_Array := a, uartTx := s.uartTx ++ [memBytes a (CMD_ARRAY_SIZE a)] }
    if r.1 then
      let length := ((r.2.RxPacket CMD_POSITION_LENGTH_LSB <<< 0)
        + (r.2.RxPacket CMD_POSITION_LENGTH_MSB <<< 8)) % 65536
      match localReadLoop r.2.RxPacket (CMD_POSITION_DATA + length) length
          (CMD_POSITION_DATA + 1)
          { controlP := controlP, running := 0, number_of_controls := 0 } with
      | none => none
      | some g => some (true, g.controlP, g.number_of_controls, r.2)
    else some (false, controlP, number_of_controls, r.2)
  | some (false, a) => some (false, controlP, number_of_controls, { s with CMD_Array := a })

/-- The `for` loop of `ThyoneI_GPIORemoteWrite`, with `n` iterations left; `i` is the
index of the block `controlP` points to, advanced by
`controlP += sizeof(ThyoneI_GPIOControlBlock_t)`, that is by as many blocks as a block
has bytes. -/
def remoteWriteLoop (hdr : Header) (controlP : Nat → ThyoneI_GPIOControlBlock_t) :
    Nat → Nat → Nat → Mem → Nat × Mem
  | 0, _, length, a => (length, a)
  | n + 1, i, length, a =>
    let a := memWrite a (CMD_POSITION_DATA + length) 2
    let a := memWrite a (CMD_POSITION_DATA + length + 1) (controlP i).GPIO_ID
    let a := memWrite a (CMD_POSITION_DATA + length + 2) (controlP i).value.output
    remoteWriteLoop hdr controlP n (i + hdr.sizeof_ThyoneI_GPIOControlBlock_t)
      ((length + 3) % 65536) a

/-- The function `ThyoneI_GPIORemoteWrite`; `destAddress` is a `uint32_t`.  The blocks
`controlP` designates are given for every index, also past the end of the caller's
array. -/
def ThyoneI_GPIORemoteWrite (hdr : Header) (destAddress : Nat)
    (controlP : Nat → ThyoneI_GPIOControlBlock_t) (number_of_controls : Nat)
    (rx : List (List Nat)) (s : State) : Option (Bool × State) :=
  let r := remoteWriteLoop hdr controlP number_of_controls 0 4 s.CMD_Array
  let length := r.1
  let a := memWrite r.2 CMD_POSITION_STX CMD_STX
  let a := memWrite a CMD_POSITION_CMD ThyoneI_CMD_GPIO_REMOTE_WRITE_REQ
  let a := memWrite a CMD_POSITION_LENGTH_LSB (length &&& 0x00FF)
  let a := memWrite a CMD_POSITION_LENGTH_MSB ((length &&& 0xFF00) >>> 8)
  let a := memcpy a CMD_POSITION_DATA (objBytes destAddress) 0 4
  sendRequest ThyoneI_CMD_GPIO_REMOTE_WRITE_CNF CMD_Status_Success rx { s with CMD_Array := a }

/-! ## Thyone-I: vocabulary of the properties -/

/-- The confirmation that the `switch` of `HandleRxPacket` derives from a frame. -/
def frameConfirmation (frame : Mem) : Confirmation :=
  if frame CMD_POSITION_CMD ∈ noStatusConfirmations then
    { cmd := frame CMD_POSITION_CMD, status := CMD_Status_NoStatus }
  else if frame CMD_POSITION_CMD ∈ statusConfirmations then
    { cmd := frame CMD_POSITION_CMD, status := frame CMD_POSITION_DATA }
  else if frame CMD_POSITION_CMD = ThyoneI_CMD_GPIO_REMOTE_READ_CNF then
    { cmd := frame CMD_POSITION_CMD, status := CMD_Status_Invalid }
  else { cmd := CNFINVALID, status := CMD_Status_Invalid }

/-- The confirmation array `b` is `a`, or `a` after one confirmation derived from a
frame was queued. -/
def Queued (a b : Nat → Confirmation) : Prop :=
  b = a ∨ ∃ frame, b = storeConfirmation a CMDCONFIRMATIONARRAY_LENGTH (frameConfirmation frame)

/-- What receiving one byte leaves alone: the transmit side and the delay log; the
confirmation array gets at most one confirmation. -/
def Received (s t : State) : Prop :=
  t.CMD_Array = s.CMD_Array ∧ t.uartTx = s.uartTx ∧ t.delayLog = s.delayLog ∧
    Queued s.cmdConfirmation_array t.cmdConfirmation_array

/-- The number of bytes the loop of `ThyoneI_GPIOLocalSetConfig` appends for the
block `c`. -/
def configSize (hdr : Header) (c : ThyoneI_GPIOConfigBlock_t) : Nat :=
  (localSetConfigStep hdr c 0 (fun _ => 0)).1

/-- The number of bytes the loop of `ThyoneI_GPIOLocalSetConfig` appends for the `n`
blocks from index `i` on, were `length` not to wrap. -/
def encodedSize (hdr : Header) (configP : Nat → ThyoneI_GPIOConfigBlock_t) : Nat → Nat → Nat
  | _, 0 => 0
  | i, n + 1 => configSize hdr (configP i) + encodedSize hdr configP (i + 1) n

/-- The pin function `f` is one of the four that both `switch` statements handle. -/
def KnownFunction (hdr : Header) (f : Nat) : Prop :=
  f = hdr.ThyoneI_GPIO_IO_Disconnected ∨ f = hdr.ThyoneI_GPIO_IO_Input ∨
    f = hdr.ThyoneI_GPIO_IO_Output ∨ f = hdr.ThyoneI_GPIO_IO_PWM

/-- The four enumerators of the pin function are different numbers, as the labels of a
`switch` have to be. -/
def DistinctFunctions (hdr : Header) : Prop :=
  hdr.ThyoneI_GPIO_IO_Disconnected ≠ hdr.ThyoneI_GPIO_IO_Input ∧
  hdr.ThyoneI_GPIO_IO_Disconnected ≠ hdr.ThyoneI_GPIO_IO_Output ∧
  hdr.ThyoneI_GPIO_IO_Disconnected ≠ hdr.ThyoneI_GPIO_IO_PWM ∧
  hdr.ThyoneI_GPIO_IO_Input ≠ hdr.ThyoneI_GPIO_IO_Output ∧
  hdr.ThyoneI_GPIO_IO_Input ≠ hdr.ThyoneI_GPIO_IO_PWM ∧
  hdr.ThyoneI_GPIO_IO_Output ≠ hdr.ThyoneI_GPIO_IO_PWM

/-- The block `e` has the pin and the function of the block `c` and, as far as the
function of `c` has one, its value: the input value of an input, the output value of an
output, period and ratio of a PWM pin. -/
def SameConfig (hdr : Header) (e c : ThyoneI_GPIOConfigBlock_t) : Prop :=
  e.GPIO_ID = c.GPIO_ID ∧ e.function = c.function ∧
  (c.function = hdr.ThyoneI_GPIO_IO_Input → e.value.input = c.value.input) ∧
  (c.function = hdr.ThyoneI_GPIO_IO_Output → e.value.output = c.value.output) ∧
  (c.function = hdr.ThyoneI_GPIO_IO_PWM →
    e.value.pwm.period = c.value.pwm.period ∧ e.value.pwm.ratio = c.value.pwm.ratio)

/-- Every slot holding `ThyoneI_CMD_GETSTATE_CNF` has the status `CMD_Status_NoStatus`. -/
def GetStateNoStatus (a : Nat → Confirmation) : Prop :=
  ∀ i, i < CMDCONFIRMATIONARRAY_LENGTH → (a i).cmd = ThyoneI_CMD_GETSTATE_CNF →
    (a i).status = CMD_Status_NoStatus

/-- The request `res` returned, changed no byte of `CMD_Array` at an index of
`MAX_CMD_LENGTH` or more, the size of the array, and handed exactly one frame to
`WE_UART_Transmit`, of `size` bytes, which the array can hold. -/
def FitsTransmitBuffer (s : State) (res : Option (Bool × State)) (size : Nat) : Prop :=
  ∃ r, res = some r ∧
    (∀ i, MAX_CMD_LENGTH ≤ i → r.2.CMD_Array i = s.CMD_Array i) ∧
    (∃ frame, r.2.uartTx = s.uartTx ++ [frame] ∧ frame.length = size) ∧
    size ≤ MAX_CMD_LENGTH

end ThyoneI

/-! # Properties

## Memory, checksum loop and scan loop -/

theorem memBytes_succ (m : Mem) (n : Nat) : memBytes m (n + 1) = memBytes m n ++ [m n] := by
  simp [memBytes, List.range_succ]

theorem memBytes_length (m : Mem) (n : Nat) : (memBytes m n).length = n := by
  simp [memBytes]

theorem xorLoop_congr {m w : Mem} {n : Nat} (h : ∀ i, i < n → m i = w i) :
    xorLoop m n = xorLoop w n := by
  induction n with
  | zero => rfl
  | succ k ih =>
    simp only [xorLoop]
    rw [ih (fun i hi => h i (by omega)), h k (by omega)]

theorem memcpy_zero (dst src : Mem) (d o : Nat) : memcpy dst d src o 0 = dst := by
  funext j
  simp [memcpy]

theorem memWrite_memcpy_grow (dst src : Mem) (k : Nat) :
    memWrite (memcpy dst 0 src 0 k) k (src k) = memcpy dst 0 src 0 (k + 1) := by
  funext j
  simp only [memWrite, memcpy, Nat.zero_le, true_and, Nat.zero_add, Nat.sub_zero]
  by_cases h : j = k
  · subst h; simp
  · by_cases h1 : j < k
    · have : j < k + 1 := by omega
      simp [h, h1, this]
    · have : ¬ j < k + 1 := by omega
      simp [h, h1, this]

theorem memcpy_prefix_apply (dst src : Mem) (k i : Nat) (h : i < k) :
    memcpy dst 0 src 0 k i = src i := by
  simp [memcpy, h]

namespace ProteusII

/-! ## Proteus-II: what `HandleRxPacket` and the framer touch -/

theorem SwitchShape.unchanged (s : State) : SwitchShape s s :=
  ⟨s.ProteusII_getDevicesP, s.bleState, s.cbLog, rfl⟩

theorem SwitchShape.callIf {s t : State} (h : SwitchShape s t) (r : Bool) (ev : CallbackEvent) :
    SwitchShape s (callIf r ev t) := by
  obtain ⟨g, b, l, rfl⟩ := h
  unfold ProteusII.callIf
  split
  · exact ⟨_, _, _, rfl⟩
  · exact ⟨_, _, _, rfl⟩

theorem SwitchShape.ite {s : State} {c : Prop} [Decidable c] {a b : Confirmation × State}
    (ha : SwitchShape s a.2) (hb : SwitchShape s b.2) :
    SwitchShape s (if c then a else b).2 := by
  split <;> assumption

theorem SwitchShape.ite_state {s : State} {c : Prop} [Decidable c] {a b : State}
    (ha : SwitchShape s a) (hb : SwitchShape s b) :
    SwitchShape s (if c then a else b) := by
  split <;> assumption

theorem rxSwitch_shape (hdr : Header) (s : State) : SwitchShape s (rxSwitch hdr s).2 := by
  unfold rxSwitch
  repeat' (first
    | exact SwitchShape.unchanged s
    | exact ⟨_, _, _, rfl⟩
    | apply SwitchShape.ite
    | apply SwitchShape.ite_state
    | apply SwitchShape.callIf
    | split)

theorem fst_ite_eq {α β : Type} {c : Prop} [Decidable c] {a b : α × β} {x : α}
    (ha : a.1 = x) (hb : b.1 = x) : (if c then a else b).1 = x := by
  split <;> assumption

/-- The confirmation computed by the `switch` depends on the frame in `rxPacket` only. -/
theorem rxSwitch_fst (hdr : Header) (s : State) :
    (rxSwitch hdr s).1 = frameConfirmation s.rxPacket := by
  unfold rxSwitch frameConfirmation
  dsimp only
  by_cases h1 : Frame.Cmd s.rxPacket = PROTEUSII_CMD_GETDEVICES_CNF
  · rw [if_pos h1, if_pos (Or.inl h1)]
    repeat' (first | rfl | split)
  · rw [if_neg h1]
    by_cases h2 : Frame.Cmd s.rxPacket ∈ statusConfirmations
    · rw [if_pos h2, if_pos (Or.inr h2)]
    · rw [if_neg h2, if_neg (not_or.mpr ⟨h1, h2⟩)]
      by_cases h3 : Frame.Cmd s.rxPacket = PROTEUSII_CMD_GETSTATE_CNF
      · rw [if_pos h3, if_pos h3]
      · rw [if_neg h3, if_neg h3]
        repeat' (first | rfl | apply fst_ite_eq)

/-- The whole effect of `HandleRxPacket` on the statics. -/
theorem HandleRxPacket_shape (hdr : Header) (s : State) (buf : Mem) :
    ∃ g b l, HandleRxPacket hdr s buf =
      { s with
        rxPacket := memcpy s.rxPacket 0 buf 0 (Frame.Length buf + LENGTH_CMD_OVERHEAD)
        handled := s.handled + 1
        ProteusII_getDevicesP := g
        bleState := b
        cbLog := l
        cmdConfirmationArray := storeConfirmation s.cmdConfirmationArray
          CMDCONFIRMATIONARRAY_LENGTH (frameConfirmation
            (memcpy s.rxPacket 0 buf 0 (Frame.Length buf + LENGTH_CMD_OVERHEAD))) } := by
  unfold HandleRxPacket
  dsimp only
  rw [rxSwitch_fst]
  obtain ⟨g, b, l, h⟩ := rxSwitch_shape hdr
    { s with
      rxPacket := memcpy s.rxPacket 0 buf 0 (Frame.Length buf + LENGTH_CMD_OVERHEAD)
      handled := s.handled + 1 }
  rw [h]
  exact ⟨g, b, l, rfl⟩

/-! ## Proteus-II: the framer, byte by byte -/

theorem step_idle_stx (hdr : Header) (s : State) (h : s.rxByteCounter = 0) :
    ProteusII_HandleRxByte hdr s CMD_STX =
      { s with rxBuffer := memWrite s.rxBuffer 0 CMD_STX, bytesToReceive := 0, rxByteCounter := 1 } := by
  unfold ProteusII_HandleRxByte
  simp [h, memWrite]

theorem step_idle_other (hdr : Header) (s : State) (b : Nat) (h : s.rxByteCounter = 0)
    (hb : b ≠ CMD_STX) :
    ProteusII_HandleRxByte hdr s b = { s with rxBuffer := memWrite s.rxBuffer 0 b } := by
  unfold ProteusII_HandleRxByte
  simp [h, memWrite, hb]

theorem step_cmd (hdr : Header) (s : State) (b : Nat) (h : s.rxByteCounter = 1) :
    ProteusII_HandleRxByte hdr s b =
      { s with rxBuffer := memWrite s.rxBuffer 1 b, rxByteCounter := 2 } := by
  unfold ProteusII_HandleRxByte
  simp [h]

theorem step_lsb (hdr : Header) (s : State) (b : Nat) (h : s.rxByteCounter = 2) :
    ProteusII_HandleRxByte hdr s b =
      { s with rxBuffer := memWrite s.rxBuffer 2 b, rxByteCounter := 3, bytesToReceive := b } := by
  unfold ProteusII_HandleRxByte
  simp [h, memWrite]

theorem step_msb (hdr : Header) (s : State) (b : Nat) (h : s.rxByteCounter = 3) :
    ProteusII_HandleRxByte hdr s b =
      { s with
        rxBuffer := memWrite s.rxBuffer 3 b
        rxByteCounter := 4
        bytesToReceive := (s.bytesToReceive + ((b <<< 8) + LENGTH_CMD_OVERHEAD)) % 65536 } := by
  unfold ProteusII_HandleRxByte
  simp [h, memWrite]

theorem step_data (hdr : Header) (s : State) (b : Nat) (h : 4 ≤ s.rxByteCounter)
    (hne : (s.rxByteCounter + 1) % 65536 ≠ s.bytesToReceive) :
    ProteusII_HandleRxByte hdr s b =
      { s with
        rxBuffer := memWrite s.rxBuffer s.rxByteCounter b
        rxByteCounter := (s.rxByteCounter + 1) % 65536 } := by
  unfold ProteusII_HandleRxByte
  have h0 : s.rxByteCounter ≠ 0 := by omega
  have h1 : s.rxByteCounter ≠ 1 := by omega
  have h2 : s.rxByteCounter ≠ 2 := by omega
  have h3 : s.rxByteCounter ≠ 3 := by omega
  simp [h0, h1, h2, h3, hne]

theorem step_last (hdr : Header) (s : State) (b : Nat) (h : 4 ≤ s.rxByteCounter)
    (heq : (s.rxByteCounter + 1) % 65536 = s.bytesToReceive) :
    ProteusII_HandleRxByte hdr s b =
      let buf := memWrite s.rxBuffer s.rxByteCounter b
      let t : State :=
        { s with
          rxBuffer := buf
          rxByteCounter := s.bytesToReceive
          checksum := xorLoop buf (s.bytesToReceive - 1) }
      { (if xorLoop buf (s.bytesToReceive - 1) = buf (s.bytesToReceive - 1)
          then HandleRxPacket hdr t buf else t) with
        rxByteCounter := 0, bytesToReceive := 0 } := by
  unfold ProteusII_HandleRxByte
  have h0 : s.rxByteCounter ≠ 0 := by omega
  have h1 : s.rxByteCounter ≠ 1 := by omega
  have h2 : s.rxByteCounter ≠ 2 := by omega
  have h3 : s.rxByteCounter ≠ 3 := by omega
  simp [h0, h1, h2, h3, heq]

end ProteusII

namespace ProteusII

theorem feed_append (hdr : Header) (s : State) (a b : List Nat) :
    feed hdr s (a ++ b) = feed hdr (feed hdr s a) b := by
  simp [feed, List.foldl_append]

theorem feed_cons (hdr : Header) (s : State) (b : Nat) (bs : List Nat) :
    feed hdr s (b :: bs) = feed hdr (ProteusII_HandleRxByte hdr s b) bs := rfl

theorem feed_nil (hdr : Header) (s : State) : feed hdr s [] = s := rfl

theorem feed_header (hdr : Header) (s : State) (f : Mem) (hs : s.rxByteCounter = 0)
    (hf : f 0 = CMD_STX) :
    feed hdr s (memBytes f 4) =
      { s with
        rxBuffer := memcpy s.rxBuffer 0 f 0 4
        rxByteCounter := 4
        bytesToReceive := announcedSize f } := by
  have e : memBytes f 4 = [CMD_STX, f 1, f 2, f 3] := by
    simp [memBytes, List.range_succ, hf]
  rw [e, feed_cons, step_idle_stx hdr s hs, feed_cons, step_cmd _ _ _ rfl, feed_cons,
    step_lsb _ _ _ rfl, feed_cons, step_msb _ _ _ rfl, feed_nil]
  simp only [announcedSize]
  congr 1
  rw [← memWrite_memcpy_grow, ← memWrite_memcpy_grow, ← memWrite_memcpy_grow,
    ← memWrite_memcpy_grow, memcpy_zero, hf]

theorem feed_upto (hdr : Header) (s : State) (f : Mem) (hs : s.rxByteCounter = 0)
    (hf : f 0 = CMD_STX) (j : Nat) (h4 : 4 ≤ j) (hj : j < announcedSize f) :
    feed hdr s (memBytes f j) =
      { s with
        rxBuffer := memcpy s.rxBuffer 0 f 0 j
        rxByteCounter := j
        bytesToReceive := announcedSize f } := by
  induction j, h4 using Nat.le_induction with
  | base => exact feed_header hdr s f hs hf
  | succ k hk ih =>
    have hB : announcedSize f < 65536 := Nat.mod_lt _ (by decide)
    rw [memBytes_succ, feed_append, ih (by omega)]
    rw [feed_cons, feed_nil, step_data _ _ _ hk (by show (k + 1) % 65536 ≠ announcedSize f; omega)]
    simp only [memWrite_memcpy_grow]
    congr 1
    show (k + 1) % 65536 = k + 1
    omega

end ProteusII

namespace ProteusII

/-- Before the last byte of a frame only the framer variables change. -/
theorem feed_short (hdr : Header) (s : State) (f : Mem) (hs : s.rxByteCounter = 0)
    (hf : f 0 = CMD_STX) (k : Nat) (hk : k < announcedSize f ∨ k < 5) :
    ∃ buf c b, feed hdr s (memBytes f k) =
      { s with rxBuffer := buf, rxByteCounter := c, bytesToReceive := b } := by
  by_cases h4 : 4 ≤ k
  · have hk1 : k < announcedSize f ∨ k = 4 := by omega
    rcases hk1 with hk1 | hk1
    · exact ⟨_, _, _, feed_upto hdr s f hs hf k h4 hk1⟩
    · subst hk1
      exact ⟨_, _, _, feed_header hdr s f hs hf⟩
  · have hk3 : k = 0 ∨ k = 1 ∨ k = 2 ∨ k = 3 := by omega
    rcases hk3 with rfl | rfl | rfl | rfl
    · exact ⟨s.rxBuffer, s.rxByteCounter, s.bytesToReceive, rfl⟩
    · have e : memBytes f 1 = [CMD_STX] := by simp [memBytes, List.range_succ, hf]
      rw [e, feed_cons, step_idle_stx hdr s hs, feed_nil]
      exact ⟨_, _, _, rfl⟩
    · have e : memBytes f 2 = [CMD_STX, f 1] := by simp [memBytes, List.range_succ, hf]
      rw [e, feed_cons, step_idle_stx hdr s hs, feed_cons, step_cmd _ _ _ rfl, feed_nil]
      exact ⟨_, _, _, rfl⟩
    · have e : memBytes f 3 = [CMD_STX, f 1, f 2] := by simp [memBytes, List.range_succ, hf]
      rw [e, feed_cons, step_idle_stx hdr s hs, feed_cons, step_cmd _ _ _ rfl, feed_cons,
        step_lsb _ _ _ rfl, feed_nil]
      exact ⟨_, _, _, rfl⟩

/-- The state after the last byte of a frame of the announced size: the checksum is
compared and, when it is right, `HandleRxPacket` runs on the buffered frame. -/
theorem feed_frame (hdr : Header) (s : State) (f : Mem) (hs : s.rxByteCounter = 0)
    (hf : f 0 = CMD_STX) (h5 : 5 ≤ announcedSize f) :
    feed hdr s (memBytes f (announcedSize f)) =
      let buf := memcpy s.rxBuffer 0 f 0 (announcedSize f)
      let t : State :=
        { s with
          rxBuffer := buf
          rxByteCounter := announcedSize f
          bytesToReceive := announcedSize f
          checksum := xorLoop f (announcedSize f - 1) }
      { (if xorLoop f (announcedSize f - 1) = f (announcedSize f - 1)
          then HandleRxPacket hdr t buf else t) with
        rxByteCounter := 0, bytesToReceive := 0 } := by
  have hB : announcedSize f < 65536 := Nat.mod_lt _ (by decide)
  obtain ⟨j, hj⟩ : ∃ j, announcedSize f = j + 1 := ⟨announcedSize f - 1, by omega⟩
  have hx : xorLoop (memcpy s.rxBuffer 0 f 0 (j + 1)) j = xorLoop f j :=
    xorLoop_congr (fun i hi => memcpy_prefix_apply _ _ _ _ (by omega))
  have hl : memcpy s.rxBuffer 0 f 0 (j + 1) j = f j := memcpy_prefix_apply _ _ _ _ (by omega)
  rw [hj, memBytes_succ, feed_append, feed_upto hdr s f hs hf j (by omega) (by omega),
    feed_cons, feed_nil, step_last _ _ _ (by show 4 ≤ j; omega)
      (by show (j + 1) % 65536 = announcedSize f; omega)]
  simp only [memWrite_memcpy_grow, hj, Nat.add_sub_cancel, hx, hl]

end ProteusII

theorem memBytes_take (m : Mem) (n k : Nat) (h : k ≤ n) :
    (memBytes m n).take k = memBytes m k := by
  simp [memBytes, ← List.map_take, List.take_range, Nat.min_eq_left h]

namespace ProteusII

theorem frameMem_stx (c : Nat) (p : List Nat) : frameMem c p 0 = CMD_STX := by
  simp [frameMem, memcpy, memWrite, Frame.setLength]

theorem frameMem_cmd (c : Nat) (p : List Nat) : frameMem c p 1 = c := by
  simp [frameMem, memcpy, memWrite, Frame.setLength]

theorem frameMem_lsb (c : Nat) (p : List Nat) : frameMem c p 2 = p.length % 256 := by
  simp [frameMem, memcpy, memWrite, Frame.setLength]

theorem frameMem_msb (c : Nat) (p : List Nat) : frameMem c p 3 = p.length / 256 % 256 := by
  simp [frameMem, memcpy, memWrite, Frame.setLength]

theorem frameMem_data (c : Nat) (p : List Nat) (j : Nat) (h : j < p.length) :
    frameMem c p (4 + j) = p.getD j 0 := by
  simp [frameMem, memcpy, memWrite, Frame.setLength, listMem, h]

theorem frameMem_length (c : Nat) (p : List Nat) (h : p.length < 65536) :
    Frame.Length (frameMem c p) = p.length := by
  show frameMem c p 2 + 256 * frameMem c p 3 = p.length
  rw [frameMem_lsb, frameMem_msb]
  omega

theorem FillChecksum_frameMem (c : Nat) (p : List Nat) (h : p.length + 5 < 65536) :
    FillChecksum (frameMem c p) = some (true, memWrite (frameMem c p) (4 + p.length)
      (xorLoop (frameMem c p) (p.length + 4))) := by
  unfold FillChecksum
  simp only [frameMem_length c p (by omega), Frame.Stx, frameMem_stx,
    LENGTH_CMD_OVERHEAD_WITHOUT_CRC, LENGTH_CMD_OVERHEAD]
  simp
  omega

end ProteusII

namespace ProteusII

theorem announcedSize_eq (f : Mem) :
    announcedSize f = (Frame.Length f + LENGTH_CMD_OVERHEAD) % 65536 := by
  show (f 2 + ((f 3 <<< 8) + LENGTH_CMD_OVERHEAD)) % 65536
    = (f 2 + 256 * f 3 + LENGTH_CMD_OVERHEAD) % 65536
  rw [Nat.shiftLeft_eq]
  congr 1
  omega

theorem frameConfirmation_congr {f g : Mem} (h1 : f 1 = g 1) (h4 : f 4 = g 4) :
    frameConfirmation f = frameConfirmation g := by
  unfold frameConfirmation Frame.Cmd Frame.Data
  rw [h1, show f (4 + 0) = g (4 + 0) from h4]

/-- A frame of `Length + 5` bytes with a right checksum, received from the idle state:
the frame is copied to `rxPacket`, its confirmation is queued, the framer is idle
again; besides, only the statics the `switch` may touch can differ. -/
theorem feed_valid_frame (hdr : Header) (s : State) (f : Mem) (hs : s.rxByteCounter = 0)
    (hf : f 0 = CMD_STX) (hlen : Frame.Length f + 5 < 65536)
    (hck : xorLoop f (Frame.Length f + 4) = f (Frame.Length f + 4)) :
    ∃ g b l, feed hdr s (memBytes f (Frame.Length f + 5)) =
      { s with
        rxBuffer := memcpy s.rxBuffer 0 f 0 (Frame.Length f + 5)
        checksum := xorLoop f (Frame.Length f + 4)
        rxByteCounter := 0
        bytesToReceive := 0
        rxPacket := memcpy s.rxPacket 0 f 0 (Frame.Length f + 5)
        handled := s.handled + 1
        ProteusII_getDevicesP := g
        bleState := b
        cbLog := l
        cmdConfirmationArray := storeConfirmation s.cmdConfirmationArray
          CMDCONFIRMATIONARRAY_LENGTH (frameConfirmation f) } := by
  have hB : announcedSize f = Frame.Length f + 5 := by
    rw [announcedSize_eq]; simp only [LENGTH_CMD_OVERHEAD]; omega
  have h := feed_frame hdr s f hs hf (by omega)
  rw [hB] at h
  simp only [Nat.add_sub_cancel, show Frame.Length f + 5 - 1 = Frame.Length f + 4 from rfl,
    hck, if_true] at h
  rw [h]
  have hL : Frame.Length (memcpy s.rxBuffer 0 f 0 (Frame.Length f + 5)) = Frame.Length f := by
    show memcpy s.rxBuffer 0 f 0 (Frame.Length f + 5) 2
      + 256 * memcpy s.rxBuffer 0 f 0 (Frame.Length f + 5) 3 = f 2 + 256 * f 3
    rw [memcpy_prefix_apply _ _ _ _ (by omega), memcpy_prefix_apply _ _ _ _ (by omega)]
  have hcp : ∀ d : Mem, memcpy d 0 (memcpy s.rxBuffer 0 f 0 (Frame.Length f + 5)) 0
      (Frame.Length f + 5) = memcpy d 0 f 0 (Frame.Length f + 5) := by
    intro d
    funext i
    simp only [memcpy, Nat.zero_le, true_and, Nat.zero_add, Nat.sub_zero]
    split <;> simp [*]
  obtain ⟨g, b, l, hh⟩ := HandleRxPacket_shape hdr
    { s with
      rxBuffer := memcpy s.rxBuffer 0 f 0 (Frame.Length f + 5)
      rxByteCounter := Frame.Length f + 5
      bytesToReceive := Frame.Length f + 5
      checksum := f (Frame.Length f + 4) }
    (memcpy s.rxBuffer 0 f 0 (Frame.Length f + 5))
  rw [hh]
  simp only [hL, LENGTH_CMD_OVERHEAD, hcp]
  rw [frameConfirmation_congr (f := memcpy s.rxPacket 0 f 0 (Frame.Length f + 5)) (g := f)
    (memcpy_prefix_apply _ _ _ _ (by omega)) (memcpy_prefix_apply _ _ _ _ (by omega)), hck]
  exact ⟨g, b, l, rfl⟩

end ProteusII

namespace ProteusII

/-- What `encodeFrame` yields for a payload that fits a `uint16_t` frame size. -/
theorem encodeFrame_spec (c : Nat) (p : List Nat) (h : p.length + 5 < 65536) :
    ∃ f : Mem, encodeFrame c p = some (memBytes f (p.length + 5)) ∧ f 0 = CMD_STX ∧ f 1 = c ∧
      Frame.Length f = p.length ∧ (∀ j, j < p.length → f (4 + j) = p.getD j 0) ∧
      xorLoop f (p.length + 4) = f (p.length + 4) := by
  have hne : ∀ i, i ≠ 4 + p.length →
      memWrite (frameMem c p) (4 + p.length) (xorLoop (frameMem c p) (p.length + 4)) i
        = frameMem c p i := by
    intro i hi
    simp [memWrite, hi]
  have hL : Frame.Length (memWrite (frameMem c p) (4 + p.length)
      (xorLoop (frameMem c p) (p.length + 4))) = p.length := by
    have e := frameMem_length c p (by omega)
    show memWrite (frameMem c p) (4 + p.length) (xorLoop (frameMem c p) (p.length + 4)) 2
      + 256 * memWrite (frameMem c p) (4 + p.length) (xorLoop (frameMem c p) (p.length + 4)) 3
      = p.length
    rw [hne 2 (by omega), hne 3 (by omega)]
    exact e
  refine ⟨memWrite (frameMem c p) (4 + p.length) (xorLoop (frameMem c p) (p.length + 4)),
    ?_, ?_, ?_, hL, ?_, ?_⟩
  · unfold encodeFrame
    rw [FillChecksum_frameMem c p h]
    simp only [hL, LENGTH_CMD_OVERHEAD]
  · rw [hne 0 (by omega)]; exact frameMem_stx c p
  · rw [hne 1 (by omega)]; exact frameMem_cmd c p
  · intro j hj
    rw [hne (4 + j) (by omega)]
    exact frameMem_data c p j hj
  · rw [xorLoop_congr (w := frameMem c p) (fun i hi => hne i (by omega))]
    simp [memWrite, Nat.add_comm]

end ProteusII

namespace ProteusII

/-! ## Proteus-II: claims on the framer -/

/-- Claim C1. Encode/decode round trip: for every command `c` and payload `p` of length
`n ≤ PROTEUSII_MAX_PAYLOAD_LENGTH` (the frame size `PROTEUSII_MAX_PAYLOAD_LENGTH + 5`
fitting a `uint16_t`), the frame with `Stx = 0x02`, `Cmd = c`, `Length = n`, `Data = p`
completed by `FillChecksum` has `n + 5` bytes; fed byte by byte to
`ProteusII_HandleRxByte` from any idle state, `HandleRxPacket` is not invoked before
the last byte and is invoked once on it, `rxPacket` then holds `Cmd = c`, `Length = n`
and the payload `p`, and the framer is idle again. -/
theorem roundtrip_encode_decode (hdr : Header)
    (hmax : hdr.PROTEUSII_MAX_PAYLOAD_LENGTH + 5 < 65536)
    (s : State) (hs : s.rxByteCounter = 0) (c : Nat) (p : List Nat)
    (hp : p.length ≤ hdr.PROTEUSII_MAX_PAYLOAD_LENGTH) :
    ∃ bytes, encodeFrame c p = some bytes ∧ bytes.length = p.length + 5 ∧
      (∀ k, k < p.length + 5 → (feed hdr s (bytes.take k)).handled = s.handled) ∧
      (feed hdr s bytes).handled = s.handled + 1 ∧
      Frame.Cmd (feed hdr s bytes).rxPacket = c ∧
      Frame.Length (feed hdr s bytes).rxPacket = p.length ∧
      (∀ j, j < p.length → Frame.Data (feed hdr s bytes).rxPacket j = p.getD j 0) ∧
      (feed hdr s bytes).rxByteCounter = 0 ∧ (feed hdr s bytes).bytesToReceive = 0 := by
  obtain ⟨f, he, h0, h1, hL, hd, hck⟩ := encodeFrame_spec c p (by omega)
  have hB : announcedSize f = p.length + 5 := by
    rw [announcedSize_eq, hL]; simp only [LENGTH_CMD_OVERHEAD]; omega
  obtain ⟨g, b, l, e⟩ := feed_valid_frame hdr s f hs h0 (by rw [hL]; omega)
    (by rw [hL]; exact hck)
  rw [hL] at e
  refine ⟨memBytes f (p.length + 5), he, memBytes_length _ _, ?_, ?_, ?_, ?_, ?_, ?_, ?_⟩
  · intro k hk
    rw [memBytes_take _ _ _ (by omega)]
    obtain ⟨buf, c1, b1, e1⟩ := feed_short hdr s f hs h0 k (Or.inl (by omega))
    rw [e1]
  · rw [e]
  · rw [e]
    show memcpy s.rxPacket 0 f 0 (p.length + 5) 1 = c
    rw [memcpy_prefix_apply _ _ _ _ (by omega), h1]
  · rw [e]
    show memcpy s.rxPacket 0 f 0 (p.length + 5) 2
      + 256 * memcpy s.rxPacket 0 f 0 (p.length + 5) 3 = p.length
    rw [memcpy_prefix_apply _ _ _ _ (by omega), memcpy_prefix_apply _ _ _ _ (by omega)]
    exact hL
  · intro j hj
    rw [e]
    show memcpy s.rxPacket 0 f 0 (p.length + 5) (4 + j) = p.getD j 0
    rw [memcpy_prefix_apply _ _ _ _ (by omega), hd j hj]
  · rw [e]
  · rw [e]

/-- Claim C1 at the frame `02 50 02 00 00 07 cs` received by the freshly initialised
driver, with `PROTEUSII_MAX_PAYLOAD_LENGTH = 243`. -/
theorem roundtrip_encode_decode_witness :
    (243 + 5 < 65536 ∧ initialState.rxByteCounter = 0 ∧ [0, 7].length ≤ 243) ∧
    ∃ bytes, encodeFrame 0x50 [0, 7] = some bytes ∧ bytes.length = [0, 7].length + 5 ∧
      (∀ k, k < [0, 7].length + 5 →
        (feed ⟨243, 10, 19, 32⟩ initialState (bytes.take k)).handled = initialState.handled) ∧
      (feed ⟨243, 10, 19, 32⟩ initialState bytes).handled = initialState.handled + 1 ∧
      Frame.Cmd (feed ⟨243, 10, 19, 32⟩ initialState bytes).rxPacket = 0x50 ∧
      Frame.Length (feed ⟨243, 10, 19, 32⟩ initialState bytes).rxPacket = [0, 7].length ∧
      (∀ j, j < [0, 7].length →
        Frame.Data (feed ⟨243, 10, 19, 32⟩ initialState bytes).rxPacket j = [0, 7].getD j 0) ∧
      (feed ⟨243, 10, 19, 32⟩ initialState bytes).rxByteCounter = 0 ∧
      (feed ⟨243, 10, 19, 32⟩ initialState bytes).bytesToReceive = 0 :=
  ⟨⟨by decide, rfl, by decide⟩,
    roundtrip_encode_decode ⟨243, 10, 19, 32⟩ (by decide) initialState rfl 0x50 [0, 7]
      (by decide)⟩

end ProteusII

theorem memBytes_listMem (l : List Nat) : memBytes (listMem l) l.length = l := by
  apply List.ext_getElem
  · simp [memBytes]
  · intro i h1 h2
    simp [memBytes, listMem, List.getElem?_eq_getElem h2]

theorem xorLoop_listMem (l : List Nat) (k : Nat) (h : k ≤ l.length) :
    xorLoop (listMem l) k = (l.take k).foldl (fun a b => a ^^^ b) 0 := by
  induction k with
  | zero => simp [xorLoop]
  | succ j ih =>
    have hj : j < l.length := by omega
    rw [xorLoop, ih (by omega), List.take_succ, List.foldl_append]
    simp [listMem, List.getD_eq_getElem _ _ hj, List.getElem?_eq_getElem hj]

theorem memBytes_cons (m : Mem) (n : Nat) :
    memBytes m (n + 1) = m 0 :: memBytes (fun i => m (i + 1)) n := by
  simp [memBytes, List.range_succ_eq_map, List.map_map, Function.comp_def]

namespace ProteusII

/-- Claim C4. Checksum verification: a byte sequence that starts with `0x02` in the
idle state and has the length its length field announces (payload length at most
`PROTEUSII_MAX_PAYLOAD_LENGTH`), but whose last byte differs from the XOR of all
preceding bytes, never makes `ProteusII_HandleRxByte` invoke `HandleRxPacket`: the
confirmation array, `rxPacket`, the driver state and the log of user callbacks are
unchanged and the framer ends idle. -/
theorem bad_checksum_dropped (hdr : Header)
    (hmax : hdr.PROTEUSII_MAX_PAYLOAD_LENGTH + 5 < 65536)
    (s : State) (hs : s.rxByteCounter = 0) (bytes : List Nat)
    (hstx : bytes.getD 0 0 = 0x02)
    (hL : bytes.getD 2 0 + 256 * bytes.getD 3 0 ≤ hdr.PROTEUSII_MAX_PAYLOAD_LENGTH)
    (hlen : bytes.length = bytes.getD 2 0 + 256 * bytes.getD 3 0 + 5)
    (hck : bytes.getD (bytes.length - 1) 0
      ≠ (bytes.take (bytes.length - 1)).foldl (fun a b => a ^^^ b) 0) :
    (∀ k, k ≤ bytes.length → (feed hdr s (bytes.take k)).handled = s.handled) ∧
    (feed hdr s bytes).cmdConfirmationArray = s.cmdConfirmationArray ∧
    (feed hdr s bytes).rxPacket = s.rxPacket ∧
    (feed hdr s bytes).bleState = s.bleState ∧
    (feed hdr s bytes).cbLog = s.cbLog ∧
    (feed hdr s bytes).rxByteCounter = 0 ∧ (feed hdr s bytes).bytesToReceive = 0 := by
  have hf : listMem bytes 0 = CMD_STX := hstx
  have hFL : Frame.Length (listMem bytes) = bytes.getD 2 0 + 256 * bytes.getD 3 0 := rfl
  have hB : announcedSize (listMem bytes) = bytes.length := by
    rw [announcedSize_eq, hFL, hlen]; simp only [LENGTH_CMD_OVERHEAD]; omega
  have hx : ¬ xorLoop (listMem bytes) (bytes.length - 1) = listMem bytes (bytes.length - 1) := by
    rw [xorLoop_listMem _ _ (by omega)]
    exact fun h => hck h.symm
  have e := feed_frame hdr s (listMem bytes) hs hf (by omega)
  rw [hB, memBytes_listMem] at e
  simp only [hx, if_false] at e
  refine ⟨?_, ?_, ?_, ?_, ?_, ?_, ?_⟩
  · intro k hk
    rcases Nat.lt_or_ge k bytes.length with h | h
    · have h1 : bytes.take k = memBytes (listMem bytes) k := by
        rw [← memBytes_take _ _ _ (Nat.le_of_lt h), memBytes_listMem]
      obtain ⟨buf, c1, b1, e1⟩ := feed_short hdr s (listMem bytes) hs hf k (Or.inl (by omega))
      rw [h1, e1]
    · rw [List.take_of_length_le h, e]
  all_goals rw [e]

/-- Claim C4 at the sequence `02 50 01 00 00 ff`, whose right checksum is `53`. -/
theorem bad_checksum_dropped_witness :
    (243 + 5 < 65536 ∧ initialState.rxByteCounter = 0 ∧
      [2, 0x50, 1, 0, 0, 0xff].getD 0 0 = 0x02 ∧
      [2, 0x50, 1, 0, 0, 0xff].getD 2 0 + 256 * [2, 0x50, 1, 0, 0, 0xff].getD 3 0 ≤ 243 ∧
      [2, 0x50, 1, 0, 0, 0xff].length
        = [2, 0x50, 1, 0, 0, 0xff].getD 2 0 + 256 * [2, 0x50, 1, 0, 0, 0xff].getD 3 0 + 5 ∧
      [2, 0x50, 1, 0, 0, 0xff].getD ([2, 0x50, 1, 0, 0, 0xff].length - 1) 0
        ≠ ([2, 0x50, 1, 0, 0, 0xff].take ([2, 0x50, 1, 0, 0, 0xff].length - 1)).foldl
            (fun a b => a ^^^ b) 0) ∧
    ((∀ k, k ≤ [2, 0x50, 1, 0, 0, 0xff].length →
        (feed ⟨243, 10, 19, 32⟩ initialState ([2, 0x50, 1, 0, 0, 0xff].take k)).handled
          = initialState.handled) ∧
      (feed ⟨243, 10, 19, 32⟩ initialState [2, 0x50, 1, 0, 0, 0xff]).cmdConfirmationArray
        = initialState.cmdConfirmationArray ∧
      (feed ⟨243, 10, 19, 32⟩ initialState [2, 0x50, 1, 0, 0, 0xff]).rxPacket
        = initialState.rxPacket ∧
      (feed ⟨243, 10, 19, 32⟩ initialState [2, 0x50, 1, 0, 0, 0xff]).bleState
        = initialState.bleState ∧
      (feed ⟨243, 10, 19, 32⟩ initialState [2, 0x50, 1, 0, 0, 0xff]).cbLog = initialState.cbLog ∧
      (feed ⟨243, 10, 19, 32⟩ initialState [2, 0x50, 1, 0, 0, 0xff]).rxByteCounter = 0 ∧
      (feed ⟨243, 10, 19, 32⟩ initialState [2, 0x50, 1, 0, 0, 0xff]).bytesToReceive = 0) :=
  ⟨⟨by decide, rfl, by decide, by decide, by decide, by decide⟩,
    bad_checksum_dropped ⟨243, 10, 19, 32⟩ (by decide) initialState rfl
      [2, 0x50, 1, 0, 0, 0xff] (by decide) (by decide) (by decide) (by decide)⟩

end ProteusII

namespace ProteusII

/-- Bytes other than the start byte, received in the idle state, only overwrite
`rxBuffer[0]`. -/
theorem feed_garbage (hdr : Header) (g : List Nat) (hg : ∀ b, b ∈ g → b ≠ CMD_STX) :
    ∀ s : State, s.rxByteCounter = 0 →
      ∃ v, feed hdr s g = { s with rxBuffer := memWrite s.rxBuffer 0 v } := by
  induction g with
  | nil =>
    intro s _
    refine ⟨s.rxBuffer 0, ?_⟩
    have : memWrite s.rxBuffer 0 (s.rxBuffer 0) = s.rxBuffer := by
      funext i; simp only [memWrite]; split <;> simp [*]
    rw [this]; rfl
  | cons b bs ih =>
    intro s hs
    rw [feed_cons, step_idle_other hdr s b hs (hg b (List.mem_cons_self _ _))]
    obtain ⟨v, e⟩ := ih (fun x hx => hg x (List.mem_cons_of_mem _ hx))
      { s with rxBuffer := memWrite s.rxBuffer 0 b } hs
    refine ⟨v, ?_⟩
    rw [e]
    have : memWrite (memWrite s.rxBuffer 0 b) 0 v = memWrite s.rxBuffer 0 v := by
      funext i; simp only [memWrite]; split <;> simp [*]
    simp only [this]

/-- After bytes other than the start byte, a start byte puts the framer in the very
state it reaches when the start byte comes first. -/
theorem feed_garbage_stx (hdr : Header) (s : State) (hs : s.rxByteCounter = 0) (g : List Nat)
    (hg : ∀ b, b ∈ g → b ≠ CMD_STX) (rest : List Nat) :
    feed hdr s (g ++ CMD_STX :: rest) = feed hdr s (CMD_STX :: rest) := by
  obtain ⟨v, e⟩ := feed_garbage hdr g hg s hs
  rw [feed_append, e, feed_cons, feed_cons, step_idle_stx hdr s hs,
    step_idle_stx hdr { s with rxBuffer := memWrite s.rxBuffer 0 v } hs]
  have : memWrite (memWrite s.rxBuffer 0 v) 0 CMD_STX = memWrite s.rxBuffer 0 CMD_STX := by
    funext i; simp only [memWrite]; split <;> simp [*]
  simp only [this]

/-- Claim C5. Resynchronisation on the start byte: for every sequence `g` of bytes none
of which is `0x02` and every well-formed frame (payload length at most
`PROTEUSII_MAX_PAYLOAD_LENGTH`), feeding `g` followed by the frame to
`ProteusII_HandleRxByte` from an idle state ends in the same state as feeding the frame
alone (hence the same `rxPacket`, confirmation array, driver state and callbacks
invoked), and each byte of `g` leaves `rxByteCounter` at 0. -/
theorem resync_on_start_byte (hdr : Header)
    (hmax : hdr.PROTEUSII_MAX_PAYLOAD_LENGTH + 5 < 65536)
    (s : State) (hs : s.rxByteCounter = 0) (g : List Nat) (hg : ∀ b, b ∈ g → b ≠ 0x02)
    (c : Nat) (p : List Nat) (hp : p.length ≤ hdr.PROTEUSII_MAX_PAYLOAD_LENGTH) :
    ∃ frame, encodeFrame c p = some frame ∧
      feed hdr s (g ++ frame) = feed hdr s frame ∧
      (feed hdr s (g ++ frame)).rxPacket = (feed hdr s frame).rxPacket ∧
      (feed hdr s (g ++ frame)).cmdConfirmationArray = (feed hdr s frame).cmdConfirmationArray ∧
      (feed hdr s (g ++ frame)).bleState = (feed hdr s frame).bleState ∧
      (feed hdr s (g ++ frame)).cbLog = (feed hdr s frame).cbLog ∧
      ∀ k, k ≤ g.length → (feed hdr s (g.take k)).rxByteCounter = 0 := by
  obtain ⟨f, he, h0, -, -, -, -⟩ := encodeFrame_spec c p (by omega)
  have e : feed hdr s (g ++ memBytes f (p.length + 5)) = feed hdr s (memBytes f (p.length + 5)) := by
    rw [show p.length + 5 = (p.length + 4) + 1 from rfl, memBytes_cons, h0]
    exact feed_garbage_stx hdr s hs g hg _
  refine ⟨_, he, e, by rw [e], by rw [e], by rw [e], by rw [e], ?_⟩
  intro k _
  obtain ⟨v, e1⟩ := feed_garbage hdr (g.take k)
    (fun b hb => hg b (List.mem_of_mem_take hb)) s hs
  rw [e1]
  exact hs

/-- Claim C5 at the garbage `00 ff 41` followed by the frame `02 50 01 00 00 53`. -/
theorem resync_on_start_byte_witness :
    (243 + 5 < 65536 ∧ initialState.rxByteCounter = 0 ∧
      (∀ b, b ∈ [0, 0xff, 0x41] → b ≠ 0x02) ∧ [0].length ≤ 243) ∧
    ∃ frame, encodeFrame 0x50 [0] = some frame ∧
      feed ⟨243, 10, 19, 32⟩ initialState ([0, 0xff, 0x41] ++ frame)
        = feed ⟨243, 10, 19, 32⟩ initialState frame ∧
      (feed ⟨243, 10, 19, 32⟩ initialState ([0, 0xff, 0x41] ++ frame)).rxPacket
        = (feed ⟨243, 10, 19, 32⟩ initialState frame).rxPacket ∧
      (feed ⟨243, 10, 19, 32⟩ initialState ([0, 0xff, 0x41] ++ frame)).cmdConfirmationArray
        = (feed ⟨243, 10, 19, 32⟩ initialState frame).cmdConfirmationArray ∧
      (feed ⟨243, 10, 19, 32⟩ initialState ([0, 0xff, 0x41] ++ frame)).bleState
        = (feed ⟨243, 10, 19, 32⟩ initialState frame).bleState ∧
      (feed ⟨243, 10, 19, 32⟩ initialState ([0, 0xff, 0x41] ++ frame)).cbLog
        = (feed ⟨243, 10, 19, 32⟩ initialState frame).cbLog ∧
      ∀ k, k ≤ [0, 0xff, 0x41].length →
        (feed ⟨243, 10, 19, 32⟩ initialState ([0, 0xff, 0x41].take k)).rxByteCounter = 0 :=
  ⟨⟨by decide, rfl, by decide, by decide⟩,
    resync_on_start_byte ⟨243, 10, 19, 32⟩ (by decide) initialState rfl [0, 0xff, 0x41]
      (by decide) 0x50 [0] (by decide)⟩

end ProteusII

/-! ## The confirmation array -/

theorem scanFrom_some {p : Nat → Bool} {len start k : Nat} (h : scanFrom p start len = some k) :
    p k = true ∧ start ≤ k ∧ k < start + len ∧ ∀ j, start ≤ j → j < k → p j = false := by
  induction len generalizing start with
  | zero => simp [scanFrom] at h
  | succ n ih =>
    unfold scanFrom at h
    by_cases hp : p start = true
    · rw [if_pos hp] at h
      cases h
      exact ⟨hp, Nat.le_refl _, by omega, fun j h1 h2 => by omega⟩
    · rw [if_neg hp] at h
      obtain ⟨h1, h2, h3, h4⟩ := ih h
      refine ⟨h1, by omega, by omega, fun j hj1 hj2 => ?_⟩
      rcases Nat.eq_or_lt_of_le hj1 with e | e
      · subst e; simpa using hp
      · exact h4 j (by omega) hj2

theorem scanFrom_none {p : Nat → Bool} {len start : Nat} (h : scanFrom p start len = none) :
    ∀ j, start ≤ j → j < start + len → p j = false := by
  induction len generalizing start with
  | zero => intro j h1 h2; omega
  | succ n ih =>
    unfold scanFrom at h
    by_cases hp : p start = true
    · rw [if_pos hp] at h; cases h
    · rw [if_neg hp] at h
      intro j h1 h2
      rcases Nat.eq_or_lt_of_le h1 with e | e
      · subst e; simpa using hp
      · exact ih h j (by omega) (by omega)

theorem scanFrom_eq_some {p : Nat → Bool} {len start k : Nat} (hk : p k = true)
    (h1 : start ≤ k) (h2 : k < start + len) (h3 : ∀ j, start ≤ j → j < k → p j = false) :
    scanFrom p start len = some k := by
  cases h : scanFrom p start len with
  | none =>
    have := scanFrom_none h k h1 h2
    rw [hk] at this; cases this
  | some i =>
    obtain ⟨a, b, c, d⟩ := scanFrom_some h
    rcases Nat.lt_trichotomy i k with e | e | e
    · have := h3 i b e; rw [a] at this; cases this
    · rw [e]
    · have := d k h1 e; rw [hk] at this; cases this

theorem scanFrom_eq_none {p : Nat → Bool} {len start : Nat}
    (h : ∀ j, start ≤ j → j < start + len → p j = false) : scanFrom p start len = none := by
  cases e : scanFrom p start len with
  | none => rfl
  | some i =>
    obtain ⟨a, b, c, _⟩ := scanFrom_some e
    have := h i b c; rw [a] at this; cases this

theorem Persist.refl (a : Nat → Confirmation) : Persist a a := fun _ _ => rfl

theorem Persist.trans {a b c : Nat → Confirmation} (h1 : Persist a b) (h2 : Persist b c) :
    Persist a c := by
  intro i hi
  have e := h1 i hi
  rw [h2 i (by rw [e]; exact hi), e]

theorem storeConfirmation_persist (arr : Nat → Confirmation) (len : Nat) (c : Confirmation) :
    Persist arr (storeConfirmation arr len c) := by
  intro i hi
  cases hk : scanFrom (fun i => (arr i).cmd == CNFINVALID) 0 len with
  | none => simp only [storeConfirmation, hk]
  | some k =>
    simp only [storeConfirmation, hk]
    have := (scanFrom_some hk).1
    by_cases e : i = k
    · subst e
      simp only [beq_iff_eq] at this
      exact absurd this hi
    · simp [e]

theorem pollConfirmations_none {arr : Nat → Confirmation} {len e : Nat}
    (h : ∀ i, i < len → (arr i).cmd ≠ e) : pollConfirmations arr len e = none := by
  unfold pollConfirmations
  rw [scanFrom_eq_none (fun j _ hj => by
    simp only [beq_eq_false_iff_ne, ne_eq]
    exact fun x => h j (by omega) x.symm)]
  rfl

theorem pollConfirmations_some {arr : Nat → Confirmation} {len e k : Nat}
    (hk : k < len) (hc : (arr k).cmd = e) (h : ∀ i, i < k → (arr i).cmd ≠ e) :
    pollConfirmations arr len e = some (arr k).status := by
  unfold pollConfirmations
  rw [scanFrom_eq_some (k := k) (by simp [hc]) (Nat.zero_le _) (by omega) (fun j _ hj => by
    simp only [beq_eq_false_iff_ne, ne_eq]
    exact fun x => h j hj x.symm)]
  rfl

namespace ProteusII

/-! ## Proteus-II: receiving arbitrary bytes -/

theorem Received.nothing (s : State) : Received s s := ⟨rfl, rfl, rfl, Persist.refl _⟩

theorem Received.andThen {s t u : State} (h1 : Received s t) (h2 : Received t u) :
    Received s u :=
  ⟨h2.1.trans h1.1, h2.2.1.trans h1.2.1, h2.2.2.1.trans h1.2.2.1, h1.2.2.2.trans h2.2.2.2⟩

theorem step_received (hdr : Header) (s : State) (b : Nat) :
    Received s (ProteusII_HandleRxByte hdr s b) := by
  by_cases h0 : s.rxByteCounter = 0
  · by_cases hb : b = CMD_STX
    · subst hb
      rw [step_idle_stx hdr s h0]
      exact ⟨rfl, rfl, rfl, Persist.refl _⟩
    · rw [step_idle_other hdr s b h0 hb]
      exact ⟨rfl, rfl, rfl, Persist.refl _⟩
  by_cases h1 : s.rxByteCounter = 1
  · rw [step_cmd hdr s b h1]
    exact ⟨rfl, rfl, rfl, Persist.refl _⟩
  by_cases h2 : s.rxByteCounter = 2
  · rw [step_lsb hdr s b h2]
    exact ⟨rfl, rfl, rfl, Persist.refl _⟩
  by_cases h3 : s.rxByteCounter = 3
  · rw [step_msb hdr s b h3]
    exact ⟨rfl, rfl, rfl, Persist.refl _⟩
  have h4 : 4 ≤ s.rxByteCounter := by omega
  by_cases heq : (s.rxByteCounter + 1) % 65536 = s.bytesToReceive
  · rw [step_last hdr s b h4 heq]
    dsimp only
    split
    · obtain ⟨g, c, l, e⟩ := HandleRxPacket_shape hdr
        { s with
          rxBuffer := memWrite s.rxBuffer s.rxByteCounter b
          rxByteCounter := s.bytesToReceive
          checksum := xorLoop (memWrite s.rxBuffer s.rxByteCounter b) (s.bytesToReceive - 1) }
        (memWrite s.rxBuffer s.rxByteCounter b)
      rw [e]
      exact ⟨rfl, rfl, rfl, storeConfirmation_persist _ _ _⟩
    · exact ⟨rfl, rfl, rfl, Persist.refl _⟩
  · rw [step_data hdr s b h4 heq]
    exact ⟨rfl, rfl, rfl, Persist.refl _⟩

theorem feed_received (hdr : Header) (bytes : List Nat) :
    ∀ s : State, Received s (feed hdr s bytes) := by
  induction bytes with
  | nil => exact fun s => Received.nothing s
  | cons b bs ih =>
    intro s
    rw [feed_cons]
    exact (step_received hdr s b).andThen (ih _)

theorem WE_Delay_spec (hdr : Header) (ms : Int) (chunk : List Nat) (s : State) :
    (WE_Delay hdr ms chunk s).delayLog = s.delayLog ++ [ms] ∧
    (WE_Delay hdr ms chunk s).uartTx = s.uartTx ∧
    (WE_Delay hdr ms chunk s).txPacket = s.txPacket ∧
    Persist s.cmdConfirmationArray (WE_Delay hdr ms chunk s).cmdConfirmationArray := by
  obtain ⟨a, b, c, d⟩ := feed_received hdr chunk { s with delayLog := s.delayLog ++ [ms] }
  exact ⟨c, b, a, d⟩

theorem afterDelays_spec (hdr : Header) (k : Nat) :
    ∀ (rx : List (List Nat)) (s : State),
      (afterDelays hdr k rx s).delayLog = s.delayLog ++ List.replicate k 5 ∧
      (afterDelays hdr k rx s).uartTx = s.uartTx ∧
      (afterDelays hdr k rx s).txPacket = s.txPacket ∧
      Persist s.cmdConfirmationArray (afterDelays hdr k rx s).cmdConfirmationArray := by
  induction k with
  | zero => exact fun rx s => ⟨by simp [afterDelays], rfl, rfl, Persist.refl _⟩
  | succ n ih =>
    intro rx s
    obtain ⟨a, b, c, d⟩ := WE_Delay_spec hdr 5 rx.headI s
    obtain ⟨a1, b1, c1, d1⟩ := ih rx.tail (WE_Delay hdr 5 rx.headI s)
    refine ⟨?_, ?_, ?_, ?_⟩
    · rw [afterDelays, a1, a, List.append_assoc]; rfl
    · rw [afterDelays, b1, b]
    · rw [afterDelays, c1, c]
    · rw [afterDelays]; exact d.trans d1

theorem afterDelays_succ (hdr : Header) (k : Nat) :
    ∀ (rx : List (List Nat)) (s : State),
      afterDelays hdr (k + 1) rx s = WE_Delay hdr 5 (rx.getD k []) (afterDelays hdr k rx s) := by
  induction k with
  | zero =>
    intro rx s
    cases rx <;> rfl
  | succ n ih =>
    intro rx s
    rw [afterDelays, ih rx.tail]
    cases rx with
    | nil => simp [afterDelays]
    | cons c cs => simp [afterDelays]

theorem waitLoop_zero (hdr : Header) (e st : Nat) (rx : List (List Nat)) (s : State) :
    waitLoop hdr e st 0 rx s =
      match pollConfirmations s.cmdConfirmationArray CMDCONFIRMATIONARRAY_LENGTH e with
      | some status => (status == st, s)
      | none => (false, s) := by
  rw [waitLoop]

theorem waitLoop_succ (hdr : Header) (e st k : Nat) (rx : List (List Nat)) (s : State) :
    waitLoop hdr e st (k + 1) rx s =
      match pollConfirmations s.cmdConfirmationArray CMDCONFIRMATIONARRAY_LENGTH e with
      | some status => (status == st, s)
      | none => waitLoop hdr e st k rx.tail (WE_Delay hdr 5 rx.headI s) := by
  rw [waitLoop]

/-- The wait loop either stops at a poll that finds the expected command or runs out
of time: the polls before the one that decides found nothing. -/
theorem waitLoop_spec (hdr : Header) (e st : Nat) (remaining : Nat) :
    ∀ (rx : List (List Nat)) (s : State),
      ∃ k, k ≤ remaining ∧
        (waitLoop hdr e st remaining rx s).2 = afterDelays hdr k rx s ∧
        (∀ j, j < k → pollConfirmations (afterDelays hdr j rx s).cmdConfirmationArray
          CMDCONFIRMATIONARRAY_LENGTH e = none) ∧
        (waitLoop hdr e st remaining rx s).1 =
          (match pollConfirmations (afterDelays hdr k rx s).cmdConfirmationArray
            CMDCONFIRMATIONARRAY_LENGTH e with
          | some status => status == st
          | none => false) ∧
        (pollConfirmations (afterDelays hdr k rx s).cmdConfirmationArray
            CMDCONFIRMATIONARRAY_LENGTH e = none → k = remaining) := by
  induction remaining with
  | zero =>
    intro rx s
    refine ⟨0, Nat.le_refl _, ?_, fun j hj => absurd hj (Nat.not_lt_zero _), ?_, fun _ => rfl⟩
    · rw [waitLoop_zero]; split <;> rfl
    · rw [waitLoop_zero]
      simp only [afterDelays]
      split <;> rfl
  | succ n ih =>
    intro rx s
    cases hp : pollConfirmations s.cmdConfirmationArray CMDCONFIRMATIONARRAY_LENGTH e with
    | some status =>
      refine ⟨0, Nat.zero_le _, ?_, fun j hj => absurd hj (Nat.not_lt_zero _), ?_, ?_⟩
      · rw [waitLoop_succ]; simp only [hp]; rfl
      · rw [waitLoop_succ]; simp only [hp, afterDelays]
      · simp only [afterDelays, hp]
        intro h; cases h
    | none =>
      obtain ⟨k, hk, h1, h2, h3, h4⟩ := ih rx.tail (WE_Delay hdr 5 rx.headI s)
      refine ⟨k + 1, by omega, ?_, ?_, ?_, ?_⟩
      · rw [waitLoop_succ]; simp only [hp]; exact h1
      · intro j hj
        cases j with
        | zero => exact hp
        | succ i => exact h2 i (by omega)
      · rw [waitLoop_succ]; simp only [hp]; exact h3
      · intro h
        rw [h4 h]

end ProteusII

namespace ThyoneI

/-! ## Thyone-I: what `HandleRxPacket` and the framer touch -/

theorem rxSwitch_spec (s : State) :
    (rxSwitch s).1 = frameConfirmation s.RxPacket ∧
    ∃ l, (rxSwitch s).2 = { s with cbLog := l } := by
  unfold rxSwitch frameConfirmation
  dsimp only
  split_ifs
  all_goals first
    | exact ⟨rfl, s.cbLog, rfl⟩
    | exact ⟨rfl, _, rfl⟩

/-- The whole effect of `HandleRxPacket` on the statics. -/
theorem HandleRxPacket_shape_thyone (s : State) (buf : Mem) :
    ∃ l frame, HandleRxPacket s buf =
      { s with
        RxPacket := frame
        handled := s.handled + 1
        cbLog := l
        cmdConfirmation_array := storeConfirmation s.cmdConfirmation_array
          CMDCONFIRMATIONARRAY_LENGTH (frameConfirmation frame) } := by
  unfold HandleRxPacket
  dsimp only
  obtain ⟨h1, l, h2⟩ := rxSwitch_spec
    { s with
      RxPacket := memcpy s.RxPacket 0 buf 0
        ((buf CMD_POSITION_LENGTH_LSB + (buf CMD_POSITION_LENGTH_MSB <<< 8)) % 65536
          + LENGTH_CMD_OVERHEAD)
      handled := s.handled + 1 }
  rw [h1, h2]
  exact ⟨l, _, rfl⟩

theorem step_received_thyone (s : State) (b : Nat) : Received s (WE_UART_HandleRxByte s b) := by
  unfold WE_UART_HandleRxByte
  dsimp only
  split_ifs
  all_goals first
    | exact ⟨rfl, rfl, rfl, Or.inl rfl⟩
    | (obtain ⟨l, frame, e⟩ := HandleRxPacket_shape_thyone
        { s with
          RxBuffer := memWrite s.RxBuffer s.RxByteCounter b
          RxByteCounter := (s.RxByteCounter + 1) % 65536
          checksum := xorLoop (memWrite s.RxBuffer s.RxByteCounter b) (s.BytesToReceive - 1) }
        (memWrite s.RxBuffer s.RxByteCounter b)
       rw [e]
       exact ⟨rfl, rfl, rfl, Or.inr ⟨frame, rfl⟩⟩)

end ThyoneI

theorem storeConfirmation_apply (arr : Nat → Confirmation) (len : Nat) (c : Confirmation)
    (i : Nat) : storeConfirmation arr len c i = c ∨ storeConfirmation arr len c i = arr i := by
  cases hk : scanFrom (fun i => (arr i).cmd == CNFINVALID) 0 len with
  | none => simp [storeConfirmation, hk]
  | some k =>
    simp only [storeConfirmation, hk]
    by_cases e : i = k
    · simp [e]
    · simp [e]

namespace ThyoneI

theorem frameConfirmation_getstate (frame : Mem)
    (h : (frameConfirmation frame).cmd = ThyoneI_CMD_GETSTATE_CNF) :
    (frameConfirmation frame).status = CMD_Status_NoStatus := by
  have hm : ThyoneI_CMD_GETSTATE_CNF ∈ noStatusConfirmations := by decide
  unfold frameConfirmation at h ⊢
  split_ifs at h ⊢ with h1 h2 h3
  · rfl
  · have h5 : frame CMD_POSITION_CMD = ThyoneI_CMD_GETSTATE_CNF := h
    exact absurd (h5 ▸ hm) h1
  · have h5 : frame CMD_POSITION_CMD = ThyoneI_CMD_GETSTATE_CNF := h
    exact absurd (h5 ▸ hm) h1
  · exact absurd h (by decide)

theorem Queued.persist {a b : Nat → Confirmation} (h : Queued a b) : Persist a b := by
  rcases h with rfl | ⟨frame, rfl⟩
  · exact Persist.refl _
  · exact storeConfirmation_persist _ _ _

theorem Queued.getstate {a b : Nat → Confirmation} (h : Queued a b)
    (ha : GetStateNoStatus a) : GetStateNoStatus b := by
  rcases h with rfl | ⟨frame, rfl⟩
  · exact ha
  · intro i hlt hi
    rcases storeConfirmation_apply a CMDCONFIRMATIONARRAY_LENGTH (frameConfirmation frame) i
      with e | e
    · rw [e] at hi ⊢
      exact frameConfirmation_getstate frame hi
    · rw [e] at hi ⊢
      exact ha i hlt hi

/-- Receiving bytes leaves the transmit side and the delay log alone, keeps the
occupied confirmation slots, and never records `ThyoneI_CMD_GETSTATE_CNF` with a
status other than `CMD_Status_NoStatus`. -/
theorem feed_spec (bytes : List Nat) :
    ∀ s : State,
      (feed s bytes).CMD_Array = s.CMD_Array ∧ (feed s bytes).uartTx = s.uartTx ∧
      (feed s bytes).delayLog = s.delayLog ∧
      Persist s.cmdConfirmation_array (feed s bytes).cmdConfirmation_array ∧
      (GetStateNoStatus s.cmdConfirmation_array →
        GetStateNoStatus (feed s bytes).cmdConfirmation_array) := by
  induction bytes with
  | nil => exact fun s => ⟨rfl, rfl, rfl, Persist.refl _, fun h => h⟩
  | cons b bs ih =>
    intro s
    obtain ⟨a1, a2, a3, a4⟩ := step_received_thyone s b
    obtain ⟨b1, b2, b3, b4, b5⟩ := ih (WE_UART_HandleRxByte s b)
    exact ⟨b1.trans a1, b2.trans a2, b3.trans a3, a4.persist.trans b4,
      fun h => b5 (a4.getstate h)⟩

theorem afterDelays_spec_thyone (k : Nat) :
    ∀ (rx : List (List Nat)) (s : State),
      (afterDelays k rx s).delayLog = s.delayLog ++ List.replicate k 5 ∧
      (afterDelays k rx s).uartTx = s.uartTx ∧
      (afterDelays k rx s).CMD_Array = s.CMD_Array ∧
      Persist s.cmdConfirmation_array (afterDelays k rx s).cmdConfirmation_array ∧
      (GetStateNoStatus s.cmdConfirmation_array →
        GetStateNoStatus (afterDelays k rx s).cmdConfirmation_array) := by
  induction k with
  | zero => exact fun rx s => ⟨by simp [afterDelays], rfl, rfl, Persist.refl _, fun h => h⟩
  | succ n ih =>
    intro rx s
    obtain ⟨c, b, a, d, e⟩ := feed_spec rx.headI { s with delayLog := s.delayLog ++ [5] }
    obtain ⟨a1, b1, c1, d1, e1⟩ := ih rx.tail (WE_Delay 5 rx.headI s)
    refine ⟨?_, ?_, ?_, ?_, ?_⟩
    · rw [afterDelays, a1]
      show (feed { s with delayLog := s.delayLog ++ [5] } rx.headI).delayLog ++ _ = _
      rw [a, List.append_assoc]; rfl
    · rw [afterDelays, b1]; exact b
    · rw [afterDelays, c1]; exact c
    · rw [afterDelays]; exact Persist.trans d d1
    · rw [afterDelays]; exact fun h => e1 (e h)

theorem waitLoop_zero_thyone (e st : Nat) (rx : List (List Nat)) (s : State) :
    waitLoop e st 0 rx s =
      match pollConfirmations s.cmdConfirmation_array CMDCONFIRMATIONARRAY_LENGTH e with
      | some status => (status == st, s)
      | none => (false, s) := by
  rw [waitLoop]

theorem waitLoop_succ_thyone (e st k : Nat) (rx : List (List Nat)) (s : State) :
    waitLoop e st (k + 1) rx s =
      match pollConfirmations s.cmdConfirmation_array CMDCONFIRMATIONARRAY_LENGTH e with
      | some status => (status == st, s)
      | none => waitLoop e st k rx.tail (WE_Delay 5 rx.headI s) := by
  rw [waitLoop]

/-- The wait loop either stops at a poll that finds the expected command or runs out
of time: the polls before the one that decides found nothing. -/
theorem waitLoop_spec_thyone (e st : Nat) (remaining : Nat) :
    ∀ (rx : List (List Nat)) (s : State),
      ∃ k, k ≤ remaining ∧
        (waitLoop e st remaining rx s).2 = afterDelays k rx s ∧
        (∀ j, j < k → pollConfirmations (afterDelays j rx s).cmdConfirmation_array
          CMDCONFIRMATIONARRAY_LENGTH e = none) ∧
        (waitLoop e st remaining rx s).1 =
          (match pollConfirmations (afterDelays k rx s).cmdConfirmation_array
            CMDCONFIRMATIONARRAY_LENGTH e with
          | some status => status == st
          | none => false) ∧
        (pollConfirmations (afterDelays k rx s).cmdConfirmation_array
            CMDCONFIRMATIONARRAY_LENGTH e = none → k = remaining) := by
  induction remaining with
  | zero =>
    intro rx s
    refine ⟨0, Nat.le_refl _, ?_, fun j hj => absurd hj (Nat.not_lt_zero _), ?_, fun _ => rfl⟩
    · rw [waitLoop_zero_thyone]; split <;> rfl
    · rw [waitLoop_zero_thyone]
      simp only [afterDelays]
      split <;> rfl
  | succ n ih =>
    intro rx s
    cases hp : pollConfirmations s.cmdConfirmation_array CMDCONFIRMATIONARRAY_LENGTH e with
    | some status =>
      refine ⟨0, Nat.zero_le _, ?_, fun j hj => absurd hj (Nat.not_lt_zero _), ?_, ?_⟩
      · rw [waitLoop_succ_thyone]; simp only [hp]; rfl
      · rw [waitLoop_succ_thyone]; simp only [hp, afterDelays]
      · simp only [afterDelays, hp]
        intro h; cases h
    | none =>
      obtain ⟨k, hk, h1, h2, h3, h4⟩ := ih rx.tail (WE_Delay 5 rx.headI s)
      refine ⟨k + 1, by omega, ?_, ?_, ?_, ?_⟩
      · rw [waitLoop_succ_thyone]; simp only [hp]; exact h1
      · intro j hj
        cases j with
        | zero => exact hp
        | succ i => exact h2 i (by omega)
      · rw [waitLoop_succ_thyone]; simp only [hp]; exact h3
      · intro h
        rw [h4 h]

end ThyoneI

/-! ## The wait loop: timeout -/

theorem waitCount_cast (maxTimeMs : Int) (h0 : 0 ≤ maxTimeMs) :
    (((Int.tdiv maxTimeMs 5).toNat : Nat) : Int) = maxTimeMs / 5 := by
  rw [Int.toNat_of_nonneg (Int.tdiv_nonneg h0 (by decide)), Int.tdiv_eq_ediv h0 (by decide)]

theorem ProteusII.resetStep_delayLog (reset : Bool) (s : ProteusII.State) :
    (ProteusII.resetStep reset s).delayLog = s.delayLog := by
  unfold ProteusII.resetStep
  split <;> rfl

theorem ThyoneI.resetStep_delayLog_thyone (reset : Bool) (s : ThyoneI.State) :
    (ThyoneI.resetStep reset s).delayLog = s.delayLog := by
  unfold ThyoneI.resetStep
  split <;> rfl

/-- Claim C3, amended to non-negative timeouts. For every `maxTimeMs ≥ 0` and whatever
is received, `Wait4CNF` of either driver returns after `k ≤ floor(maxTimeMs / 5)` calls
of `WE_Delay`, each of 5 ms; and if no confirmation slot holds the expected command at
any poll, it returns `false` after exactly `floor(maxTimeMs / 5)` delays. This is 100
delays for the Proteus-II default of 500 ms and 300 for the Thyone-I default of
1500 ms. -/
theorem wait4cnf_timeout (maxTimeMs : Int) (h0 : 0 ≤ maxTimeMs) (e st : Nat) (reset : Bool)
    (rx : List (List Nat)) :
    (∀ (hdr : ProteusII.Header) (s : ProteusII.State),
      (∃ k : Nat, (k : Int) ≤ maxTimeMs / 5 ∧
        (ProteusII.Wait4CNF hdr maxTimeMs e st reset rx s).2.delayLog
          = s.delayLog ++ List.replicate k 5) ∧
      ((∀ k : Nat, (k : Int) ≤ maxTimeMs / 5 →
          pollConfirmations
            (ProteusII.afterDelays hdr k rx (ProteusII.resetStep reset s)).cmdConfirmationArray
            ProteusII.CMDCONFIRMATIONARRAY_LENGTH e = none) →
        (ProteusII.Wait4CNF hdr maxTimeMs e st reset rx s).1 = false ∧
        ∃ k : Nat, (k : Int) = maxTimeMs / 5 ∧
          (ProteusII.Wait4CNF hdr maxTimeMs e st reset rx s).2.delayLog
            = s.delayLog ++ List.replicate k 5)) ∧
    (∀ s : ThyoneI.State,
      (∃ k : Nat, (k : Int) ≤ maxTimeMs / 5 ∧
        (ThyoneI.Wait4CNF maxTimeMs e st reset rx s).2.delayLog
          = s.delayLog ++ List.replicate k 5) ∧
      ((∀ k : Nat, (k : Int) ≤ maxTimeMs / 5 →
          pollConfirmations
            (ThyoneI.afterDelays k rx (ThyoneI.resetStep reset s)).cmdConfirmation_array
            ThyoneI.CMDCONFIRMATIONARRAY_LENGTH e = none) →
        (ThyoneI.Wait4CNF maxTimeMs e st reset rx s).1 = false ∧
        ∃ k : Nat, (k : Int) = maxTimeMs / 5 ∧
          (ThyoneI.Wait4CNF maxTimeMs e st reset rx s).2.delayLog
            = s.delayLog ++ List.replicate k 5)) ∧
    ProteusII.CMD_WAIT_TIME / 5 = 100 ∧ ThyoneI.CMD_WAIT_TIME / 5 = 300 := by
  have hN := waitCount_cast maxTimeMs h0
  refine ⟨fun hdr s => ?_, fun s => ?_, by decide, by decide⟩
  · obtain ⟨k, hk, h1, -, h3, h4⟩ := ProteusII.waitLoop_spec hdr e st
      (Int.tdiv maxTimeMs 5).toNat rx (ProteusII.resetStep reset s)
    have hlog : (ProteusII.Wait4CNF hdr maxTimeMs e st reset rx s).2.delayLog
        = s.delayLog ++ List.replicate k 5 := by
      show (ProteusII.waitLoop hdr e st _ rx _).2.delayLog = _
      rw [h1, (ProteusII.afterDelays_spec hdr k rx _).1, ProteusII.resetStep_delayLog]
    refine ⟨⟨k, by omega, hlog⟩, fun hall => ?_⟩
    have hnone := hall k (by omega)
    refine ⟨?_, k, by rw [h4 hnone]; exact hN, hlog⟩
    show (ProteusII.waitLoop hdr e st _ rx _).1 = false
    rw [h3, hnone]
  · obtain ⟨k, hk, h1, -, h3, h4⟩ := ThyoneI.waitLoop_spec_thyone e st
      (Int.tdiv maxTimeMs 5).toNat rx (ThyoneI.resetStep reset s)
    have hlog : (ThyoneI.Wait4CNF maxTimeMs e st reset rx s).2.delayLog
        = s.delayLog ++ List.replicate k 5 := by
      show (ThyoneI.waitLoop e st _ rx _).2.delayLog = _
      rw [h1, (ThyoneI.afterDelays_spec_thyone k rx _).1, ThyoneI.resetStep_delayLog_thyone]
    refine ⟨⟨k, by omega, hlog⟩, fun hall => ?_⟩
    have hnone := hall k (by omega)
    refine ⟨?_, k, by rw [h4 hnone]; exact hN, hlog⟩
    show (ThyoneI.waitLoop e st _ rx _).1 = false
    rw [h3, hnone]

/-- Claim C3, as stated, fails for a negative timeout: with `maxTimeMs = -10` the
Proteus-II `Wait4CNF` returns `false` without any delay, and 0 calls of `WE_Delay` are
more than `floor(-10 / 5) = -2`. -/
theorem wait4cnf_timeout_negative :
    (ProteusII.Wait4CNF ⟨243, 10, 19, 32⟩ (-10) 0x50 0 true [] ProteusII.initialState).1 = false ∧
    (ProteusII.Wait4CNF ⟨243, 10, 19, 32⟩ (-10) 0x50 0 true [] ProteusII.initialState).2.delayLog
      = [] ∧
    ¬ (((ProteusII.Wait4CNF ⟨243, 10, 19, 32⟩ (-10) 0x50 0 true []
        ProteusII.initialState).2.delayLog.length : Int) ≤ (-10 : Int) / 5) := by
  decide

/-- Claim C3 (amended) at `maxTimeMs = 10` with nothing received: two delays, as the
two freshly initialised drivers show. -/
theorem wait4cnf_timeout_witness :
    ((0 : Int) ≤ 10) ∧
    ((∀ (hdr : ProteusII.Header) (s : ProteusII.State),
      (∃ k : Nat, (k : Int) ≤ (10 : Int) / 5 ∧
        (ProteusII.Wait4CNF hdr 10 0x50 0 true [] s).2.delayLog
          = s.delayLog ++ List.replicate k 5) ∧
      ((∀ k : Nat, (k : Int) ≤ (10 : Int) / 5 →
          pollConfirmations
            (ProteusII.afterDelays hdr k [] (ProteusII.resetStep true s)).cmdConfirmationArray
            ProteusII.CMDCONFIRMATIONARRAY_LENGTH 0x50 = none) →
        (ProteusII.Wait4CNF hdr 10 0x50 0 true [] s).1 = false ∧
        ∃ k : Nat, (k : Int) = (10 : Int) / 5 ∧
          (ProteusII.Wait4CNF hdr 10 0x50 0 true [] s).2.delayLog
            = s.delayLog ++ List.replicate k 5)) ∧
    (∀ s : ThyoneI.State,
      (∃ k : Nat, (k : Int) ≤ (10 : Int) / 5 ∧
        (ThyoneI.Wait4CNF 10 0x50 0 true [] s).2.delayLog
          = s.delayLog ++ List.replicate k 5) ∧
      ((∀ k : Nat, (k : Int) ≤ (10 : Int) / 5 →
          pollConfirmations
            (ThyoneI.afterDelays k [] (ThyoneI.resetStep true s)).cmdConfirmation_array
            ThyoneI.CMDCONFIRMATIONARRAY_LENGTH 0x50 = none) →
        (ThyoneI.Wait4CNF 10 0x50 0 true [] s).1 = false ∧
        ∃ k : Nat, (k : Int) = (10 : Int) / 5 ∧
          (ThyoneI.Wait4CNF 10 0x50 0 true [] s).2.delayLog
            = s.delayLog ++ List.replicate k 5)) ∧
    ProteusII.CMD_WAIT_TIME / 5 = 100 ∧ ThyoneI.CMD_WAIT_TIME / 5 = 300) ∧
    (ProteusII.Wait4CNF ⟨243, 10, 19, 32⟩ 10 0x50 0 true [] ProteusII.initialState).2.delayLog
      = [5, 5] ∧
    (ThyoneI.Wait4CNF 10 0x50 0 true [] ThyoneI.initialState).2.delayLog = [5, 5] :=
  ⟨by decide, wait4cnf_timeout 10 (by decide) 0x50 0 true [], by decide, by decide⟩

namespace ProteusII

/-! ## Proteus-II: request/confirmation rendezvous -/

theorem afterDelays_persist (hdr : Header) (rx : List (List Nat)) (s : State) (k j : Nat)
    (h : k ≤ j) :
    Persist (afterDelays hdr k rx s).cmdConfirmationArray
      (afterDelays hdr j rx s).cmdConfirmationArray := by
  induction j, h using Nat.le_induction with
  | base => exact Persist.refl _
  | succ n _ ih =>
    rw [afterDelays_succ]
    exact ih.trans (WE_Delay_spec hdr 5 _ _).2.2.2

theorem storeConfirmation_first_free (arr : Nat → Confirmation) (len : Nat) (c : Confirmation)
    (h : ∃ i, i < len ∧ (arr i).cmd = CNFINVALID) :
    ∃ i0, i0 < len ∧ storeConfirmation arr len c i0 = c ∧
      (∀ i, i < i0 → (arr i).cmd ≠ CNFINVALID ∧ storeConfirmation arr len c i = arr i) := by
  obtain ⟨i, hi, hc⟩ := h
  cases hk : scanFrom (fun i => (arr i).cmd == CNFINVALID) 0 len with
  | none =>
    have := scanFrom_none hk i (Nat.zero_le _) (by omega)
    simp [hc] at this
  | some k =>
    obtain ⟨-, -, h3, h4⟩ := scanFrom_some hk
    refine ⟨k, by omega, by simp [storeConfirmation, hk], fun m hm => ?_⟩
    have hm1 := h4 m (Nat.zero_le _) hm
    simp only [beq_eq_false_iff_ne, ne_eq] at hm1
    refine ⟨hm1, ?_⟩
    have : m ≠ k := by omega
    simp [storeConfirmation, hk, this]

/-- Claim C2, amended. For every call of `Wait4CNF` with `resetConfirmState = true`, an
expected command `e` and an expected status: if, during one of the delays of the wait,
a byte completes a checksum-valid frame whose recorded confirmation is `e` with the
expected status, and at that moment a confirmation slot is free and no slot holds `e`,
then `Wait4CNF` returns `true`, whatever else is received during the wait. -/
theorem wait4cnf_rendezvous (hdr : Header) (maxTimeMs : Int) (e status : Nat)
    (rx : List (List Nat)) (s : State) (j : Nat) (pre post : List Nat) (b : Nat)
    (hj : (j : Int) < Int.tdiv maxTimeMs 5)
    (hrx : rx.getD j [] = pre ++ b :: post)
    (hfr : completesFrame (stateAtByte hdr rx s j pre) b)
    (hcnf : frameConfirmation (memWrite (stateAtByte hdr rx s j pre).rxBuffer
      (stateAtByte hdr rx s j pre).rxByteCounter b) = { cmd := e, status := status })
    (hfree : ∃ i, i < CMDCONFIRMATIONARRAY_LENGTH ∧
      ((stateAtByte hdr rx s j pre).cmdConfirmationArray i).cmd = CNFINVALID)
    (hnone : ∀ i, i < CMDCONFIRMATIONARRAY_LENGTH →
      ((stateAtByte hdr rx s j pre).cmdConfirmationArray i).cmd ≠ e) :
    (Wait4CNF hdr maxTimeMs e status true rx s).1 = true := by
  have hjN : j < (Int.tdiv maxTimeMs 5).toNat := by omega
  have he : e ≠ CNFINVALID := by
    obtain ⟨i, hi, hc⟩ := hfree
    exact fun h => hnone i hi (h ▸ hc)
  -- the state after the byte that completes the frame
  obtain ⟨h4, heq, hck⟩ := hfr
  have hstep := step_last hdr (stateAtByte hdr rx s j pre) b h4 heq
  simp only [hck, if_true] at hstep
  obtain ⟨g, c, l, hshape⟩ := HandleRxPacket_shape hdr
    { stateAtByte hdr rx s j pre with
      rxBuffer := memWrite (stateAtByte hdr rx s j pre).rxBuffer
        (stateAtByte hdr rx s j pre).rxByteCounter b
      rxByteCounter := (stateAtByte hdr rx s j pre).bytesToReceive
      checksum := memWrite (stateAtByte hdr rx s j pre).rxBuffer
        (stateAtByte hdr rx s j pre).rxByteCounter b
          ((stateAtByte hdr rx s j pre).bytesToReceive - 1) }
    (memWrite (stateAtByte hdr rx s j pre).rxBuffer (stateAtByte hdr rx s j pre).rxByteCounter b)
  rw [hshape] at hstep
  have hfc : frameConfirmation
      (memcpy (stateAtByte hdr rx s j pre).rxPacket 0
        (memWrite (stateAtByte hdr rx s j pre).rxBuffer
          (stateAtByte hdr rx s j pre).rxByteCounter b) 0
        (Frame.Length (memWrite (stateAtByte hdr rx s j pre).rxBuffer
          (stateAtByte hdr rx s j pre).rxByteCounter b) + LENGTH_CMD_OVERHEAD))
      = { cmd := e, status := status } := by
    rw [← hcnf]
    exact frameConfirmation_congr
      (memcpy_prefix_apply _ _ _ _ (by simp only [LENGTH_CMD_OVERHEAD]; omega))
      (memcpy_prefix_apply _ _ _ _ (by simp only [LENGTH_CMD_OVERHEAD]; omega))
  have harr : (ProteusII_HandleRxByte hdr (stateAtByte hdr rx s j pre) b).cmdConfirmationArray
      = storeConfirmation (stateAtByte hdr rx s j pre).cmdConfirmationArray
          CMDCONFIRMATIONARRAY_LENGTH { cmd := e, status := status } := by
    rw [hstep]
    show storeConfirmation _ _ (frameConfirmation _) = _
    rw [hfc]
  -- the state the next poll looks at
  have hnext : afterDelays hdr (j + 1) rx (resetStep true s)
      = feed hdr (ProteusII_HandleRxByte hdr (stateAtByte hdr rx s j pre) b) post := by
    rw [afterDelays_succ, hrx]
    show feed hdr _ (pre ++ b :: post) = _
    rw [feed_append, feed_cons]
    rfl
  obtain ⟨i0, hi0, hset, hlow⟩ := storeConfirmation_first_free
    (stateAtByte hdr rx s j pre).cmdConfirmationArray CMDCONFIRMATIONARRAY_LENGTH
    { cmd := e, status := status } hfree
  have hpers := (feed_received hdr post
    (ProteusII_HandleRxByte hdr (stateAtByte hdr rx s j pre) b)).2.2.2
  rw [harr] at hpers
  have hpoll : pollConfirmations (afterDelays hdr (j + 1) rx (resetStep true s)).cmdConfirmationArray
      CMDCONFIRMATIONARRAY_LENGTH e = some status := by
    have h0 : (afterDelays hdr (j + 1) rx (resetStep true s)).cmdConfirmationArray i0
        = { cmd := e, status := status } := by
      rw [hnext, hpers i0 (by rw [hset]; exact he), hset]
    have := @pollConfirmations_some (afterDelays hdr (j + 1) rx
      (resetStep true s)).cmdConfirmationArray CMDCONFIRMATIONARRAY_LENGTH e i0 hi0
      (by rw [h0]) (fun i hi => by
        obtain ⟨hocc, hsame⟩ := hlow i hi
        rw [hnext, hpers i (by rw [hsame]; exact hocc), hsame]
        exact hnone i (by omega))
    rw [this, h0]
  -- no earlier poll finds the expected command
  have hearly : ∀ k, k ≤ j → pollConfirmations
      (afterDelays hdr k rx (resetStep true s)).cmdConfirmationArray
      CMDCONFIRMATIONARRAY_LENGTH e = none := by
    intro k hk
    refine pollConfirmations_none (fun i hi hc => ?_)
    have h1 := (afterDelays_persist hdr rx (resetStep true s) k j hk).trans
      (WE_Delay_spec hdr 5 pre (afterDelays hdr j rx (resetStep true s))).2.2.2
    have h2 := h1 i (by rw [hc]; exact he)
    exact hnone i hi (by
      show ((WE_Delay hdr 5 pre (afterDelays hdr j rx (resetStep true s))).cmdConfirmationArray
        i).cmd = e
      rw [h2, hc])
  obtain ⟨k, hk, -, h2, h3, h4⟩ := waitLoop_spec hdr e status
    (Int.tdiv maxTimeMs 5).toNat rx (resetStep true s)
  have hkj : k = j + 1 := by
    rcases Nat.lt_trichotomy k (j + 1) with h | h | h
    · have := h4 (hearly k (by omega))
      omega
    · exact h
    · have := h2 (j + 1) h
      rw [hpoll] at this
      cases this
  show (waitLoop hdr e status _ rx _).1 = true
  rw [h3, hkj, hpoll]
  simp

end ProteusII

namespace ProteusII

/-- Claim C2, as stated, fails in two ways. First, the valid frames `GET_CNF` with
status 1 and `GET_CNF` with status 0 are received during the first delay of a wait for
`GET_CNF` with `CMD_Status_Success`: both are queued, the poll decides on the first
one and `Wait4CNF` returns `false`. Second, the valid frames `SET_CNF`, `GET_CNF` and
`TXCOMPLETE_RSP` (status 0) are received during the first delay of a wait for
`TXCOMPLETE_RSP` with `CMD_Status_Success`: all three reach `HandleRxPacket`, the third
finds no free slot, and `Wait4CNF` returns `false`. -/
theorem wait4cnf_rendezvous_fails :
    (encodeFrame PROTEUSII_CMD_GET_CNF [CMD_Status_Failed] = some [2, 0x50, 1, 0, 1, 0x52] ∧
      encodeFrame PROTEUSII_CMD_GET_CNF [CMD_Status_Success] = some [2, 0x50, 1, 0, 0, 0x53] ∧
      (feed ⟨243, 10, 19, 32⟩ (resetStep true initialState)
        ([2, 0x50, 1, 0, 1, 0x52] ++ [2, 0x50, 1, 0, 0, 0x53])).cmdConfirmationArray 1
        = { cmd := PROTEUSII_CMD_GET_CNF, status := CMD_Status_Success } ∧
      (Wait4CNF ⟨243, 10, 19, 32⟩ 500 PROTEUSII_CMD_GET_CNF CMD_Status_Success true
        [[2, 0x50, 1, 0, 1, 0x52] ++ [2, 0x50, 1, 0, 0, 0x53]] initialState).1 = false) ∧
    (encodeFrame PROTEUSII_CMD_SET_CNF [0] = some [2, 0x51, 1, 0, 0, 0x52] ∧
      encodeFrame PROTEUSII_CMD_GET_CNF [0] = some [2, 0x50, 1, 0, 0, 0x53] ∧
      encodeFrame PROTEUSII_CMD_TXCOMPLETE_RSP [CMD_Status_Success]
        = some [2, 0xC4, 1, 0, 0, 0xC7] ∧
      (feed ⟨243, 10, 19, 32⟩ (resetStep true initialState)
        ([2, 0x51, 1, 0, 0, 0x52] ++ [2, 0x50, 1, 0, 0, 0x53]
          ++ [2, 0xC4, 1, 0, 0, 0xC7])).handled = 3 ∧
      (Wait4CNF ⟨243, 10, 19, 32⟩ 500 PROTEUSII_CMD_TXCOMPLETE_RSP CMD_Status_Success true
        [[2, 0x51, 1, 0, 0, 0x52] ++ [2, 0x50, 1, 0, 0, 0x53] ++ [2, 0xC4, 1, 0, 0, 0xC7]]
        initialState).1 = false) := by
  decide

/-- Claim C2 (amended) at a wait of 500 ms for `TXCOMPLETE_RSP` during which nothing
arrives in the first delay and the frame `02 c4 01 00 00 c7` in the second. -/
theorem wait4cnf_rendezvous_witness :
    (((1 : Nat) : Int) < Int.tdiv 500 5 ∧
      [[], [2, 0xC4, 1, 0, 0, 0xC7]].getD 1 [] = [2, 0xC4, 1, 0, 0] ++ 0xC7 :: [] ∧
      completesFrame (stateAtByte ⟨243, 10, 19, 32⟩ [[], [2, 0xC4, 1, 0, 0, 0xC7]]
        initialState 1 [2, 0xC4, 1, 0, 0]) 0xC7 ∧
      frameConfirmation (memWrite
        (stateAtByte ⟨243, 10, 19, 32⟩ [[], [2, 0xC4, 1, 0, 0, 0xC7]]
          initialState 1 [2, 0xC4, 1, 0, 0]).rxBuffer
        (stateAtByte ⟨243, 10, 19, 32⟩ [[], [2, 0xC4, 1, 0, 0, 0xC7]]
          initialState 1 [2, 0xC4, 1, 0, 0]).rxByteCounter 0xC7)
        = { cmd := 0xC4, status := 0 } ∧
      (∃ i, i < CMDCONFIRMATIONARRAY_LENGTH ∧
        ((stateAtByte ⟨243, 10, 19, 32⟩ [[], [2, 0xC4, 1, 0, 0, 0xC7]]
          initialState 1 [2, 0xC4, 1, 0, 0]).cmdConfirmationArray i).cmd = CNFINVALID) ∧
      (∀ i, i < CMDCONFIRMATIONARRAY_LENGTH →
        ((stateAtByte ⟨243, 10, 19, 32⟩ [[], [2, 0xC4, 1, 0, 0, 0xC7]]
          initialState 1 [2, 0xC4, 1, 0, 0]).cmdConfirmationArray i).cmd ≠ 0xC4)) ∧
    (Wait4CNF ⟨243, 10, 19, 32⟩ 500 0xC4 0 true [[], [2, 0xC4, 1, 0, 0, 0xC7]]
      initialState).1 = true :=
  ⟨⟨by decide, by decide, by unfold completesFrame; decide, by decide,
      ⟨0, by decide, by decide⟩, by decide⟩,
    wait4cnf_rendezvous ⟨243, 10, 19, 32⟩ 500 0xC4 0 [[], [2, 0xC4, 1, 0, 0, 0xC7]]
      initialState 1 [2, 0xC4, 1, 0, 0] [] 0xC7 (by decide) (by decide)
      (by unfold completesFrame; decide) (by decide) ⟨0, by decide, by decide⟩ (by decide)⟩

end ProteusII

theorem pollConfirmations_eq_some {arr : Nat → Confirmation} {len e st : Nat}
    (h : pollConfirmations arr len e = some st) :
    ∃ i, i < len ∧ (arr i).cmd = e ∧ (arr i).status = st ∧ ∀ m, m < i → (arr m).cmd ≠ e := by
  unfold pollConfirmations at h
  cases hk : scanFrom (fun i => e == (arr i).cmd) 0 len with
  | none => rw [hk] at h; cases h
  | some k =>
    rw [hk] at h
    obtain ⟨h1, -, h3, h4⟩ := scanFrom_some hk
    simp only [beq_iff_eq] at h1
    refine ⟨k, by omega, h1.symm, by simpa using h, fun m hm hc => ?_⟩
    have := h4 m (Nat.zero_le _) hm
    simp [hc] at this

namespace ProteusII

/-! ## Proteus-II: request functions -/

/-- Claim C7. `ProteusII_Transmit` transmits only if a connection is open: if the
driver state is not `ProteusII_DriverState_BLE_ChannelOpen` or `length` exceeds
`PROTEUSII_MAX_PAYLOAD_LENGTH`, the call returns `false` and leaves every static as it
was; in particular no byte goes to the UART and `txPacket` and the confirmation array
are unchanged. -/
theorem transmit_requires_open_channel (hdr : Header) (payloadP : Mem) (length : Nat)
    (rx : List (List Nat)) (s : State)
    (h : ProteusII_GetDriverState s ≠ .ProteusII_DriverState_BLE_ChannelOpen ∨
      length > hdr.PROTEUSII_MAX_PAYLOAD_LENGTH) :
    ∃ t, ProteusII_Transmit hdr payloadP length rx s = some (false, t) ∧ t = s ∧
      t.uartTx = s.uartTx ∧ t.txPacket = s.txPacket ∧
      t.cmdConfirmationArray = s.cmdConfirmationArray := by
  refine ⟨s, ?_, rfl, rfl, rfl, rfl⟩
  unfold ProteusII_Transmit
  rw [if_neg]
  rintro ⟨h1, h2⟩
  rcases h with h | h
  · exact h h2.symm
  · omega

/-- Claim C7 at a driver that is not connected, and at a payload that is too long for
a driver whose channel is open. -/
theorem transmit_requires_open_channel_witness :
    ((ProteusII_GetDriverState initialState ≠ .ProteusII_DriverState_BLE_ChannelOpen ∨
        3 > (⟨243, 10, 19, 32⟩ : Header).PROTEUSII_MAX_PAYLOAD_LENGTH) ∧
      ∃ t, ProteusII_Transmit ⟨243, 10, 19, 32⟩ (listMem [1, 2, 3]) 3 [] initialState
          = some (false, t) ∧ t = initialState ∧
        t.uartTx = initialState.uartTx ∧ t.txPacket = initialState.txPacket ∧
        t.cmdConfirmationArray = initialState.cmdConfirmationArray) ∧
    ((ProteusII_GetDriverState
          { initialState with bleState := .ProteusII_DriverState_BLE_ChannelOpen }
          ≠ .ProteusII_DriverState_BLE_ChannelOpen ∨
        244 > (⟨243, 10, 19, 32⟩ : Header).PROTEUSII_MAX_PAYLOAD_LENGTH) ∧
      ((ProteusII_Transmit ⟨243, 10, 19, 32⟩ (listMem [1, 2, 3]) 244 []
          { initialState with bleState := .ProteusII_DriverState_BLE_ChannelOpen }).map
        (fun r => (r.1, r.2.uartTx))) = some (false, [])) :=
  ⟨⟨Or.inl (by decide),
      transmit_requires_open_channel ⟨243, 10, 19, 32⟩ (listMem [1, 2, 3]) 3 [] initialState
        (Or.inl (by decide))⟩,
    ⟨Or.inr (by decide), by decide⟩⟩

/-- What `ProteusII_Get` returns, in terms of `rxPacket` as the wait leaves it: whenever
the call returns `true`, the length field `L` of `rxPacket` is at least 1,
`*responseLengthP` is `L - 1` (as a `uint16_t`), the bytes written to `responseP` are
the bytes `Data[1] .. Data[L - 1]` of `rxPacket`, the rest of `responseP` is untouched,
and the confirmation array holds `GET_CNF` with the status `CMD_Status_Success`. -/
theorem get_returns_rxPacket_content (hdr : Header) (userSetting : Nat) (responseP : Mem)
    (responseLength : Nat) (rx : List (List Nat)) (s : State)
    (h : (ProteusII_Get hdr userSetting responseP responseLength rx s).map
      (fun r => r.1.ret) = some true) :
    ∃ r t, ProteusII_Get hdr userSetting responseP responseLength rx s = some (r, t) ∧
      1 ≤ Frame.Length t.rxPacket ∧
      r.responseLength = (Frame.Length t.rxPacket - 1) % 65536 ∧
      (∀ i, i < Frame.Length t.rxPacket - 1 → r.responseP i = Frame.Data t.rxPacket (1 + i)) ∧
      (∀ i, Frame.Length t.rxPacket - 1 ≤ i → r.responseP i = responseP i) ∧
      ∃ i, i < CMDCONFIRMATIONARRAY_LENGTH ∧
        t.cmdConfirmationArray i = { cmd := PROTEUSII_CMD_GET_CNF, status := CMD_Status_Success } := by
  unfold ProteusII_Get at h ⊢
  dsimp only at h ⊢
  generalize FillChecksum (memWrite (Frame.setLength (memWrite s.txPacket 1
    PROTEUSII_CMD_GET_REQ) 1) 4 userSetting) = o at h ⊢
  rcases o with _ | ⟨_ | _, tx⟩
  · simp at h
  · simp at h
  dsimp only at h ⊢
  by_cases hw : (Wait4CNF hdr CMD_WAIT_TIME PROTEUSII_CMD_GET_CNF CMD_Status_Success true rx
      (transmitTxPacket { s with txPacket := tx })).1 = true
  swap
  · rw [if_neg hw] at h; simp at h
  rw [if_pos hw] at h ⊢
  by_cases hL : Frame.Length (Wait4CNF hdr CMD_WAIT_TIME PROTEUSII_CMD_GET_CNF
      CMD_Status_Success true rx (transmitTxPacket { s with txPacket := tx })).2.rxPacket = 0
  · rw [if_pos hL] at h; simp at h
  rw [if_neg hL]
  refine ⟨_, _, rfl, by omega, rfl, ?_, ?_, ?_⟩
  · intro i hi
    show memcpy responseP 0 _ 5 _ i = _
    simp only [memcpy, Nat.zero_le, true_and, Nat.zero_add, hi, if_true, Frame.Data]
    congr 1
    omega
  · intro i hi
    show memcpy responseP 0 _ 5 _ i = _
    have : ¬ i < Frame.Length (Wait4CNF hdr CMD_WAIT_TIME PROTEUSII_CMD_GET_CNF
      CMD_Status_Success true rx (transmitTxPacket { s with txPacket := tx })).2.rxPacket
        - 1 := by omega
    simp only [memcpy, Nat.zero_le, true_and, Nat.zero_add, this, if_false]
  · obtain ⟨k, -, h1, -, h3, -⟩ := waitLoop_spec hdr PROTEUSII_CMD_GET_CNF
      CMD_Status_Success (Int.tdiv CMD_WAIT_TIME 5).toNat rx
      (resetStep true (transmitTxPacket { s with txPacket := tx }))
    have hw1 : (waitLoop hdr PROTEUSII_CMD_GET_CNF CMD_Status_Success
        (Int.tdiv CMD_WAIT_TIME 5).toNat rx
        (resetStep true (transmitTxPacket { s with txPacket := tx }))).1 = true := hw
    rw [h3] at hw1
    show ∃ i, i < CMDCONFIRMATIONARRAY_LENGTH ∧ (waitLoop hdr PROTEUSII_CMD_GET_CNF
        CMD_Status_Success (Int.tdiv CMD_WAIT_TIME 5).toNat rx
        (resetStep true (transmitTxPacket { s with txPacket := tx }))).2.cmdConfirmationArray i
          = _
    rw [h1]
    cases hp : pollConfirmations (afterDelays hdr k rx (resetStep true
        (transmitTxPacket { s with txPacket := tx }))).cmdConfirmationArray
        CMDCONFIRMATIONARRAY_LENGTH PROTEUSII_CMD_GET_CNF with
    | none => rw [hp] at hw1; cases hw1
    | some st =>
      rw [hp] at hw1
      obtain ⟨i, hi, hc, hs, -⟩ := pollConfirmations_eq_some hp
      refine ⟨i, hi, ?_⟩
      have hst : st = CMD_Status_Success := by simpa using hw1
      cases hcell : (afterDelays hdr k rx (resetStep true
        (transmitTxPacket { s with txPacket := tx }))).cmdConfirmationArray i with
      | mk c1 s1 =>
        rw [hcell] at hc hs
        simp only at hc hs
        rw [hc, hs, hst]

/-- The content of `rxPacket` that `ProteusII_Get` returns, at a request answered during
the first delay by the single frame `GET_CNF` with status 0 and content `07 08 09`. -/
theorem get_returns_rxPacket_content_witness :
    ((ProteusII_Get ⟨243, 10, 19, 32⟩ 1 (fun _ => 0) 0
        [[2, 0x50, 4, 0, 0, 7, 8, 9, 0x50]] initialState).map (fun r => r.1.ret) = some true) ∧
    ∃ r t, ProteusII_Get ⟨243, 10, 19, 32⟩ 1 (fun _ => 0) 0
        [[2, 0x50, 4, 0, 0, 7, 8, 9, 0x50]] initialState = some (r, t) ∧
      1 ≤ Frame.Length t.rxPacket ∧
      r.responseLength = (Frame.Length t.rxPacket - 1) % 65536 ∧
      (∀ i, i < Frame.Length t.rxPacket - 1 → r.responseP i = Frame.Data t.rxPacket (1 + i)) ∧
      (∀ i, Frame.Length t.rxPacket - 1 ≤ i → r.responseP i = (fun _ => 0) i) ∧
      ∃ i, i < CMDCONFIRMATIONARRAY_LENGTH ∧
        t.cmdConfirmationArray i = { cmd := PROTEUSII_CMD_GET_CNF, status := CMD_Status_Success } :=
  ⟨by decide,
    get_returns_rxPacket_content ⟨243, 10, 19, 32⟩ 1 (fun _ => 0) 0
      [[2, 0x50, 4, 0, 0, 7, 8, 9, 0x50]] initialState (by decide)⟩

end ProteusII

theorem memBytes_congr {m w : Mem} {n : Nat} (h : ∀ i, i < n → m i = w i) :
    memBytes m n = memBytes w n := by
  unfold memBytes
  apply List.map_congr_left
  intro i hi
  exact h i (List.mem_range.mp hi)

theorem memBytes_add (m : Mem) (k n : Nat) :
    memBytes m (k + n) = memBytes m k ++ memBytes (fun i => m (k + i)) n := by
  induction n with
  | zero => simp [memBytes]
  | succ j ih => rw [← Nat.add_assoc, memBytes_succ, ih, memBytes_succ, List.append_assoc]

theorem xorLoop_eq_foldl (m : Mem) (n : Nat) :
    xorLoop m n = (memBytes m n).foldl (fun a b => a ^^^ b) 0 := by
  induction n with
  | zero => rfl
  | succ j ih => rw [xorLoop, ih, memBytes_succ, List.foldl_append]; rfl

namespace ThyoneI

/-! ## Thyone-I: request functions -/

theorem Wait4CNF_uartTx (maxTimeMs : Int) (e st : Nat) (reset : Bool) (rx : List (List Nat))
    (s : State) : (Wait4CNF maxTimeMs e st reset rx s).2.uartTx = s.uartTx := by
  obtain ⟨k, -, h1, -, -, -⟩ := waitLoop_spec_thyone e st (Int.tdiv maxTimeMs 5).toNat rx
    (resetStep reset s)
  show (waitLoop e st _ rx _).2.uartTx = _
  rw [h1, (afterDelays_spec_thyone k rx _).2.1]
  unfold resetStep
  split <;> rfl

/-- `FillChecksum` on a command array whose start byte is set and whose length field
holds `n` with a zero high byte. -/
theorem FillChecksum_small (a : Mem) (n : Nat) (h0 : a 0 = CMD_STX) (h2 : a 2 = n)
    (h3 : a 3 = 0) (hn : n ≤ 65530) :
    CMD_ARRAY_SIZE a = n + 5 ∧
    FillChecksum a (CMD_ARRAY_SIZE a % 65536)
      = some (true, memWrite a (n + 4) (xorLoop a (n + 4))) := by
  have hs : CMD_ARRAY_SIZE a = n + 5 := by
    show ((a 2 <<< 0) ||| (a 3 <<< 8)) + 5 = n + 5
    rw [h2, h3]
    simp
  refine ⟨hs, ?_⟩
  unfold FillChecksum
  have hc : (n + 5) % 65536 ≥ LENGTH_CMD_OVERHEAD := by
    simp only [LENGTH_CMD_OVERHEAD]; omega
  have hp : ((a CMD_POSITION_LENGTH_MSB <<< 8) % 65536 + a CMD_POSITION_LENGTH_LSB) % 65536
      = n := by
    show ((a 3 <<< 8) % 65536 + a 2) % 65536 = n
    rw [h2, h3]
    simp
    omega
  rw [hs, if_pos ⟨hc, h0⟩]
  simp only [hp, LENGTH_CMD_OVERHEAD_WITHOUT_CRC, LENGTH_CMD_OVERHEAD]
  rw [if_pos (by omega)]

/-- Claim C6. Frame layout of a data request: for every payload of length `n ≤ 224`,
`ThyoneI_TransmitBroadcast` hands to `WE_UART_Transmit`, in one call, exactly `n + 5`
bytes: `0x02`, the command `0x06`, `n mod 256`, `n div 256`, the `n` payload bytes in
order and one final byte equal to the XOR of the preceding `n + 4` bytes; for every
`n > 224` it returns `false` and transmits nothing (no static changes). -/
theorem transmitBroadcast_frame (payloadP : Mem) (n : Nat) (rx : List (List Nat)) (s : State) :
    (n ≤ 224 →
      ∃ r, ThyoneI_TransmitBroadcast payloadP n rx s = some r ∧
        r.2.uartTx = s.uartTx ++
          [[0x02, 0x06, n % 256, n / 256] ++ memBytes payloadP n ++
            [([0x02, 0x06, n % 256, n / 256] ++ memBytes payloadP n).foldl
              (fun a b => a ^^^ b) 0]] ∧
        ([0x02, 0x06, n % 256, n / 256] ++ memBytes payloadP n ++
            [([0x02, 0x06, n % 256, n / 256] ++ memBytes payloadP n).foldl
              (fun a b => a ^^^ b) 0]).length = n + 5) ∧
    (224 < n → ThyoneI_TransmitBroadcast payloadP n rx s = some (false, s)) := by
  constructor
  · intro hn
    have hlo : (n >>> 0) % 256 = n := by simp; omega
    have hhi : (n >>> 8) % 256 = 0 := by
      rw [Nat.shiftRight_eq_div_pow]
      have : n / 2 ^ 8 = 0 := by omega
      rw [this]
    have hq : n / 256 = 0 := by omega
    have hm : n % 256 = n := by omega
    unfold ThyoneI_TransmitBroadcast
    rw [if_pos (show n ≤ MAX_PAYLOAD_LENGTH from hn)]
    dsimp only
    rw [hlo, hhi]
    generalize ha : memcpy (memWrite (memWrite (memWrite (memWrite s.CMD_Array CMD_POSITION_STX
      CMD_STX) CMD_POSITION_CMD ThyoneI_CMD_BROADCAST_DATA_REQ) CMD_POSITION_LENGTH_LSB n)
      CMD_POSITION_LENGTH_MSB 0) CMD_POSITION_DATA payloadP 0 n = a
    have a0 : a 0 = CMD_STX := by
      rw [← ha]; simp [memcpy, memWrite, CMD_POSITION_DATA, CMD_POSITION_STX,
        CMD_POSITION_CMD, CMD_POSITION_LENGTH_LSB, CMD_POSITION_LENGTH_MSB]
    have a1 : a 1 = 0x06 := by
      rw [← ha]; simp [memcpy, memWrite, CMD_POSITION_DATA, CMD_POSITION_STX,
        CMD_POSITION_CMD, CMD_POSITION_LENGTH_LSB, CMD_POSITION_LENGTH_MSB]
      decide
    have a2 : a 2 = n := by
      rw [← ha]; simp [memcpy, memWrite, CMD_POSITION_DATA, CMD_POSITION_STX,
        CMD_POSITION_CMD, CMD_POSITION_LENGTH_LSB, CMD_POSITION_LENGTH_MSB]
    have a3 : a 3 = 0 := by
      rw [← ha]; simp [memcpy, memWrite, CMD_POSITION_DATA, CMD_POSITION_STX,
        CMD_POSITION_CMD, CMD_POSITION_LENGTH_LSB, CMD_POSITION_LENGTH_MSB]
    have ad : ∀ i, i < n → a (4 + i) = payloadP i := by
      intro i hi
      rw [← ha]; simp [memcpy, memWrite, CMD_POSITION_DATA, hi]
    obtain ⟨hs, hf⟩ := FillChecksum_small a n a0 a2 a3 (by omega)
    have hs1 : CMD_ARRAY_SIZE (memWrite a (n + 4) (xorLoop a (n + 4))) = n + 5 := by
      rw [← hs]
      show ((_ <<< 0) ||| (_ <<< 8)) + 5 = ((_ <<< 0) ||| (_ <<< 8)) + 5
      have e2 : memWrite a (n + 4) (xorLoop a (n + 4)) CMD_POSITION_LENGTH_LSB
          = a CMD_POSITION_LENGTH_LSB := by
        simp [memWrite, CMD_POSITION_LENGTH_LSB]
      have e3 : memWrite a (n + 4) (xorLoop a (n + 4)) CMD_POSITION_LENGTH_MSB
          = a CMD_POSITION_LENGTH_MSB := by
        simp [memWrite, CMD_POSITION_LENGTH_MSB]
      rw [e2, e3]
    have hhead : memBytes a (4 + n) = [0x02, 0x06, n % 256, n / 256] ++ memBytes payloadP n := by
      rw [memBytes_add, memBytes_congr ad, hm, hq]
      simp [memBytes, List.range_succ, a0, a1, a2, a3, CMD_STX]
    have hframe : memBytes (memWrite a (n + 4) (xorLoop a (n + 4))) (n + 5)
        = [0x02, 0x06, n % 256, n / 256] ++ memBytes payloadP n ++
            [([0x02, 0x06, n % 256, n / 256] ++ memBytes payloadP n).foldl
              (fun a b => a ^^^ b) 0] := by
      rw [show n + 5 = (n + 4) + 1 from rfl, memBytes_succ,
        memBytes_congr (w := a) (fun i hi => by simp [memWrite]; omega),
        show n + 4 = 4 + n from Nat.add_comm _ _, ← hhead, ← xorLoop_eq_foldl]
      simp [memWrite]
    unfold sendRequest
    dsimp only
    rw [hf]
    dsimp only
    refine ⟨_, rfl, ?_, by simp [memBytes]⟩
    rw [Wait4CNF_uartTx]
    show s.uartTx ++ [memBytes _ (CMD_ARRAY_SIZE _)] = _
    rw [hs1, hframe]
  · intro hn
    unfold ThyoneI_TransmitBroadcast
    rw [if_neg (by simp only [MAX_PAYLOAD_LENGTH]; omega)]

/-- Claim C6 at the payload `11 22 33` and at a length of 225. -/
theorem transmitBroadcast_frame_witness :
    ((3 ≤ 224 ∧
      (ThyoneI_TransmitBroadcast (listMem [0x11, 0x22, 0x33]) 3 [] initialState).map
        (fun r => r.2.uartTx) = some [[0x02, 0x06, 3, 0, 0x11, 0x22, 0x33, 0x07]]) ∧
     (224 < 225 ∧
      (ThyoneI_TransmitBroadcast (listMem [0x11, 0x22, 0x33]) 225 [] initialState).map
        (fun r => (r.1, r.2.uartTx)) = some (false, []))) ∧
    ((3 ≤ 224 →
      ∃ r, ThyoneI_TransmitBroadcast (listMem [0x11, 0x22, 0x33]) 3 [] initialState = some r ∧
        r.2.uartTx = initialState.uartTx ++
          [[0x02, 0x06, 3 % 256, 3 / 256] ++ memBytes (listMem [0x11, 0x22, 0x33]) 3 ++
            [([0x02, 0x06, 3 % 256, 3 / 256] ++ memBytes (listMem [0x11, 0x22, 0x33]) 3).foldl
              (fun a b => a ^^^ b) 0]] ∧
        ([0x02, 0x06, 3 % 256, 3 / 256] ++ memBytes (listMem [0x11, 0x22, 0x33]) 3 ++
            [([0x02, 0x06, 3 % 256, 3 / 256] ++ memBytes (listMem [0x11, 0x22, 0x33]) 3).foldl
              (fun a b => a ^^^ b) 0]).length = 3 + 5) ∧
    (224 < 3 →
      ThyoneI_TransmitBroadcast (listMem [0x11, 0x22, 0x33]) 3 [] initialState
        = some (false, initialState))) :=
  ⟨⟨⟨by decide, by decide⟩, ⟨by decide, by decide⟩⟩,
    transmitBroadcast_frame (listMem [0x11, 0x22, 0x33]) 3 [] initialState⟩

end ThyoneI

namespace ThyoneI

theorem resetStep_getstate (s : State) :
    GetStateNoStatus (resetStep true s).cmdConfirmation_array := by
  intro i hi hc
  have : ((resetStep true s).cmdConfirmation_array i).cmd = CNFINVALID := by
    show (resetConfirmations s.cmdConfirmation_array CMDCONFIRMATIONARRAY_LENGTH i).cmd = _
    simp [resetConfirmations, hi]
  rw [this] at hc
  exact absurd hc (by decide)

/-- A wait for `ThyoneI_CMD_GETSTATE_CNF` with the status `CMD_Status_Success` fails
whatever is received: `HandleRxPacket` records that command with
`CMD_Status_NoStatus` only. -/
theorem Wait4CNF_getstate_success (maxTimeMs : Int) (rx : List (List Nat)) (s : State) :
    (Wait4CNF maxTimeMs ThyoneI_CMD_GETSTATE_CNF CMD_Status_Success true rx s).1 = false := by
  obtain ⟨k, -, -, -, h3, -⟩ := waitLoop_spec_thyone ThyoneI_CMD_GETSTATE_CNF CMD_Status_Success
    (Int.tdiv maxTimeMs 5).toNat rx (resetStep true s)
  show (waitLoop _ _ _ rx _).1 = false
  rw [h3]
  cases hp : pollConfirmations (afterDelays k rx (resetStep true s)).cmdConfirmation_array
      CMDCONFIRMATIONARRAY_LENGTH ThyoneI_CMD_GETSTATE_CNF with
  | none => rfl
  | some st =>
    obtain ⟨i, hi, hc, hs, -⟩ := pollConfirmations_eq_some hp
    have := (afterDelays_spec_thyone k rx (resetStep true s)).2.2.2.2 (resetStep_getstate s) i hi hc
    rw [hs] at this
    rw [this]
    decide

/-- Claim C9 fails on the code. `ThyoneI_GetState` returns `false` and leaves `*state`
untouched whatever is received during the wait, a checksum-valid `GETSTATE_CNF` frame
included: it waits for `GETSTATE_CNF` with the status `CMD_Status_Success`, while
`HandleRxPacket` records `GETSTATE_CNF` with `CMD_Status_NoStatus`. -/
theorem getState_never_succeeds (state : Nat) (rx : List (List Nat)) (s : State) :
    ∃ t, ThyoneI_GetState state rx s = some (false, state, t) := by
  unfold ThyoneI_GetState
  dsimp only
  generalize ha : memWrite (memWrite (memWrite (memWrite s.CMD_Array CMD_POSITION_STX CMD_STX)
    CMD_POSITION_CMD ThyoneI_CMD_GETSTATE_REQ) CMD_POSITION_LENGTH_LSB 0)
    CMD_POSITION_LENGTH_MSB 0 = a
  have a0 : a 0 = CMD_STX := by
    rw [← ha]; simp [memWrite, CMD_POSITION_STX, CMD_POSITION_CMD, CMD_POSITION_LENGTH_LSB,
      CMD_POSITION_LENGTH_MSB]
  have a2 : a 2 = 0 := by
    rw [← ha]; simp [memWrite, CMD_POSITION_STX, CMD_POSITION_CMD, CMD_POSITION_LENGTH_LSB,
      CMD_POSITION_LENGTH_MSB]
  have a3 : a 3 = 0 := by
    rw [← ha]; simp [memWrite, CMD_POSITION_STX, CMD_POSITION_CMD, CMD_POSITION_LENGTH_LSB,
      CMD_POSITION_LENGTH_MSB]
  rw [(FillChecksum_small a 0 a0 a2 a3 (by omega)).2]
  dsimp only
  rw [Wait4CNF_getstate_success]
  exact ⟨_, rfl⟩

/-- Claim C10 fails on the code. For the group 0x2A and the one-byte payload `11`,
`ThyoneI_TransmitMulticastExtended` transmits `02 2a 02 00 00 11 3b`: the command byte
is the group identifier instead of `0x08`, and the first payload byte is what
`CMD_Array[4]` held before (0 here) instead of the group identifier. -/
theorem multicastExtended_overwrites_command :
    (ThyoneI_TransmitMulticastExtended 0x2A (listMem [0x11]) 1 [] initialState).map
      (fun r => r.2.uartTx) = some [[0x02, 0x2A, 0x02, 0x00, 0x00, 0x11, 0x3B]] ∧
    ¬ ((ThyoneI_TransmitMulticastExtended 0x2A (listMem [0x11]) 1 [] initialState).map
      (fun r => r.2.uartTx)
        = some [[0x02, ThyoneI_CMD_MULTICAST_DATA_EX_REQ, 0x02, 0x00, 0x2A, 0x11,
            [0x02, ThyoneI_CMD_MULTICAST_DATA_EX_REQ, 0x02, 0x00, 0x2A, 0x11].foldl
              (fun a b => a ^^^ b) 0]]) := by
  decide

/-- The failing input of claim C9: a checksum-valid `GETSTATE_CNF` frame with the
payload `00 01` arrives during the first delay, and `ThyoneI_GetState` returns `false`
without writing `*state` (7 before and after). -/
theorem getState_fails_on_valid_confirmation :
    (feed initialState [0x02, 0x41, 0x02, 0x00, 0x00, 0x01, 0x40]).handled = 1 ∧
    (ThyoneI_GetState 7 [[0x02, 0x41, 0x02, 0x00, 0x00, 0x01, 0x40]] initialState).map
      (fun r => (r.1, r.2.1)) = some (false, 7) := by
  decide

end ThyoneI

/-! ## Proteus-II: frame size, polls, pin reset and bond database -/

namespace ProteusII

/-- Claim C19. Little-endian length decides the frame size: from the idle state, after
the four bytes `0x02, c, lo, hi` the framer has `rxByteCounter = 4` and
`bytesToReceive = (lo + 256 * hi + 5) mod 2^16`; and when `L = lo + 256 * hi` is at most
`PROTEUSII_MAX_PAYLOAD_LENGTH`, then on each of the first `L + 4` bytes of the frame the
framer is not idle (`rxByteCounter` is the number of bytes received) and neither
computes the checksum nor invokes `HandleRxPacket`, and on the byte number `L + 5` it
computes the checksum over the `L + 4` bytes before, invokes `HandleRxPacket` exactly
if the checksum equals that byte, and is idle again. -/
theorem length_field_decides_frame_size (hdr : Header) (s : State)
    (hs : s.rxByteCounter = 0) (c lo hi : Nat) :
    ((feed hdr s [0x02, c, lo, hi]).rxByteCounter = 4 ∧
      (feed hdr s [0x02, c, lo, hi]).bytesToReceive = (lo + 256 * hi + 5) % 2 ^ 16) ∧
    ∀ rest : List Nat, hdr.PROTEUSII_MAX_PAYLOAD_LENGTH + 5 < 65536 →
      lo + 256 * hi ≤ hdr.PROTEUSII_MAX_PAYLOAD_LENGTH →
      rest.length = lo + 256 * hi + 1 →
      (∀ k, 1 ≤ k → k < lo + 256 * hi + 5 →
        (feed hdr s (([0x02, c, lo, hi] ++ rest).take k)).rxByteCounter = k ∧
        (feed hdr s (([0x02, c, lo, hi] ++ rest).take k)).checksum = s.checksum ∧
        (feed hdr s (([0x02, c, lo, hi] ++ rest).take k)).handled = s.handled) ∧
      (feed hdr s ([0x02, c, lo, hi] ++ rest)).rxByteCounter = 0 ∧
      (feed hdr s ([0x02, c, lo, hi] ++ rest)).bytesToReceive = 0 ∧
      (feed hdr s ([0x02, c, lo, hi] ++ rest)).checksum
        = (([0x02, c, lo, hi] ++ rest).take (lo + 256 * hi + 4)).foldl (fun a b => a ^^^ b) 0 ∧
      (feed hdr s ([0x02, c, lo, hi] ++ rest)).handled
        = s.handled +
          (if (([0x02, c, lo, hi] ++ rest).take (lo + 256 * hi + 4)).foldl (fun a b => a ^^^ b) 0
              = ([0x02, c, lo, hi] ++ rest).getD (lo + 256 * hi + 4) 0 then 1 else 0) := by
  have hhead : ∀ f : Mem, f 0 = CMD_STX → f 1 = c → f 2 = lo → f 3 = hi →
      memBytes f 4 = [0x02, c, lo, hi] := by
    intro f h0 h1 h2 h3
    simp [memBytes, List.range_succ, h0, h1, h2, h3, CMD_STX]
  refine ⟨?_, ?_⟩
  · have e := feed_header hdr s (listMem [0x02, c, lo, hi]) hs rfl
    rw [hhead _ rfl rfl rfl rfl] at e
    rw [e]
    refine ⟨rfl, ?_⟩
    show announcedSize (listMem [0x02, c, lo, hi]) = _
    rw [announcedSize_eq]
    rfl
  · intro rest hmax hL hrest
    have hf : listMem ([0x02, c, lo, hi] ++ rest) 0 = CMD_STX := rfl
    have hFL : Frame.Length (listMem ([0x02, c, lo, hi] ++ rest)) = lo + 256 * hi := rfl
    have hlen : ([0x02, c, lo, hi] ++ rest).length = lo + 256 * hi + 5 := by
      simp [hrest]
    have hB : announcedSize (listMem ([0x02, c, lo, hi] ++ rest)) = lo + 256 * hi + 5 := by
      rw [announcedSize_eq, hFL]; simp only [LENGTH_CMD_OVERHEAD]; omega
    generalize hbytes : [0x02, c, lo, hi] ++ rest = bytes at hf hFL hlen hB ⊢
    have htake : ∀ k, k ≤ bytes.length → bytes.take k = memBytes (listMem bytes) k := by
      intro k hk
      rw [← memBytes_take _ _ _ hk, memBytes_listMem]
    refine ⟨?_, ?_⟩
    · intro k h1 hk
      rw [htake k (by omega)]
      by_cases h4 : 4 ≤ k
      · rw [feed_upto hdr s (listMem bytes) hs hf k h4 (by omega)]
        exact ⟨rfl, rfl, rfl⟩
      · have e1 : memBytes (listMem bytes) 1 = [CMD_STX] := by
          simp [memBytes, List.range_succ, hf]
        have e2 : memBytes (listMem bytes) 2 = [CMD_STX, listMem bytes 1] := by
          simp [memBytes, List.range_succ, hf]
        have e3 : memBytes (listMem bytes) 3 = [CMD_STX, listMem bytes 1, listMem bytes 2] := by
          simp [memBytes, List.range_succ, hf]
        have hk3 : k = 1 ∨ k = 2 ∨ k = 3 := by omega
        rcases hk3 with rfl | rfl | rfl
        · rw [e1, feed_cons, step_idle_stx hdr s hs, feed_nil]
          exact ⟨rfl, rfl, rfl⟩
        · rw [e2, feed_cons, step_idle_stx hdr s hs, feed_cons, step_cmd _ _ _ rfl, feed_nil]
          exact ⟨rfl, rfl, rfl⟩
        · rw [e3, feed_cons, step_idle_stx hdr s hs, feed_cons, step_cmd _ _ _ rfl, feed_cons,
            step_lsb _ _ _ rfl, feed_nil]
          exact ⟨rfl, rfl, rfl⟩
    · have e := feed_frame hdr s (listMem bytes) hs hf (by omega)
      rw [hB] at e
      have hb : memBytes (listMem bytes) (lo + 256 * hi + 5) = bytes := by
        rw [← hlen, memBytes_listMem]
      rw [hb] at e
      simp only [Nat.add_sub_cancel, show lo + 256 * hi + 5 - 1 = lo + 256 * hi + 4 from rfl] at e
      rw [xorLoop_listMem _ _ (by omega)] at e
      have hg : bytes.getD (lo + 256 * hi + 4) 0 = listMem bytes (lo + 256 * hi + 4) := rfl
      rw [hg]
      by_cases hx : (bytes.take (lo + 256 * hi + 4)).foldl (fun a b => a ^^^ b) 0
          = listMem bytes (lo + 256 * hi + 4)
      · simp only [hx, if_true] at e ⊢
        obtain ⟨g, b, l, hh⟩ := HandleRxPacket_shape hdr
          { s with
            rxBuffer := memcpy s.rxBuffer 0 (listMem bytes) 0 (lo + 256 * hi + 5)
            rxByteCounter := lo + 256 * hi + 5
            bytesToReceive := lo + 256 * hi + 5
            checksum := listMem bytes (lo + 256 * hi + 4) }
          (memcpy s.rxBuffer 0 (listMem bytes) 0 (lo + 256 * hi + 5))
        rw [hh] at e
        rw [e]
        exact ⟨rfl, rfl, rfl, rfl⟩
      · simp only [hx, if_false] at e ⊢
        rw [e]
        exact ⟨rfl, rfl, rfl, rfl⟩

/-- Claim C19 at the frame `02 41 01 00 00 42` received in the initial state. -/
theorem length_field_decides_frame_size_witness :
    initialState.rxByteCounter = 0 ∧ 243 + 5 < 65536 ∧ 1 + 256 * 0 ≤ 243 ∧
    [0, 0x42].length = 1 + 256 * 0 + 1 ∧
    ((feed ⟨243, 10, 19, 32⟩ initialState [0x02, 0x41, 1, 0]).rxByteCounter = 4 ∧
      (feed ⟨243, 10, 19, 32⟩ initialState [0x02, 0x41, 1, 0]).bytesToReceive
        = (1 + 256 * 0 + 5) % 2 ^ 16) ∧
    (∀ k, 1 ≤ k → k < 1 + 256 * 0 + 5 →
      (feed ⟨243, 10, 19, 32⟩ initialState
        (([0x02, 0x41, 1, 0] ++ [0, 0x42]).take k)).rxByteCounter = k ∧
      (feed ⟨243, 10, 19, 32⟩ initialState
        (([0x02, 0x41, 1, 0] ++ [0, 0x42]).take k)).checksum = initialState.checksum ∧
      (feed ⟨243, 10, 19, 32⟩ initialState
        (([0x02, 0x41, 1, 0] ++ [0, 0x42]).take k)).handled = initialState.handled) ∧
    (feed ⟨243, 10, 19, 32⟩ initialState ([0x02, 0x41, 1, 0] ++ [0, 0x42])).rxByteCounter = 0 ∧
    (feed ⟨243, 10, 19, 32⟩ initialState ([0x02, 0x41, 1, 0] ++ [0, 0x42])).checksum = 0x42 ∧
    (feed ⟨243, 10, 19, 32⟩ initialState ([0x02, 0x41, 1, 0] ++ [0, 0x42])).handled
      = initialState.handled + 1 :=
  have h := length_field_decides_frame_size ⟨243, 10, 19, 32⟩ initialState rfl 0x41 1 0
  have h2 := h.2 [0, 0x42] (by decide) (by decide) rfl
  ⟨rfl, by decide, by decide, rfl, h.1, h2.1, h2.2.1, h2.2.2.2.1, h2.2.2.2.2⟩

end ProteusII

theorem pollConfirmations_none_iff {arr : Nat → Confirmation} {len e : Nat} :
    pollConfirmations arr len e = none ↔ ∀ i, i < len → (arr i).cmd ≠ e := by
  refine ⟨fun h i hi hc => ?_, pollConfirmations_none⟩
  unfold pollConfirmations at h
  rw [Option.map_eq_none'] at h
  have := scanFrom_none h i (Nat.zero_le _) (by omega)
  simp [hc] at this

namespace ProteusII

/-- Claim C20. Exact result of a poll in `Wait4CNF`: every call has a deciding poll,
number `k` (counted from 0, at most `maxTimeMs / 5`), and returns the very state `u`
that this poll looked at, so that nothing is delayed or modified once a poll has found
the expected command; between two polls the state changes by one `WE_Delay(5)` only
(polling itself modifies nothing); no earlier poll saw a slot holding the expected
command; if some slot of `u` holds the expected command, the result is true if and only
if the status of the lowest-index such slot equals the expected status, whatever the
slots after it hold; and if no slot of `u` holds it, the result is false and the time
is used up. -/
theorem wait4cnf_poll_result (hdr : Header) (maxTimeMs : Int) (e st : Nat) (reset : Bool)
    (rx : List (List Nat)) (s : State) :
    ∃ k, k ≤ (Int.tdiv maxTimeMs 5).toNat ∧
      (Wait4CNF hdr maxTimeMs e st reset rx s).2 = afterDelays hdr k rx (resetStep reset s) ∧
      afterDelays hdr 0 rx (resetStep reset s) = resetStep reset s ∧
      (∀ j, afterDelays hdr (j + 1) rx (resetStep reset s)
        = WE_Delay hdr 5 (rx.getD j []) (afterDelays hdr j rx (resetStep reset s))) ∧
      (∀ j, j < k → ∀ i, i < CMDCONFIRMATIONARRAY_LENGTH →
        ((afterDelays hdr j rx (resetStep reset s)).cmdConfirmationArray i).cmd ≠ e) ∧
      (∀ i0, i0 < CMDCONFIRMATIONARRAY_LENGTH →
        ((afterDelays hdr k rx (resetStep reset s)).cmdConfirmationArray i0).cmd = e →
        (∀ i, i < i0 →
          ((afterDelays hdr k rx (resetStep reset s)).cmdConfirmationArray i).cmd ≠ e) →
        ((Wait4CNF hdr maxTimeMs e st reset rx s).1 = true ↔
          ((afterDelays hdr k rx (resetStep reset s)).cmdConfirmationArray i0).status = st)) ∧
      ((∀ i, i < CMDCONFIRMATIONARRAY_LENGTH →
          ((afterDelays hdr k rx (resetStep reset s)).cmdConfirmationArray i).cmd ≠ e) →
        (Wait4CNF hdr maxTimeMs e st reset rx s).1 = false ∧
          k = (Int.tdiv maxTimeMs 5).toNat) := by
  obtain ⟨k, hk, h1, h2, h3, h4⟩ :=
    waitLoop_spec hdr e st (Int.tdiv maxTimeMs 5).toNat rx (resetStep reset s)
  refine ⟨k, hk, h1, rfl, fun j => afterDelays_succ hdr j rx _, ?_, ?_, ?_⟩
  · intro j hj
    exact pollConfirmations_none_iff.mp (h2 j hj)
  · intro i0 hi0 hc hlow
    have hp := pollConfirmations_some hi0 hc hlow
    show (waitLoop hdr e st _ rx _).1 = true ↔ _
    rw [h3, hp]
    simp
  · intro hnone
    have hp := pollConfirmations_none hnone
    refine ⟨?_, h4 hp⟩
    show (waitLoop hdr e st _ rx _).1 = false
    rw [h3, hp]

end ProteusII

namespace ProteusII

theorem storeConfirmation_slot0 (arr : Nat → Confirmation) (len : Nat) (c : Confirmation)
    (hlen : 0 < len) (h : (arr 0).cmd = CNFINVALID) : storeConfirmation arr len c 0 = c := by
  obtain ⟨n, rfl⟩ : ∃ n, len = n + 1 := ⟨len - 1, by omega⟩
  simp [storeConfirmation, scanFrom, h]

theorem WE_Delay_valid_frame (hdr : Header) (ms : Int) (s : State) (f : Mem)
    (hs : s.rxByteCounter = 0) (hf : f 0 = CMD_STX) (hlen : Frame.Length f + 5 < 65536)
    (hck : xorLoop f (Frame.Length f + 4) = f (Frame.Length f + 4)) :
    (WE_Delay hdr ms (memBytes f (Frame.Length f + 5)) s).cmdConfirmationArray
      = storeConfirmation s.cmdConfirmationArray CMDCONFIRMATIONARRAY_LENGTH
          (frameConfirmation f) := by
  obtain ⟨g, b, l, e⟩ := feed_valid_frame hdr { s with delayLog := s.delayLog ++ [ms] } f hs hf
    hlen hck
  unfold WE_Delay
  rw [e]

/-- Claim C17. A pin reset discards any bytes remaining in the receive buffer: for every
state of the driver (the framer possibly in the middle of a frame, the confirmation
array arbitrary) and whatever is received during the 5 ms of the reset pulse, after the
`ClearReceiveBuffers` step of `ProteusII_PinReset` the counters `rxByteCounter` and
`bytesToReceive` are 0 and every confirmation slot has `cmd = 255`; a well-formed frame
received next is then parsed as from the idle state: `HandleRxPacket` is invoked on its
last byte and on no byte before, `rxPacket` holds the frame, its confirmation is in
slot 0 and the framer is idle again; in particular `ProteusII_PinReset` returns true
when the first bytes received after the reset are a well-formed GETSTATE_CNF frame. -/
theorem pinReset_discards_receive_buffer (hdr : Header)
    (hmax : hdr.PROTEUSII_MAX_PAYLOAD_LENGTH + 5 < 65536) (received : List Nat) (s : State) :
    (pinResetClear hdr received s).rxByteCounter = 0 ∧
    (pinResetClear hdr received s).bytesToReceive = 0 ∧
    (∀ i, i < CMDCONFIRMATIONARRAY_LENGTH →
      ((pinResetClear hdr received s).cmdConfirmationArray i).cmd = 255) ∧
    ∀ f : Mem, f 0 = CMD_STX → Frame.Length f ≤ hdr.PROTEUSII_MAX_PAYLOAD_LENGTH →
      xorLoop f (Frame.Length f + 4) = f (Frame.Length f + 4) →
      (∀ k, k < Frame.Length f + 5 →
        (feed hdr (pinResetClear hdr received s) (memBytes f k)).handled
          = (pinResetClear hdr received s).handled) ∧
      (feed hdr (pinResetClear hdr received s) (memBytes f (Frame.Length f + 5))).handled
        = (pinResetClear hdr received s).handled + 1 ∧
      (feed hdr (pinResetClear hdr received s) (memBytes f (Frame.Length f + 5))).rxPacket
        = memcpy (pinResetClear hdr received s).rxPacket 0 f 0 (Frame.Length f + 5) ∧
      (feed hdr (pinResetClear hdr received s)
        (memBytes f (Frame.Length f + 5))).cmdConfirmationArray 0 = frameConfirmation f ∧
      (feed hdr (pinResetClear hdr received s)
        (memBytes f (Frame.Length f + 5))).rxByteCounter = 0 ∧
      (feed hdr (pinResetClear hdr received s)
        (memBytes f (Frame.Length f + 5))).bytesToReceive = 0 ∧
      (f 1 = PROTEUSII_CMD_GETSTATE_CNF → ∀ rest : List (List Nat),
        (ProteusII_PinReset hdr received (memBytes f (Frame.Length f + 5) :: rest) s).1
          = true) := by
  have hfree : ∀ i, i < CMDCONFIRMATIONARRAY_LENGTH →
      ((pinResetClear hdr received s).cmdConfirmationArray i).cmd = 255 := by
    intro i hi
    show (resetConfirmations _ CMDCONFIRMATIONARRAY_LENGTH i).cmd = 255
    simp [resetConfirmations, hi, CNFINVALID]
  refine ⟨rfl, rfl, hfree, ?_⟩
  intro f hf hL hck
  have hB : announcedSize f = Frame.Length f + 5 := by
    rw [announcedSize_eq]; simp only [LENGTH_CMD_OVERHEAD]; omega
  obtain ⟨g, b, l, e⟩ := feed_valid_frame hdr (pinResetClear hdr received s) f rfl hf
    (by omega) hck
  refine ⟨?_, ?_, ?_, ?_, ?_, ?_, ?_⟩
  · intro k hk
    obtain ⟨buf, c1, b1, e1⟩ := feed_short hdr (pinResetClear hdr received s) f rfl hf k
      (Or.inl (by omega))
    rw [e1]
  · rw [e]
  · rw [e]
  · rw [e]
    exact storeConfirmation_slot0 _ _ _ (show 0 < CMDCONFIRMATIONARRAY_LENGTH by decide)
      (hfree 0 (by decide))
  · rw [e]
  · rw [e]
  · intro hcmd rest
    have hconf : frameConfirmation f
        = { cmd := PROTEUSII_CMD_GETSTATE_CNF, status := CMD_Status_NoStatus } := by
      unfold frameConfirmation Frame.Cmd
      rw [hcmd]
      rfl
    unfold ProteusII_PinReset
    simp only []
    split
    · rfl
    · have h100 : (Int.tdiv CMD_WAIT_TIME 5).toNat = 99 + 1 := by decide
      unfold Wait4CNF
      simp only []
      rw [h100, waitLoop_succ]
      have hp0 : pollConfirmations
          (resetStep true (WE_SetPin .ProteusII_Pin_Reset .WE_Pin_Level_High
            (pinResetClear hdr received s))).cmdConfirmationArray
          CMDCONFIRMATIONARRAY_LENGTH PROTEUSII_CMD_GETSTATE_CNF = none := by
        apply pollConfirmations_none
        intro i hi
        show (resetConfirmations _ CMDCONFIRMATIONARRAY_LENGTH i).cmd ≠ _
        simp only [resetConfirmations, hi, if_true]
        decide
      simp only [hp0]
      have ha := WE_Delay_valid_frame hdr 5
        (resetStep true (WE_SetPin .ProteusII_Pin_Reset .WE_Pin_Level_High
          (pinResetClear hdr received s))) f rfl hf (by omega) hck
      have h0 : ((WE_Delay hdr 5 (memBytes f (Frame.Length f + 5) :: rest).headI
          (resetStep true (WE_SetPin .ProteusII_Pin_Reset .WE_Pin_Level_High
            (pinResetClear hdr received s)))).cmdConfirmationArray 0)
          = { cmd := PROTEUSII_CMD_GETSTATE_CNF, status := CMD_Status_NoStatus } := by
        show (WE_Delay hdr 5 (memBytes f (Frame.Length f + 5)) _).cmdConfirmationArray 0 = _
        rw [ha, ← hconf]
        apply storeConfirmation_slot0 _ _ _ (show 0 < CMDCONFIRMATIONARRAY_LENGTH by decide)
        show (resetConfirmations _ CMDCONFIRMATIONARRAY_LENGTH 0).cmd = _
        rfl
      have hp1 := @pollConfirmations_some _ CMDCONFIRMATIONARRAY_LENGTH
        PROTEUSII_CMD_GETSTATE_CNF 0 (by decide) (congrArg Confirmation.cmd h0)
        (fun i hi => absurd hi (Nat.not_lt_zero i))
      rw [show (99 : Nat) = 98 + 1 from rfl, waitLoop_succ]
      simp only [hp1, h0]
      rfl

/-- Claim C17 for a reset in the middle of a frame (`02 50` received before, `02 41 05`
during the reset pulse), followed by the frame `02 41 02 00 01 01 41`. -/
theorem pinReset_discards_receive_buffer_witness :
    243 + 5 < 65536 ∧
    (feed ⟨243, 10, 19, 32⟩ initialState [0x02, 0x50]).rxByteCounter = 2 ∧
    (pinResetClear ⟨243, 10, 19, 32⟩ [0x02, 0x41, 5]
      (feed ⟨243, 10, 19, 32⟩ initialState [0x02, 0x50])).rxByteCounter = 0 ∧
    (pinResetClear ⟨243, 10, 19, 32⟩ [0x02, 0x41, 5]
      (feed ⟨243, 10, 19, 32⟩ initialState [0x02, 0x50])).bytesToReceive = 0 ∧
    (ProteusII_PinReset ⟨243, 10, 19, 32⟩ [0x02, 0x41, 5]
      [memBytes (listMem [0x02, 0x41, 2, 0, 1, 1, 0x41])
        (Frame.Length (listMem [0x02, 0x41, 2, 0, 1, 1, 0x41]) + 5)]
      (feed ⟨243, 10, 19, 32⟩ initialState [0x02, 0x50])).1 = true :=
  have h := pinReset_discards_receive_buffer ⟨243, 10, 19, 32⟩ (by decide) [0x02, 0x41, 5]
    (feed ⟨243, 10, 19, 32⟩ initialState [0x02, 0x50])
  ⟨by decide, by decide, h.1, h.2.1,
    (h.2.2.2 (listMem [0x02, 0x41, 2, 0, 1, 1, 0x41]) (by decide) (by decide)
      (by decide)).2.2.2.2.2.2 (by decide) []⟩

end ProteusII

namespace ProteusII

theorem getBondsLoop_spec (Data : Mem) (n : Nat) :
    ∀ (i0 : Nat) (devices : Nat → ProteusII_BondDatabaseEntry_t) (j : Nat),
      getBondsLoop Data n i0 devices j =
        if i0 ≤ j ∧ j < i0 + n then
          { id := ((Data ((2 + j * 8) % 256) <<< 0)
              + (Data ((2 + j * 8) % 256 + 1) <<< 8)) % 65536
            btMac := memcpy (devices j).btMac 0 Data ((2 + j * 8) % 256 + 2) 6 }
        else devices j := by
  induction n with
  | zero =>
    intro i0 devices j
    have : ¬ (i0 ≤ j ∧ j < i0 + 0) := by omega
    rw [if_neg this]
    rfl
  | succ n ih =>
    intro i0 devices j
    rw [getBondsLoop, ih]
    by_cases h1 : j = i0
    · subst h1
      have a : ¬ (j + 1 ≤ j ∧ j < j + 1 + n) := by omega
      have b : j ≤ j ∧ j < j + (n + 1) := by omega
      rw [if_neg a, if_pos b]
      simp
    · by_cases h2 : i0 + 1 ≤ j ∧ j < i0 + 1 + n
      · have b : i0 ≤ j ∧ j < i0 + (n + 1) := by omega
        rw [if_pos h2, if_pos b]
        simp [h1]
      · have b : ¬ (i0 ≤ j ∧ j < i0 + (n + 1)) := by omega
        rw [if_neg h2, if_neg b]
        simp [h1]

/-- A wait that returns true ends with a slot holding the expected command and the
expected status. -/
theorem Wait4CNF_true_slot (hdr : Header) (maxTimeMs : Int) (e st : Nat) (reset : Bool)
    (rx : List (List Nat)) (s : State)
    (hw : (Wait4CNF hdr maxTimeMs e st reset rx s).1 = true) :
    ∃ i, i < CMDCONFIRMATIONARRAY_LENGTH ∧
      (Wait4CNF hdr maxTimeMs e st reset rx s).2.cmdConfirmationArray i
        = { cmd := e, status := st } := by
  obtain ⟨k, -, h1, -, h3, -⟩ := waitLoop_spec hdr e st (Int.tdiv maxTimeMs 5).toNat rx
    (resetStep reset s)
  have hw1 : (waitLoop hdr e st (Int.tdiv maxTimeMs 5).toNat rx (resetStep reset s)).1
      = true := hw
  rw [h3] at hw1
  show ∃ i, i < CMDCONFIRMATIONARRAY_LENGTH ∧
    (waitLoop hdr e st (Int.tdiv maxTimeMs 5).toNat rx
      (resetStep reset s)).2.cmdConfirmationArray i = _
  rw [h1]
  cases hp : pollConfirmations (afterDelays hdr k rx (resetStep reset s)).cmdConfirmationArray
      CMDCONFIRMATIONARRAY_LENGTH e with
  | none => rw [hp] at hw1; cases hw1
  | some st1 =>
    rw [hp] at hw1
    obtain ⟨i, hi, hc, hs, -⟩ := pollConfirmations_eq_some hp
    refine ⟨i, hi, ?_⟩
    have hst : st1 = st := by simpa using hw1
    cases hcell : (afterDelays hdr k rx (resetStep reset s)).cmdConfirmationArray i with
    | mk c1 s1 =>
      rw [hcell] at hc hs
      simp only at hc hs
      rw [hc, hs, hst]

/-- What `ProteusII_GetBonds` returns, in terms of `rxPacket` as the wait leaves it:
whenever the call returns `true` (with `PROTEUSII_MAX_BOND_DEVICES` at most 32, so that
the `uint8_t` offset `2 + 8 i` does not wrap), `nrOfDevices` is the minimum of
`PROTEUSII_MAX_BOND_DEVICES` and the byte `Data[1]` of `rxPacket`, and for every
`i < nrOfDevices` the entry `devices[i]` has the `uint16_t` id made of the bytes
`Data[2 + 8 i]` (low) and `Data[3 + 8 i]` (high) and as `btMac` the six bytes
`Data[4 + 8 i] .. Data[9 + 8 i]`; the entries from `nrOfDevices` on are untouched, and
the confirmation array holds `GET_BONDS_CNF` with the status `CMD_Status_Success`. -/
theorem getBonds_returns_rxPacket_content (hdr : Header)
    (hB : hdr.PROTEUSII_MAX_BOND_DEVICES ≤ 32)
    (bondDatabase : ProteusII_BondDatabase_t) (rx : List (List Nat)) (s : State)
    (h : (ProteusII_GetBonds hdr bondDatabase rx s).map (fun r => r.1) = some true) :
    ∃ db t, ProteusII_GetBonds hdr bondDatabase rx s = some (true, db, t) ∧
      db.nrOfDevices = min (Frame.Data t.rxPacket 1) hdr.PROTEUSII_MAX_BOND_DEVICES ∧
      (∀ i, i < db.nrOfDevices →
        (db.devices i).id
          = (Frame.Data t.rxPacket (2 + 8 * i) + 256 * Frame.Data t.rxPacket (3 + 8 * i))
              % 65536 ∧
        (Frame.Data t.rxPacket (2 + 8 * i) < 256 → Frame.Data t.rxPacket (3 + 8 * i) < 256 →
          (db.devices i).id
            = Frame.Data t.rxPacket (2 + 8 * i) + 256 * Frame.Data t.rxPacket (3 + 8 * i)) ∧
        (∀ j, j < 6 → (db.devices i).btMac j = Frame.Data t.rxPacket (4 + 8 * i + j)) ∧
        (∀ j, 6 ≤ j → (db.devices i).btMac j = (bondDatabase.devices i).btMac j)) ∧
      (∀ i, db.nrOfDevices ≤ i → db.devices i = bondDatabase.devices i) ∧
      ∃ i, i < CMDCONFIRMATIONARRAY_LENGTH ∧
        t.cmdConfirmationArray i
          = { cmd := PROTEUSII_CMD_GET_BONDS_CNF, status := CMD_Status_Success } := by
  unfold ProteusII_GetBonds at h ⊢
  dsimp only at h ⊢
  generalize FillChecksum (Frame.setLength (memWrite s.txPacket 1
    PROTEUSII_CMD_GET_BONDS_REQ) 0) = o at h ⊢
  rcases o with _ | ⟨_ | _, tx⟩
  · simp at h
  · simp at h
  dsimp only at h ⊢
  by_cases hw : (Wait4CNF hdr CMD_WAIT_TIME PROTEUSII_CMD_GET_BONDS_CNF CMD_Status_Success
      true rx (transmitTxPacket { s with txPacket := tx })).1 = true
  swap
  · rw [if_pos (by simpa using hw)] at h; simp at h
  rw [if_neg (by simpa using hw)]
  generalize hT : (Wait4CNF hdr CMD_WAIT_TIME PROTEUSII_CMD_GET_BONDS_CNF CMD_Status_Success
      true rx (transmitTxPacket { s with txPacket := tx })) = T at hw ⊢
  have hslot := Wait4CNF_true_slot hdr CMD_WAIT_TIME PROTEUSII_CMD_GET_BONDS_CNF
    CMD_Status_Success true rx (transmitTxPacket { s with txPacket := tx }) (by rw [hT]; exact hw)
  rw [hT] at hslot
  have hnr : (if Frame.Data T.2.rxPacket 1 > hdr.PROTEUSII_MAX_BOND_DEVICES
      then hdr.PROTEUSII_MAX_BOND_DEVICES else Frame.Data T.2.rxPacket 1)
      = min (Frame.Data T.2.rxPacket 1) hdr.PROTEUSII_MAX_BOND_DEVICES := by
    split <;> omega
  refine ⟨_, _, rfl, hnr, ?_, ?_, hslot⟩
  · intro i hi
    have hi1 : i < min (Frame.Data T.2.rxPacket 1) hdr.PROTEUSII_MAX_BOND_DEVICES := by
      rw [← hnr]; exact hi
    have hi32 : i < 32 := by omega
    have hoff : (2 + i * 8) % 256 = 2 + 8 * i := by omega
    have hin : 0 ≤ i ∧ i < 0 + (if Frame.Data T.2.rxPacket 1 > hdr.PROTEUSII_MAX_BOND_DEVICES
      then hdr.PROTEUSII_MAX_BOND_DEVICES else Frame.Data T.2.rxPacket 1) := by
      rw [hnr]; omega
    have hid : ∀ a b : Nat, ((a <<< 0) + (b <<< 8)) % 65536 = (a + 256 * b) % 65536 := by
      intro a b
      rw [Nat.shiftLeft_eq, Nat.shiftLeft_eq]
      congr 1
      omega
    simp only [getBondsLoop_spec, if_pos hin, hoff, hid]
    have e3 : 2 + 8 * i + 1 = 3 + 8 * i := by omega
    rw [e3]
    refine ⟨rfl, ?_, ?_, ?_⟩
    · intro ha hb
      exact Nat.mod_eq_of_lt (by omega)
    · intro j hj
      simp only [memcpy, Nat.zero_le, true_and, Nat.zero_add, hj, if_true, Frame.Data,
        Nat.sub_zero]
      congr 1
      omega
    · intro j hj
      have : ¬ j < 6 := by omega
      simp only [memcpy, Nat.zero_le, true_and, Nat.zero_add, this, if_false]
  · intro i hi
    have hin : ¬ (0 ≤ i ∧ i < 0 + (if Frame.Data T.2.rxPacket 1 > hdr.PROTEUSII_MAX_BOND_DEVICES
      then hdr.PROTEUSII_MAX_BOND_DEVICES else Frame.Data T.2.rxPacket 1)) := by
      have : (if Frame.Data T.2.rxPacket 1 > hdr.PROTEUSII_MAX_BOND_DEVICES
        then hdr.PROTEUSII_MAX_BOND_DEVICES else Frame.Data T.2.rxPacket 1) ≤ i := hi
      omega
    simp only [getBondsLoop_spec, if_neg hin]

/-- The content of `rxPacket` that `ProteusII_GetBonds` returns, at a request answered
during the first delay by the single frame `GET_BONDS_CNF` with status 0 and one device
(id 5, address `01 .. 06`). -/
theorem getBonds_returns_rxPacket_content_witness :
    (32 ≤ 32 ∧
      (ProteusII_GetBonds ⟨243, 10, 19, 32⟩ ⟨0, fun _ => ⟨0, fun _ => 0⟩⟩
        [[2, 0x4F, 10, 0, 0, 1, 5, 0, 1, 2, 3, 4, 5, 6, 0x44]] initialState).map
          (fun r => r.1) = some true) ∧
    ∃ db t, ProteusII_GetBonds ⟨243, 10, 19, 32⟩ ⟨0, fun _ => ⟨0, fun _ => 0⟩⟩
        [[2, 0x4F, 10, 0, 0, 1, 5, 0, 1, 2, 3, 4, 5, 6, 0x44]] initialState
          = some (true, db, t) ∧
      db.nrOfDevices = min (Frame.Data t.rxPacket 1) 32 ∧
      (∀ i, i < db.nrOfDevices →
        (db.devices i).id
          = (Frame.Data t.rxPacket (2 + 8 * i) + 256 * Frame.Data t.rxPacket (3 + 8 * i))
              % 65536 ∧
        (Frame.Data t.rxPacket (2 + 8 * i) < 256 → Frame.Data t.rxPacket (3 + 8 * i) < 256 →
          (db.devices i).id
            = Frame.Data t.rxPacket (2 + 8 * i) + 256 * Frame.Data t.rxPacket (3 + 8 * i)) ∧
        (∀ j, j < 6 → (db.devices i).btMac j = Frame.Data t.rxPacket (4 + 8 * i + j)) ∧
        (∀ j, 6 ≤ j → (db.devices i).btMac j = (fun _ => 0) j)) ∧
      (∀ i, db.nrOfDevices ≤ i →
        db.devices i = (fun _ => (⟨0, fun _ => 0⟩ : ProteusII_BondDatabaseEntry_t)) i) ∧
      ∃ i, i < CMDCONFIRMATIONARRAY_LENGTH ∧
        t.cmdConfirmationArray i
          = { cmd := PROTEUSII_CMD_GET_BONDS_CNF, status := CMD_Status_Success } :=
  ⟨⟨by decide, by decide⟩,
    getBonds_returns_rxPacket_content ⟨243, 10, 19, 32⟩ (by decide)
      ⟨0, fun _ => ⟨0, fun _ => 0⟩⟩
      [[2, 0x4F, 10, 0, 0, 1, 5, 0, 1, 2, 3, 4, 5, 6, 0x44]] initialState (by decide)⟩

end ProteusII

/-! ## Thyone-I: user settings and pin control -/

namespace ThyoneI

theorem Wait4CNF_CMD_Array (maxTimeMs : Int) (e st : Nat) (reset : Bool)
    (rx : List (List Nat)) (s : State) :
    (Wait4CNF maxTimeMs e st reset rx s).2.CMD_Array = s.CMD_Array := by
  obtain ⟨k, -, h1, -, -, -⟩ := waitLoop_spec_thyone e st (Int.tdiv maxTimeMs 5).toNat rx
    (resetStep reset s)
  show (waitLoop e st _ rx _).2.CMD_Array = _
  rw [h1, (afterDelays_spec_thyone k rx _).2.2.1]
  unfold resetStep
  split <;> rfl

/-- A request whose length field holds `n` (high byte 0): the checksum is written behind
the `n + 4` bytes before it and these `n + 5` bytes are transmitted in one call. -/
theorem sendRequest_frame (e st : Nat) (rx : List (List Nat)) (s : State) (n : Nat)
    (h0 : s.CMD_Array 0 = CMD_STX) (h2 : s.CMD_Array 2 = n) (h3 : s.CMD_Array 3 = 0)
    (hn : n ≤ 65530) :
    ∃ r, sendRequest e st rx s = some r ∧
      r.2.uartTx = s.uartTx ++ [memBytes s.CMD_Array (n + 4) ++ [xorLoop s.CMD_Array (n + 4)]] ∧
      r.2.CMD_Array = memWrite s.CMD_Array (n + 4) (xorLoop s.CMD_Array (n + 4)) := by
  obtain ⟨hs, hf⟩ := FillChecksum_small s.CMD_Array n h0 h2 h3 hn
  have hs1 : CMD_ARRAY_SIZE (memWrite s.CMD_Array (n + 4) (xorLoop s.CMD_Array (n + 4)))
      = n + 5 := by
    rw [← hs]
    show ((_ <<< 0) ||| (_ <<< 8)) + 5 = ((_ <<< 0) ||| (_ <<< 8)) + 5
    have e2 : memWrite s.CMD_Array (n + 4) (xorLoop s.CMD_Array (n + 4)) CMD_POSITION_LENGTH_LSB
        = s.CMD_Array CMD_POSITION_LENGTH_LSB := by
      simp [memWrite, CMD_POSITION_LENGTH_LSB]
    have e3 : memWrite s.CMD_Array (n + 4) (xorLoop s.CMD_Array (n + 4)) CMD_POSITION_LENGTH_MSB
        = s.CMD_Array CMD_POSITION_LENGTH_MSB := by
      simp [memWrite, CMD_POSITION_LENGTH_MSB]
    rw [e2, e3]
  have hframe : memBytes (memWrite s.CMD_Array (n + 4) (xorLoop s.CMD_Array (n + 4))) (n + 5)
      = memBytes s.CMD_Array (n + 4) ++ [xorLoop s.CMD_Array (n + 4)] := by
    rw [show n + 5 = (n + 4) + 1 from rfl, memBytes_succ,
      memBytes_congr (w := s.CMD_Array) (fun i hi => by simp [memWrite]; omega)]
    simp [memWrite]
  unfold sendRequest
  rw [hf]
  dsimp only
  refine ⟨_, rfl, ?_, ?_⟩
  · rw [Wait4CNF_uartTx]
    show s.uartTx ++ [memBytes _ (CMD_ARRAY_SIZE _)] = _
    rw [hs1, hframe]
  · rw [Wait4CNF_CMD_Array]

/-- The array `ThyoneI_Set` fills and the frame it transmits; `m` is the value of the
`uint8_t` expression `1 + length`. -/
theorem ThyoneI_Set_frame (userSetting : Nat) (ValueP : Mem) (n : Nat)
    (rx : List (List Nat)) (s : State) :
    ∀ m, m = (1 + n) % 256 →
      ∃ A, A = memcpy (memWrite (memWrite (memWrite (memWrite (memWrite s.CMD_Array
          CMD_POSITION_STX CMD_STX) CMD_POSITION_CMD ThyoneI_CMD_SET_REQ)
          CMD_POSITION_LENGTH_LSB m) CMD_POSITION_LENGTH_MSB 0) CMD_POSITION_DATA userSetting)
          (CMD_POSITION_DATA + 1) ValueP 0 n ∧
        A 0 = CMD_STX ∧ A 1 = ThyoneI_CMD_SET_REQ ∧ A 2 = m ∧ A 3 = 0 ∧ A 4 = userSetting ∧
        (∀ i, i < n → A (5 + i) = ValueP i) ∧
        ∃ r, ThyoneI_Set userSetting ValueP n rx s = some r ∧
          r.2.uartTx = s.uartTx ++ [memBytes A (m + 4) ++ [xorLoop A (m + 4)]] ∧
          r.2.CMD_Array = memWrite A (m + 4) (xorLoop A (m + 4)) := by
  intro m hm
  refine ⟨_, rfl, ?_, ?_, ?_, ?_, ?_, ?_, ?_⟩
  · simp [memcpy, memWrite, CMD_POSITION_DATA, CMD_POSITION_STX,
      CMD_POSITION_CMD, CMD_POSITION_LENGTH_LSB, CMD_POSITION_LENGTH_MSB]
  · simp [memcpy, memWrite, CMD_POSITION_DATA, CMD_POSITION_STX,
      CMD_POSITION_CMD, CMD_POSITION_LENGTH_LSB, CMD_POSITION_LENGTH_MSB]
  · simp [memcpy, memWrite, CMD_POSITION_DATA, CMD_POSITION_STX,
      CMD_POSITION_CMD, CMD_POSITION_LENGTH_LSB, CMD_POSITION_LENGTH_MSB]
  · simp [memcpy, memWrite, CMD_POSITION_DATA, CMD_POSITION_STX,
      CMD_POSITION_CMD, CMD_POSITION_LENGTH_LSB, CMD_POSITION_LENGTH_MSB]
  · simp [memcpy, memWrite, CMD_POSITION_DATA, CMD_POSITION_STX,
      CMD_POSITION_CMD, CMD_POSITION_LENGTH_LSB, CMD_POSITION_LENGTH_MSB]
  · intro i hi
    simp [memcpy, memWrite, CMD_POSITION_DATA, hi]
  · unfold ThyoneI_Set
    dsimp only
    rw [← hm]
    apply sendRequest_frame
    · simp [memcpy, memWrite, CMD_POSITION_DATA, CMD_POSITION_STX,
        CMD_POSITION_CMD, CMD_POSITION_LENGTH_LSB, CMD_POSITION_LENGTH_MSB]
    · simp [memcpy, memWrite, CMD_POSITION_DATA, CMD_POSITION_STX,
        CMD_POSITION_CMD, CMD_POSITION_LENGTH_LSB, CMD_POSITION_LENGTH_MSB]
    · simp [memcpy, memWrite, CMD_POSITION_DATA, CMD_POSITION_STX,
        CMD_POSITION_CMD, CMD_POSITION_LENGTH_LSB, CMD_POSITION_LENGTH_MSB]
    · omega

/-- A SET request with a value of one byte transmits the frame
`02 11 02 00 <index> <value> <checksum>`. -/
theorem ThyoneI_Set_one (userSetting v : Nat) (rx : List (List Nat)) (s : State) :
    ∃ r, ThyoneI_Set userSetting (listMem [v]) 1 rx s = some r ∧
      r.2.uartTx = s.uartTx ++
        [[0x02, ThyoneI_CMD_SET_REQ, 2, 0, userSetting, v,
          [0x02, ThyoneI_CMD_SET_REQ, 2, 0, userSetting, v].foldl (fun a b => a ^^^ b) 0]] := by
  obtain ⟨A, -, a0, a1, a2, a3, a4, ad, r, hr, htx, -⟩ :=
    ThyoneI_Set_frame userSetting (listMem [v]) 1 rx s 2 (by decide)
  have a5 : A 5 = v := ad 0 (by decide)
  have hhead : memBytes A 6 = [0x02, ThyoneI_CMD_SET_REQ, 2, 0, userSetting, v] := by
    simp [memBytes, List.range_succ, a0, a1, a2, a3, a4, a5, CMD_STX]
  refine ⟨r, hr, ?_⟩
  rw [htx]
  show s.uartTx ++ [memBytes A 6 ++ [xorLoop A 6]] = _
  rw [xorLoop_eq_foldl, hhead]
  rfl

/-- Claim C13. Length field of a SET request: for every value length `n ≤ 254` the frame
`ThyoneI_Set` builds and transmits carries in bytes 2 and 3 the little-endian 16-bit
encoding of `n + 1` and has `n + 1` payload bytes, the setting index and the `n` value
bytes; for `n = 255` the bytes 2 and 3 are `0x00, 0x00` instead of `0x00, 0x01`, the
encoding of 256: the frame transmitted has no payload, its checksum taking the place of
the setting index. -/
theorem set_length_field_wraps (userSetting : Nat) (ValueP : Mem) (n : Nat)
    (rx : List (List Nat)) (s : State) :
    (n ≤ 254 →
      ∃ r, ThyoneI_Set userSetting ValueP n rx s = some r ∧
        r.2.CMD_Array 2 = (n + 1) % 256 ∧ r.2.CMD_Array 3 = (n + 1) / 256 % 256 ∧
        r.2.uartTx = s.uartTx ++
          [[0x02, ThyoneI_CMD_SET_REQ, (n + 1) % 256, (n + 1) / 256 % 256, userSetting]
            ++ memBytes ValueP n ++
            [([0x02, ThyoneI_CMD_SET_REQ, (n + 1) % 256, (n + 1) / 256 % 256, userSetting]
              ++ memBytes ValueP n).foldl (fun a b => a ^^^ b) 0]]) ∧
    (n = 255 →
      ∃ r, ThyoneI_Set userSetting ValueP n rx s = some r ∧
        r.2.CMD_Array 2 = 0 ∧ r.2.CMD_Array 3 = 0 ∧
        (r.2.CMD_Array 2, r.2.CMD_Array 3) ≠ ((n + 1) % 256, (n + 1) / 256 % 256) ∧
        r.2.uartTx = s.uartTx ++
          [[0x02, ThyoneI_CMD_SET_REQ, 0, 0, 0x02 ^^^ ThyoneI_CMD_SET_REQ]]) := by
  have hA := ThyoneI_Set_frame userSetting ValueP n rx s
  constructor
  · intro hn
    obtain ⟨A, -, a0, a1, a2, a3, a4, ad, r, hr, htx, harr⟩ := hA (n + 1) (by omega)
    have e1 : (n + 1) % 256 = n + 1 := by omega
    have e2 : (n + 1) / 256 % 256 = 0 := by omega
    have hhead : memBytes A (5 + n) = [0x02, ThyoneI_CMD_SET_REQ, n + 1, 0, userSetting]
        ++ memBytes ValueP n := by
      rw [memBytes_add, memBytes_congr ad]
      simp [memBytes, List.range_succ, a0, a1, a2, a3, a4, CMD_STX]
    refine ⟨r, hr, ?_, ?_, ?_⟩
    · rw [harr, e1]; simp [memWrite, a2]
    · rw [harr, e2]; simp [memWrite, a3]
    · rw [htx, e1, e2, show n + 1 + 4 = 5 + n by omega, xorLoop_eq_foldl, hhead]
  · intro hn
    subst hn
    obtain ⟨A, -, a0, a1, a2, a3, a4, ad, r, hr, htx, harr⟩ := hA 0 (by decide)
    have hhead : memBytes A 4 = [0x02, ThyoneI_CMD_SET_REQ, 0, 0] := by
      simp [memBytes, List.range_succ, a0, a1, a2, a3, CMD_STX]
    have hx : xorLoop A 4 = 0x02 ^^^ ThyoneI_CMD_SET_REQ := by
      rw [xorLoop_eq_foldl, hhead]
      decide
    have h2 : r.2.CMD_Array 2 = 0 := by rw [harr]; simp [memWrite, a2]
    have h3 : r.2.CMD_Array 3 = 0 := by rw [harr]; simp [memWrite, a3]
    refine ⟨r, hr, h2, h3, ?_, ?_⟩
    · rw [h2, h3]; decide
    · rw [htx]
      show s.uartTx ++ [memBytes A 4 ++ [xorLoop A 4]] = _
      rw [hhead, hx]
      rfl

end ThyoneI

namespace ThyoneI

/-- Claim C12. Permissible RF channels: for every channel below 38
`ThyoneI_SetRFChannel` builds and transmits a SET request whose payload is the
RF-channel setting index followed by the channel byte; for the channel 38, which the
comment in the function counts among the permissible values 0-38, and for every channel
above 38 it returns false and transmits nothing (no static changes). -/
theorem setRFChannel_rejects_channel_38 (hdr : Header) (rx : List (List Nat)) (s : State) :
    (∀ channel, channel < 38 →
      ∃ r, ThyoneI_SetRFChannel hdr channel rx s = some r ∧
        r.2.uartTx = s.uartTx ++
          [[0x02, ThyoneI_CMD_SET_REQ, 2, 0, hdr.ThyoneI_USERSETTING_INDEX_RF_CHANNEL, channel,
            [0x02, ThyoneI_CMD_SET_REQ, 2, 0, hdr.ThyoneI_USERSETTING_INDEX_RF_CHANNEL,
              channel].foldl (fun a b => a ^^^ b) 0]]) ∧
    ThyoneI_SetRFChannel hdr 38 rx s = some (false, s) ∧
    (∀ channel, 38 < channel → ThyoneI_SetRFChannel hdr channel rx s = some (false, s)) := by
  refine ⟨?_, rfl, ?_⟩
  · intro channel hc
    unfold ThyoneI_SetRFChannel
    rw [if_pos hc]
    exact ThyoneI_Set_one _ _ rx s
  · intro channel hc
    unfold ThyoneI_SetRFChannel
    rw [if_neg (by omega)]

/-- Claim C14. UART configuration index round trip: for every even base baud-rate index
`b < 64`, every parity and every flow-control flag, `ThyoneI_SetBaudrateIndex` transmits
as value of the UART setting the byte `u = b`, plus 1 when flow control is on, plus 64
when the parity is even; and whenever `ThyoneI_Get` returns that byte `u` as the value
of the UART setting, `ThyoneI_GetBaudrateIndex` returns true and yields exactly the
base index `b`, the parity and the flow-control flag. -/
theorem uart_index_round_trip (hdr : Header) (b : Nat) (heven : b % 2 = 0) (hb : b < 64)
    (parity : ThyoneI_UartParity_t) (flow : Bool) :
    (∀ (rx : List (List Nat)) (s : State),
      ∃ r, ThyoneI_SetBaudrateIndex hdr b parity flow rx s = some r ∧
        r.2.uartTx = s.uartTx ++
          [[0x02, ThyoneI_CMD_SET_REQ, 2, 0, hdr.ThyoneI_USERSETTING_INDEX_UART_CONFIG,
            b + (if flow then 1 else 0) + (if parity = .ThyoneI_UartParity_Even then 64 else 0),
            [0x02, ThyoneI_CMD_SET_REQ, 2, 0, hdr.ThyoneI_USERSETTING_INDEX_UART_CONFIG,
              b + (if flow then 1 else 0)
                + (if parity = .ThyoneI_UartParity_Even then 64 else 0)].foldl
              (fun a b => a ^^^ b) 0]]) ∧
    (∀ (baudrate0 : Nat) (parity0 : ThyoneI_UartParity_t) (flow0 : Bool)
        (uartIndex0 length0 : Nat) (rx : List (List Nat)) (s : State) (g : GetResult)
        (t : State),
      ThyoneI_Get hdr.ThyoneI_USERSETTING_INDEX_UART_CONFIG (listMem [uartIndex0]) length0 rx s
        = some (g, t) →
      g.ret = true →
      g.ResponseP 0
        = b + (if flow then 1 else 0) + (if parity = .ThyoneI_UartParity_Even then 64 else 0) →
      ThyoneI_GetBaudrateIndex hdr baudrate0 parity0 flow0 uartIndex0 length0 rx s
        = some ({ ret := true, baudrate := b, parity := parity, flowcontrolEnable := flow },
            t)) := by
  constructor
  · intro rx s
    have hu : (if .ThyoneI_UartParity_Even = parity
          then ((if flow then (b % 256 + 1) % 256 else b % 256) + 64) % 256
          else (if flow then (b % 256 + 1) % 256 else b % 256))
        = b + (if flow then 1 else 0)
          + (if parity = .ThyoneI_UartParity_Even then 64 else 0) := by
      cases flow <;> cases parity <;> simp <;> omega
    unfold ThyoneI_SetBaudrateIndex
    dsimp only
    rw [hu]
    exact ThyoneI_Set_one _ _ rx s
  · intro baudrate0 parity0 flow0 uartIndex0 length0 rx s g t hget hret hval
    unfold ThyoneI_GetBaudrateIndex
    rw [hget]
    dsimp only
    rw [if_pos hret, hval]
    have h1 : (b + 1) % 2 = 1 := by omega
    have h2 : (b + 64) % 2 = 0 := by omega
    have h3 : (b + 1 + 64) % 2 = 1 := by omega
    have h4 : ¬ b + 64 < 64 := by omega
    cases flow <;> cases parity <;>
      simp [Nat.and_one_is_mod, heven, h1, h2, h3, h4, hb]

/-- Claim C14 at the base index 2 with even parity and flow control, the byte 67; the
module answers the request of the setting with the frame `02 50 02 00 00 43 13`. -/
theorem uart_index_round_trip_witness :
    2 % 2 = 0 ∧ 2 < 64 ∧
    (∀ (rx : List (List Nat)) (s : State),
      ∃ r, ThyoneI_SetBaudrateIndex ⟨4, 7, 0, 1, 2, 3, 2⟩ 2 .ThyoneI_UartParity_Even true rx s
          = some r ∧
        r.2.uartTx = s.uartTx ++
          [[0x02, ThyoneI_CMD_SET_REQ, 2, 0, 4,
            2 + (if true then 1 else 0)
              + (if ThyoneI_UartParity_t.ThyoneI_UartParity_Even = .ThyoneI_UartParity_Even
                  then 64 else 0),
            [0x02, ThyoneI_CMD_SET_REQ, 2, 0, 4,
              2 + (if true then 1 else 0)
                + (if ThyoneI_UartParity_t.ThyoneI_UartParity_Even = .ThyoneI_UartParity_Even
                    then 64 else 0)].foldl
              (fun a b => a ^^^ b) 0]]) ∧
    (ThyoneI_GetBaudrateIndex ⟨4, 7, 0, 1, 2, 3, 2⟩ 0 .ThyoneI_UartParity_None false 0 0
        [[0x02, 0x50, 2, 0, 0, 67, 0x13]] initialState).map (fun r => r.1)
      = some { ret := true, baudrate := 2, parity := .ThyoneI_UartParity_Even,
               flowcontrolEnable := true } :=
  ⟨by decide, by decide,
    (uart_index_round_trip ⟨4, 7, 0, 1, 2, 3, 2⟩ 2 (by decide) (by decide)
      .ThyoneI_UartParity_Even true).1,
    by decide⟩

end ThyoneI

namespace ThyoneI

/-- Claim C18, as stated, fails for a length field of 65532 or more: the `uint16_t` loop
counter never reaches the `int` bound `L + 4 > 65535`, so that `FillChecksum` does not
return although `length >= 5` and `a[0] = 0x02`. -/
theorem fillChecksum_large_length_field :
    (5 ≥ 5 ∧ listMem [0x02, 0, 0xFC, 0xFF] 0 = 0x02) ∧
    listMem [0x02, 0, 0xFC, 0xFF] 2 + 256 * listMem [0x02, 0, 0xFC, 0xFF] 3 = 65532 ∧
    (FillChecksum (listMem [0x02, 0, 0xFC, 0xFF]) 5).map (fun r => r.1) = none ∧
    (FillChecksum (listMem [0x02, 0, 0xFC, 0xFF]) 5).map (fun r => r.1) ≠ some true := by
  decide

/-- Claim C18, amended. For every byte array `a` whose length field
`L = a[2] + 256 * a[3]` is at most 65531, and every length argument, `FillChecksum`
returns, and returns true if and only if `length >= 5` and `a[0] = 0x02`; when it
returns true, the byte at index `L + 4` becomes the XOR of `a[0] .. a[L + 3]`, every
other byte is unchanged, and the XOR of all `L + 5` bytes of the frame is 0; when it
returns false the array is unchanged. -/
theorem fillChecksum_spec (a : Mem) (length : Nat) (h2 : a 2 < 256) (h3 : a 3 < 256)
    (hL : a 2 + 256 * a 3 ≤ 65531) :
    ∃ r w, FillChecksum a length = some (r, w) ∧
      (r = true ↔ length ≥ 5 ∧ a 0 = 0x02) ∧
      (r = true →
        w (a 2 + 256 * a 3 + 4)
          = (memBytes a (a 2 + 256 * a 3 + 4)).foldl (fun x y => x ^^^ y) 0 ∧
        (∀ i, i ≠ a 2 + 256 * a 3 + 4 → w i = a i) ∧
        (memBytes w (a 2 + 256 * a 3 + 5)).foldl (fun x y => x ^^^ y) 0 = 0) ∧
      (r = false → w = a) := by
  have hp : ((a CMD_POSITION_LENGTH_MSB <<< 8) % 65536 + a CMD_POSITION_LENGTH_LSB) % 65536
      = a 2 + 256 * a 3 := by
    show ((a 3 <<< 8) % 65536 + a 2) % 65536 = _
    rw [Nat.shiftLeft_eq]
    omega
  unfold FillChecksum
  by_cases hc : length ≥ LENGTH_CMD_OVERHEAD ∧ a 0 = CMD_STX
  · rw [if_pos hc]
    simp only [hp, LENGTH_CMD_OVERHEAD_WITHOUT_CRC, LENGTH_CMD_OVERHEAD]
    rw [if_pos (by omega)]
    refine ⟨true, _, rfl, ⟨fun _ => hc, fun _ => rfl⟩, fun _ => ⟨?_, ?_, ?_⟩, fun h => (by cases h)⟩
    · rw [← xorLoop_eq_foldl]
      simp [memWrite]
    · intro i hi
      simp [memWrite, hi]
    · rw [← xorLoop_eq_foldl]
      show xorLoop (memWrite a (a 2 + 256 * a 3 + 4) (xorLoop a (a 2 + 256 * a 3 + 4)))
        (a 2 + 256 * a 3 + 4 + 1) = 0
      rw [xorLoop, xorLoop_congr (w := a) (fun i hi => by simp [memWrite]; omega)]
      simp [memWrite]
  · rw [if_neg hc]
    exact ⟨false, a, rfl, ⟨fun h => (by cases h), fun h => absurd h hc⟩,
      fun h => (by cases h), fun _ => rfl⟩

/-- Claim C18 (amended) at the array `02 06 01 00 aa 00` with the length argument 6:
the checksum `af` is written at index 5. -/
theorem fillChecksum_spec_witness :
    (listMem [0x02, 0x06, 1, 0, 0xaa, 0] 2 < 256 ∧ listMem [0x02, 0x06, 1, 0, 0xaa, 0] 3 < 256 ∧
      listMem [0x02, 0x06, 1, 0, 0xaa, 0] 2 + 256 * listMem [0x02, 0x06, 1, 0, 0xaa, 0] 3
        ≤ 65531) ∧
    (FillChecksum (listMem [0x02, 0x06, 1, 0, 0xaa, 0]) 6).map
      (fun r => (r.1, memBytes r.2 6)) = some (true, [0x02, 0x06, 1, 0, 0xaa, 0xaf]) ∧
    ∃ r w, FillChecksum (listMem [0x02, 0x06, 1, 0, 0xaa, 0]) 6 = some (r, w) ∧
      (r = true ↔ 6 ≥ 5 ∧ listMem [0x02, 0x06, 1, 0, 0xaa, 0] 0 = 0x02) ∧
      (r = true →
        w (listMem [0x02, 0x06, 1, 0, 0xaa, 0] 2 + 256 * listMem [0x02, 0x06, 1, 0, 0xaa, 0] 3 + 4)
          = (memBytes (listMem [0x02, 0x06, 1, 0, 0xaa, 0])
              (listMem [0x02, 0x06, 1, 0, 0xaa, 0] 2
                + 256 * listMem [0x02, 0x06, 1, 0, 0xaa, 0] 3 + 4)).foldl
              (fun x y => x ^^^ y) 0 ∧
        (∀ i, i ≠ listMem [0x02, 0x06, 1, 0, 0xaa, 0] 2
            + 256 * listMem [0x02, 0x06, 1, 0, 0xaa, 0] 3 + 4 →
          w i = listMem [0x02, 0x06, 1, 0, 0xaa, 0] i) ∧
        (memBytes w (listMem [0x02, 0x06, 1, 0, 0xaa, 0] 2
            + 256 * listMem [0x02, 0x06, 1, 0, 0xaa, 0] 3 + 5)).foldl
          (fun x y => x ^^^ y) 0 = 0) ∧
      (r = false → w = listMem [0x02, 0x06, 1, 0, 0xaa, 0]) :=
  ⟨⟨by decide, by decide, by decide⟩, by decide,
    fillChecksum_spec (listMem [0x02, 0x06, 1, 0, 0xaa, 0]) 6 (by decide) (by decide)
      (by decide)⟩

end ThyoneI

namespace ThyoneI

/-- The frame a request function transmits, given the bytes of the filled array. -/
theorem sendRequest_bytes (e st : Nat) (rx : List (List Nat)) (s : State) (A : Mem) (n : Nat)
    (frame : List Nat) (h0 : A 0 = CMD_STX) (h2 : A 2 = n) (h3 : A 3 = 0) (hn : n ≤ 65530)
    (hframe : memBytes A (n + 4) = frame) :
    ∃ r, sendRequest e st rx { s with CMD_Array := A } = some r ∧
      r.2.uartTx = s.uartTx ++ [frame ++ [frame.foldl (fun a b => a ^^^ b) 0]] := by
  obtain ⟨r, hr, htx, -⟩ := sendRequest_frame e st rx { s with CMD_Array := A } n h0 h2 h3 hn
  refine ⟨r, hr, ?_⟩
  rw [htx, xorLoop_eq_foldl]
  show s.uartTx ++ [memBytes A (n + 4) ++ [(memBytes A (n + 4)).foldl _ 0]] = _
  rw [hframe]

/-- Claim C11 fails in the code. For an array of two control blocks,
`ThyoneI_GPIOLocalWrite` transmits the entries `controlP[0]` and `controlP[1]`, whereas
the payload `ThyoneI_GPIORemoteWrite` transmits holds, after the 4 address bytes, the
entry `controlP[0]` and then the entry at index `sizeof(ThyoneI_GPIOControlBlock_t)`,
past the end of the array: `controlP[1]` is not sent. -/
theorem gpioRemoteWrite_skips_entries (hdr : Header) (destAddress : Nat)
    (controlP : Nat → ThyoneI_GPIOControlBlock_t) (rx : List (List Nat)) (s : State) :
    (∃ r, ThyoneI_GPIOLocalWrite controlP 2 rx s = some r ∧
      r.2.uartTx = s.uartTx ++
        [[0x02, ThyoneI_CMD_GPIO_LOCAL_WRITE_REQ, 6, 0,
            2, (controlP 0).GPIO_ID, (controlP 0).value.output,
            2, (controlP 1).GPIO_ID, (controlP 1).value.output,
            [0x02, ThyoneI_CMD_GPIO_LOCAL_WRITE_REQ, 6, 0,
              2, (controlP 0).GPIO_ID, (controlP 0).value.output,
              2, (controlP 1).GPIO_ID, (controlP 1).value.output].foldl
              (fun a b => a ^^^ b) 0]]) ∧
    (∃ r, ThyoneI_GPIORemoteWrite hdr destAddress controlP 2 rx s = some r ∧
      r.2.uartTx = s.uartTx ++
        [[0x02, ThyoneI_CMD_GPIO_REMOTE_WRITE_REQ, 10, 0,
            objBytes destAddress 0, objBytes destAddress 1, objBytes destAddress 2,
            objBytes destAddress 3,
            2, (controlP 0).GPIO_ID, (controlP 0).value.output,
            2, (controlP hdr.sizeof_ThyoneI_GPIOControlBlock_t).GPIO_ID,
            (controlP hdr.sizeof_ThyoneI_GPIOControlBlock_t).value.output,
            [0x02, ThyoneI_CMD_GPIO_REMOTE_WRITE_REQ, 10, 0,
              objBytes destAddress 0, objBytes destAddress 1, objBytes destAddress 2,
              objBytes destAddress 3,
              2, (controlP 0).GPIO_ID, (controlP 0).value.output,
              2, (controlP hdr.sizeof_ThyoneI_GPIOControlBlock_t).GPIO_ID,
              (controlP hdr.sizeof_ThyoneI_GPIOControlBlock_t).value.output].foldl
              (fun a b => a ^^^ b) 0]]) := by
  constructor
  · unfold ThyoneI_GPIOLocalWrite
    simp only [localWriteLoop]
    refine sendRequest_bytes _ _ rx s _ 6
      [0x02, ThyoneI_CMD_GPIO_LOCAL_WRITE_REQ, 6, 0,
        2, (controlP 0).GPIO_ID, (controlP 0).value.output,
        2, (controlP 1).GPIO_ID, (controlP 1).value.output] ?_ ?_ ?_ (by decide) ?_
    · simp [memWrite, CMD_POSITION_DATA, CMD_POSITION_STX, CMD_POSITION_CMD,
        CMD_POSITION_LENGTH_LSB, CMD_POSITION_LENGTH_MSB]
    · simp [memWrite, CMD_POSITION_DATA, CMD_POSITION_STX, CMD_POSITION_CMD,
        CMD_POSITION_LENGTH_LSB, CMD_POSITION_LENGTH_MSB]
      decide
    · simp [memWrite, CMD_POSITION_DATA, CMD_POSITION_STX, CMD_POSITION_CMD,
        CMD_POSITION_LENGTH_LSB, CMD_POSITION_LENGTH_MSB]
      decide
    · simp [memBytes, List.range_succ, memWrite, CMD_POSITION_DATA, CMD_POSITION_STX,
        CMD_POSITION_CMD, CMD_POSITION_LENGTH_LSB, CMD_POSITION_LENGTH_MSB, CMD_STX]
      decide
  · unfold ThyoneI_GPIORemoteWrite
    simp only [remoteWriteLoop]
    refine sendRequest_bytes _ _ rx s _ 10
      [0x02, ThyoneI_CMD_GPIO_REMOTE_WRITE_REQ, 10, 0,
        objBytes destAddress 0, objBytes destAddress 1, objBytes destAddress 2,
        objBytes destAddress 3,
        2, (controlP 0).GPIO_ID, (controlP 0).value.output,
        2, (controlP hdr.sizeof_ThyoneI_GPIOControlBlock_t).GPIO_ID,
        (controlP hdr.sizeof_ThyoneI_GPIOControlBlock_t).value.output] ?_ ?_ ?_ (by decide) ?_
    · simp [memcpy, memWrite, CMD_POSITION_DATA, CMD_POSITION_STX, CMD_POSITION_CMD,
        CMD_POSITION_LENGTH_LSB, CMD_POSITION_LENGTH_MSB]
    · simp [memcpy, memWrite, CMD_POSITION_DATA, CMD_POSITION_STX, CMD_POSITION_CMD,
        CMD_POSITION_LENGTH_LSB, CMD_POSITION_LENGTH_MSB]
      decide
    · simp [memcpy, memWrite, CMD_POSITION_DATA, CMD_POSITION_STX, CMD_POSITION_CMD,
        CMD_POSITION_LENGTH_LSB, CMD_POSITION_LENGTH_MSB]
      decide
    · simp [memBytes, List.range_succ, memcpy, memWrite, CMD_POSITION_DATA, CMD_POSITION_STX,
        CMD_POSITION_CMD, CMD_POSITION_LENGTH_LSB, CMD_POSITION_LENGTH_MSB, CMD_STX]
      decide

end ThyoneI

namespace ThyoneI

/-- The two write requests for the control blocks `{1, 1}` and `{2, 1}`, with blocks of
2 bytes and zeroes behind the array: the local request carries both entries, the remote
request (address `0x04030201`) carries the first entry and zeroes. -/
theorem gpioRemoteWrite_two_blocks :
    (ThyoneI_GPIOLocalWrite
        (fun i => if i = 0 then ⟨1, ⟨1⟩⟩ else if i = 1 then ⟨2, ⟨1⟩⟩ else ⟨0, ⟨0⟩⟩) 2 []
        initialState).map (fun r => r.2.uartTx)
      = some [[0x02, 0x27, 6, 0, 2, 1, 1, 2, 2, 1, 0x20]] ∧
    (ThyoneI_GPIORemoteWrite ⟨4, 7, 0, 1, 2, 3, 2⟩ 0x04030201
        (fun i => if i = 0 then ⟨1, ⟨1⟩⟩ else if i = 1 then ⟨2, ⟨1⟩⟩ else ⟨0, ⟨0⟩⟩) 2 []
        initialState).map (fun r => r.2.uartTx)
      = some [[0x02, 0x2B, 10, 0, 1, 2, 3, 4, 2, 1, 1, 2, 0, 0, 0x27]] := by
  decide

end ThyoneI

namespace ThyoneI

/-! ## Thyone-I: the codec of the pin configuration -/

theorem configSize_eq (hdr : Header) (c : ThyoneI_GPIOConfigBlock_t) :
    configSize hdr c =
      if c.function = hdr.ThyoneI_GPIO_IO_Disconnected then 4
      else if c.function = hdr.ThyoneI_GPIO_IO_Input then 4
      else if c.function = hdr.ThyoneI_GPIO_IO_Output then 4
      else if c.function = hdr.ThyoneI_GPIO_IO_PWM then 6 else 0 := by
  unfold configSize localSetConfigStep
  split_ifs <;> rfl

theorem configSize_known (hdr : Header) (c : ThyoneI_GPIOConfigBlock_t)
    (h : KnownFunction hdr c.function) : 4 ≤ configSize hdr c ∧ configSize hdr c ≤ 6 := by
  rw [configSize_eq]
  rcases h with h | h | h | h <;> split_ifs <;> omega

theorem configSize_le (hdr : Header) (c : ThyoneI_GPIOConfigBlock_t) : configSize hdr c ≤ 6 := by
  rw [configSize_eq]
  split_ifs <;> omega

/-- One iteration of the loop of `ThyoneI_GPIOLocalSetConfig` advances `length` by the
size of the block and writes nowhere else than to the bytes of the block. -/
theorem localSetConfigStep_frame (hdr : Header) (c : ThyoneI_GPIOConfigBlock_t) (len : Nat)
    (a : Mem) (h : len + configSize hdr c < 65536) :
    (localSetConfigStep hdr c len a).1 = len + configSize hdr c ∧
    ∀ p, p < 4 + len ∨ 4 + len + configSize hdr c ≤ p →
      (localSetConfigStep hdr c len a).2 p = a p := by
  rw [configSize_eq] at h ⊢
  unfold localSetConfigStep
  split_ifs at h ⊢ with h1 h2 h3 h4
  all_goals
    refine ⟨?_, fun p hp => ?_⟩
    · first
        | rfl
        | exact Nat.mod_eq_of_lt h
    · simp only [memWrite, memcpy, CMD_POSITION_DATA]
      repeat' split
      all_goals first
        | rfl
        | omega

theorem encodedSize_ge (hdr : Header) (configP : Nat → ThyoneI_GPIOConfigBlock_t) (n : Nat) :
    ∀ i, (∀ j, j < n → KnownFunction hdr (configP (i + j)).function) →
      4 * n ≤ encodedSize hdr configP i n := by
  induction n with
  | zero => intro i _; exact Nat.zero_le _
  | succ n ih =>
    intro i h
    have h0 := (configSize_known hdr (configP i) (h 0 (by omega))).1
    have h1 := ih (i + 1) (fun j hj => by
      have := h (j + 1) (by omega)
      rwa [show i + (j + 1) = i + 1 + j by omega] at this)
    rw [encodedSize]
    omega

/-- The loop of `ThyoneI_GPIOLocalSetConfig` advances `length` by the size of the blocks
and leaves alone the bytes before the place it starts to write at. -/
theorem localSetConfigLoop_frame (hdr : Header) (configP : Nat → ThyoneI_GPIOConfigBlock_t)
    (n : Nat) :
    ∀ (i len : Nat) (a : Mem), len + encodedSize hdr configP i n < 65536 →
      (localSetConfigLoop hdr configP n i len a).1 = len + encodedSize hdr configP i n ∧
      ∀ p, p < 4 + len → (localSetConfigLoop hdr configP n i len a).2 p = a p := by
  induction n with
  | zero => intro i len a _; exact ⟨rfl, fun _ _ => rfl⟩
  | succ n ih =>
    intro i len a h
    rw [encodedSize] at h
    obtain ⟨s1, s2⟩ := localSetConfigStep_frame hdr (configP i) len a (by omega)
    obtain ⟨l1, l2⟩ := ih (i + 1) (localSetConfigStep hdr (configP i) len a).1
      (localSetConfigStep hdr (configP i) len a).2 (by rw [s1]; omega)
    rw [localSetConfigLoop, encodedSize]
    refine ⟨by rw [l1, s1]; omega, fun p hp => ?_⟩
    rw [l2 p (by rw [s1]; omega), s2 p (Or.inl hp)]

/-- The parse loop of `ThyoneI_GPIOLocalGetConfig` ends when its bound is at least the
number of bytes to cross. -/
theorem localGetConfigLoop_total (hdr : Header) (RxPacket : Mem) (stop : Nat) (fuel : Nat) :
    ∀ (uartP : Nat) (g : GetConfigState), stop ≤ uartP + fuel →
      ∃ g1, localGetConfigLoop hdr RxPacket stop fuel uartP g = some g1 := by
  induction fuel with
  | zero =>
    intro uartP g h
    rw [localGetConfigLoop, if_neg (by omega)]
    exact ⟨g, rfl⟩
  | succ f ih =>
    intro uartP g h
    rw [localGetConfigLoop]
    by_cases hlt : uartP < stop
    · rw [if_pos hlt]
      exact ih _ _ (by omega)
    · rw [if_neg hlt]
      exact ⟨g, rfl⟩

end ThyoneI

namespace ThyoneI

theorem objBytes_le16 (x : Nat) (h : x < 65536) : objBytes x 0 + 256 * objBytes x 1 = x := by
  unfold objBytes
  simp only [Nat.mul_zero, Nat.shiftRight_zero, Nat.mul_one, Nat.shiftRight_eq_div_pow]
  omega

/-- One block: what one iteration of the loop of `ThyoneI_GPIOLocalSetConfig` writes is
stored by one iteration of the parse loop of `ThyoneI_GPIOLocalGetConfig` as the same
configuration, and the parse pointer moves on by the size of the block. -/
theorem config_block_round_trip (hdr : Header) (hd : DistinctFunctions hdr)
    (c : ThyoneI_GPIOConfigBlock_t) (hk : KnownFunction hdr c.function)
    (hper : c.value.pwm.period < 65536) (len : Nat) (a RxPacket : Mem)
    (hRx : ∀ j, j < configSize hdr c →
      RxPacket (5 + len + j) = (localSetConfigStep hdr c len a).2 (4 + len + j))
    (g : GetConfigState) :
    RxPacket (5 + len) + 1 = configSize hdr c ∧
    ∃ e, SameConfig hdr e c ∧
      localGetConfigStep hdr RxPacket (5 + len) g =
        { configP := fun j => if j = g.running then e else g.configP j
          running := g.running + 1
          number_of_configs := (g.number_of_configs + 1) % 65536 } := by
  obtain ⟨h12, h13, h14, h23, h24, h34⟩ := hd
  rcases hk with h | h | h | h
  · have hs : configSize hdr c = 4 := by rw [configSize_eq]; simp [h]
    rw [hs] at hRx ⊢
    have r0 : RxPacket (5 + len) = 3 := by
      rw [show 5 + len = 5 + len + 0 from rfl, hRx 0 (by omega)]
      simp [localSetConfigStep, h, memWrite, CMD_POSITION_DATA]
    have r1 : RxPacket (5 + len + 1) = c.GPIO_ID := by
      rw [hRx 1 (by omega)]
      simp [localSetConfigStep, h, memWrite, CMD_POSITION_DATA]
    have r2 : RxPacket (5 + len + 2) = c.function := by
      rw [hRx 2 (by omega)]
      simp [localSetConfigStep, h, memWrite, CMD_POSITION_DATA]
    refine ⟨(by rw [r0]), ⟨c.GPIO_ID, c.function, (g.configP g.running).value⟩,
      ⟨rfl, rfl, ?_, ?_, ?_⟩, ?_⟩
    · intro hc; exact absurd (h.symm.trans hc) h12
    · intro hc; exact absurd (h.symm.trans hc) h13
    · intro hc; exact absurd (h.symm.trans hc) h14
    · unfold localGetConfigStep storeConfig
      simp only [r0, r1, r2, h, if_true]
  · have hs : configSize hdr c = 4 := by rw [configSize_eq]; simp [h, h12.symm]
    rw [hs] at hRx ⊢
    have r0 : RxPacket (5 + len) = 3 := by
      rw [show 5 + len = 5 + len + 0 from rfl, hRx 0 (by omega)]
      simp [localSetConfigStep, h, h12.symm, memWrite, CMD_POSITION_DATA]
    have r1 : RxPacket (5 + len + 1) = c.GPIO_ID := by
      rw [hRx 1 (by omega)]
      simp [localSetConfigStep, h, h12.symm, memWrite, CMD_POSITION_DATA]
    have r2 : RxPacket (5 + len + 2) = c.function := by
      rw [hRx 2 (by omega)]
      simp [localSetConfigStep, h, h12.symm, memWrite, CMD_POSITION_DATA]
    have r3 : RxPacket (5 + len + 3) = c.value.input := by
      rw [hRx 3 (by omega)]
      simp [localSetConfigStep, h, h12.symm, memWrite, CMD_POSITION_DATA]
    refine ⟨(by rw [r0]), ⟨c.GPIO_ID, c.function,
      { (g.configP g.running).value with input := c.value.input }⟩,
      ⟨rfl, rfl, ?_, ?_, ?_⟩, ?_⟩
    · intro _; rfl
    · intro hc; exact absurd (h.symm.trans hc) h23
    · intro hc; exact absurd (h.symm.trans hc) h24
    · unfold localGetConfigStep storeConfig
      simp only [r0, r1, r2, r3, h, h12.symm, if_true, if_false]
  · have hs : configSize hdr c = 4 := by rw [configSize_eq]; simp [h, h13.symm, h23.symm]
    rw [hs] at hRx ⊢
    have r0 : RxPacket (5 + len) = 3 := by
      rw [show 5 + len = 5 + len + 0 from rfl, hRx 0 (by omega)]
      simp [localSetConfigStep, h, h13.symm, h23.symm, memWrite, CMD_POSITION_DATA]
    have r1 : RxPacket (5 + len + 1) = c.GPIO_ID := by
      rw [hRx 1 (by omega)]
      simp [localSetConfigStep, h, h13.symm, h23.symm, memWrite, CMD_POSITION_DATA]
    have r2 : RxPacket (5 + len + 2) = c.function := by
      rw [hRx 2 (by omega)]
      simp [localSetConfigStep, h, h13.symm, h23.symm, memWrite, CMD_POSITION_DATA]
    have r3 : RxPacket (5 + len + 3) = c.value.output := by
      rw [hRx 3 (by omega)]
      simp [localSetConfigStep, h, h13.symm, h23.symm, memWrite, CMD_POSITION_DATA]
    refine ⟨(by rw [r0]), ⟨c.GPIO_ID, c.function,
      { (g.configP g.running).value with output := c.value.output }⟩,
      ⟨rfl, rfl, ?_, ?_, ?_⟩, ?_⟩
    · intro hc; exact absurd (hc.symm.trans h) h23
    · intro _; rfl
    · intro hc; exact absurd (h.symm.trans hc) h34
    · unfold localGetConfigStep storeConfig
      simp only [r0, r1, r2, r3, h, h13.symm, h23.symm, if_true, if_false]
  · have hs : configSize hdr c = 6 := by
      rw [configSize_eq]; simp [h, h14.symm, h24.symm, h34.symm]
    rw [hs] at hRx ⊢
    have r0 : RxPacket (5 + len) = 5 := by
      rw [show 5 + len = 5 + len + 0 from rfl, hRx 0 (by omega)]
      simp [localSetConfigStep, h, h14.symm, h24.symm, h34.symm, memWrite, memcpy,
        CMD_POSITION_DATA]
    have r1 : RxPacket (5 + len + 1) = c.GPIO_ID := by
      rw [hRx 1 (by omega)]
      simp [localSetConfigStep, h, h14.symm, h24.symm, h34.symm, memWrite, memcpy,
        CMD_POSITION_DATA]
    have r2 : RxPacket (5 + len + 2) = c.function := by
      rw [hRx 2 (by omega)]
      simp [localSetConfigStep, h, h14.symm, h24.symm, h34.symm, memWrite, memcpy,
        CMD_POSITION_DATA]
    have r3 : RxPacket (5 + len + 3) = objBytes c.value.pwm.period 0 := by
      rw [hRx 3 (by omega)]
      simp [localSetConfigStep, h, h14.symm, h24.symm, h34.symm, memWrite, memcpy,
        CMD_POSITION_DATA]
    have r4 : RxPacket (5 + len + 3 + 1) = objBytes c.value.pwm.period 1 := by
      rw [show 5 + len + 3 + 1 = 5 + len + 4 by omega, hRx 4 (by omega)]
      simp [localSetConfigStep, h, h14.symm, h24.symm, h34.symm, memWrite, memcpy,
        CMD_POSITION_DATA]
    have r5 : RxPacket (5 + len + 5) = c.value.pwm.ratio := by
      rw [hRx 5 (by omega)]
      simp [localSetConfigStep, h, h14.symm, h24.symm, h34.symm, memWrite, memcpy,
        CMD_POSITION_DATA]
    have hp : le16 RxPacket (5 + len + 3) = c.value.pwm.period := by
      unfold le16
      rw [r3, r4, objBytes_le16 _ hper]
    refine ⟨(by rw [r0]), ⟨c.GPIO_ID, c.function,
      { (g.configP g.running).value with pwm := ⟨c.value.pwm.period, c.value.pwm.ratio⟩ }⟩,
      ⟨rfl, rfl, ?_, ?_, ?_⟩, ?_⟩
    · intro hc; exact absurd (hc.symm.trans h) h24
    · intro hc; exact absurd (hc.symm.trans h) h34
    · intro _; exact ⟨rfl, rfl⟩
    · unfold localGetConfigStep storeConfig
      simp only [r0, r1, r2, r5, hp, h, h14.symm, h24.symm, h34.symm, if_true, if_false]

end ThyoneI

namespace ThyoneI

/-- The two loops, block after block: the parse loop of `ThyoneI_GPIOLocalGetConfig`,
run over the bytes the loop of `ThyoneI_GPIOLocalSetConfig` writes for `n` blocks,
stores these `n` configurations. -/
theorem config_loops_round_trip (hdr : Header) (hd : DistinctFunctions hdr)
    (configP : Nat → ThyoneI_GPIOConfigBlock_t) (RxPacket : Mem) (n : Nat) :
    ∀ (i len : Nat) (a : Mem) (fuel : Nat) (g : GetConfigState),
      (∀ j, j < n → KnownFunction hdr (configP (i + j)).function ∧
        (configP (i + j)).value.pwm.period < 65536) →
      len + encodedSize hdr configP i n < 65536 →
      (∀ j, len ≤ j → j < len + encodedSize hdr configP i n →
        RxPacket (5 + j) = (localSetConfigLoop hdr configP n i len a).2 (4 + j)) →
      n ≤ fuel →
      g.number_of_configs + n < 65536 →
      ∃ g1, localGetConfigLoop hdr RxPacket (5 + len + encodedSize hdr configP i n) fuel
          (5 + len) g = some g1 ∧
        g1.number_of_configs = g.number_of_configs + n ∧ g1.running = g.running + n ∧
        (∀ q, q < g.running → g1.configP q = g.configP q) ∧
        ∀ j, j < n → SameConfig hdr (g1.configP (g.running + j)) (configP (i + j)) := by
  induction n with
  | zero =>
    intro i len a fuel g _ _ _ _ _
    refine ⟨g, ?_, rfl, rfl, fun _ _ => rfl, fun j hj => absurd hj (Nat.not_lt_zero _)⟩
    cases fuel <;> rw [localGetConfigLoop, if_neg (by simp [encodedSize])]
  | succ n ih =>
    intro i len a fuel g hv hfit hRx hfuel hnum
    obtain ⟨f, rfl⟩ : ∃ f, fuel = f + 1 := ⟨fuel - 1, by omega⟩
    rw [encodedSize] at hfit hRx ⊢
    have hk0 := hv 0 (by omega)
    rw [Nat.add_zero] at hk0
    have hsz := configSize_known hdr (configP i) hk0.1
    obtain ⟨s1, -⟩ := localSetConfigStep_frame hdr (configP i) len a (by omega)
    obtain ⟨-, l2⟩ := localSetConfigLoop_frame hdr configP n (i + 1)
      (localSetConfigStep hdr (configP i) len a).1 (localSetConfigStep hdr (configP i) len a).2
      (by rw [s1]; omega)
    have hRx0 : ∀ j, j < configSize hdr (configP i) →
        RxPacket (5 + len + j) = (localSetConfigStep hdr (configP i) len a).2 (4 + len + j) := by
      intro j hj
      have e1 := hRx (len + j) (by omega) (by omega)
      rw [localSetConfigLoop] at e1
      have e2 := l2 (4 + (len + j)) (by rw [s1]; omega)
      rw [e2] at e1
      have e3 : 5 + len + j = 5 + (len + j) := by omega
      have e4 : 4 + len + j = 4 + (len + j) := by omega
      rw [e3, e4]
      exact e1
    obtain ⟨hadv, e, hsame, hstep⟩ := config_block_round_trip hdr hd (configP i) hk0.1 hk0.2
      len a RxPacket hRx0 g
    obtain ⟨g1, hg1, hn1, hr1, hq1, hj1⟩ := ih (i + 1) (len + configSize hdr (configP i))
      (localSetConfigStep hdr (configP i) len a).2 f
      { configP := fun j => if j = g.running then e else g.configP j
        running := g.running + 1
        number_of_configs := (g.number_of_configs + 1) % 65536 }
      (fun j hj => by
        have := hv (j + 1) (by omega)
        rwa [show i + (j + 1) = i + 1 + j by omega] at this)
      (by omega)
      (fun j h1 h2 => by
        have e1 := hRx j (by omega) (by omega)
        rw [localSetConfigLoop, s1] at e1
        exact e1)
      (by omega)
      (by show (g.number_of_configs + 1) % 65536 + n < 65536; omega)
    refine ⟨g1, ?_, ?_, ?_, ?_, ?_⟩
    · rw [localGetConfigLoop, if_pos (by omega)]
      rw [hstep, show 5 + len + (RxPacket (5 + len) + 1) = 5 + (len + configSize hdr (configP i))
        by omega, show 5 + len + (configSize hdr (configP i) + encodedSize hdr configP (i + 1) n)
          = 5 + (len + configSize hdr (configP i)) + encodedSize hdr configP (i + 1) n by omega]
      exact hg1
    · rw [hn1]
      show (g.number_of_configs + 1) % 65536 + n = _
      omega
    · rw [hr1]
      show g.running + 1 + n = _
      omega
    · intro q hq
      rw [hq1 q (by show q < g.running + 1; omega)]
      show (if q = g.running then e else g.configP q) = _
      rw [if_neg (by omega)]
    · intro j hj
      cases j with
      | zero =>
        rw [Nat.add_zero, Nat.add_zero, hq1 _ (by show g.running < g.running + 1; omega)]
        show SameConfig hdr (if g.running = g.running then e else _) _
        rw [if_pos rfl]
        exact hsame
      | succ m =>
        have := hj1 m (by omega)
        rw [show i + (m + 1) = i + 1 + m by omega,
          show g.running + (m + 1) = g.running + 1 + m by omega]
        exact this

end ThyoneI

namespace ThyoneI

theorem length_bytes_small (x : Nat) (h : x < 256) :
    x &&& 0x00FF = x ∧ (x &&& 0xFF00) >>> 8 = 0 := by
  constructor
  · rw [show (0x00FF : Nat) = 2 ^ 8 - 1 from rfl, Nat.and_pow_two_sub_one_eq_mod]
    exact Nat.mod_eq_of_lt h
  · have h1 : x &&& 0xFF00 ≤ x := Nat.and_le_left
    rw [Nat.shiftRight_eq_div_pow]
    exact Nat.div_eq_of_lt (by omega)

theorem sendRequest_array (e st : Nat) (rx : List (List Nat)) (s : State) (A : Mem) (n : Nat)
    (h0 : A 0 = CMD_STX) (h2 : A 2 = n) (h3 : A 3 = 0) (hn : n ≤ 65530) :
    ∃ r, sendRequest e st rx { s with CMD_Array := A } = some r ∧
      r.2.CMD_Array = memWrite A (n + 4) (xorLoop A (n + 4)) := by
  obtain ⟨r, hr, -, harr⟩ := sendRequest_frame e st rx { s with CMD_Array := A } n h0 h2 h3 hn
  exact ⟨r, hr, harr⟩

/-- Claim C15. GPIO configuration codec round trip: for every list of `k` configuration
blocks whose function is one of Disconnected, Input, Output or PWM and whose encoding,
with one status byte before it, fits in a frame, `ThyoneI_GPIOLocalSetConfig` returns
with the block bytes in `CMD_Array`, their number in its length field; and every call
of `ThyoneI_GPIOLocalGetConfig` returns, and whenever it returns true and the frame it
parses has as payload a status byte 0 followed by these block bytes, it yields
`*number_of_configsP = k` and, for each `i < k`, in `configP[i]` the same GPIO_ID and
function and the same input, output or PWM period and ratio value. -/
theorem gpio_config_round_trip (hdr : Header) (hd : DistinctFunctions hdr)
    (configP : Nat → ThyoneI_GPIOConfigBlock_t) (k : Nat)
    (hfun : ∀ i, i < k → KnownFunction hdr (configP i).function)
    (hper : ∀ i, i < k → (configP i).value.pwm.period < 65536)
    (hfit : encodedSize hdr configP 0 k + 1 ≤ MAX_PAYLOAD_LENGTH)
    (rx1 : List (List Nat)) (s1 : State) :
    ∃ r1, ThyoneI_GPIOLocalSetConfig hdr configP k rx1 s1 = some r1 ∧
      le16 r1.2.CMD_Array 2 = encodedSize hdr configP 0 k ∧
      ∀ (out0 : Nat → ThyoneI_GPIOConfigBlock_t) (n0 : Nat) (rx : List (List Nat)) (s : State),
        ∃ ret cfg num t,
          ThyoneI_GPIOLocalGetConfig hdr out0 n0 rx s = some (ret, cfg, num, t) ∧
          (ret = true →
            le16 t.RxPacket 2 = le16 r1.2.CMD_Array 2 + 1 →
            t.RxPacket 4 = CMD_Status_Success →
            (∀ j, j < le16 r1.2.CMD_Array 2 → t.RxPacket (5 + j) = r1.2.CMD_Array (4 + j)) →
            num = k ∧ ∀ i, i < k → SameConfig hdr (cfg i) (configP i)) := by
  have hfit1 : encodedSize hdr configP 0 k ≤ 223 := by
    simp only [MAX_PAYLOAD_LENGTH] at hfit; omega
  obtain ⟨hL, -⟩ := localSetConfigLoop_frame hdr configP k 0 0 s1.CMD_Array (by omega)
  rw [Nat.zero_add] at hL
  obtain ⟨hlo, hhi⟩ := length_bytes_small (encodedSize hdr configP 0 k) (by omega)
  have hk : 4 * k ≤ encodedSize hdr configP 0 k :=
    encodedSize_ge hdr configP k 0 (fun j hj => by rw [Nat.zero_add]; exact hfun j hj)
  obtain ⟨r1, hr1, harr⟩ := sendRequest_array ThyoneI_CMD_GPIO_LOCAL_SETCONFIG_CNF
    CMD_Status_Success rx1 s1
    (memWrite (memWrite (memWrite (memWrite
        (localSetConfigLoop hdr configP k 0 0 s1.CMD_Array).2 CMD_POSITION_STX CMD_STX)
        CMD_POSITION_CMD ThyoneI_CMD_GPIO_LOCAL_SETCONFIG_REQ)
        CMD_POSITION_LENGTH_LSB (encodedSize hdr configP 0 k))
        CMD_POSITION_LENGTH_MSB 0)
    (encodedSize hdr configP 0 k)
    (by simp [memWrite, CMD_POSITION_STX, CMD_POSITION_CMD, CMD_POSITION_LENGTH_LSB,
      CMD_POSITION_LENGTH_MSB])
    (by simp [memWrite, CMD_POSITION_STX, CMD_POSITION_CMD, CMD_POSITION_LENGTH_LSB,
      CMD_POSITION_LENGTH_MSB])
    (by simp [memWrite, CMD_POSITION_STX, CMD_POSITION_CMD, CMD_POSITION_LENGTH_LSB,
      CMD_POSITION_LENGTH_MSB])
    (by omega)
  have hlen1 : le16 r1.2.CMD_Array 2 = encodedSize hdr configP 0 k := by
    rw [harr]
    unfold le16
    simp [memWrite, CMD_POSITION_STX, CMD_POSITION_CMD, CMD_POSITION_LENGTH_LSB,
      CMD_POSITION_LENGTH_MSB]
  have hblk1 : ∀ j, j < encodedSize hdr configP 0 k →
      r1.2.CMD_Array (4 + j) = (localSetConfigLoop hdr configP k 0 0 s1.CMD_Array).2 (4 + j) := by
    intro j hj
    rw [harr]
    have n1 : 4 + j ≠ encodedSize hdr configP 0 k + 4 := by omega
    have n2 : 4 + j ≠ 0 := by omega
    have n3 : 4 + j ≠ 1 := by omega
    have n4 : 4 + j ≠ 2 := by omega
    have n5 : 4 + j ≠ 3 := by omega
    simp [memWrite, CMD_POSITION_STX, CMD_POSITION_CMD, CMD_POSITION_LENGTH_LSB,
      CMD_POSITION_LENGTH_MSB, n1, n2, n3, n4, n5]
  refine ⟨r1, ?_, hlen1, ?_⟩
  · unfold ThyoneI_GPIOLocalSetConfig
    dsimp only
    rw [hL, hlo, hhi]
    exact hr1
  intro out0 n0 rx s
  rw [hlen1]
  unfold ThyoneI_GPIOLocalGetConfig
  dsimp only
  obtain ⟨-, hf⟩ := FillChecksum_small (memWrite (memWrite (memWrite (memWrite s.CMD_Array
      CMD_POSITION_STX CMD_STX) CMD_POSITION_CMD ThyoneI_CMD_GPIO_LOCAL_GETCONFIG_REQ)
      CMD_POSITION_LENGTH_LSB 0) CMD_POSITION_LENGTH_MSB 0) 0
    (by simp [memWrite, CMD_POSITION_STX, CMD_POSITION_CMD, CMD_POSITION_LENGTH_LSB,
      CMD_POSITION_LENGTH_MSB])
    (by simp [memWrite, CMD_POSITION_STX, CMD_POSITION_CMD, CMD_POSITION_LENGTH_LSB,
      CMD_POSITION_LENGTH_MSB])
    (by simp [memWrite, CMD_POSITION_STX, CMD_POSITION_CMD, CMD_POSITION_LENGTH_LSB,
      CMD_POSITION_LENGTH_MSB])
    (by omega)
  rw [hf]
  dsimp only
  generalize Wait4CNF CMD_WAIT_TIME ThyoneI_CMD_GPIO_LOCAL_GETCONFIG_CNF CMD_Status_Success
    true rx _ = T
  by_cases hw : T.1 = true
  swap
  · rw [if_neg hw]
    exact ⟨false, out0, n0, T.2, rfl, fun h => (by cases h)⟩
  rw [if_pos hw]
  obtain ⟨g1, hg1⟩ := localGetConfigLoop_total hdr T.2.RxPacket
    (CMD_POSITION_DATA + ((T.2.RxPacket CMD_POSITION_LENGTH_LSB <<< 0)
      + (T.2.RxPacket CMD_POSITION_LENGTH_MSB <<< 8)) % 65536)
    (((T.2.RxPacket CMD_POSITION_LENGTH_LSB <<< 0)
      + (T.2.RxPacket CMD_POSITION_LENGTH_MSB <<< 8)) % 65536)
    (CMD_POSITION_DATA + 1) { configP := out0, running := 0, number_of_configs := 0 }
    (by simp only [CMD_POSITION_DATA]; omega)
  rw [hg1]
  refine ⟨true, g1.configP, g1.number_of_configs, T.2, rfl, ?_⟩
  intro _ hlen _ hblk
  have hlen2 : ((T.2.RxPacket CMD_POSITION_LENGTH_LSB <<< 0)
      + (T.2.RxPacket CMD_POSITION_LENGTH_MSB <<< 8)) % 65536
      = encodedSize hdr configP 0 k + 1 := by
    have : le16 T.2.RxPacket 2 = T.2.RxPacket 2 + 256 * T.2.RxPacket 3 := rfl
    show ((T.2.RxPacket 2 <<< 0) + (T.2.RxPacket 3 <<< 8)) % 65536 = _
    rw [Nat.shiftLeft_eq, Nat.shiftLeft_eq]
    omega
  rw [hlen2] at hg1
  obtain ⟨g2, hg2, hn2, -, -, hj2⟩ := config_loops_round_trip hdr hd configP T.2.RxPacket k
    0 0 s1.CMD_Array (encodedSize hdr configP 0 k + 1)
    { configP := out0, running := 0, number_of_configs := 0 }
    (fun j hj => by rw [Nat.zero_add]; exact ⟨hfun j hj, hper j hj⟩)
    (by omega)
    (fun j _ hj => by
      rw [hblk j (by omega), hblk1 j (by omega)])
    (by omega)
    (by show 0 + k < 65536; omega)
  have e1 : CMD_POSITION_DATA + (encodedSize hdr configP 0 k + 1)
      = 5 + 0 + encodedSize hdr configP 0 k := by
    simp only [CMD_POSITION_DATA]; omega
  have e2 : CMD_POSITION_DATA + 1 = 5 + 0 := rfl
  rw [e1, e2, hg2] at hg1
  cases hg1
  refine ⟨by rw [hn2]; exact Nat.zero_add k, fun i hi => ?_⟩
  have := hj2 i hi
  rw [show (0 : Nat) + i = i from Nat.zero_add i] at this
  exact this

end ThyoneI

namespace ThyoneI

/-- Claim C15 for an output pin and a PWM pin (period 1000, ratio 128), whose block
bytes are `03 01 02 01 05 02 03 e8 03 80`; the module answers the request of the
configuration with the frame `02 66 0b 00 00 03 01 02 01 05 02 03 e8 03 80 01`. -/
theorem gpio_config_round_trip_witness :
    (DistinctFunctions ⟨4, 7, 0, 1, 2, 3, 2⟩ ∧
      (∀ i, i < 2 → KnownFunction ⟨4, 7, 0, 1, 2, 3, 2⟩
        ((fun i => if i = 0 then (⟨1, 2, ⟨0, 1, ⟨0, 0⟩⟩⟩ : ThyoneI_GPIOConfigBlock_t)
          else ⟨2, 3, ⟨0, 0, ⟨1000, 128⟩⟩⟩) i).function) ∧
      (∀ i, i < 2 →
        ((fun i => if i = 0 then (⟨1, 2, ⟨0, 1, ⟨0, 0⟩⟩⟩ : ThyoneI_GPIOConfigBlock_t)
          else ⟨2, 3, ⟨0, 0, ⟨1000, 128⟩⟩⟩) i).value.pwm.period < 65536) ∧
      encodedSize ⟨4, 7, 0, 1, 2, 3, 2⟩
        (fun i => if i = 0 then (⟨1, 2, ⟨0, 1, ⟨0, 0⟩⟩⟩ : ThyoneI_GPIOConfigBlock_t)
          else ⟨2, 3, ⟨0, 0, ⟨1000, 128⟩⟩⟩) 0 2 + 1 ≤ MAX_PAYLOAD_LENGTH) ∧
    (∃ r1, ThyoneI_GPIOLocalSetConfig ⟨4, 7, 0, 1, 2, 3, 2⟩
        (fun i => if i = 0 then (⟨1, 2, ⟨0, 1, ⟨0, 0⟩⟩⟩ : ThyoneI_GPIOConfigBlock_t)
          else ⟨2, 3, ⟨0, 0, ⟨1000, 128⟩⟩⟩) 2 [] initialState = some r1 ∧
      le16 r1.2.CMD_Array 2 = encodedSize ⟨4, 7, 0, 1, 2, 3, 2⟩
        (fun i => if i = 0 then (⟨1, 2, ⟨0, 1, ⟨0, 0⟩⟩⟩ : ThyoneI_GPIOConfigBlock_t)
          else ⟨2, 3, ⟨0, 0, ⟨1000, 128⟩⟩⟩) 0 2) ∧
    (ThyoneI_GPIOLocalSetConfig ⟨4, 7, 0, 1, 2, 3, 2⟩
        (fun i => if i = 0 then (⟨1, 2, ⟨0, 1, ⟨0, 0⟩⟩⟩ : ThyoneI_GPIOConfigBlock_t)
          else ⟨2, 3, ⟨0, 0, ⟨1000, 128⟩⟩⟩) 2 [] initialState).map (fun r => r.2.uartTx)
      = some [[0x02, 0x25, 10, 0, 3, 1, 2, 1, 5, 2, 3, 0xe8, 3, 0x80, 0x43]] ∧
    (ThyoneI_GPIOLocalGetConfig ⟨4, 7, 0, 1, 2, 3, 2⟩ (fun _ => ⟨0, 0, ⟨0, 0, ⟨0, 0⟩⟩⟩) 0
        [[0x02, 0x66, 11, 0, 0, 3, 1, 2, 1, 5, 2, 3, 0xe8, 3, 0x80, 0x01]] initialState).map
      (fun r => (r.1, r.2.2.1, (r.2.1 0).GPIO_ID, (r.2.1 0).function, (r.2.1 0).value.output))
      = some (true, 2, 1, 2, 1) ∧
    (ThyoneI_GPIOLocalGetConfig ⟨4, 7, 0, 1, 2, 3, 2⟩ (fun _ => ⟨0, 0, ⟨0, 0, ⟨0, 0⟩⟩⟩) 0
        [[0x02, 0x66, 11, 0, 0, 3, 1, 2, 1, 5, 2, 3, 0xe8, 3, 0x80, 0x01]] initialState).map
      (fun r => ((r.2.1 1).GPIO_ID, (r.2.1 1).function, (r.2.1 1).value.pwm.period,
        (r.2.1 1).value.pwm.ratio))
      = some (2, 3, 1000, 128) :=
  have hd : DistinctFunctions ⟨4, 7, 0, 1, 2, 3, 2⟩ :=
    ⟨by decide, by decide, by decide, by decide, by decide, by decide⟩
  have hk : ∀ i, i < 2 → KnownFunction ⟨4, 7, 0, 1, 2, 3, 2⟩
      ((fun i => if i = 0 then (⟨1, 2, ⟨0, 1, ⟨0, 0⟩⟩⟩ : ThyoneI_GPIOConfigBlock_t)
        else ⟨2, 3, ⟨0, 0, ⟨1000, 128⟩⟩⟩) i).function := by
    intro i hi
    by_cases h : i = 0
    · subst h; exact Or.inr (Or.inr (Or.inl rfl))
    · simp only [h, if_false]; exact Or.inr (Or.inr (Or.inr rfl))
  have hp : ∀ i, i < 2 →
      ((fun i => if i = 0 then (⟨1, 2, ⟨0, 1, ⟨0, 0⟩⟩⟩ : ThyoneI_GPIOConfigBlock_t)
        else ⟨2, 3, ⟨0, 0, ⟨1000, 128⟩⟩⟩) i).value.pwm.period < 65536 := by
    intro i hi
    by_cases h : i = 0
    · subst h; decide
    · simp only [h, if_false]; decide
  have h := gpio_config_round_trip ⟨4, 7, 0, 1, 2, 3, 2⟩ hd _ 2 hk hp (by decide) [] initialState
  ⟨⟨hd, hk, hp, by decide⟩, h.imp fun _ h1 => ⟨h1.1, h1.2.1⟩, by decide, by decide,
    by decide⟩

end ThyoneI

/-! ## Proteus-II: what the confirmation array receives -/

namespace ProteusII

/-- One received byte either leaves the confirmation array alone or is the last byte of
a frame handed to `HandleRxPacket`. -/
theorem step_handled (hdr : Header) (s : State) (b : Nat) :
    ((ProteusII_HandleRxByte hdr s b).handled = s.handled ∧
      (ProteusII_HandleRxByte hdr s b).cmdConfirmationArray = s.cmdConfirmationArray) ∨
    (ProteusII_HandleRxByte hdr s b).handled = s.handled + 1 := by
  by_cases h0 : s.rxByteCounter = 0
  · by_cases hb : b = CMD_STX
    · subst hb
      rw [step_idle_stx hdr s h0]
      exact Or.inl ⟨rfl, rfl⟩
    · rw [step_idle_other hdr s b h0 hb]
      exact Or.inl ⟨rfl, rfl⟩
  by_cases h1 : s.rxByteCounter = 1
  · rw [step_cmd hdr s b h1]
    exact Or.inl ⟨rfl, rfl⟩
  by_cases h2 : s.rxByteCounter = 2
  · rw [step_lsb hdr s b h2]
    exact Or.inl ⟨rfl, rfl⟩
  by_cases h3 : s.rxByteCounter = 3
  · rw [step_msb hdr s b h3]
    exact Or.inl ⟨rfl, rfl⟩
  have h4 : 4 ≤ s.rxByteCounter := by omega
  by_cases heq : (s.rxByteCounter + 1) % 65536 = s.bytesToReceive
  · rw [step_last hdr s b h4 heq]
    dsimp only
    split
    · obtain ⟨g, c, l, e⟩ := HandleRxPacket_shape hdr
        { s with
          rxBuffer := memWrite s.rxBuffer s.rxByteCounter b
          rxByteCounter := s.bytesToReceive
          checksum := xorLoop (memWrite s.rxBuffer s.rxByteCounter b) (s.bytesToReceive - 1) }
        (memWrite s.rxBuffer s.rxByteCounter b)
      rw [e]
      exact Or.inr rfl
    · exact Or.inl ⟨rfl, rfl⟩
  · rw [step_data hdr s b h4 heq]
    exact Or.inl ⟨rfl, rfl⟩

/-- Received bytes change the confirmation array only by way of `HandleRxPacket`. -/
theorem feed_handled (hdr : Header) (bytes : List Nat) :
    ∀ s : State, s.handled ≤ (feed hdr s bytes).handled ∧
      ((feed hdr s bytes).handled = s.handled →
        (feed hdr s bytes).cmdConfirmationArray = s.cmdConfirmationArray) := by
  induction bytes with
  | nil => exact fun s => ⟨Nat.le_refl _, fun _ => rfl⟩
  | cons b bs ih =>
    intro s
    rw [feed_cons]
    obtain ⟨h1, h2⟩ := ih (ProteusII_HandleRxByte hdr s b)
    rcases step_handled hdr s b with ⟨e1, e2⟩ | e1
    · exact ⟨by omega, fun h => by rw [h2 (by omega), e2]⟩
    · exact ⟨by omega, fun h => by omega⟩

theorem afterDelays_handled (hdr : Header) (k : Nat) :
    ∀ (rx : List (List Nat)) (s : State), s.handled ≤ (afterDelays hdr k rx s).handled ∧
      ((afterDelays hdr k rx s).handled = s.handled →
        (afterDelays hdr k rx s).cmdConfirmationArray = s.cmdConfirmationArray) := by
  induction k with
  | zero => exact fun rx s => ⟨Nat.le_refl _, fun _ => rfl⟩
  | succ n ih =>
    intro rx s
    obtain ⟨h1, h2⟩ := feed_handled hdr rx.headI { s with delayLog := s.delayLog ++ [5] }
    obtain ⟨h3, h4⟩ := ih rx.tail (WE_Delay hdr 5 rx.headI s)
    have h1a : s.handled ≤ (WE_Delay hdr 5 rx.headI s).handled := h1
    have h2a : (WE_Delay hdr 5 rx.headI s).handled = s.handled →
        (WE_Delay hdr 5 rx.headI s).cmdConfirmationArray = s.cmdConfirmationArray := h2
    rw [afterDelays]
    exact ⟨by omega, fun h => by rw [h4 (by omega), h2a (by omega)]⟩

/-- Claim C21. A confirmation left over from an earlier command never satisfies a new
request: for every prior content of the confirmation array (and of the other statics)
and every expected command other than 255, after the reset step of `Wait4CNF` called
with `resetConfirmState = true` every slot has `cmd = 255`, and the call returns false
if no frame is handed to `HandleRxPacket` during the wait, whatever the time limit and
whatever bytes are received. -/
theorem stale_confirmation_ignored (hdr : Header) (maxTimeMs : Int) (e st : Nat)
    (he : e ≠ 255) (rx : List (List Nat)) (s : State) :
    (∀ i, i < CMDCONFIRMATIONARRAY_LENGTH →
      ((resetStep true s).cmdConfirmationArray i).cmd = 255) ∧
    ((Wait4CNF hdr maxTimeMs e st true rx s).2.handled = s.handled →
      (Wait4CNF hdr maxTimeMs e st true rx s).1 = false ∧
      ∀ i, i < CMDCONFIRMATIONARRAY_LENGTH →
        ((Wait4CNF hdr maxTimeMs e st true rx s).2.cmdConfirmationArray i).cmd = 255) := by
  have hreset : ∀ i, i < CMDCONFIRMATIONARRAY_LENGTH →
      ((resetStep true s).cmdConfirmationArray i).cmd = 255 := by
    intro i hi
    show (resetConfirmations _ CMDCONFIRMATIONARRAY_LENGTH i).cmd = 255
    simp [resetConfirmations, hi, CNFINVALID]
  refine ⟨hreset, fun hq => ?_⟩
  obtain ⟨k, -, h1, -, h3, -⟩ := waitLoop_spec hdr e st (Int.tdiv maxTimeMs 5).toNat rx
    (resetStep true s)
  have hq1 : (waitLoop hdr e st (Int.tdiv maxTimeMs 5).toNat rx (resetStep true s)).2.handled
      = s.handled := hq
  rw [h1] at hq1
  have harr := (afterDelays_handled hdr k rx (resetStep true s)).2 hq1
  have hp : pollConfirmations (afterDelays hdr k rx (resetStep true s)).cmdConfirmationArray
      CMDCONFIRMATIONARRAY_LENGTH e = none := by
    apply pollConfirmations_none
    intro i hi
    rw [harr, hreset i hi]
    exact fun h => he h.symm
  constructor
  · show (waitLoop hdr e st _ rx _).1 = false
    rw [h3, hp]
  · intro i hi
    show ((waitLoop hdr e st _ rx _).2.cmdConfirmationArray i).cmd = 255
    rw [h1, harr]
    exact hreset i hi

/-- Claim C21 for a wait for `GET_CNF` with status 0 that starts with both slots holding
exactly that confirmation, left over from before, and during which nothing arrives. -/
theorem stale_confirmation_ignored_witness :
    (0x50 : Nat) ≠ 255 ∧
    (Wait4CNF ⟨243, 10, 19, 32⟩ CMD_WAIT_TIME 0x50 0 true []
      { initialState with cmdConfirmationArray := fun _ => ⟨0x50, 0⟩ }).2.handled
        = ({ initialState with cmdConfirmationArray := fun _ => ⟨0x50, 0⟩ } : State).handled ∧
    (Wait4CNF ⟨243, 10, 19, 32⟩ CMD_WAIT_TIME 0x50 0 true []
      { initialState with cmdConfirmationArray := fun _ => ⟨0x50, 0⟩ }).1 = false ∧
    (Wait4CNF ⟨243, 10, 19, 32⟩ CMD_WAIT_TIME 0x50 0 false []
      { initialState with cmdConfirmationArray := fun _ => ⟨0x50, 0⟩ }).1 = true :=
  ⟨by decide, by decide,
    ((stale_confirmation_ignored ⟨243, 10, 19, 32⟩ CMD_WAIT_TIME 0x50 0 (by decide) []
      { initialState with cmdConfirmationArray := fun _ => ⟨0x50, 0⟩ }).2 (by decide)).1,
    by decide⟩

end ProteusII

theorem storeConfirmation_at_first_free (arr : Nat → Confirmation) (len : Nat)
    (c : Confirmation) (i0 : Nat) (h0 : i0 < len) (hfree : (arr i0).cmd = CNFINVALID)
    (hlow : ∀ i, i < i0 → (arr i).cmd ≠ CNFINVALID) :
    storeConfirmation arr len c = fun j => if j = i0 then c else arr j := by
  unfold storeConfirmation
  rw [scanFrom_eq_some (k := i0) (by simp [hfree]) (Nat.zero_le _) (by omega)
    (fun j _ hj => by simpa using hlow j hj)]

theorem storeConfirmation_full (arr : Nat → Confirmation) (len : Nat) (c : Confirmation)
    (hfull : ∀ i, i < len → (arr i).cmd ≠ CNFINVALID) : storeConfirmation arr len c = arr := by
  unfold storeConfirmation
  rw [scanFrom_eq_none (fun j _ hj => by simpa using hfull j (by omega))]

namespace ProteusII

/-- The confirmation array after `HandleRxPacket`, in terms of the frame handed over. -/
theorem HandleRxPacket_array (hdr : Header) (s : State) (buf : Mem) :
    (HandleRxPacket hdr s buf).cmdConfirmationArray
      = storeConfirmation s.cmdConfirmationArray CMDCONFIRMATIONARRAY_LENGTH
          (frameConfirmation buf) := by
  obtain ⟨g, b, l, e⟩ := HandleRxPacket_shape hdr s buf
  rw [e]
  show storeConfirmation _ _ (frameConfirmation _) = _
  rw [frameConfirmation_congr (g := buf)
    (memcpy_prefix_apply _ _ _ _ (by simp only [LENGTH_CMD_OVERHEAD]; omega))
    (memcpy_prefix_apply _ _ _ _ (by simp only [LENGTH_CMD_OVERHEAD]; omega))]

end ProteusII

namespace ThyoneI

theorem frameConfirmation_congr_thyone {f g : Mem} (h1 : f 1 = g 1) (h4 : f 4 = g 4) :
    frameConfirmation f = frameConfirmation g := by
  unfold frameConfirmation
  rw [show f CMD_POSITION_CMD = g CMD_POSITION_CMD from h1,
    show f CMD_POSITION_DATA = g CMD_POSITION_DATA from h4]

/-- The confirmation array after `HandleRxPacket`, in terms of the frame handed over. -/
theorem HandleRxPacket_array_thyone (s : State) (buf : Mem) :
    (HandleRxPacket s buf).cmdConfirmation_array
      = storeConfirmation s.cmdConfirmation_array CMDCONFIRMATIONARRAY_LENGTH
          (frameConfirmation buf) := by
  unfold HandleRxPacket
  dsimp only
  obtain ⟨h1, l, h2⟩ := rxSwitch_spec
    { s with
      RxPacket := memcpy s.RxPacket 0 buf 0
        ((buf CMD_POSITION_LENGTH_LSB + (buf CMD_POSITION_LENGTH_MSB <<< 8)) % 65536
          + LENGTH_CMD_OVERHEAD)
      handled := s.handled + 1 }
  rw [h1, h2]
  show storeConfirmation _ _ (frameConfirmation _) = _
  rw [frameConfirmation_congr_thyone (g := buf)
    (memcpy_prefix_apply _ _ _ _ (by simp only [LENGTH_CMD_OVERHEAD]; omega))
    (memcpy_prefix_apply _ _ _ _ (by simp only [LENGTH_CMD_OVERHEAD]; omega))]

end ThyoneI

/-- Claim C22. Confirmation queue insertion, in both drivers: for every frame handed to
`HandleRxPacket` (the checksum-valid frames) whose command is one of the confirmation
opcodes of its `switch`, if at least one slot of the confirmation array is free
(`cmd = 255`) then afterwards the lowest-index free slot holds that command and its
status, and every other slot is unchanged; if no slot is free the whole array is
unchanged.  The status is the first payload byte, except that it is
`CMD_Status_NoStatus` for the opcodes without status field and, in the Thyone-I driver,
`CMD_Status_Invalid` for `GPIO_REMOTE_READ_CNF`. -/
theorem confirmation_queue_insertion (hdr : ProteusII.Header) (p : ProteusII.State)
    (t : ThyoneI.State) (buf : Mem) :
    ((ProteusII.Frame.Cmd buf = ProteusII.PROTEUSII_CMD_GETDEVICES_CNF ∨
        ProteusII.Frame.Cmd buf ∈ ProteusII.statusConfirmations ∨
        ProteusII.Frame.Cmd buf = ProteusII.PROTEUSII_CMD_GETSTATE_CNF) →
      (∀ i0, i0 < ProteusII.CMDCONFIRMATIONARRAY_LENGTH →
        (p.cmdConfirmationArray i0).cmd = 255 →
        (∀ i, i < i0 → (p.cmdConfirmationArray i).cmd ≠ 255) →
        (ProteusII.HandleRxPacket hdr p buf).cmdConfirmationArray i0
          = { cmd := ProteusII.Frame.Cmd buf
              status := if ProteusII.Frame.Cmd buf = ProteusII.PROTEUSII_CMD_GETSTATE_CNF
                then CMD_Status_NoStatus else ProteusII.Frame.Data buf 0 } ∧
        ∀ j, j ≠ i0 → (ProteusII.HandleRxPacket hdr p buf).cmdConfirmationArray j
          = p.cmdConfirmationArray j) ∧
      ((∀ i, i < ProteusII.CMDCONFIRMATIONARRAY_LENGTH →
          (p.cmdConfirmationArray i).cmd ≠ 255) →
        (ProteusII.HandleRxPacket hdr p buf).cmdConfirmationArray = p.cmdConfirmationArray)) ∧
    ((buf ThyoneI.CMD_POSITION_CMD ∈ ThyoneI.noStatusConfirmations ∨
        buf ThyoneI.CMD_POSITION_CMD ∈ ThyoneI.statusConfirmations ∨
        buf ThyoneI.CMD_POSITION_CMD = ThyoneI.ThyoneI_CMD_GPIO_REMOTE_READ_CNF) →
      (∀ i0, i0 < ThyoneI.CMDCONFIRMATIONARRAY_LENGTH →
        (t.cmdConfirmation_array i0).cmd = 255 →
        (∀ i, i < i0 → (t.cmdConfirmation_array i).cmd ≠ 255) →
        (ThyoneI.HandleRxPacket t buf).cmdConfirmation_array i0
          = { cmd := buf ThyoneI.CMD_POSITION_CMD
              status :=
                if buf ThyoneI.CMD_POSITION_CMD ∈ ThyoneI.noStatusConfirmations
                  then CMD_Status_NoStatus
                else if buf ThyoneI.CMD_POSITION_CMD ∈ ThyoneI.statusConfirmations
                  then buf ThyoneI.CMD_POSITION_DATA
                else CMD_Status_Invalid } ∧
        ∀ j, j ≠ i0 → (ThyoneI.HandleRxPacket t buf).cmdConfirmation_array j
          = t.cmdConfirmation_array j) ∧
      ((∀ i, i < ThyoneI.CMDCONFIRMATIONARRAY_LENGTH →
          (t.cmdConfirmation_array i).cmd ≠ 255) →
        (ThyoneI.HandleRxPacket t buf).cmdConfirmation_array = t.cmdConfirmation_array)) := by
  constructor
  · intro hop
    have hc : ProteusII.frameConfirmation buf
        = { cmd := ProteusII.Frame.Cmd buf
            status := if ProteusII.Frame.Cmd buf = ProteusII.PROTEUSII_CMD_GETSTATE_CNF
              then CMD_Status_NoStatus else ProteusII.Frame.Data buf 0 } := by
      unfold ProteusII.frameConfirmation
      rcases hop with h | h | h
      · rw [if_pos (Or.inl h), h, if_neg (by decide)]
      · rw [if_pos (Or.inr h), if_neg (fun e => by rw [e] at h; revert h; decide)]
      · rw [h, if_neg (by decide), if_pos rfl, if_pos rfl]
    rw [ProteusII.HandleRxPacket_array, hc]
    refine ⟨fun i0 h0 hfree hlow => ?_, fun hfull => storeConfirmation_full _ _ _ hfull⟩
    rw [storeConfirmation_at_first_free _ _ _ i0 h0 hfree hlow]
    exact ⟨by simp, fun j hj => by simp [hj]⟩
  · intro hop
    have hc : ThyoneI.frameConfirmation buf
        = { cmd := buf ThyoneI.CMD_POSITION_CMD
            status :=
              if buf ThyoneI.CMD_POSITION_CMD ∈ ThyoneI.noStatusConfirmations
                then CMD_Status_NoStatus
              else if buf ThyoneI.CMD_POSITION_CMD ∈ ThyoneI.statusConfirmations
                then buf ThyoneI.CMD_POSITION_DATA
              else CMD_Status_Invalid } := by
      unfold ThyoneI.frameConfirmation
      by_cases h1 : buf ThyoneI.CMD_POSITION_CMD ∈ ThyoneI.noStatusConfirmations
      · rw [if_pos h1, if_pos h1]
      · rw [if_neg h1, if_neg h1]
        by_cases h2 : buf ThyoneI.CMD_POSITION_CMD ∈ ThyoneI.statusConfirmations
        · rw [if_pos h2, if_pos h2]
        · rw [if_neg h2, if_neg h2]
          rcases hop with h | h | h
          · exact absurd h h1
          · exact absurd h h2
          · rw [if_pos h]
    rw [ThyoneI.HandleRxPacket_array_thyone, hc]
    refine ⟨fun i0 h0 hfree hlow => ?_, fun hfull => storeConfirmation_full _ _ _ hfull⟩
    rw [storeConfirmation_at_first_free _ _ _ i0 h0 hfree hlow]
    exact ⟨by simp, fun j hj => by simp [hj]⟩

namespace ProteusII

/-- Claim C23. Indications and unknown opcodes do not consume a confirmation slot: for
every frame handed to `HandleRxPacket` (the checksum-valid frames) whose command is not
one of the confirmation opcodes of the `switch`, afterwards every slot that was occupied
keeps its command and status and every slot that was free still has `cmd = 255`. -/
theorem indication_keeps_slots (hdr : Header) (s : State) (buf : Mem)
    (h : ¬ (Frame.Cmd buf = PROTEUSII_CMD_GETDEVICES_CNF ∨ Frame.Cmd buf ∈ statusConfirmations ∨
      Frame.Cmd buf = PROTEUSII_CMD_GETSTATE_CNF)) :
    (∀ i, (s.cmdConfirmationArray i).cmd ≠ 255 →
      (HandleRxPacket hdr s buf).cmdConfirmationArray i = s.cmdConfirmationArray i) ∧
    (∀ i, (s.cmdConfirmationArray i).cmd = 255 →
      ((HandleRxPacket hdr s buf).cmdConfirmationArray i).cmd = 255) := by
  have hc : frameConfirmation buf = { cmd := CNFINVALID, status := CMD_Status_Invalid } := by
    unfold frameConfirmation
    rw [if_neg (fun e => h (e.elim Or.inl (fun e1 => Or.inr (Or.inl e1)))),
      if_neg (fun e => h (Or.inr (Or.inr e)))]
  rw [HandleRxPacket_array, hc]
  constructor
  · intro i hi
    exact storeConfirmation_persist _ _ _ i hi
  · intro i hi
    rcases storeConfirmation_apply s.cmdConfirmationArray CMDCONFIRMATIONARRAY_LENGTH
      { cmd := CNFINVALID, status := CMD_Status_Invalid } i with e | e
    · rw [e]; rfl
    · rw [e]; exact hi

/-- Claim C23 at the frame `02 84 01 00 00 87` (a DATA_IND), handed over when slot 0
holds `GET_CNF` with status 0 and slot 1 is free. -/
theorem indication_keeps_slots_witness :
    ¬ (Frame.Cmd (listMem [0x02, 0x84, 1, 0, 0, 0x87]) = PROTEUSII_CMD_GETDEVICES_CNF ∨
      Frame.Cmd (listMem [0x02, 0x84, 1, 0, 0, 0x87]) ∈ statusConfirmations ∨
      Frame.Cmd (listMem [0x02, 0x84, 1, 0, 0, 0x87]) = PROTEUSII_CMD_GETSTATE_CNF) ∧
    ((HandleRxPacket ⟨243, 10, 19, 32⟩
        { initialState with
          cmdConfirmationArray := fun i => if i = 0 then ⟨0x50, 0⟩ else ⟨255, 0⟩ }
        (listMem [0x02, 0x84, 1, 0, 0, 0x87])).cmdConfirmationArray 0 = ⟨0x50, 0⟩ ∧
      ((HandleRxPacket ⟨243, 10, 19, 32⟩
        { initialState with
          cmdConfirmationArray := fun i => if i = 0 then ⟨0x50, 0⟩ else ⟨255, 0⟩ }
        (listMem [0x02, 0x84, 1, 0, 0, 0x87])).cmdConfirmationArray 1).cmd = 255) :=
  have h := indication_keeps_slots ⟨243, 10, 19, 32⟩
    { initialState with cmdConfirmationArray := fun i => if i = 0 then ⟨0x50, 0⟩ else ⟨255, 0⟩ }
    (listMem [0x02, 0x84, 1, 0, 0, 0x87]) (by decide)
  ⟨by decide, h.1 0 (by decide), h.2 1 rfl⟩

end ProteusII

/-! ## Proteus-II: driver state and callbacks -/

namespace ProteusII

theorem callIf_bleState (r : Bool) (ev : CallbackEvent) (s : State) :
    (callIf r ev s).bleState = s.bleState := by
  unfold callIf
  split <;> rfl

theorem snd_bleState_ite {c : Prop} [Decidable c] {a b : Confirmation × State}
    {x : ProteusII_DriverState_t} (ha : a.2.bleState = x) (hb : b.2.bleState = x) :
    (if c then a else b).2.bleState = x := by
  split <;> assumption

/-- The driver state after the `switch` of `HandleRxPacket`. -/
theorem rxSwitch_bleState (hdr : Header) (s : State) :
    (rxSwitch hdr s).2.bleState =
      if Frame.Cmd s.rxPacket = PROTEUSII_CMD_CHANNELOPEN_RSP then
        .ProteusII_DriverState_BLE_ChannelOpen
      else if Frame.Cmd s.rxPacket = PROTEUSII_CMD_CONNECT_IND then
        (if Frame.Data s.rxPacket 0 = CMD_Status_Success
          then .ProteusII_DriverState_BLE_Connected else s.bleState)
      else if Frame.Cmd s.rxPacket = PROTEUSII_CMD_DISCONNECT_IND then
        .ProteusII_DriverState_BLE_Invalid
      else s.bleState := by
  unfold rxSwitch
  dsimp only
  by_cases h1 : Frame.Cmd s.rxPacket = PROTEUSII_CMD_GETDEVICES_CNF
  · rw [if_pos h1, h1,
      if_neg (show ¬ PROTEUSII_CMD_GETDEVICES_CNF = PROTEUSII_CMD_CHANNELOPEN_RSP by decide),
      if_neg (show ¬ PROTEUSII_CMD_GETDEVICES_CNF = PROTEUSII_CMD_CONNECT_IND by decide),
      if_neg (show ¬ PROTEUSII_CMD_GETDEVICES_CNF = PROTEUSII_CMD_DISCONNECT_IND by decide)]
    repeat' (first | rfl | split)
  rw [if_neg h1]
  by_cases h2 : Frame.Cmd s.rxPacket ∈ statusConfirmations
  · rw [if_pos h2,
      if_neg (show ¬ Frame.Cmd s.rxPacket = PROTEUSII_CMD_CHANNELOPEN_RSP from
        fun e => by rw [e] at h2; revert h2; decide),
      if_neg (show ¬ Frame.Cmd s.rxPacket = PROTEUSII_CMD_CONNECT_IND from
        fun e => by rw [e] at h2; revert h2; decide),
      if_neg (show ¬ Frame.Cmd s.rxPacket = PROTEUSII_CMD_DISCONNECT_IND from
        fun e => by rw [e] at h2; revert h2; decide)]
  rw [if_neg h2]
  by_cases h3 : Frame.Cmd s.rxPacket = PROTEUSII_CMD_GETSTATE_CNF
  · rw [if_pos h3, h3,
      if_neg (show ¬ PROTEUSII_CMD_GETSTATE_CNF = PROTEUSII_CMD_CHANNELOPEN_RSP by decide),
      if_neg (show ¬ PROTEUSII_CMD_GETSTATE_CNF = PROTEUSII_CMD_CONNECT_IND by decide),
      if_neg (show ¬ PROTEUSII_CMD_GETSTATE_CNF = PROTEUSII_CMD_DISCONNECT_IND by decide)]
  rw [if_neg h3]
  by_cases h4 : Frame.Cmd s.rxPacket = PROTEUSII_CMD_CHANNELOPEN_RSP
  · rw [if_pos h4, if_pos h4]
    exact callIf_bleState _ _ _
  rw [if_neg h4, if_neg h4]
  by_cases h5 : Frame.Cmd s.rxPacket = PROTEUSII_CMD_CONNECT_IND
  · rw [if_pos h5, if_pos h5]
    show (callIf _ _ _).bleState = _
    rw [callIf_bleState]
    by_cases h0 : Frame.Data s.rxPacket 0 = CMD_Status_Success
    · simp [h0]
    · simp [h0]
  rw [if_neg h5, if_neg h5]
  by_cases h6 : Frame.Cmd s.rxPacket = PROTEUSII_CMD_DISCONNECT_IND
  · rw [if_pos h6, if_pos h6]
    exact callIf_bleState _ _ _
  rw [if_neg h6, if_neg h6]
  repeat' (first
    | rfl
    | exact callIf_bleState _ _ _
    | apply snd_bleState_ite)

/-- Claim C24. Proteus-II driver state machine: for every frame handed to
`HandleRxPacket` (the checksum-valid received frames), the driver state afterwards is
ChannelOpen if the command is CHANNELOPEN_RSP (`0xC6`), Connected if the command is
CONNECT_IND (`0x86`) with first payload byte 0, Invalid if the command is DISCONNECT_IND
(`0x87`), and is unchanged for a CONNECT_IND with a non-zero first payload byte and for
every other command.  A checksum-valid CONNECT_IND without payload leaves the state
unchanged as well: the byte in the place of the first payload byte is its checksum. -/
theorem driver_state_machine (hdr : Header) (s : State) (buf : Mem) :
    (PROTEUSII_CMD_CHANNELOPEN_RSP = 0xC6 ∧ PROTEUSII_CMD_CONNECT_IND = 0x86 ∧
      PROTEUSII_CMD_DISCONNECT_IND = 0x87) ∧
    (HandleRxPacket hdr s buf).bleState =
      (if Frame.Cmd buf = 0xC6 then .ProteusII_DriverState_BLE_ChannelOpen
      else if Frame.Cmd buf = 0x86 then
        (if Frame.Data buf 0 = 0 then .ProteusII_DriverState_BLE_Connected else s.bleState)
      else if Frame.Cmd buf = 0x87 then .ProteusII_DriverState_BLE_Invalid
      else s.bleState) ∧
    (Frame.Stx buf = CMD_STX → Frame.Cmd buf = 0x86 → buf 2 = 0 → buf 3 = 0 →
      xorLoop buf 4 = buf 4 → (HandleRxPacket hdr s buf).bleState = s.bleState) := by
  have hmain : (HandleRxPacket hdr s buf).bleState =
      (if Frame.Cmd buf = 0xC6 then .ProteusII_DriverState_BLE_ChannelOpen
      else if Frame.Cmd buf = 0x86 then
        (if Frame.Data buf 0 = 0 then .ProteusII_DriverState_BLE_Connected else s.bleState)
      else if Frame.Cmd buf = 0x87 then .ProteusII_DriverState_BLE_Invalid
      else s.bleState) := by
    have e1 : Frame.Cmd (memcpy s.rxPacket 0 buf 0 (Frame.Length buf + LENGTH_CMD_OVERHEAD))
        = Frame.Cmd buf :=
      memcpy_prefix_apply _ _ _ _ (by simp only [LENGTH_CMD_OVERHEAD]; omega)
    have e4 : Frame.Data (memcpy s.rxPacket 0 buf 0 (Frame.Length buf + LENGTH_CMD_OVERHEAD)) 0
        = Frame.Data buf 0 :=
      memcpy_prefix_apply _ _ _ _ (by simp only [LENGTH_CMD_OVERHEAD]; omega)
    show (rxSwitch hdr _).2.bleState = _
    rw [rxSwitch_bleState]
    dsimp only
    rw [e1, e4]
    rfl
  refine ⟨⟨rfl, rfl, rfl⟩, hmain, ?_⟩
  intro h0 hc h2 h3 hx
  have h4 : Frame.Data buf 0 = 0x84 := by
    show buf (4 + 0) = 0x84
    have e0 : buf 0 = 2 := h0
    have e1 : buf 1 = 0x86 := hc
    rw [show 4 + 0 = 4 from rfl, ← hx]
    simp [xorLoop, e0, e1, h2, h3]
  rw [hmain, hc, h4]
  rfl

end ProteusII

namespace ProteusII

/-- The `PROTEUSII_CMD_DATA_IND` case of the `switch` of `HandleRxPacket`. -/
theorem rxSwitch_data_ind (hdr : Header) (s : State)
    (h : Frame.Cmd s.rxPacket = PROTEUSII_CMD_DATA_IND) :
    rxSwitch hdr s =
      ({ cmd := CNFINVALID, status := CMD_Status_Invalid },
        callIf s.callbacks.rxCb
          (.rxCb 7 ((Frame.Length s.rxPacket : Int) - 7) 0 (Frame.Data s.rxPacket 6)) s) := by
  unfold rxSwitch
  dsimp only
  rw [h,
    if_neg (show ¬ PROTEUSII_CMD_DATA_IND = PROTEUSII_CMD_GETDEVICES_CNF by decide),
    if_neg (show ¬ PROTEUSII_CMD_DATA_IND ∈ statusConfirmations by decide),
    if_neg (show ¬ PROTEUSII_CMD_DATA_IND = PROTEUSII_CMD_GETSTATE_CNF by decide),
    if_neg (show ¬ PROTEUSII_CMD_DATA_IND = PROTEUSII_CMD_CHANNELOPEN_RSP by decide),
    if_neg (show ¬ PROTEUSII_CMD_DATA_IND = PROTEUSII_CMD_CONNECT_IND by decide),
    if_neg (show ¬ PROTEUSII_CMD_DATA_IND = PROTEUSII_CMD_DISCONNECT_IND by decide),
    if_pos rfl]

/-- Claim C27 fails in the code for a DATA_IND frame with fewer than 7 payload bytes.
For every DATA_IND frame handed to `HandleRxPacket` with the receive callback
registered, the callback is called once, with the payload pointer `&rxPacket.Data[7]`,
the address pointer `&rxPacket.Data[0]`, the RSSI `rxPacket.Data[6]` and as length the
value of `rxPacket.Length - 7`.  With a payload length `L ≥ 7` this is `L - 7`, at most
`L`; with `L < 7` the value is negative, as a `uint16_t` it is `L + 65529`, which
exceeds `L`, and the payload pointer is past the payload. -/
theorem data_ind_length_underflow (hdr : Header) (s : State) (buf : Mem)
    (hcmd : Frame.Cmd buf = PROTEUSII_CMD_DATA_IND) (hcb : s.callbacks.rxCb = true)
    (hlen : Frame.Length buf < 65536) :
    (HandleRxPacket hdr s buf).cbLog = s.cbLog ++
      [.rxCb 7 ((Frame.Length buf : Int) - 7) 0
        (Frame.Data (HandleRxPacket hdr s buf).rxPacket 6)] ∧
    (∀ j, j ≤ Frame.Length buf →
      Frame.Data (HandleRxPacket hdr s buf).rxPacket j = Frame.Data buf j) ∧
    (7 ≤ Frame.Length buf →
      toUInt16 ((Frame.Length buf : Int) - 7) = Frame.Length buf - 7 ∧
      toUInt16 ((Frame.Length buf : Int) - 7) ≤ Frame.Length buf) ∧
    (Frame.Length buf < 7 →
      (Frame.Length buf : Int) - 7 < 0 ∧
      toUInt16 ((Frame.Length buf : Int) - 7) = Frame.Length buf + 65529 ∧
      Frame.Length buf < toUInt16 ((Frame.Length buf : Int) - 7) ∧
      Frame.Length buf < 7) := by
  have e1 : Frame.Cmd (memcpy s.rxPacket 0 buf 0 (Frame.Length buf + LENGTH_CMD_OVERHEAD))
      = PROTEUSII_CMD_DATA_IND := by
    rw [← hcmd]
    exact memcpy_prefix_apply _ _ _ _ (by simp only [LENGTH_CMD_OVERHEAD]; omega)
  have eL : Frame.Length (memcpy s.rxPacket 0 buf 0 (Frame.Length buf + LENGTH_CMD_OVERHEAD))
      = Frame.Length buf := by
    show memcpy s.rxPacket 0 buf 0 _ 2 + 256 * memcpy s.rxPacket 0 buf 0 _ (2 + 1)
      = buf 2 + 256 * buf (2 + 1)
    rw [memcpy_prefix_apply _ _ _ _ (by simp only [LENGTH_CMD_OVERHEAD]; omega),
      memcpy_prefix_apply _ _ _ _ (by simp only [LENGTH_CMD_OVERHEAD]; omega)]
  have hT : HandleRxPacket hdr s buf =
      { (callIf s.callbacks.rxCb
          (.rxCb 7 ((Frame.Length buf : Int) - 7) 0
            (Frame.Data (memcpy s.rxPacket 0 buf 0 (Frame.Length buf + LENGTH_CMD_OVERHEAD)) 6))
          { s with
            rxPacket := memcpy s.rxPacket 0 buf 0 (Frame.Length buf + LENGTH_CMD_OVERHEAD)
            handled := s.handled + 1 }) with
        cmdConfirmationArray := storeConfirmation
          (callIf s.callbacks.rxCb
            (.rxCb 7 ((Frame.Length buf : Int) - 7) 0
              (Frame.Data (memcpy s.rxPacket 0 buf 0
                (Frame.Length buf + LENGTH_CMD_OVERHEAD)) 6))
            { s with
              rxPacket := memcpy s.rxPacket 0 buf 0 (Frame.Length buf + LENGTH_CMD_OVERHEAD)
              handled := s.handled + 1 }).cmdConfirmationArray
          CMDCONFIRMATIONARRAY_LENGTH { cmd := CNFINVALID, status := CMD_Status_Invalid } } := by
    unfold HandleRxPacket
    dsimp only
    rw [rxSwitch_data_ind hdr _ e1]
    dsimp only
    rw [eL]
  refine ⟨?_, ?_, ?_, ?_⟩
  · rw [hT]
    simp [callIf, hcb]
  · intro j hj
    rw [hT]
    simp only [callIf, hcb, if_true]
    exact memcpy_prefix_apply _ _ _ _ (by simp only [LENGTH_CMD_OVERHEAD]; omega)
  · intro h7
    unfold toUInt16
    omega
  · intro h7
    unfold toUInt16
    omega

/-- Claim C27 at the DATA_IND frame without payload, `02 84 00 00 86`, handed over
with the receive callback registered: the callback gets the length `-7`, that is 65529
as a `uint16_t`. -/
theorem data_ind_length_underflow_witness :
    (Frame.Cmd (listMem [0x02, 0x84, 0, 0, 0x86]) = PROTEUSII_CMD_DATA_IND ∧
      ({ initialState with callbacks := { initialState.callbacks with rxCb := true } }
        : State).callbacks.rxCb = true ∧
      Frame.Length (listMem [0x02, 0x84, 0, 0, 0x86]) < 65536) ∧
    (HandleRxPacket ⟨243, 10, 19, 32⟩
      { initialState with callbacks := { initialState.callbacks with rxCb := true } }
      (listMem [0x02, 0x84, 0, 0, 0x86])).cbLog = [.rxCb 7 (-7) 0 0] ∧
    toUInt16 ((Frame.Length (listMem [0x02, 0x84, 0, 0, 0x86]) : Int) - 7)
      = Frame.Length (listMem [0x02, 0x84, 0, 0, 0x86]) + 65529 ∧
    Frame.Length (listMem [0x02, 0x84, 0, 0, 0x86])
      < toUInt16 ((Frame.Length (listMem [0x02, 0x84, 0, 0, 0x86]) : Int) - 7) :=
  have h := data_ind_length_underflow ⟨243, 10, 19, 32⟩
    { initialState with callbacks := { initialState.callbacks with rxCb := true } }
    (listMem [0x02, 0x84, 0, 0, 0x86]) (by decide) rfl (by decide)
  ⟨⟨by decide, rfl, by decide⟩, by decide, (h.2.2.2 (by decide)).2.1,
    (h.2.2.2 (by decide)).2.2.1⟩

end ProteusII

/-! ## Proteus-II: the framer and the size of its buffer -/

namespace ProteusII

/-- Claim C26 fails in the code: the framer never compares the announced frame size with
the size of `rxBuffer`.  From the idle state, the start of a frame whose length field is
`0xFFFA` takes `rxByteCounter` to every value `i` below 65534, and the byte received
next is stored at `rxBuffer[i]`: for `i` from `PROTEUSII_MAX_PAYLOAD_LENGTH + 5` on, the
size of `rxBuffer`, that store is outside the buffer.  No frame is handed to
`HandleRxPacket` on the way. -/
theorem rxBuffer_index_out_of_bounds (hdr : Header) (s : State) (hs : s.rxByteCounter = 0)
    (f : Mem) (h0 : f 0 = 0x02) (h2 : f 2 = 0xFA) (h3 : f 3 = 0xFF) (i b : Nat)
    (hlo : hdr.PROTEUSII_MAX_PAYLOAD_LENGTH + 5 ≤ i) (hi : i < 65534) :
    (feed hdr s (memBytes f i)).rxByteCounter = i ∧
    (feed hdr s (memBytes f i)).handled = s.handled ∧
    (ProteusII_HandleRxByte hdr (feed hdr s (memBytes f i)) b).rxBuffer i = b ∧
    (ProteusII_HandleRxByte hdr (feed hdr s (memBytes f i)) b).rxByteCounter = i + 1 ∧
    hdr.PROTEUSII_MAX_PAYLOAD_LENGTH + 5 ≤ i := by
  have hB : announcedSize f = 65535 := by
    unfold announcedSize
    rw [h2, h3]
    rfl
  have e := feed_upto hdr s f hs h0 i (by omega) (by omega)
  rw [e]
  refine ⟨rfl, rfl, ?_, ?_, hlo⟩
  · rw [step_data _ _ _ (by show 4 ≤ i; omega)
      (by show (i + 1) % 65536 ≠ announcedSize f; omega)]
    show memWrite _ i b i = b
    simp [memWrite]
  · rw [step_data _ _ _ (by show 4 ≤ i; omega)
      (by show (i + 1) % 65536 ≠ announcedSize f; omega)]
    show (i + 1) % 65536 = i + 1
    omega

/-- Claim C26 with a buffer of 243 + 5 bytes: after the 248 bytes `02 41 fa ff 00 ..  00`
the next byte is stored at `rxBuffer[248]`. -/
theorem rxBuffer_index_out_of_bounds_witness :
    (initialState.rxByteCounter = 0 ∧ listMem [0x02, 0x41, 0xFA, 0xFF] 0 = 0x02 ∧
      listMem [0x02, 0x41, 0xFA, 0xFF] 2 = 0xFA ∧ listMem [0x02, 0x41, 0xFA, 0xFF] 3 = 0xFF ∧
      243 + 5 ≤ 248 ∧ 248 < 65534) ∧
    (feed ⟨243, 10, 19, 32⟩ initialState
      (memBytes (listMem [0x02, 0x41, 0xFA, 0xFF]) 248)).rxByteCounter = 248 ∧
    (ProteusII_HandleRxByte ⟨243, 10, 19, 32⟩ (feed ⟨243, 10, 19, 32⟩ initialState
      (memBytes (listMem [0x02, 0x41, 0xFA, 0xFF]) 248)) 0x55).rxBuffer 248 = 0x55 :=
  have h := rxBuffer_index_out_of_bounds ⟨243, 10, 19, 32⟩ initialState rfl
    (listMem [0x02, 0x41, 0xFA, 0xFF]) rfl rfl rfl 248 0x55 (by decide) (by decide)
  ⟨⟨rfl, rfl, rfl, rfl, by decide, by decide⟩, h.1, h.2.2.1⟩

end ProteusII

/-! ## Thyone-I: the framer, byte by byte -/

namespace ThyoneI

theorem step_idle_stx_thyone (s : State) (h : s.RxByteCounter = 0) :
    WE_UART_HandleRxByte s CMD_STX =
      { s with RxBuffer := memWrite s.RxBuffer 0 CMD_STX, BytesToReceive := 0, RxByteCounter := 1 } := by
  unfold WE_UART_HandleRxByte
  simp [h, memWrite]

theorem step_idle_other_thyone (s : State) (b : Nat) (h : s.RxByteCounter = 0)
    (hb : b ≠ CMD_STX) :
    WE_UART_HandleRxByte s b = { s with RxBuffer := memWrite s.RxBuffer 0 b } := by
  unfold WE_UART_HandleRxByte
  simp [h, memWrite, hb]

theorem step_cmd_thyone (s : State) (b : Nat) (h : s.RxByteCounter = 1) :
    WE_UART_HandleRxByte s b =
      { s with RxBuffer := memWrite s.RxBuffer 1 b, RxByteCounter := 2 } := by
  unfold WE_UART_HandleRxByte
  simp [h]

theorem step_lsb_thyone (s : State) (b : Nat) (h : s.RxByteCounter = 2) :
    WE_UART_HandleRxByte s b =
      { s with RxBuffer := memWrite s.RxBuffer 2 b, RxByteCounter := 3, BytesToReceive := b } := by
  unfold WE_UART_HandleRxByte
  simp [h, memWrite]

theorem step_msb_thyone (s : State) (b : Nat) (h : s.RxByteCounter = 3) :
    WE_UART_HandleRxByte s b =
      { s with
        RxBuffer := memWrite s.RxBuffer 3 b
        RxByteCounter := 4
        BytesToReceive := (s.BytesToReceive + ((b <<< 8) + LENGTH_CMD_OVERHEAD)) % 65536 } := by
  unfold WE_UART_HandleRxByte
  simp [h, memWrite]

theorem step_data_thyone (s : State) (b : Nat) (h : 4 ≤ s.RxByteCounter)
    (hne : (s.RxByteCounter + 1) % 65536 ≠ s.BytesToReceive) :
    WE_UART_HandleRxByte s b =
      { s with
        RxBuffer := memWrite s.RxBuffer s.RxByteCounter b
        RxByteCounter := (s.RxByteCounter + 1) % 65536 } := by
  unfold WE_UART_HandleRxByte
  have h0 : s.RxByteCounter ≠ 0 := by omega
  have h1 : s.RxByteCounter ≠ 1 := by omega
  have h2 : s.RxByteCounter ≠ 2 := by omega
  have h3 : s.RxByteCounter ≠ 3 := by omega
  simp [h0, h1, h2, h3, hne]

theorem step_last_thyone (s : State) (b : Nat) (h : 4 ≤ s.RxByteCounter)
    (heq : (s.RxByteCounter + 1) % 65536 = s.BytesToReceive) :
    WE_UART_HandleRxByte s b =
      let buf := memWrite s.RxBuffer s.RxByteCounter b
      let t : State :=
        { s with
          RxBuffer := buf
          RxByteCounter := s.BytesToReceive
          checksum := xorLoop buf (s.BytesToReceive - 1) }
      { (if xorLoop buf (s.BytesToReceive - 1) = buf (s.BytesToReceive - 1)
          then HandleRxPacket t buf else t) with
        RxByteCounter := 0, BytesToReceive := 0 } := by
  unfold WE_UART_HandleRxByte
  have h0 : s.RxByteCounter ≠ 0 := by omega
  have h1 : s.RxByteCounter ≠ 1 := by omega
  have h2 : s.RxByteCounter ≠ 2 := by omega
  have h3 : s.RxByteCounter ≠ 3 := by omega
  simp [h0, h1, h2, h3, heq]

end ThyoneI

namespace ProteusII

theorem HandleRxPacket_fields (hdr : Header) (s : State) (buf : Mem) :
    (HandleRxPacket hdr s buf).rxBuffer = s.rxBuffer ∧
    (HandleRxPacket hdr s buf).handled = s.handled + 1 ∧
    (HandleRxPacket hdr s buf).checksum = s.checksum := by
  obtain ⟨g, c, l, e⟩ := HandleRxPacket_shape hdr s buf
  rw [e]
  exact ⟨rfl, rfl, rfl⟩

end ProteusII

namespace ThyoneI

theorem HandleRxPacket_fields_thyone (s : State) (buf : Mem) :
    (HandleRxPacket s buf).RxBuffer = s.RxBuffer ∧
    (HandleRxPacket s buf).handled = s.handled + 1 ∧
    (HandleRxPacket s buf).checksum = s.checksum := by
  obtain ⟨l, frame, e⟩ := HandleRxPacket_shape_thyone s buf
  rw [e]
  exact ⟨rfl, rfl, rfl⟩

end ThyoneI

/-- Claim C25. The two drivers share one framer: for every framer state (byte counter,
bytes to receive, buffer contents) and every received byte, `ProteusII_HandleRxByte`
and the Thyone-I `WE_UART_HandleRxByte` compute the same next byte counter, the same
bytes-to-receive value and the same buffer contents, and take the same decision: either
neither hands a frame to `HandleRxPacket`, or both compute the same checksum over the
buffered frame and hand it over. -/
theorem shared_framer (hdr : ProteusII.Header) (p : ProteusII.State) (t : ThyoneI.State)
    (b : Nat) (hc : p.rxByteCounter = t.RxByteCounter)
    (hb : p.bytesToReceive = t.BytesToReceive) (hbuf : p.rxBuffer = t.RxBuffer) :
    (ProteusII.ProteusII_HandleRxByte hdr p b).rxByteCounter
      = (ThyoneI.WE_UART_HandleRxByte t b).RxByteCounter ∧
    (ProteusII.ProteusII_HandleRxByte hdr p b).bytesToReceive
      = (ThyoneI.WE_UART_HandleRxByte t b).BytesToReceive ∧
    (ProteusII.ProteusII_HandleRxByte hdr p b).rxBuffer
      = (ThyoneI.WE_UART_HandleRxByte t b).RxBuffer ∧
    (((ProteusII.ProteusII_HandleRxByte hdr p b).handled = p.handled ∧
        (ThyoneI.WE_UART_HandleRxByte t b).handled = t.handled) ∨
      ((ProteusII.ProteusII_HandleRxByte hdr p b).handled = p.handled + 1 ∧
        (ThyoneI.WE_UART_HandleRxByte t b).handled = t.handled + 1 ∧
        (ProteusII.ProteusII_HandleRxByte hdr p b).checksum
          = (ThyoneI.WE_UART_HandleRxByte t b).checksum)) := by
  by_cases h0 : p.rxByteCounter = 0
  · by_cases hs : b = CMD_STX
    · subst hs
      rw [ProteusII.step_idle_stx hdr p h0, ThyoneI.step_idle_stx_thyone t (hc ▸ h0)]
      exact ⟨rfl, rfl, by rw [hbuf], Or.inl ⟨rfl, rfl⟩⟩
    · rw [ProteusII.step_idle_other hdr p b h0 hs,
        ThyoneI.step_idle_other_thyone t b (hc ▸ h0) hs]
      exact ⟨hc, hb, by rw [hbuf], Or.inl ⟨rfl, rfl⟩⟩
  by_cases h1 : p.rxByteCounter = 1
  · rw [ProteusII.step_cmd hdr p b h1, ThyoneI.step_cmd_thyone t b (hc ▸ h1)]
    exact ⟨rfl, hb, by rw [hbuf], Or.inl ⟨rfl, rfl⟩⟩
  by_cases h2 : p.rxByteCounter = 2
  · rw [ProteusII.step_lsb hdr p b h2, ThyoneI.step_lsb_thyone t b (hc ▸ h2)]
    exact ⟨rfl, rfl, by rw [hbuf], Or.inl ⟨rfl, rfl⟩⟩
  by_cases h3 : p.rxByteCounter = 3
  · rw [ProteusII.step_msb hdr p b h3, ThyoneI.step_msb_thyone t b (hc ▸ h3)]
    exact ⟨rfl, by show (_ + _) % 65536 = (_ + _) % 65536; rw [hb], by rw [hbuf],
      Or.inl ⟨rfl, rfl⟩⟩
  have h4 : 4 ≤ p.rxByteCounter := by omega
  by_cases heq : (p.rxByteCounter + 1) % 65536 = p.bytesToReceive
  · rw [ProteusII.step_last hdr p b h4 heq,
      ThyoneI.step_last_thyone t b (hc ▸ h4) (by rw [← hc, ← hb]; exact heq)]
    dsimp only
    have hbuf1 : memWrite t.RxBuffer t.RxByteCounter b = memWrite p.rxBuffer p.rxByteCounter b := by
      rw [hc, hbuf]
    rw [hbuf1, ← hb]
    by_cases hx : xorLoop (memWrite p.rxBuffer p.rxByteCounter b) (p.bytesToReceive - 1)
        = memWrite p.rxBuffer p.rxByteCounter b (p.bytesToReceive - 1)
    · rw [if_pos hx, if_pos hx]
      refine ⟨rfl, rfl, ?_, Or.inr ⟨?_, ?_, ?_⟩⟩
      · show (ProteusII.HandleRxPacket hdr _ _).rxBuffer = (ThyoneI.HandleRxPacket _ _).RxBuffer
        rw [(ProteusII.HandleRxPacket_fields hdr _ _).1,
          (ThyoneI.HandleRxPacket_fields_thyone _ _).1]
      · show (ProteusII.HandleRxPacket hdr _ _).handled = _
        rw [(ProteusII.HandleRxPacket_fields hdr _ _).2.1]
      · show (ThyoneI.HandleRxPacket _ _).handled = _
        rw [(ThyoneI.HandleRxPacket_fields_thyone _ _).2.1]
      · show (ProteusII.HandleRxPacket hdr _ _).checksum = (ThyoneI.HandleRxPacket _ _).checksum
        rw [(ProteusII.HandleRxPacket_fields hdr _ _).2.2,
          (ThyoneI.HandleRxPacket_fields_thyone _ _).2.2]
    · rw [if_neg hx, if_neg hx]
      exact ⟨rfl, rfl, rfl, Or.inl ⟨rfl, rfl⟩⟩
  · rw [ProteusII.step_data hdr p b h4 heq,
      ThyoneI.step_data_thyone t b (hc ▸ h4) (by rw [← hc, ← hb]; exact heq)]
    exact ⟨by show (_ + 1) % 65536 = (_ + 1) % 65536; rw [hc], hb,
      by show memWrite _ _ _ = memWrite _ _ _; rw [hbuf, hc], Or.inl ⟨rfl, rfl⟩⟩

/-- Claim C25 at the last byte of the frame `02 41 00 00 43`, the first four bytes of
which both framers have received from their initial states: both hand the frame over. -/
theorem shared_framer_witness :
    ((ProteusII.feed ⟨243, 10, 19, 32⟩ ProteusII.initialState [0x02, 0x41, 0, 0]).rxByteCounter
        = (ThyoneI.feed ThyoneI.initialState [0x02, 0x41, 0, 0]).RxByteCounter ∧
      (ProteusII.feed ⟨243, 10, 19, 32⟩ ProteusII.initialState [0x02, 0x41, 0, 0]).bytesToReceive
        = (ThyoneI.feed ThyoneI.initialState [0x02, 0x41, 0, 0]).BytesToReceive ∧
      (ProteusII.feed ⟨243, 10, 19, 32⟩ ProteusII.initialState [0x02, 0x41, 0, 0]).rxBuffer
        = (ThyoneI.feed ThyoneI.initialState [0x02, 0x41, 0, 0]).RxBuffer) ∧
    (ProteusII.ProteusII_HandleRxByte ⟨243, 10, 19, 32⟩
      (ProteusII.feed ⟨243, 10, 19, 32⟩ ProteusII.initialState [0x02, 0x41, 0, 0])
      0x43).rxByteCounter
      = (ThyoneI.WE_UART_HandleRxByte
        (ThyoneI.feed ThyoneI.initialState [0x02, 0x41, 0, 0]) 0x43).RxByteCounter ∧
    (ProteusII.ProteusII_HandleRxByte ⟨243, 10, 19, 32⟩
      (ProteusII.feed ⟨243, 10, 19, 32⟩ ProteusII.initialState [0x02, 0x41, 0, 0])
      0x43).handled = 1 ∧
    (ThyoneI.WE_UART_HandleRxByte
      (ThyoneI.feed ThyoneI.initialState [0x02, 0x41, 0, 0]) 0x43).handled = 1 :=
  ⟨⟨rfl, rfl, rfl⟩,
    (shared_framer ⟨243, 10, 19, 32⟩
      (ProteusII.feed ⟨243, 10, 19, 32⟩ ProteusII.initialState [0x02, 0x41, 0, 0])
      (ThyoneI.feed ThyoneI.initialState [0x02, 0x41, 0, 0]) 0x43 rfl rfl rfl).1,
    by decide, by decide⟩

/-! ## Thyone-I: data requests and the transmit buffer -/

namespace ThyoneI

theorem shift_bytes_small (x : Nat) (h : x < 256) :
    (x >>> 0) % 256 = x ∧ (x >>> 8) % 256 = 0 := by
  constructor
  · rw [Nat.shiftRight_zero]
    exact Nat.mod_eq_of_lt h
  · rw [Nat.shiftRight_eq_div_pow, Nat.div_eq_of_lt (by omega)]

/-- A request whose length field holds `n` with `n + 5` bytes fitting in `CMD_Array`,
filled without a write at or beyond `MAX_CMD_LENGTH`. -/
theorem sendRequest_fits (e st : Nat) (rx : List (List Nat)) (s : State) (A : Mem) (n : Nat)
    (h0 : A 0 = CMD_STX) (h2 : A 2 = n) (h3 : A 3 = 0) (hn : n + 5 ≤ MAX_CMD_LENGTH)
    (hA : ∀ i, MAX_CMD_LENGTH ≤ i → A i = s.CMD_Array i) :
    FitsTransmitBuffer s (sendRequest e st rx { s with CMD_Array := A }) (n + 5) := by
  have hm : MAX_CMD_LENGTH = 229 := rfl
  obtain ⟨r, hr, htx, harr⟩ := sendRequest_frame e st rx { s with CMD_Array := A } n h0 h2 h3
    (by omega)
  refine ⟨r, hr, ?_, ⟨_, htx, ?_⟩, hn⟩
  · intro i hi
    rw [harr]
    show memWrite A (n + 4) _ i = _
    unfold memWrite
    rw [if_neg (by omega)]
    exact hA i hi
  · rw [List.length_append, memBytes_length]
    rfl

/-- Claim C30. Thyone-I data requests fit the transmit buffer: `MAX_CMD_LENGTH` is 229,
and for every payload length accepted by `ThyoneI_TransmitBroadcast`,
`ThyoneI_TransmitMulticast`, `ThyoneI_TransmitUnicast` (at most 224),
`ThyoneI_TransmitMulticastExtended` (at most 223) and `ThyoneI_TransmitUnicastExtended`
(at most 220), for every payload, state and received byte stream, the function returns,
no byte of `CMD_Array` at an index of 229 or more is changed, and exactly one frame is
handed to `WE_UART_Transmit`, of `length + 5`, `length + 6` and `length + 9` bytes
respectively, which is at most 229. -/
theorem data_requests_fit_transmit_buffer :
    MAX_CMD_LENGTH = 229 ∧
    (∀ (payloadP : Mem) (length : Nat) (rx : List (List Nat)) (s : State),
      length ≤ MAX_PAYLOAD_LENGTH →
      FitsTransmitBuffer s (ThyoneI_TransmitBroadcast payloadP length rx s) (length + 5) ∧
      FitsTransmitBuffer s (ThyoneI_TransmitMulticast payloadP length rx s) (length + 5) ∧
      FitsTransmitBuffer s (ThyoneI_TransmitUnicast payloadP length rx s) (length + 5)) ∧
    (∀ (groupID : Nat) (payloadP : Mem) (length : Nat) (rx : List (List Nat)) (s : State),
      length ≤ MAX_PAYLOAD_LENGTH_MULTICAST_EX →
      FitsTransmitBuffer s (ThyoneI_TransmitMulticastExtended groupID payloadP length rx s)
        (length + 6)) ∧
    (∀ (address : Nat) (payloadP : Mem) (length : Nat) (rx : List (List Nat)) (s : State),
      length ≤ MAX_PAYLOAD_LENGTH_UNICAST_EX →
      FitsTransmitBuffer s (ThyoneI_TransmitUnicastExtended address payloadP length rx s)
        (length + 9)) := by
  have hm : MAX_CMD_LENGTH = 229 := rfl
  refine ⟨hm, ?_, ?_, ?_⟩
  · intro payloadP length rx s hl
    have hl1 : length ≤ 224 := hl
    obtain ⟨hlo, hhi⟩ := shift_bytes_small length (by omega)
    have key : ∀ c : Nat, FitsTransmitBuffer s
        (sendRequest ThyoneI_CMD_TXCOMPLETE_RSP CMD_Status_Success rx
          { s with CMD_Array := memcpy (memWrite (memWrite (memWrite (memWrite s.CMD_Array
            CMD_POSITION_STX CMD_STX) CMD_POSITION_CMD c) CMD_POSITION_LENGTH_LSB length)
            CMD_POSITION_LENGTH_MSB 0) CMD_POSITION_DATA payloadP 0 length }) (length + 5) := by
      intro c
      apply sendRequest_fits
      · simp [memcpy, memWrite, CMD_POSITION_STX, CMD_POSITION_CMD, CMD_POSITION_LENGTH_LSB,
          CMD_POSITION_LENGTH_MSB, CMD_POSITION_DATA]
      · simp [memcpy, memWrite, CMD_POSITION_STX, CMD_POSITION_CMD, CMD_POSITION_LENGTH_LSB,
          CMD_POSITION_LENGTH_MSB, CMD_POSITION_DATA]
      · simp [memcpy, memWrite, CMD_POSITION_STX, CMD_POSITION_CMD, CMD_POSITION_LENGTH_LSB,
          CMD_POSITION_LENGTH_MSB, CMD_POSITION_DATA]
      · omega
      · intro i hi
        have n1 : ¬ (i < 4 + length) := by omega
        have n2 : i ≠ 0 := by omega
        have n3 : i ≠ 1 := by omega
        have n4 : i ≠ 2 := by omega
        have n5 : i ≠ 3 := by omega
        simp [memcpy, memWrite, CMD_POSITION_STX, CMD_POSITION_CMD, CMD_POSITION_LENGTH_LSB,
          CMD_POSITION_LENGTH_MSB, CMD_POSITION_DATA, n1, n2, n3, n4, n5]
    refine ⟨?_, ?_, ?_⟩
    · unfold ThyoneI_TransmitBroadcast
      rw [if_pos hl]
      dsimp only
      rw [hlo, hhi]
      exact key _
    · unfold ThyoneI_TransmitMulticast
      rw [if_pos hl]
      dsimp only
      rw [hlo, hhi]
      exact key _
    · unfold ThyoneI_TransmitUnicast
      rw [if_pos hl]
      dsimp only
      rw [hlo, hhi]
      exact key _
  · intro groupID payloadP length rx s hl
    have hl1 : length ≤ 223 := hl
    have hmod : (length + 1) % 65536 = length + 1 := Nat.mod_eq_of_lt (by omega)
    obtain ⟨hlo, hhi⟩ := shift_bytes_small (length + 1) (by omega)
    unfold ThyoneI_TransmitMulticastExtended
    rw [if_pos hl]
    dsimp only
    rw [hmod, hlo, hhi]
    apply sendRequest_fits
    · simp [memcpy, memWrite, CMD_POSITION_STX, CMD_POSITION_CMD, CMD_POSITION_LENGTH_LSB,
        CMD_POSITION_LENGTH_MSB, CMD_POSITION_DATA]
    · simp [memcpy, memWrite, CMD_POSITION_STX, CMD_POSITION_CMD, CMD_POSITION_LENGTH_LSB,
        CMD_POSITION_LENGTH_MSB, CMD_POSITION_DATA]
    · simp [memcpy, memWrite, CMD_POSITION_STX, CMD_POSITION_CMD, CMD_POSITION_LENGTH_LSB,
        CMD_POSITION_LENGTH_MSB, CMD_POSITION_DATA]
    · omega
    · intro i hi
      have n1 : ¬ (i < 4 + 1 + length) := by omega
      have n2 : i ≠ 0 := by omega
      have n3 : i ≠ 1 := by omega
      have n4 : i ≠ 2 := by omega
      have n5 : i ≠ 3 := by omega
      simp [memcpy, memWrite, CMD_POSITION_STX, CMD_POSITION_CMD, CMD_POSITION_LENGTH_LSB,
        CMD_POSITION_LENGTH_MSB, CMD_POSITION_DATA, n1, n2, n3, n4, n5]
  · intro address payloadP length rx s hl
    have hl1 : length ≤ 220 := hl
    have hmod : (length + 4) % 65536 = length + 4 := Nat.mod_eq_of_lt (by omega)
    obtain ⟨hlo, hhi⟩ := shift_bytes_small (length + 4) (by omega)
    unfold ThyoneI_TransmitUnicastExtended
    rw [if_pos hl]
    dsimp only
    rw [hmod, hlo, hhi]
    apply sendRequest_fits
    · simp [memcpy, memWrite, CMD_POSITION_STX, CMD_POSITION_CMD, CMD_POSITION_LENGTH_LSB,
        CMD_POSITION_LENGTH_MSB, CMD_POSITION_DATA]
    · simp [memcpy, memWrite, CMD_POSITION_STX, CMD_POSITION_CMD, CMD_POSITION_LENGTH_LSB,
        CMD_POSITION_LENGTH_MSB, CMD_POSITION_DATA]
    · simp [memcpy, memWrite, CMD_POSITION_STX, CMD_POSITION_CMD, CMD_POSITION_LENGTH_LSB,
        CMD_POSITION_LENGTH_MSB, CMD_POSITION_DATA]
    · omega
    · intro i hi
      have n1 : ¬ (i < 4 + 4 + length) := by omega
      have n1b : ¬ (i < 4 + 4) := by omega
      have n2 : i ≠ 0 := by omega
      have n3 : i ≠ 1 := by omega
      have n4 : i ≠ 2 := by omega
      have n5 : i ≠ 3 := by omega
      simp [memcpy, memWrite, CMD_POSITION_STX, CMD_POSITION_CMD, CMD_POSITION_LENGTH_LSB,
        CMD_POSITION_LENGTH_MSB, CMD_POSITION_DATA, n1, n1b, n2, n3, n4, n5]

end ThyoneI

/-! ## Thyone-I: the block parsers of the pin requests -/

namespace ThyoneI

/-- The parse loop of `ThyoneI_GPIOLocalRead` ends when its bound is at least the number
of bytes to cross. -/
theorem localReadLoop_total (RxPacket : Mem) (stop : Nat) (fuel : Nat) :
    ∀ (uartP : Nat) (g : ReadState), stop ≤ uartP + fuel →
      ∃ g1, localReadLoop RxPacket stop fuel uartP g = some g1 := by
  induction fuel with
  | zero =>
    intro uartP g h
    rw [localReadLoop, if_neg (by omega)]
    exact ⟨g, rfl⟩
  | succ f ih =>
    intro uartP g h
    rw [localReadLoop]
    by_cases hlt : uartP < stop
    · rw [if_pos hlt]
      exact ih _ _ (by omega)
    · rw [if_neg hlt]
      exact ⟨g, rfl⟩

/-- A larger bound does not change the result of a parse loop that ended. -/
theorem localGetConfigLoop_mono (hdr : Header) (RxPacket : Mem) (stop : Nat) (fuel : Nat) :
    ∀ (uartP : Nat) (g g1 : GetConfigState) (fuel1 : Nat), fuel ≤ fuel1 →
      localGetConfigLoop hdr RxPacket stop fuel uartP g = some g1 →
      localGetConfigLoop hdr RxPacket stop fuel1 uartP g = some g1 := by
  induction fuel with
  | zero =>
    intro uartP g g1 fuel1 _ h
    rw [localGetConfigLoop] at h
    by_cases hlt : uartP < stop
    · rw [if_pos hlt] at h
      cases h
    · rw [if_neg hlt] at h
      cases fuel1 <;> rw [localGetConfigLoop, if_neg hlt] <;> exact h
  | succ f ih =>
    intro uartP g g1 fuel1 hle h
    rw [localGetConfigLoop] at h
    obtain ⟨f1, rfl⟩ : ∃ f1, fuel1 = f1 + 1 := ⟨fuel1 - 1, by omega⟩
    rw [localGetConfigLoop]
    by_cases hlt : uartP < stop
    · rw [if_pos hlt] at h ⊢
      exact ih _ _ _ f1 (by omega) h
    · rw [if_neg hlt] at h ⊢
      exact h

theorem localReadLoop_mono (RxPacket : Mem) (stop : Nat) (fuel : Nat) :
    ∀ (uartP : Nat) (g g1 : ReadState) (fuel1 : Nat), fuel ≤ fuel1 →
      localReadLoop RxPacket stop fuel uartP g = some g1 →
      localReadLoop RxPacket stop fuel1 uartP g = some g1 := by
  induction fuel with
  | zero =>
    intro uartP g g1 fuel1 _ h
    rw [localReadLoop] at h
    by_cases hlt : uartP < stop
    · rw [if_pos hlt] at h
      cases h
    · rw [if_neg hlt] at h
      cases fuel1 <;> rw [localReadLoop, if_neg hlt] <;> exact h
  | succ f ih =>
    intro uartP g g1 fuel1 hle h
    rw [localReadLoop] at h
    obtain ⟨f1, rfl⟩ : ∃ f1, fuel1 = f1 + 1 := ⟨fuel1 - 1, by omega⟩
    rw [localReadLoop]
    by_cases hlt : uartP < stop
    · rw [if_pos hlt] at h ⊢
      exact ih _ _ _ f1 (by omega) h
    · rw [if_neg hlt] at h ⊢
      exact h

/-- The steps of `ThyoneI_GPIOLocalGetConfig` up to the parse loop: `FillChecksum`
returns true, and the rest works on the result `T` of `Wait4CNF`. -/
theorem GPIOLocalGetConfig_eq (hdr : Header) (out0 : Nat → ThyoneI_GPIOConfigBlock_t)
    (n0 : Nat) (rx : List (List Nat)) (s : State) :
    ∃ T : Bool × State, ThyoneI_GPIOLocalGetConfig hdr out0 n0 rx s =
      if T.1 = true then
        match localGetConfigLoop hdr T.2.RxPacket
          (CMD_POSITION_DATA + ((T.2.RxPacket CMD_POSITION_LENGTH_LSB <<< 0)
            + (T.2.RxPacket CMD_POSITION_LENGTH_MSB <<< 8)) % 65536)
          (((T.2.RxPacket CMD_POSITION_LENGTH_LSB <<< 0)
            + (T.2.RxPacket CMD_POSITION_LENGTH_MSB <<< 8)) % 65536)
          (CMD_POSITION_DATA + 1) { configP := out0, running := 0, number_of_configs := 0 } with
        | none => none
        | some g => some (true, g.configP, g.number_of_configs, T.2)
      else some (false, out0, n0, T.2) := by
  unfold ThyoneI_GPIOLocalGetConfig
  dsimp only
  obtain ⟨-, hf⟩ := FillChecksum_small (memWrite (memWrite (memWrite (memWrite s.CMD_Array
      CMD_POSITION_STX CMD_STX) CMD_POSITION_CMD ThyoneI_CMD_GPIO_LOCAL_GETCONFIG_REQ)
      CMD_POSITION_LENGTH_LSB 0) CMD_POSITION_LENGTH_MSB 0) 0
    (by simp [memWrite, CMD_POSITION_STX, CMD_POSITION_CMD, CMD_POSITION_LENGTH_LSB,
      CMD_POSITION_LENGTH_MSB])
    (by simp [memWrite, CMD_POSITION_STX, CMD_POSITION_CMD, CMD_POSITION_LENGTH_LSB,
      CMD_POSITION_LENGTH_MSB])
    (by simp [memWrite, CMD_POSITION_STX, CMD_POSITION_CMD, CMD_POSITION_LENGTH_LSB,
      CMD_POSITION_LENGTH_MSB])
    (by omega)
  rw [hf]
  dsimp only
  generalize Wait4CNF CMD_WAIT_TIME ThyoneI_CMD_GPIO_LOCAL_GETCONFIG_CNF CMD_Status_Success
    true rx _ = T
  exact ⟨T, rfl⟩

/-- The steps of `ThyoneI_GPIOLocalRead` up to the parse loop. -/
theorem GPIOLocalRead_eq (GPIOToReadP : Mem) (amountGPIOToRead : Nat)
    (out0 : Nat → ThyoneI_GPIOControlBlock_t) (n0 : Nat) (rx : List (List Nat)) (s : State) :
    ∃ T : Bool × State,
      ThyoneI_GPIOLocalRead GPIOToReadP amountGPIOToRead out0 n0 rx s =
      if T.1 = true then
        match localReadLoop T.2.RxPacket
          (CMD_POSITION_DATA + ((T.2.RxPacket CMD_POSITION_LENGTH_LSB <<< 0)
            + (T.2.RxPacket CMD_POSITION_LENGTH_MSB <<< 8)) % 65536)
          (((T.2.RxPacket CMD_POSITION_LENGTH_LSB <<< 0)
            + (T.2.RxPacket CMD_POSITION_LENGTH_MSB <<< 8)) % 65536)
          (CMD_POSITION_DATA + 1)
          { controlP := out0, running := 0, number_of_controls := 0 } with
        | none => none
        | some g => some (true, g.controlP, g.number_of_controls, T.2)
      else some (false, out0, n0, T.2) := by
  unfold ThyoneI_GPIOLocalRead
  dsimp only
  have hlt : (amountGPIOToRead + 1) % 256 < 256 := Nat.mod_lt _ (by decide)
  obtain ⟨-, hf⟩ := FillChecksum_small (memcpy (memWrite (memWrite (memWrite (memWrite
      (memWrite s.CMD_Array
      CMD_POSITION_STX CMD_STX) CMD_POSITION_CMD ThyoneI_CMD_GPIO_LOCAL_READ_REQ)
      CMD_POSITION_LENGTH_LSB ((amountGPIOToRead + 1) % 256)) CMD_POSITION_LENGTH_MSB 0)
      CMD_POSITION_DATA amountGPIOToRead) (CMD_POSITION_DATA + 1) GPIOToReadP 0
      amountGPIOToRead) ((amountGPIOToRead + 1) % 256)
    (by simp [memcpy, memWrite, CMD_POSITION_STX, CMD_POSITION_CMD, CMD_POSITION_LENGTH_LSB,
      CMD_POSITION_LENGTH_MSB, CMD_POSITION_DATA])
    (by simp [memcpy, memWrite, CMD_POSITION_STX, CMD_POSITION_CMD, CMD_POSITION_LENGTH_LSB,
      CMD_POSITION_LENGTH_MSB, CMD_POSITION_DATA])
    (by simp [memcpy, memWrite, CMD_POSITION_STX, CMD_POSITION_CMD, CMD_POSITION_LENGTH_LSB,
      CMD_POSITION_LENGTH_MSB, CMD_POSITION_DATA])
    (by omega)
  rw [hf]
  dsimp only
  generalize Wait4CNF CMD_WAIT_TIME ThyoneI_CMD_GPIO_LOCAL_READ_CNF CMD_Status_Success
    true rx _ = T
  exact ⟨T, rfl⟩

/-- Claim C29. GPIO block parsing terminates: for every content of `RxPacket`, every
payload length `L` and every state of the output, the block-parsing loops of
`ThyoneI_GPIOLocalGetConfig` and `ThyoneI_GPIOLocalRead`, which start at index 5 and run
while the read position is below `4 + L`, end within `max(L - 1, 0)` iterations, with
the same result for every larger bound; each iteration advances the read position by
the block length byte plus one, which is at least 1; and both functions return for
every input. -/
theorem gpio_block_parsing_terminates :
    (∀ (hdr : Header) (RxPacket : Mem) (L : Nat) (g : GetConfigState),
      ∃ g1, localGetConfigLoop hdr RxPacket (CMD_POSITION_DATA + L)
          (max ((L : Int) - 1) 0).toNat (CMD_POSITION_DATA + 1) g = some g1 ∧
        ∀ fuel, (max ((L : Int) - 1) 0).toNat ≤ fuel →
          localGetConfigLoop hdr RxPacket (CMD_POSITION_DATA + L) fuel
            (CMD_POSITION_DATA + 1) g = some g1) ∧
    (∀ (RxPacket : Mem) (L : Nat) (g : ReadState),
      ∃ g1, localReadLoop RxPacket (CMD_POSITION_DATA + L)
          (max ((L : Int) - 1) 0).toNat (CMD_POSITION_DATA + 1) g = some g1 ∧
        ∀ fuel, (max ((L : Int) - 1) 0).toNat ≤ fuel →
          localReadLoop RxPacket (CMD_POSITION_DATA + L) fuel
            (CMD_POSITION_DATA + 1) g = some g1) ∧
    (∀ (hdr : Header) (RxPacket : Mem) (stop fuel uartP : Nat) (g : GetConfigState),
      uartP < stop →
      localGetConfigLoop hdr RxPacket stop (fuel + 1) uartP g
        = localGetConfigLoop hdr RxPacket stop fuel (uartP + (RxPacket uartP + 1))
            (localGetConfigStep hdr RxPacket uartP g) ∧
      uartP + 1 ≤ uartP + (RxPacket uartP + 1)) ∧
    (∀ (RxPacket : Mem) (stop fuel uartP : Nat) (g : ReadState),
      uartP < stop →
      localReadLoop RxPacket stop (fuel + 1) uartP g
        = localReadLoop RxPacket stop fuel (uartP + (RxPacket uartP + 1))
            (localReadStep RxPacket uartP g) ∧
      uartP + 1 ≤ uartP + (RxPacket uartP + 1)) ∧
    (∀ (hdr : Header) (configP : Nat → ThyoneI_GPIOConfigBlock_t) (number_of_configs : Nat)
      (rx : List (List Nat)) (s : State),
      ∃ r, ThyoneI_GPIOLocalGetConfig hdr configP number_of_configs rx s = some r) ∧
    (∀ (GPIOToReadP : Mem) (amountGPIOToRead : Nat)
      (controlP : Nat → ThyoneI_GPIOControlBlock_t) (number_of_controls : Nat)
      (rx : List (List Nat)) (s : State),
      ∃ r, ThyoneI_GPIOLocalRead GPIOToReadP amountGPIOToRead controlP number_of_controls
        rx s = some r) := by
  refine ⟨?_, ?_, ?_, ?_, ?_, ?_⟩
  · intro hdr RxPacket L g
    obtain ⟨g1, h1⟩ := localGetConfigLoop_total hdr RxPacket (CMD_POSITION_DATA + L)
      (max ((L : Int) - 1) 0).toNat (CMD_POSITION_DATA + 1) g
      (by simp only [CMD_POSITION_DATA]; omega)
    exact ⟨g1, h1, fun fuel hf => localGetConfigLoop_mono hdr RxPacket _ _ _ g g1 fuel hf h1⟩
  · intro RxPacket L g
    obtain ⟨g1, h1⟩ := localReadLoop_total RxPacket (CMD_POSITION_DATA + L)
      (max ((L : Int) - 1) 0).toNat (CMD_POSITION_DATA + 1) g
      (by simp only [CMD_POSITION_DATA]; omega)
    exact ⟨g1, h1, fun fuel hf => localReadLoop_mono RxPacket _ _ _ g g1 fuel hf h1⟩
  · intro hdr RxPacket stop fuel uartP g hlt
    refine ⟨?_, by omega⟩
    rw [localGetConfigLoop, if_pos hlt]
  · intro RxPacket stop fuel uartP g hlt
    refine ⟨?_, by omega⟩
    rw [localReadLoop, if_pos hlt]
  · intro hdr configP n0 rx s
    obtain ⟨T, hT⟩ := GPIOLocalGetConfig_eq hdr configP n0 rx s
    rw [hT]
    by_cases hw : T.1 = true
    · rw [if_pos hw]
      obtain ⟨g1, hg1⟩ := localGetConfigLoop_total hdr T.2.RxPacket
        (CMD_POSITION_DATA + ((T.2.RxPacket CMD_POSITION_LENGTH_LSB <<< 0)
          + (T.2.RxPacket CMD_POSITION_LENGTH_MSB <<< 8)) % 65536)
        (((T.2.RxPacket CMD_POSITION_LENGTH_LSB <<< 0)
          + (T.2.RxPacket CMD_POSITION_LENGTH_MSB <<< 8)) % 65536)
        (CMD_POSITION_DATA + 1) { configP := configP, running := 0, number_of_configs := 0 }
        (by simp only [CMD_POSITION_DATA]; omega)
      rw [hg1]
      exact ⟨_, rfl⟩
    · rw [if_neg hw]
      exact ⟨_, rfl⟩
  · intro GPIOToReadP amount controlP n0 rx s
    obtain ⟨T, hT⟩ := GPIOLocalRead_eq GPIOToReadP amount controlP n0 rx s
    rw [hT]
    by_cases hw : T.1 = true
    · rw [if_pos hw]
      obtain ⟨g1, hg1⟩ := localReadLoop_total T.2.RxPacket
        (CMD_POSITION_DATA + ((T.2.RxPacket CMD_POSITION_LENGTH_LSB <<< 0)
          + (T.2.RxPacket CMD_POSITION_LENGTH_MSB <<< 8)) % 65536)
        (((T.2.RxPacket CMD_POSITION_LENGTH_LSB <<< 0)
          + (T.2.RxPacket CMD_POSITION_LENGTH_MSB <<< 8)) % 65536)
        (CMD_POSITION_DATA + 1) { controlP := controlP, running := 0, number_of_controls := 0 }
        (by simp only [CMD_POSITION_DATA]; omega)
      rw [hg1]
      exact ⟨_, rfl⟩
    · rw [if_neg hw]
      exact ⟨_, rfl⟩

end ThyoneI

/-! ## Thyone-I: the bytes the configuration parser reads -/

namespace ThyoneI

/-- Claim C28 fails in the code. `ThyoneI_GPIOLocalGetConfig` always returns, and when
it returns true on a frame with the payload length `L = 2` whose second payload byte
(`RxPacket[5]`, the last byte of the payload) is 3, and `RxPacket[7]` holds the value
of `ThyoneI_GPIO_IO_Disconnected`, it reports one configuration entry whose `GPIO_ID`
is `RxPacket[6]`, the checksum byte of the frame, and whose `function` is `RxPacket[7]`,
a byte behind the frame: both indices are above `L + 3 = 5`. -/
theorem getConfig_reads_beyond_payload (hdr : Header)
    (configP : Nat → ThyoneI_GPIOConfigBlock_t) (number_of_configs : Nat)
    (rx : List (List Nat)) (s : State) :
    ∃ ret cfg num t,
      ThyoneI_GPIOLocalGetConfig hdr configP number_of_configs rx s
        = some (ret, cfg, num, t) ∧
      (ret = true → le16 t.RxPacket 2 = 2 → t.RxPacket 5 = 3 →
        t.RxPacket 7 = hdr.ThyoneI_GPIO_IO_Disconnected →
        num = 1 ∧ (cfg 0).GPIO_ID = t.RxPacket 6 ∧ (cfg 0).function = t.RxPacket 7 ∧
          le16 t.RxPacket 2 + 3 < 6) := by
  obtain ⟨T, hT⟩ := GPIOLocalGetConfig_eq hdr configP number_of_configs rx s
  rw [hT]
  by_cases hw : T.1 = true
  swap
  · rw [if_neg hw]
    exact ⟨false, configP, number_of_configs, T.2, rfl, fun h => (by cases h)⟩
  rw [if_pos hw]
  obtain ⟨g1, hg1⟩ := localGetConfigLoop_total hdr T.2.RxPacket
    (CMD_POSITION_DATA + ((T.2.RxPacket CMD_POSITION_LENGTH_LSB <<< 0)
      + (T.2.RxPacket CMD_POSITION_LENGTH_MSB <<< 8)) % 65536)
    (((T.2.RxPacket CMD_POSITION_LENGTH_LSB <<< 0)
      + (T.2.RxPacket CMD_POSITION_LENGTH_MSB <<< 8)) % 65536)
    (CMD_POSITION_DATA + 1) { configP := configP, running := 0, number_of_configs := 0 }
    (by simp only [CMD_POSITION_DATA]; omega)
  rw [hg1]
  refine ⟨true, g1.configP, g1.number_of_configs, T.2, rfl, ?_⟩
  intro _ hlen h5 h7
  have hlen2 : ((T.2.RxPacket CMD_POSITION_LENGTH_LSB <<< 0)
      + (T.2.RxPacket CMD_POSITION_LENGTH_MSB <<< 8)) % 65536 = 2 := by
    have : le16 T.2.RxPacket 2 = T.2.RxPacket 2 + 256 * T.2.RxPacket 3 := rfl
    show ((T.2.RxPacket 2 <<< 0) + (T.2.RxPacket 3 <<< 8)) % 65536 = _
    rw [Nat.shiftLeft_eq, Nat.shiftLeft_eq]
    omega
  rw [hlen2] at hg1
  have h5a : T.2.RxPacket (CMD_POSITION_DATA + 1) = 3 := h5
  have h7a : T.2.RxPacket (CMD_POSITION_DATA + 1 + 2) = hdr.ThyoneI_GPIO_IO_Disconnected := h7
  rw [localGetConfigLoop, if_pos (by decide), localGetConfigLoop,
    if_neg (by rw [h5a]; decide)] at hg1
  unfold localGetConfigStep at hg1
  rw [if_pos h7a, if_pos h5a] at hg1
  cases hg1
  refine ⟨rfl, rfl, rfl, ?_⟩
  rw [hlen]
  decide

/-- The failing input of claim C28 with `ThyoneI_GPIO_IO_Disconnected = 0`: the module
answers the request with the checksum-valid frame `02 66 02 00 00 03 65`.  On the
freshly initialised driver `RxPacket[7]` is 0 and one entry is reported, pin `0x65`
(the checksum) with the function 0; after the frame `02 66 04 00 00 03 01 09 6b` was
received before, `RxPacket[7]` is 9 and the same answer gives no entry. -/
theorem getConfig_result_depends_on_stale_bytes :
    (ThyoneI_GPIOLocalGetConfig ⟨4, 7, 0, 1, 2, 3, 2⟩ (fun _ => ⟨0, 0, ⟨0, 0, ⟨0, 0⟩⟩⟩) 0
        [[0x02, 0x66, 2, 0, 0, 3, 0x65]] initialState).map
      (fun r => (r.1, r.2.2.1, (r.2.1 0).GPIO_ID, (r.2.1 0).function))
      = some (true, 1, 0x65, 0) ∧
    (ThyoneI_GPIOLocalGetConfig ⟨4, 7, 0, 1, 2, 3, 2⟩ (fun _ => ⟨0, 0, ⟨0, 0, ⟨0, 0⟩⟩⟩) 0
        [[0x02, 0x66, 2, 0, 0, 3, 0x65]] initialState).map
      (fun r => memBytes r.2.2.2.RxPacket 9)
      = some [0x02, 0x66, 2, 0, 0, 3, 0x65, 0, 0] ∧
    (feed initialState [0x02, 0x66, 4, 0, 0, 3, 1, 9, 0x6B]).handled = 1 ∧
    (ThyoneI_GPIOLocalGetConfig ⟨4, 7, 0, 1, 2, 3, 2⟩ (fun _ => ⟨0, 0, ⟨0, 0, ⟨0, 0⟩⟩⟩) 0
        [[0x02, 0x66, 2, 0, 0, 3, 0x65]]
        (feed initialState [0x02, 0x66, 4, 0, 0, 3, 1, 9, 0x6B])).map
      (fun r => (r.1, r.2.2.1, (r.2.1 0).GPIO_ID, (r.2.1 0).function))
      = some (true, 0, 0, 0) ∧
    (ThyoneI_GPIOLocalGetConfig ⟨4, 7, 0, 1, 2, 3, 2⟩ (fun _ => ⟨0, 0, ⟨0, 0, ⟨0, 0⟩⟩⟩) 0
        [[0x02, 0x66, 2, 0, 0, 3, 0x65]]
        (feed initialState [0x02, 0x66, 4, 0, 0, 3, 1, 9, 0x6B])).map
      (fun r => memBytes r.2.2.2.RxPacket 9)
      = some [0x02, 0x66, 2, 0, 0, 3, 0x65, 9, 0x6B] := by
  decide

end ThyoneI

/-! ## Proteus-II: frame acceptance and earlier traffic -/

namespace ProteusII

theorem ite_framer {c : Prop} [Decidable c] (F : State → State)
    {a b a1 b1 : Confirmation × State} (ha : a1 = (a.1, F a.2)) (hb : b1 = (b.1, F b.2)) :
    (if c then a1 else b1) = ((if c then a else b).1, F (if c then a else b).2) := by
  split <;> assumption

/-- The `switch` of `HandleRxPacket` neither reads nor writes the framer variables. -/
theorem rxSwitch_framer (hdr : Header) (s : State) (B : Mem) (k n c : Nat) :
    rxSwitch hdr { s with rxBuffer := B, rxByteCounter := k, bytesToReceive := n, checksum := c }
      = ((rxSwitch hdr s).1,
          { (rxSwitch hdr s).2 with
            rxBuffer := B, rxByteCounter := k, bytesToReceive := n, checksum := c }) := by
  rcases s with ⟨tx, rxp, arr, om, g, bs, cb, ck, k0, n0, B0, h, l, u, d, p⟩
  cases g <;>
  · unfold rxSwitch
    dsimp only
    repeat' (first
      | rfl
      | apply ite_framer (fun t : State =>
          { t with rxBuffer := B, rxByteCounter := k, bytesToReceive := n, checksum := c })
      | (unfold callIf; split)
      | split)

theorem HandleRxPacket_framer (hdr : Header) (s : State) (buf B : Mem) (k n c : Nat) :
    HandleRxPacket hdr
        { s with rxBuffer := B, rxByteCounter := k, bytesToReceive := n, checksum := c } buf
      = { HandleRxPacket hdr s buf with
          rxBuffer := B, rxByteCounter := k, bytesToReceive := n, checksum := c } :=
  congrArg
    (fun r : Confirmation × State =>
      ({ r.2 with cmdConfirmationArray :=
          storeConfirmation r.2.cmdConfirmationArray CMDCONFIRMATIONARRAY_LENGTH r.1 } : State))
    (rxSwitch_framer hdr
      { s with
        rxPacket := memcpy s.rxPacket 0 buf 0 (Frame.Length buf + LENGTH_CMD_OVERHEAD)
        handled := s.handled + 1 } B k n c)

/-- `HandleRxPacket` reads the first `Length + 5` bytes of the buffer it is given. -/
theorem HandleRxPacket_buffer (hdr : Header) (s : State) (f B : Mem) :
    HandleRxPacket hdr s (memcpy B 0 f 0 (Frame.Length f + 5)) = HandleRxPacket hdr s f := by
  have hL : Frame.Length (memcpy B 0 f 0 (Frame.Length f + 5)) = Frame.Length f := by
    show memcpy B 0 f 0 (Frame.Length f + 5) 2
      + 256 * memcpy B 0 f 0 (Frame.Length f + 5) 3 = f 2 + 256 * f 3
    rw [memcpy_prefix_apply _ _ _ _ (by omega), memcpy_prefix_apply _ _ _ _ (by omega)]
  have hcp : memcpy s.rxPacket 0 (memcpy B 0 f 0 (Frame.Length f + 5)) 0
      (Frame.Length f + 5) = memcpy s.rxPacket 0 f 0 (Frame.Length f + 5) := by
    funext i
    simp only [memcpy, Nat.zero_le, true_and, Nat.zero_add, Nat.sub_zero]
    split <;> simp [*]
  unfold HandleRxPacket
  simp only [hL, LENGTH_CMD_OVERHEAD, hcp]

/-- The state after a whole frame of `Length + 5` bytes received from the idle state:
what `HandleRxPacket` makes of the frame if the checksum is right, the state before
otherwise, and the framer variables as the frame leaves them. -/
theorem feed_frame_idle (hdr : Header) (s : State) (f : Mem) (hs : s.rxByteCounter = 0)
    (hf : f 0 = CMD_STX) (hlen : Frame.Length f + 5 < 65536) :
    feed hdr s (memBytes f (Frame.Length f + 5)) =
      { (if xorLoop f (Frame.Length f + 4) = f (Frame.Length f + 4)
          then HandleRxPacket hdr s f else s) with
        rxBuffer := memcpy s.rxBuffer 0 f 0 (Frame.Length f + 5)
        rxByteCounter := 0
        bytesToReceive := 0
        checksum := xorLoop f (Frame.Length f + 4) } := by
  have hB : announcedSize f = Frame.Length f + 5 := by
    rw [announcedSize_eq]; simp only [LENGTH_CMD_OVERHEAD]; omega
  have h := feed_frame hdr s f hs hf (by omega)
  rw [hB] at h
  simp only [show Frame.Length f + 5 - 1 = Frame.Length f + 4 from rfl] at h
  rw [h]
  by_cases hck : xorLoop f (Frame.Length f + 4) = f (Frame.Length f + 4)
  · rw [if_pos hck, if_pos hck, HandleRxPacket_framer, HandleRxPacket_buffer]
  · rw [if_neg hck, if_neg hck]

/-- Claim C31. Frame acceptance does not depend on earlier traffic: for every idle
state `s` and every state `t` that differs from it only in the content of `rxBuffer`,
in `bytesToReceive` and in the checksum variable, feeding the same frame of
`Length + 5` bytes with the start byte `0x02` and a payload length of at most
`PROTEUSII_MAX_PAYLOAD_LENGTH` gives the same decision (the frame is handed to
`HandleRxPacket` in both runs if its last byte is the XOR of the bytes before, in
neither run otherwise) and the same `rxPacket`, confirmation array and driver state;
indeed the two resulting states are equal but for the bytes of `rxBuffer` behind the
frame. -/
theorem frame_acceptance_independent_of_history (hdr : Header) (s t : State)
    (hs : s.rxByteCounter = 0) (hst : SameButFramer s t) (f : Mem) (hf : f 0 = CMD_STX)
    (hL : Frame.Length f ≤ hdr.PROTEUSII_MAX_PAYLOAD_LENGTH)
    (hmax : hdr.PROTEUSII_MAX_PAYLOAD_LENGTH + 5 < 65536) :
    (((feed hdr s (memBytes f (Frame.Length f + 5))).handled = s.handled + 1 ∧
        (feed hdr t (memBytes f (Frame.Length f + 5))).handled = t.handled + 1 ∧
        xorLoop f (Frame.Length f + 4) = f (Frame.Length f + 4)) ∨
      ((feed hdr s (memBytes f (Frame.Length f + 5))).handled = s.handled ∧
        (feed hdr t (memBytes f (Frame.Length f + 5))).handled = t.handled ∧
        xorLoop f (Frame.Length f + 4) ≠ f (Frame.Length f + 4))) ∧
    (feed hdr t (memBytes f (Frame.Length f + 5))).rxPacket
      = (feed hdr s (memBytes f (Frame.Length f + 5))).rxPacket ∧
    (feed hdr t (memBytes f (Frame.Length f + 5))).cmdConfirmationArray
      = (feed hdr s (memBytes f (Frame.Length f + 5))).cmdConfirmationArray ∧
    (feed hdr t (memBytes f (Frame.Length f + 5))).bleState
      = (feed hdr s (memBytes f (Frame.Length f + 5))).bleState ∧
    feed hdr t (memBytes f (Frame.Length f + 5))
      = { feed hdr s (memBytes f (Frame.Length f + 5)) with
          rxBuffer := (feed hdr t (memBytes f (Frame.Length f + 5))).rxBuffer } ∧
    ∀ i, i < Frame.Length f + 5 →
      (feed hdr t (memBytes f (Frame.Length f + 5))).rxBuffer i = f i ∧
      (feed hdr s (memBytes f (Frame.Length f + 5))).rxBuffer i = f i := by
  obtain ⟨B, n, c, rfl⟩ := hst
  have hlen : Frame.Length f + 5 < 65536 := by omega
  have e1 := feed_frame_idle hdr s f hs hf hlen
  have e2 := feed_frame_idle hdr
    { s with rxBuffer := B, bytesToReceive := n, checksum := c } f hs hf hlen
  have hfr : HandleRxPacket hdr { s with rxBuffer := B, bytesToReceive := n, checksum := c } f
      = { HandleRxPacket hdr s f with rxBuffer := B, bytesToReceive := n, checksum := c } := by
    have := HandleRxPacket_framer hdr s f B s.rxByteCounter n c
    obtain ⟨_, _, _⟩ := HandleRxPacket_fields hdr s f
    obtain ⟨g, b, l, e⟩ := HandleRxPacket_shape hdr s f
    rw [e] at this ⊢
    exact this
  rw [hfr] at e2
  rw [e1, e2]
  obtain ⟨-, hh, -⟩ := HandleRxPacket_fields hdr s f
  by_cases hck : xorLoop f (Frame.Length f + 4) = f (Frame.Length f + 4)
  · rw [if_pos hck, if_pos hck]
    refine ⟨Or.inl ⟨hh, hh, hck⟩, rfl, rfl, rfl, rfl, fun i hi => ?_⟩
    exact ⟨memcpy_prefix_apply _ _ _ _ hi, memcpy_prefix_apply _ _ _ _ hi⟩
  · rw [if_neg hck, if_neg hck]
    refine ⟨Or.inr ⟨rfl, rfl, hck⟩, rfl, rfl, rfl, rfl, fun i hi => ?_⟩
    exact ⟨memcpy_prefix_apply _ _ _ _ hi, memcpy_prefix_apply _ _ _ _ hi⟩

/-- Claim C31 at the `GET_CNF` frame `02 50 02 00 00 07 57`, received by the freshly
initialised driver and by a driver whose framer variables are left over from earlier
traffic: both accept the frame and copy it to `rxPacket`. -/
theorem frame_acceptance_independent_of_history_witness :
    (initialState.rxByteCounter = 0 ∧
      SameButFramer initialState
        { initialState with
          rxBuffer := listMem [0x02, 0x84, 0xFF, 0xFF, 9, 9, 9, 9, 9, 9]
          bytesToReceive := 77
          checksum := 0x5A } ∧
      listMem [0x02, 0x50, 2, 0, 0, 7, 0x57] 0 = CMD_STX ∧
      Frame.Length (listMem [0x02, 0x50, 2, 0, 0, 7, 0x57])
        ≤ (⟨243, 10, 19, 32⟩ : Header).PROTEUSII_MAX_PAYLOAD_LENGTH ∧
      (⟨243, 10, 19, 32⟩ : Header).PROTEUSII_MAX_PAYLOAD_LENGTH + 5 < 65536) ∧
    (feed ⟨243, 10, 19, 32⟩
        { initialState with
          rxBuffer := listMem [0x02, 0x84, 0xFF, 0xFF, 9, 9, 9, 9, 9, 9]
          bytesToReceive := 77
          checksum := 0x5A }
        (memBytes (listMem [0x02, 0x50, 2, 0, 0, 7, 0x57])
          (Frame.Length (listMem [0x02, 0x50, 2, 0, 0, 7, 0x57]) + 5))).cmdConfirmationArray
      = (feed ⟨243, 10, 19, 32⟩ initialState
        (memBytes (listMem [0x02, 0x50, 2, 0, 0, 7, 0x57])
          (Frame.Length (listMem [0x02, 0x50, 2, 0, 0, 7, 0x57]) + 5))).cmdConfirmationArray ∧
    (feed ⟨243, 10, 19, 32⟩ initialState [0x02, 0x50, 2, 0, 0, 7, 0x57]).handled = 1 ∧
    memBytes (feed ⟨243, 10, 19, 32⟩ initialState
      [0x02, 0x50, 2, 0, 0, 7, 0x57]).rxPacket 7 = [0x02, 0x50, 2, 0, 0, 7, 0x57] :=
  have h := frame_acceptance_independent_of_history ⟨243, 10, 19, 32⟩ initialState
    { initialState with
      rxBuffer := listMem [0x02, 0x84, 0xFF, 0xFF, 9, 9, 9, 9, 9, 9]
      bytesToReceive := 77
      checksum := 0x5A }
    rfl ⟨_, _, _, rfl⟩ (listMem [0x02, 0x50, 2, 0, 0, 7, 0x57]) (by decide) (by decide)
    (by decide)
  ⟨⟨rfl, ⟨_, _, _, rfl⟩, by decide, by decide, by decide⟩, h.2.2.1, by decide, by decide⟩

end ProteusII

/-! ## Proteus-II: the start byte of the transmit frame -/

namespace ProteusII

theorem Wait4CNF_transmit_side (hdr : Header) (maxTimeMs : Int) (e st : Nat) (reset : Bool)
    (rx : List (List Nat)) (s : State) :
    (Wait4CNF hdr maxTimeMs e st reset rx s).2.txPacket = s.txPacket ∧
    (Wait4CNF hdr maxTimeMs e st reset rx s).2.uartTx = s.uartTx := by
  obtain ⟨k, -, h1, -, -, -⟩ := waitLoop_spec hdr e st (Int.tdiv maxTimeMs 5).toNat rx
    (resetStep reset s)
  obtain ⟨-, h2, h3, -⟩ := afterDelays_spec hdr k rx (resetStep reset s)
  have hr : (resetStep reset s).txPacket = s.txPacket ∧ (resetStep reset s).uartTx = s.uartTx := by
    unfold resetStep
    split <;> exact ⟨rfl, rfl⟩
  constructor
  · show (waitLoop hdr e st _ rx _).2.txPacket = _
    rw [h1, h3, hr.1]
  · show (waitLoop hdr e st _ rx _).2.uartTx = _
    rw [h1, h2, hr.2]

/-- `FillChecksum` on a frame with the start byte returns true and keeps the start
byte; the length field must leave room for the `uint16_t` loop counter. -/
theorem FillChecksum_stx (tx : Mem) (h0 : Frame.Stx tx = CMD_STX)
    (hl : Frame.Length tx ≤ 65531) :
    FillChecksum tx
        = some (true, memWrite tx (4 + Frame.Length tx) (xorLoop tx (Frame.Length tx + 4))) ∧
      Frame.Stx (memWrite tx (4 + Frame.Length tx) (xorLoop tx (Frame.Length tx + 4)))
        = CMD_STX := by
  constructor
  · unfold FillChecksum
    have hc : Frame.Length tx + LENGTH_CMD_OVERHEAD_WITHOUT_CRC ≤ 65535 := by
      show Frame.Length tx + (5 - 1) ≤ 65535
      omega
    rw [if_pos ⟨Nat.zero_le _, h0⟩, if_pos hc]
    rfl
  · rw [← h0]
    show memWrite tx (4 + Frame.Length tx) _ 0 = tx 0
    unfold memWrite
    rw [if_neg (by omega)]

theorem setLength_stx_length (tx : Mem) (c n : Nat) :
    Frame.Stx (Frame.setLength (memWrite tx 1 c) n) = Frame.Stx tx ∧
    Frame.Length (Frame.setLength (memWrite tx 1 c) n) = n % 65536 := by
  constructor
  · simp [Frame.Stx, Frame.setLength, memWrite]
  · show Frame.setLength (memWrite tx 1 c) n 2 + 256 * Frame.setLength (memWrite tx 1 c) n (2 + 1)
      = n % 65536
    simp only [Frame.setLength, memWrite]
    simp
    omega

theorem memWrite_data (tx : Mem) (i v : Nat) (h : 4 ≤ i) :
    Frame.Stx (memWrite tx i v) = Frame.Stx tx ∧
    Frame.Length (memWrite tx i v) = Frame.Length tx := by
  have e : ∀ j, j < 4 → memWrite tx i v j = tx j := by
    intro j hj
    unfold memWrite
    rw [if_neg (by omega)]
  exact ⟨e 0 (by omega), by
    show memWrite tx i v 2 + 256 * memWrite tx i v (2 + 1) = tx 2 + 256 * tx (2 + 1)
    rw [e 2 (by omega), e (2 + 1) (by omega)]⟩

theorem memcpy_data (tx src : Mem) (d o n : Nat) (h : 4 ≤ d) :
    Frame.Stx (memcpy tx d src o n) = Frame.Stx tx ∧
    Frame.Length (memcpy tx d src o n) = Frame.Length tx := by
  have e : ∀ j, j < 4 → memcpy tx d src o n j = tx j := by
    intro j hj
    unfold memcpy
    rw [if_neg (by omega)]
  exact ⟨e 0 (by omega), by
    show memcpy tx d src o n 2 + 256 * memcpy tx d src o n (2 + 1) = tx 2 + 256 * tx (2 + 1)
    rw [e 2 (by omega), e (2 + 1) (by omega)]⟩

/-- The end of a request function on a filled `txPacket` that has the start byte: the
frame is transmitted and the start byte is still there afterwards. -/
theorem sendRequest_filled (hdr : Header) (maxTimeMs : Int) (e st : Nat)
    (rx : List (List Nat)) (s : State) (tx : Mem) (sends : Prop)
    (h0 : Frame.Stx tx = CMD_STX) (hl : Frame.Length tx ≤ 65531) :
    FilledAndSent s sends (sendRequest hdr maxTimeMs e st rx { s with txPacket := tx }) ∧
    ∃ r, sendRequest hdr maxTimeMs e st rx { s with txPacket := tx } = some r := by
  obtain ⟨hf, hstx⟩ := FillChecksum_stx tx h0 hl
  unfold sendRequest
  dsimp only
  rw [hf]
  dsimp only
  refine ⟨?_, _, rfl⟩
  intro r hr
  cases hr
  rw [(Wait4CNF_transmit_side hdr maxTimeMs e st true rx _).1,
    (Wait4CNF_transmit_side hdr maxTimeMs e st true rx _).2]
  exact ⟨hstx, fun _ => ⟨_, rfl⟩⟩

/-- The transmission and the wait of a request function on a completed frame. -/
theorem wait_filled (hdr : Header) (maxTimeMs : Int) (e st : Nat) (rx : List (List Nat))
    (s : State) (tx : Mem) (hstx : Frame.Stx tx = CMD_STX) :
    Frame.Stx (Wait4CNF hdr maxTimeMs e st true rx
        (transmitTxPacket { s with txPacket := tx })).2.txPacket = CMD_STX ∧
    ∃ frame, (Wait4CNF hdr maxTimeMs e st true rx
        (transmitTxPacket { s with txPacket := tx })).2.uartTx = s.uartTx ++ [frame] := by
  rw [(Wait4CNF_transmit_side hdr maxTimeMs e st true rx _).1,
    (Wait4CNF_transmit_side hdr maxTimeMs e st true rx _).2]
  exact ⟨hstx, _, rfl⟩

theorem filled_ok (tx : Mem) (c n : Nat) (h0 : Frame.Stx tx = CMD_STX) (hn : n ≤ 65531) :
    Frame.Stx (Frame.setLength (memWrite tx 1 c) n) = CMD_STX ∧
    Frame.Length (Frame.setLength (memWrite tx 1 c) n) ≤ 65531 := by
  obtain ⟨a, b⟩ := setLength_stx_length tx c n
  rw [a, b]
  exact ⟨h0, by omega⟩

theorem ok_memWrite {tx : Mem} (h : Frame.Stx tx = CMD_STX ∧ Frame.Length tx ≤ 65531)
    (i v : Nat) (hi : 4 ≤ i) :
    Frame.Stx (memWrite tx i v) = CMD_STX ∧ Frame.Length (memWrite tx i v) ≤ 65531 := by
  obtain ⟨a, b⟩ := memWrite_data tx i v hi
  rw [a, b]
  exact h

theorem ok_memcpy {tx : Mem} (h : Frame.Stx tx = CMD_STX ∧ Frame.Length tx ≤ 65531)
    (src : Mem) (d o n : Nat) (hd : 4 ≤ d) :
    Frame.Stx (memcpy tx d src o n) = CMD_STX ∧ Frame.Length (memcpy tx d src o n) ≤ 65531 := by
  obtain ⟨a, b⟩ := memcpy_data tx src d o n hd
  rw [a, b]
  exact h

/-- One call of a request function in a state whose `txPacket` has the start byte. -/
theorem call_keeps_stx (hdr : Header) (actionConnected : Nat) (req : Request)
    (rx : List (List Nat)) (s : State)
    (hmax : hdr.PROTEUSII_MAX_PAYLOAD_LENGTH + 5 < 65536)
    (hbeacon : hdr.PROTEUSII_MAX_BEACON_LENGTH + 5 < 65536)
    (h0 : Frame.Stx s.txPacket = CMD_STX) (hr : req.InRange) :
    FilledAndSent s (req.Sends hdr s) (req.call hdr actionConnected rx s) ∧
    ((∀ u p l, req ≠ .get u p l) → ∃ r, req.call hdr actionConnected rx s = some r) := by
  have key : ∀ (tx : Mem), (Frame.Stx tx = CMD_STX ∧ Frame.Length tx ≤ 65531) →
      ∀ (T : Int) (e st : Nat) (sends : Prop),
        FilledAndSent s sends (sendRequest hdr T e st rx { s with txPacket := tx }) ∧
        ((∀ u p l, req ≠ .get u p l) →
          ∃ r, sendRequest hdr T e st rx { s with txPacket := tx } = some r) := by
    intro tx h T e st sends
    obtain ⟨a, b⟩ := sendRequest_filled hdr T e st rx s tx sends h.1 h.2
    exact ⟨a, fun _ => b⟩
  have skip : ∀ sends : Prop, ¬ sends →
      FilledAndSent s sends (some (false, s)) ∧
      ((∀ u p l, req ≠ .get u p l) → ∃ r, (some (false, s) : Option (Bool × State)) = some r) := by
    intro sends hn
    refine ⟨?_, fun _ => ⟨_, rfl⟩⟩
    intro r hr
    cases hr
    exact ⟨h0, fun h => absurd h hn⟩
  cases req with
  | reset => exact key _ (filled_ok _ _ _ h0 (by omega)) _ _ _ _
  | disconnect => exact key _ (filled_ok _ _ _ h0 (by omega)) _ _ _ _
  | sleep => exact key _ (filled_ok _ _ _ h0 (by omega)) _ _ _ _
  | uartDisable => exact key _ (filled_ok _ _ _ h0 (by omega)) _ _ _ _
  | factoryReset => exact key _ (filled_ok _ _ _ h0 (by omega)) _ _ _ _
  | scanStart => exact key _ (filled_ok _ _ _ h0 (by omega)) _ _ _ _
  | scanStop => exact key _ (filled_ok _ _ _ h0 (by omega)) _ _ _ _
  | deleteBonds => exact key _ (filled_ok _ _ _ h0 (by omega)) _ _ _ _
  | deleteBond bondId =>
    exact key _ (ok_memWrite (ok_memWrite (filled_ok _ _ _ h0 (by omega)) 4 _ (by omega))
      5 _ (by omega)) _ _ _ _
  | connect btMacP =>
    exact key _ (ok_memcpy (filled_ok _ _ _ h0 (by omega)) _ 4 _ _ (by omega)) _ _ _ _
  | passkey k =>
    exact key _ (ok_memcpy (filled_ok _ _ _ h0 (by omega)) _ 4 _ _ (by omega)) _ _ _ _
  | numericCompareConfirm keyIsOk =>
    exact key _ (ok_memWrite (filled_ok _ _ _ h0 (by omega)) 4 _ (by omega)) _ _ _ _
  | set userSetting valueP length =>
    have hr1 : length < 256 := hr
    exact key _ (ok_memcpy (ok_memWrite (filled_ok _ _ _ h0 (by omega)) 4 _ (by omega))
      _ 5 _ _ (by omega)) _ _ _ _
  | setBeacon beaconDataP length =>
    by_cases hg : length ≤ hdr.PROTEUSII_MAX_BEACON_LENGTH
    · show FilledAndSent s _ (ProteusII_SetBeacon hdr beaconDataP length rx s) ∧
        (_ → ∃ r, ProteusII_SetBeacon hdr beaconDataP length rx s = some r)
      unfold ProteusII_SetBeacon
      rw [if_pos hg]
      exact key _ (ok_memcpy (filled_ok _ _ _ h0 (by omega)) _ 4 _ _ (by omega)) _ _ _ _
    · show FilledAndSent s _ (ProteusII_SetBeacon hdr beaconDataP length rx s) ∧
        (_ → ∃ r, ProteusII_SetBeacon hdr beaconDataP length rx s = some r)
      unfold ProteusII_SetBeacon
      rw [if_neg hg]
      exact skip _ hg
  | phyUpdate phy =>
    by_cases hg : ProteusII_DriverState_t.ProteusII_DriverState_BLE_ChannelOpen
        = ProteusII_GetDriverState s
    · show FilledAndSent s _ (ProteusII_PhyUpdate hdr phy rx s) ∧
        (_ → ∃ r, ProteusII_PhyUpdate hdr phy rx s = some r)
      unfold ProteusII_PhyUpdate
      rw [if_pos hg]
      exact key _ (ok_memWrite (filled_ok _ _ _ h0 (by omega)) 4 _ (by omega)) _ _ _ _
    · show FilledAndSent s _ (ProteusII_PhyUpdate hdr phy rx s) ∧
        (_ → ∃ r, ProteusII_PhyUpdate hdr phy rx s = some r)
      unfold ProteusII_PhyUpdate
      rw [if_neg hg]
      exact skip _ hg
  | transmit payloadP length =>
    by_cases hg : length ≤ hdr.PROTEUSII_MAX_PAYLOAD_LENGTH ∧
        ProteusII_DriverState_t.ProteusII_DriverState_BLE_ChannelOpen
          = ProteusII_GetDriverState s
    · show FilledAndSent s _ (ProteusII_Transmit hdr payloadP length rx s) ∧
        (_ → ∃ r, ProteusII_Transmit hdr payloadP length rx s = some r)
      unfold ProteusII_Transmit
      rw [if_pos hg]
      exact key _ (ok_memcpy (filled_ok _ _ _ h0 (by omega)) _ 4 _ _ (by omega)) _ _ _ _
    · show FilledAndSent s _ (ProteusII_Transmit hdr payloadP length rx s) ∧
        (_ → ∃ r, ProteusII_Transmit hdr payloadP length rx s = some r)
      unfold ProteusII_Transmit
      rw [if_neg hg]
      exact skip _ hg
  | get userSetting responseP responseLength =>
    refine ⟨?_, fun h => absurd rfl (h _ _ _)⟩
    show FilledAndSent s True
      ((ProteusII_Get hdr userSetting responseP responseLength rx s).map _)
    obtain ⟨hf, hstx⟩ := FillChecksum_stx _
      (ok_memWrite (filled_ok s.txPacket PROTEUSII_CMD_GET_REQ 1 h0 (by omega)) 4 userSetting
        (by omega)).1
      (ok_memWrite (filled_ok s.txPacket PROTEUSII_CMD_GET_REQ 1 h0 (by omega)) 4 userSetting
        (by omega)).2
    unfold ProteusII_Get
    dsimp only
    rw [hf]
    dsimp only
    have hw := wait_filled hdr CMD_WAIT_TIME PROTEUSII_CMD_GET_CNF CMD_Status_Success rx s
      _ hstx
    generalize Wait4CNF hdr CMD_WAIT_TIME PROTEUSII_CMD_GET_CNF CMD_Status_Success true rx _
      = W at hw ⊢
    intro r hr
    by_cases h1 : W.1 = true
    · rw [if_pos h1] at hr
      by_cases h2 : Frame.Length W.2.rxPacket = 0
      · rw [if_pos h2] at hr
        cases hr
      · rw [if_neg h2] at hr
        cases hr
        exact ⟨hw.1, fun _ => hw.2⟩
    · rw [if_neg h1] at hr
      cases hr
      exact ⟨hw.1, fun _ => hw.2⟩
  | getState moduleState =>
    obtain ⟨hf, hstx⟩ := FillChecksum_stx _
      (filled_ok s.txPacket PROTEUSII_CMD_GETSTATE_REQ 0 h0 (by omega)).1
      (filled_ok s.txPacket PROTEUSII_CMD_GETSTATE_REQ 0 h0 (by omega)).2
    have hw := wait_filled hdr CMD_WAIT_TIME PROTEUSII_CMD_GETSTATE_CNF CMD_Status_NoStatus rx
      s _ hstx
    show FilledAndSent s True
        ((ProteusII_GetState hdr actionConnected moduleState rx s).map _) ∧
      (_ → ∃ r, (ProteusII_GetState hdr actionConnected moduleState rx s).map _ = some r)
    unfold ProteusII_GetState
    dsimp only
    rw [hf]
    dsimp only
    generalize Wait4CNF hdr CMD_WAIT_TIME PROTEUSII_CMD_GETSTATE_CNF CMD_Status_NoStatus true
      rx _ = W at hw ⊢
    by_cases h1 : W.1 = true
    · rw [if_pos h1]
      refine ⟨?_, fun _ => ⟨_, rfl⟩⟩
      intro r hr
      cases hr
      exact ⟨hw.1, fun _ => hw.2⟩
    · rw [if_neg h1]
      refine ⟨?_, fun _ => ⟨_, rfl⟩⟩
      intro r hr
      cases hr
      exact ⟨hw.1, fun _ => hw.2⟩
  | getDevices devicesP =>
    obtain ⟨hf, hstx⟩ := FillChecksum_stx _
      (filled_ok s.txPacket PROTEUSII_CMD_GETDEVICES_REQ 0 h0 (by omega)).1
      (filled_ok s.txPacket PROTEUSII_CMD_GETDEVICES_REQ 0 h0 (by omega)).2
    have hw := wait_filled hdr CMD_WAIT_TIME PROTEUSII_CMD_GETDEVICES_CNF CMD_Status_Success rx
      { s with ProteusII_getDevicesP :=
          devicesP.map (fun g : ProteusII_GetDevices_t => { g with numberOfDevices := 0 }) }
      _ hstx
    show FilledAndSent s True ((ProteusII_GetDevices hdr devicesP rx s).map _) ∧
      (_ → ∃ r, (ProteusII_GetDevices hdr devicesP rx s).map _ = some r)
    unfold ProteusII_GetDevices
    dsimp only
    rw [hf]
    dsimp only
    generalize Wait4CNF hdr CMD_WAIT_TIME PROTEUSII_CMD_GETDEVICES_CNF CMD_Status_Success true
      rx _ = W at hw ⊢
    refine ⟨?_, fun _ => ⟨_, rfl⟩⟩
    intro r hr
    cases hr
    exact ⟨hw.1, fun _ => hw.2⟩
  | getBonds bondDatabase =>
    obtain ⟨hf, hstx⟩ := FillChecksum_stx _
      (filled_ok s.txPacket PROTEUSII_CMD_GET_BONDS_REQ 0 h0 (by omega)).1
      (filled_ok s.txPacket PROTEUSII_CMD_GET_BONDS_REQ 0 h0 (by omega)).2
    have hw := wait_filled hdr CMD_WAIT_TIME PROTEUSII_CMD_GET_BONDS_CNF CMD_Status_Success rx
      s _ hstx
    show FilledAndSent s True ((ProteusII_GetBonds hdr bondDatabase rx s).map _) ∧
      (_ → ∃ r, (ProteusII_GetBonds hdr bondDatabase rx s).map _ = some r)
    unfold ProteusII_GetBonds
    dsimp only
    rw [hf]
    dsimp only
    generalize Wait4CNF hdr CMD_WAIT_TIME PROTEUSII_CMD_GET_BONDS_CNF CMD_Status_Success true
      rx _ = W at hw ⊢
    by_cases h1 : W.1 = true
    · rw [if_neg (not_not.mpr h1)]
      refine ⟨?_, fun _ => ⟨_, rfl⟩⟩
      intro r hr
      cases hr
      exact ⟨hw.1, fun _ => hw.2⟩
    · rw [if_pos h1]
      refine ⟨?_, fun _ => ⟨_, rfl⟩⟩
      intro r hr
      cases hr
      exact ⟨hw.1, fun _ => hw.2⟩

/-- A run of request calls keeps the start byte of `txPacket`. -/
theorem runRequests_keeps_stx (hdr : Header) (actionConnected : Nat)
    (hmax : hdr.PROTEUSII_MAX_PAYLOAD_LENGTH + 5 < 65536)
    (hbeacon : hdr.PROTEUSII_MAX_BEACON_LENGTH + 5 < 65536)
    (calls : List (Request × List (List Nat) × List Nat)) :
    ∀ (s t : State), Frame.Stx s.txPacket = CMD_STX → (∀ x, x ∈ calls → x.1.InRange) →
      runRequests hdr actionConnected calls s = some t → Frame.Stx t.txPacket = CMD_STX := by
  induction calls with
  | nil =>
    intro s t h0 _ h
    cases h
    exact h0
  | cons x rest ih =>
    intro s t h0 hin h
    obtain ⟨req, rx, after⟩ := x
    rw [runRequests] at h
    obtain ⟨hk, -⟩ := call_keeps_stx hdr actionConnected req rx s hmax hbeacon h0
      (hin (req, rx, after) (List.mem_cons_self _ _))
    cases hc : req.call hdr actionConnected rx s with
    | none =>
      rw [hc] at h
      cases h
    | some r =>
      rw [hc] at h
      refine ih (feed hdr r.2 after) t ?_ (fun y hy => hin y (List.mem_cons_of_mem _ hy)) h
      rw [show Frame.Stx (feed hdr r.2 after).txPacket = Frame.Stx r.2.txPacket from
        congrArg Frame.Stx (feed_received hdr after r.2).1]
      exact (hk r hc).1

/-- Claim C32. The Proteus-II transmit frame always starts with the start byte:
`txPacket.Stx = 0x02` holds initially; `FillChecksum` returns true (and keeps the start
byte) on every frame with the start byte whose length field is at most 65531, and
returns false only on a frame without it; every call of a function that fills
`txPacket`, made in a state where the start byte is there, leaves it there, and unless
the function declines the request before filling the frame it hands exactly one frame
to the UART, which the branch taken when `FillChecksum` fails does not do; every such
call returns, `ProteusII_Get` apart, whose `FillChecksum` returns true as well; and so
the start byte is there after every run of such calls from the initial state, whatever
is received meanwhile. -/
theorem txPacket_starts_with_stx (hdr : Header) (actionConnected : Nat)
    (hmax : hdr.PROTEUSII_MAX_PAYLOAD_LENGTH + 5 < 65536)
    (hbeacon : hdr.PROTEUSII_MAX_BEACON_LENGTH + 5 < 65536) :
    (CMD_STX = 0x02 ∧ Frame.Stx initialState.txPacket = CMD_STX) ∧
    (∀ tx : Mem, Frame.Stx tx = CMD_STX → Frame.Length tx ≤ 65531 →
      ∃ tx1, FillChecksum tx = some (true, tx1) ∧ Frame.Stx tx1 = CMD_STX) ∧
    (∀ tx tx1 : Mem, FillChecksum tx = some (false, tx1) → Frame.Stx tx ≠ CMD_STX) ∧
    (∀ (req : Request) (rx : List (List Nat)) (s : State),
      Frame.Stx s.txPacket = CMD_STX → req.InRange →
      FilledAndSent s (req.Sends hdr s) (req.call hdr actionConnected rx s) ∧
      ((∀ u p l, req ≠ .get u p l) → ∃ r, req.call hdr actionConnected rx s = some r)) ∧
    (∀ (userSetting : Nat) (s : State), Frame.Stx s.txPacket = CMD_STX →
      ∃ tx1, FillChecksum
        (memWrite (Frame.setLength (memWrite s.txPacket 1 PROTEUSII_CMD_GET_REQ) 1) 4 userSetting)
          = some (true, tx1)) ∧
    (∀ (calls : List (Request × List (List Nat) × List Nat)) (t : State),
      (∀ x, x ∈ calls → x.1.InRange) →
      runRequests hdr actionConnected calls initialState = some t →
      Frame.Stx t.txPacket = CMD_STX) := by
  refine ⟨⟨rfl, rfl⟩, ?_, ?_, ?_, ?_, ?_⟩
  · intro tx h0 hl
    exact ⟨_, FillChecksum_stx tx h0 hl⟩
  · intro tx tx1 h hstx
    unfold FillChecksum at h
    rw [if_pos ⟨Nat.zero_le _, hstx⟩] at h
    split at h <;> cases h
  · intro req rx s h0 hr
    exact call_keeps_stx hdr actionConnected req rx s hmax hbeacon h0 hr
  · intro userSetting s h0
    exact ⟨_, (FillChecksum_stx _
      (ok_memWrite (filled_ok s.txPacket PROTEUSII_CMD_GET_REQ 1 h0 (by omega)) 4 userSetting
        (by omega)).1
      (ok_memWrite (filled_ok s.txPacket PROTEUSII_CMD_GET_REQ 1 h0 (by omega)) 4 userSetting
        (by omega)).2).1⟩
  · intro calls t hin h
    exact runRequests_keeps_stx hdr actionConnected hmax hbeacon calls initialState t rfl hin h

/-- Claim C32 with `PROTEUSII_MAX_PAYLOAD_LENGTH = 243` and
`PROTEUSII_MAX_BEACON_LENGTH = 19`: the call `ProteusII_Set(4, {1, 2}, 2)` on the
freshly initialised driver, answered by the frame `02 51 01 00 00 52`, keeps the start
byte and transmits one frame; and after that call, a `GETSTATE_CNF` frame received
after it, a call of `ProteusII_Transmit` (declined, no channel is open) and the call
`ProteusII_DeleteBond(3)`, answered by `02 4e 01 00 00 4d`, the start byte is there and
two frames have been transmitted. -/
theorem txPacket_starts_with_stx_witness :
    ((⟨243, 10, 19, 32⟩ : Header).PROTEUSII_MAX_PAYLOAD_LENGTH + 5 < 65536 ∧
      (⟨243, 10, 19, 32⟩ : Header).PROTEUSII_MAX_BEACON_LENGTH + 5 < 65536 ∧
      Frame.Stx initialState.txPacket = CMD_STX ∧
      (Request.set 4 (listMem [1, 2]) 2).InRange) ∧
    (FilledAndSent initialState
        ((Request.set 4 (listMem [1, 2]) 2).Sends ⟨243, 10, 19, 32⟩ initialState)
        ((Request.set 4 (listMem [1, 2]) 2).call ⟨243, 10, 19, 32⟩ 2
          [[0x02, 0x51, 1, 0, 0, 0x52]] initialState) ∧
      ∃ r, (Request.set 4 (listMem [1, 2]) 2).call ⟨243, 10, 19, 32⟩ 2
          [[0x02, 0x51, 1, 0, 0, 0x52]] initialState = some r) ∧
    ((Request.set 4 (listMem [1, 2]) 2).call ⟨243, 10, 19, 32⟩ 2
        [[0x02, 0x51, 1, 0, 0, 0x52]] initialState).map (fun r => (r.1, r.2.uartTx))
      = some (true, [[0x02, 0x11, 3, 0, 4, 1, 2, 0x17]]) ∧
    (runRequests ⟨243, 10, 19, 32⟩ 2
        [(.set 4 (listMem [1, 2]) 2, [[0x02, 0x51, 1, 0, 0, 0x52]], [0x02, 0x41, 0, 0, 0x43]),
          (.transmit (listMem [9]) 1, [], []),
          (.deleteBond 3, [[0x02, 0x4E, 1, 0, 0, 0x4D]], [])] initialState).map
        (fun t => (Frame.Stx t.txPacket, t.uartTx))
      = some (0x02, [[0x02, 0x11, 3, 0, 4, 1, 2, 0x17], [0x02, 0x0E, 2, 0, 3, 0, 0x0D]]) :=
  have h := txPacket_starts_with_stx ⟨243, 10, 19, 32⟩ 2 (by decide) (by decide)
  have hs := h.2.2.2.1 (.set 4 (listMem [1, 2]) 2) [[0x02, 0x51, 1, 0, 0, 0x52]] initialState
    rfl (show (2 : Nat) < 256 by decide)
  ⟨⟨by decide, by decide, rfl, show (2 : Nat) < 256 by decide⟩,
    ⟨hs.1, hs.2 (fun _ _ _ e => Request.noConfusion e)⟩, by decide, by decide⟩

end ProteusII

/-! ## Proteus-II: the received frame behind a returned content -/

namespace ProteusII

end ProteusII

end WCON
